import Mathlib

/-!
# VirtualC64: bus arbiter and CIA 6526

A shallow embedding of the frame loop of `src/Emulator/C64.cpp` and of the CIA
timer chip of `src/C64/CIA.cpp`, with the properties stated about them.

Machine integers are natural numbers; every operation that can leave the range
of its C type is reduced explicitly (`% 2 ^ 64`, `% 0x10000`, or a bitwise
"and" with the complement taken inside the word).
-/

namespace VirtualC64

/-! ## Machine words -/

/-- All ones in a 64-bit word. -/
def mask64 : Nat := 2 ^ 64 - 1

/-- The C complement `~m` of a `uint64_t`. -/
def not64 (m : Nat) : Nat := mask64 ^^^ m

/-- The C complement `~m` of a `uint8_t` operand, cut to the eight bits that
survive the store into a `uint8_t`. -/
def not8 (m : Nat) : Nat := 0xFF ^^^ m

/-- The C test `if (x & m)`: some bit of `m` is set in `x`. -/
def flag (x m : Nat) : Bool := (x &&& m) != 0

/-- The word in which only bit `k` is set, `1ULL << k`. -/
def bitAt (k : Nat) : Nat := 1 <<< k

/-- The increment `++x` of a `uint64_t`. -/
def inc64 (x : Nat) : Nat := (x + 1) % 2 ^ 64

/-! ## Bus arbiter (`C64.cpp`) -/

/-- Calls that the bus arbiter makes into the other components, in the order
in which it makes them. `cycle c` stands for the whole body of
`_executeOneCycle` between the increment of the cycle counter and the
increment of `rasterCycle`: `vicfunc[c]`, both CIAs, the IEC update, the CPU,
the drives and the datasette. `endFrame` stands for the component calls of
`C64::endFrame` after `frame++`. -/
inductive Call where
  | beginFrame
  | beginRasterline (line : Nat)
  | cycle (rasterCycle : Nat)
  | endRasterline
  | endFrame
  deriving DecidableEq

/-- Timing of the VIC revision that is plugged in: the results of
`VICII::getCyclesPerRasterline` and `VICII::getRasterlinesPerFrame`, whose
bodies are in `VICII.cpp`. Both functions return an `unsigned`. -/
structure Timing where
  cyclesPerRasterline : Nat
  rasterlinesPerFrame : Nat
  deriving DecidableEq

/-- Result of `VICII::getCyclesPerFrame` (`VICII.h`): the product of two
`unsigned` values, taken in 32-bit `unsigned` arithmetic. -/
def Timing.getCyclesPerFrame (t : Timing) : Nat :=
  (t.rasterlinesPerFrame * t.cyclesPerRasterline) % 2 ^ 32

/-- The part of the `C64` object that the frame loop reads and writes.
`cycle` is `cpu.cycle` and `frame` the frame counter, both 64 bits wide.
`calls` is the history of the calls into the other components, latest call
first. -/
structure C64 where
  cycle : Nat
  frame : Nat
  rasterLine : Nat
  rasterCycle : Nat
  calls : List Call
  deriving DecidableEq

/-- Outcome of the second clock phase of a cycle (`cpu.executeOneCycle()` and
`drive.execute()` combined with `&=`), as a function of everything that was
called before: `false` reports a CPU or drive error. -/
abbrev Phi2 := List Call → Bool

/-- Number of `_executeOneCycle` calls recorded in a history. -/
def executedCycles : List Call → Nat
  | [] => 0
  | Call.cycle _ :: cs => executedCycles cs + 1
  | _ :: cs => executedCycles cs

/-- Embedding of `C64::_executeOneCycle`. -/
def _executeOneCycle (phi2 : Phi2) (m : C64) : C64 × Bool :=
  let m := { m with cycle := inc64 m.cycle }
  let m := { m with calls := Call.cycle m.rasterCycle :: m.calls }
  let result := phi2 m.calls
  ({ m with rasterCycle := m.rasterCycle + 1 }, result)

/-- Embedding of `C64::beginRasterLine`. -/
def beginRasterLine (m : C64) : C64 :=
  let m := if m.rasterLine = 0 then { m with calls := Call.beginFrame :: m.calls } else m
  { m with calls := Call.beginRasterline m.rasterLine :: m.calls }

/-- Embedding of `C64::endFrame`. -/
def endFrame (m : C64) : C64 :=
  let m := { m with frame := inc64 m.frame }
  { m with calls := Call.endFrame :: m.calls }

/-- Embedding of `C64::endRasterLine`. -/
def endRasterLine (t : Timing) (m : C64) : C64 :=
  let m := { m with calls := Call.endRasterline :: m.calls }
  let m := { m with rasterCycle := 1 }
  let m := { m with rasterLine := m.rasterLine + 1 }
  if m.rasterLine ≥ t.rasterlinesPerFrame then
    endFrame { m with rasterLine := 0 }
  else m

/-- The `for` loop of `C64::executeOneLine` together with the statements after
it. The first argument is the number of iterations that remain, the second the
loop variable `i`. -/
def executeOneLine.loop (t : Timing) (phi2 : Phi2) (lastCycle : Nat) :
    Nat → Nat → C64 → C64 × Bool
  | 0, _, m => (endRasterLine t m, true)
  | n + 1, i, m =>
    match _executeOneCycle phi2 m with
    | (m, false) => (if i = lastCycle then endRasterLine t m else m, false)
    | (m, true) => executeOneLine.loop t phi2 lastCycle n (i + 1) m

/-- Embedding of `C64::executeOneLine`. The loop runs for
`i = rasterCycle, ..., lastCycle`. -/
def executeOneLine (t : Timing) (phi2 : Phi2) (m : C64) : C64 × Bool :=
  let m := if m.rasterCycle = 1 then beginRasterLine m else m
  let lastCycle := t.cyclesPerRasterline
  executeOneLine.loop t phi2 lastCycle (lastCycle + 1 - m.rasterCycle) m.rasterCycle m

/-- Embedding of `C64::executeOneFrame`: the `do ... while (rasterLine != 0)`
loop, bounded by a number of lines; `none` when the bound is used up. -/
def executeOneFrame (t : Timing) (phi2 : Phi2) : Nat → C64 → Option (C64 × Bool)
  | 0, _ => none
  | fuel + 1, m =>
    match executeOneLine t phi2 m with
    | (m, false) => some (m, false)
    | (m, true) => if m.rasterLine ≠ 0 then executeOneFrame t phi2 fuel m else some (m, true)

/-! ## CIA 6526 (`CIA.cpp`) -/

/-! ### Event flags of the delay pipeline

Modelled from the spec: the flag constants and `DelayMask` are defined in
`CIA.h`, which is not part of the sources at hand. The spec names the flags
(`CountA0/1/2/3`, `LoadA0/1/2`, `Interrupt0/1`, `SetIcr0/1`, `ClearIcr0/1/2`,
`ReadIcr0/1`, `SerLoad0/1`, `SerClk0/1/2`, `PB6Low0/1`, `PB7Low0/1`, `TODInt0`,
`SerInt0/1/2`, `OneShotA0/B0`) and fixes the update rule
`delay := ((delay << 1) & DelayMask) | feed`. Each flag is one bit, stage
`k + 1` of an event is the bit to the left of stage `k`, and `DelayMask`
removes every stage-0 bit and the bit to the left of the last stage. -/

/-- Modelled from the spec: event flag of `CIA.h`, bit 0 of the pipeline. -/
def CountA0 : Nat := bitAt 0
/-- Modelled from the spec: event flag of `CIA.h`, bit 1 of the pipeline. -/
def CountA1 : Nat := bitAt 1
/-- Modelled from the spec: event flag of `CIA.h`, bit 2 of the pipeline. -/
def CountA2 : Nat := bitAt 2
/-- Modelled from the spec: event flag of `CIA.h`, bit 3 of the pipeline. -/
def CountA3 : Nat := bitAt 3
/-- Modelled from the spec: event flag of `CIA.h`, bit 4 of the pipeline. -/
def CountB0 : Nat := bitAt 4
/-- Modelled from the spec: event flag of `CIA.h`, bit 5 of the pipeline. -/
def CountB1 : Nat := bitAt 5
/-- Modelled from the spec: event flag of `CIA.h`, bit 6 of the pipeline. -/
def CountB2 : Nat := bitAt 6
/-- Modelled from the spec: event flag of `CIA.h`, bit 7 of the pipeline. -/
def CountB3 : Nat := bitAt 7
/-- Modelled from the spec: event flag of `CIA.h`, bit 8 of the pipeline. -/
def LoadA0 : Nat := bitAt 8
/-- Modelled from the spec: event flag of `CIA.h`, bit 9 of the pipeline. -/
def LoadA1 : Nat := bitAt 9
/-- Modelled from the spec: event flag of `CIA.h`, bit 10 of the pipeline. -/
def LoadA2 : Nat := bitAt 10
/-- Modelled from the spec: event flag of `CIA.h`, bit 11 of the pipeline. -/
def LoadB0 : Nat := bitAt 11
/-- Modelled from the spec: event flag of `CIA.h`, bit 12 of the pipeline. -/
def LoadB1 : Nat := bitAt 12
/-- Modelled from the spec: event flag of `CIA.h`, bit 13 of the pipeline. -/
def LoadB2 : Nat := bitAt 13
/-- Modelled from the spec: event flag of `CIA.h`, bit 14 of the pipeline. -/
def PB6Low0 : Nat := bitAt 14
/-- Modelled from the spec: event flag of `CIA.h`, bit 15 of the pipeline. -/
def PB6Low1 : Nat := bitAt 15
/-- Modelled from the spec: event flag of `CIA.h`, bit 16 of the pipeline. -/
def PB7Low0 : Nat := bitAt 16
/-- Modelled from the spec: event flag of `CIA.h`, bit 17 of the pipeline. -/
def PB7Low1 : Nat := bitAt 17
/-- Modelled from the spec: event flag of `CIA.h`, bit 18 of the pipeline. -/
def Interrupt0 : Nat := bitAt 18
/-- Modelled from the spec: event flag of `CIA.h`, bit 19 of the pipeline. -/
def Interrupt1 : Nat := bitAt 19
/-- Modelled from the spec: event flag of `CIA.h`, bit 20 of the pipeline. -/
def OneShotA0 : Nat := bitAt 20
/-- Modelled from the spec: event flag of `CIA.h`, bit 21 of the pipeline. -/
def OneShotB0 : Nat := bitAt 21
/-- Modelled from the spec: event flag of `CIA.h`, bit 22 of the pipeline. -/
def ReadIcr0 : Nat := bitAt 22
/-- Modelled from the spec: event flag of `CIA.h`, bit 23 of the pipeline. -/
def ReadIcr1 : Nat := bitAt 23
/-- Modelled from the spec: event flag of `CIA.h`, bit 24 of the pipeline. -/
def ClearIcr0 : Nat := bitAt 24
/-- Modelled from the spec: event flag of `CIA.h`, bit 25 of the pipeline. -/
def ClearIcr1 : Nat := bitAt 25
/-- Modelled from the spec: event flag of `CIA.h`, bit 26 of the pipeline. -/
def ClearIcr2 : Nat := bitAt 26
/-- Modelled from the spec: event flag of `CIA.h`, bit 27 of the pipeline. -/
def SetIcr0 : Nat := bitAt 27
/-- Modelled from the spec: event flag of `CIA.h`, bit 28 of the pipeline. -/
def SetIcr1 : Nat := bitAt 28
/-- Modelled from the spec: event flag of `CIA.h`, bit 29 of the pipeline. -/
def TODInt0 : Nat := bitAt 29
/-- Modelled from the spec: event flag of `CIA.h`, bit 30 of the pipeline. -/
def SerInt0 : Nat := bitAt 30
/-- Modelled from the spec: event flag of `CIA.h`, bit 31 of the pipeline. -/
def SerInt1 : Nat := bitAt 31
/-- Modelled from the spec: event flag of `CIA.h`, bit 32 of the pipeline. -/
def SerInt2 : Nat := bitAt 32
/-- Modelled from the spec: event flag of `CIA.h`, bit 33 of the pipeline. -/
def SerLoad0 : Nat := bitAt 33
/-- Modelled from the spec: event flag of `CIA.h`, bit 34 of the pipeline. -/
def SerLoad1 : Nat := bitAt 34
/-- Modelled from the spec: event flag of `CIA.h`, bit 35 of the pipeline. -/
def SerClk0 : Nat := bitAt 35
/-- Modelled from the spec: event flag of `CIA.h`, bit 36 of the pipeline. -/
def SerClk1 : Nat := bitAt 36
/-- Modelled from the spec: event flag of `CIA.h`, bit 37 of the pipeline. -/
def SerClk2 : Nat := bitAt 37

/-- Modelled from the spec: `DelayMask` of `CIA.h`, the mask applied after the
shift. It clears the stage-0 position of every event and the position to the
left of the last event. -/
def DelayMask : Nat :=
  not64 (bitAt 38 ||| CountA0 ||| CountB0 ||| LoadA0 ||| LoadB0 ||| PB6Low0 ||| PB7Low0
    ||| Interrupt0 ||| OneShotA0 ||| OneShotB0 ||| ReadIcr0 ||| ClearIcr0 ||| SetIcr0
    ||| TODInt0 ||| SerInt0 ||| SerLoad0 ||| SerClk0)

/-! ### State -/

/-- A time of day in BCD. -/
structure TimeOfDay where
  tenth : Nat
  seconds : Nat
  minutes : Nat
  hours : Nat
  deriving DecidableEq

/-- Modelled from the spec: the `TOD` sub-component (`TOD.h`, `TOD.cpp`), "BCD
tenths/seconds/minutes/hours + AM/PM, with a latched alarm; ticks at 50 or 60
Hz as selected by CRA bit 7". -/
structure TOD where
  tod : TimeOfDay
  alarm : TimeOfDay
  hz : Nat
  deriving DecidableEq

/-- Modelled from the spec: `TOD::alarming`, the alarm time is reached. -/
def TOD.alarming (t : TOD) : Bool := t.tod == t.alarm

/-- State of one CIA: the snapshot items registered in `CIA::CIA`, the TOD
clock, the sleep bookkeeping (`wakeUpCycle`, `idleCounter`) and the state of
the CPU interrupt line this chip drives (`linePulled`, set by
`pullDownInterruptLine` and cleared by `releaseInterruptLine`).

Widths: `counterA`, `latchA`, `counterB`, `latchB` are 16 bits wide, `delay`,
`feed`, `wakeUpCycle` and `idleCounter` 64 bits, the remaining numbers 8 bits.
`CNT` and `INT` are the two pins: `INT = true` is the released line (`INT = 1`
in the source), `INT = false` the line pulled low (`INT = 0`). -/
structure CIA where
  counterA : Nat
  latchA : Nat
  counterB : Nat
  latchB : Nat
  delay : Nat
  feed : Nat
  CRA : Nat
  CRB : Nat
  ICR : Nat
  IMR : Nat
  PB67TimerMode : Nat
  PB67TimerOut : Nat
  PB67Toggle : Nat
  PALatch : Nat
  PBLatch : Nat
  DDRA : Nat
  DDRB : Nat
  SDR : Nat
  serClk : Nat
  serCounter : Nat
  PA : Nat
  PB : Nat
  CNT : Bool
  INT : Bool
  tiredness : Nat
  wakeUpCycle : Nat
  idleCounter : Nat
  linePulled : Bool
  tod : TOD
  deriving DecidableEq

/-- Values a CIA reads from its surroundings when a data port is read:
joystick bit masks and keyboard matrix (CIA 1), clock and data line of the
IEC bus (CIA 2). -/
structure Pins where
  joystickA : Nat
  joystickB : Nat
  columnValues : Nat → Nat
  rowValues : Nat → Nat
  clockLine : Bool
  dataLine : Bool

/-- The two chips: CIA 1 drives the IRQ line, CIA 2 the NMI line. -/
inductive Chip where
  | cia1
  | cia2
  deriving DecidableEq

/-- Embedding of `pullDownInterruptLine` (IRQ for CIA 1, NMI for CIA 2). -/
def pullDownInterruptLine (s : CIA) : CIA := { s with linePulled := true }

/-- Embedding of `releaseInterruptLine`. -/
def releaseInterruptLine (s : CIA) : CIA := { s with linePulled := false }

/-- Modelled from the spec: `CIA::reloadTimerA` of `CIA.h`, "reload from latch
on load event". The load also clears `CountA2`, so that the counter is not
decremented in the following cycle: this is the `Clr` input of the `CountA2`
stage in the timer diagram of `CIA::executeOneCycle`, fed by the
"load from latch" line (4). -/
def reloadTimerA (s : CIA) : CIA :=
  { s with counterA := s.latchA, delay := s.delay &&& not64 CountA2 }

/-- Modelled from the spec: `CIA::reloadTimerB` of `CIA.h`, the twin of
`reloadTimerA`. -/
def reloadTimerB (s : CIA) : CIA :=
  { s with counterB := s.latchB, delay := s.delay &&& not64 CountB2 }

/-- The decrement `x--` of a `uint16_t`. -/
def dec16 (x : Nat) : Nat := (x + 0xFFFF) % 0x10000

/-- The subtraction `x -= k` of a `uint16_t` by a 64-bit amount. -/
def sub16 (x k : Nat) : Nat := (x + (0x10000 - k % 0x10000)) % 0x10000

/-- Embedding of `CIA::wakeUp`. -/
def wakeUp (s : CIA) : CIA :=
  let idleCycles := s.idleCounter
  let s :=
    if idleCycles != 0 then
      let s := if flag s.feed CountA0 then { s with counterA := sub16 s.counterA idleCycles } else s
      let s := if flag s.feed CountB0 then { s with counterB := sub16 s.counterB idleCycles } else s
      { s with idleCounter := 0 }
    else s
  { s with wakeUpCycle := 0 }

/-- Embedding of `CIA::sleep`; `cycle` is `c64->cycle`. -/
def sleep (cycle : Nat) (s : CIA) : CIA :=
  let sleepA := if s.counterA > 2 then (cycle + s.counterA - 1) % 2 ^ 64 else 0
  let sleepB := if s.counterB > 2 then (cycle + s.counterB - 1) % 2 ^ 64 else 0
  let sleepA := if !flag s.feed CountA0 then mask64 else sleepA
  let sleepB := if !flag s.feed CountB0 then mask64 else sleepB
  { s with wakeUpCycle := min sleepA sleepB }

/-- Embedding of `CIA::checkForTODInterrupt`. -/
def checkForTODInterrupt (s : CIA) : CIA :=
  if s.tod.alarming then { s with delay := s.delay ||| TODInt0 } else s

/-- Embedding of `CIA::triggerRisingEdgeOnFlagPin`. -/
def triggerRisingEdgeOnFlagPin (s : CIA) : CIA := s

/-- Embedding of `CIA::triggerFallingEdgeOnFlagPin`. -/
def triggerFallingEdgeOnFlagPin (s : CIA) : CIA :=
  let s := { s with ICR := s.ICR ||| 0x10 }
  if flag s.IMR 0x10 then
    let s := { s with INT := false }
    let s := { s with ICR := s.ICR ||| 0x80 }
    pullDownInterruptLine s
  else s

/-- The port B pins as every writer of `PB` computes them:
`((PBLatch | ~DDRB) & ~PB67TimerMode) | (PB67TimerOut & PB67TimerMode)`. -/
def portB (s : CIA) : Nat :=
  ((s.PBLatch ||| not8 s.DDRB) &&& not8 s.PB67TimerMode) ||| (s.PB67TimerOut &&& s.PB67TimerMode)

/-- Embedding of `CIA1::peekDataPortA` and `CIA2::peekDataPortA`. -/
def peekDataPortA (chip : Chip) (pins : Pins) (s : CIA) : Nat :=
  match chip with
  | Chip.cia1 =>
    let result := s.PA
    let rows := s.PB &&& pins.joystickA
    let columnBits := pins.columnValues rows
    let result := result &&& pins.joystickB
    result &&& columnBits
  | Chip.cia2 =>
    let result := s.PA
    let result := result &&& 0x3F
    let result := result ||| (if pins.clockLine then 0x40 else 0x00)
    result ||| (if pins.dataLine then 0x80 else 0x00)

/-- Embedding of `CIA1::peekDataPortB` and `CIA2::peekDataPortB`. -/
def peekDataPortB (chip : Chip) (pins : Pins) (s : CIA) : Nat :=
  match chip with
  | Chip.cia1 =>
    let result := s.PB
    let columns := s.PA &&& pins.joystickB
    let rowBits := pins.rowValues columns
    let result := result &&& pins.joystickA
    result &&& rowBits
  | Chip.cia2 => s.PB

/-- Embedding of `pokeDataPortA` (both chips; the calls into the VIC and the
IEC bus leave the CIA untouched). -/
def pokeDataPortA (value : Nat) (s : CIA) : CIA :=
  let s := { s with PALatch := value }
  { s with PA := s.PALatch ||| not8 s.DDRA }

/-- Embedding of `pokeDataPortB` (both chips). -/
def pokeDataPortB (value : Nat) (s : CIA) : CIA :=
  let s := { s with PBLatch := value }
  { s with PB := portB s }

/-- Embedding of `pokeDataPortDirectionA` (both chips). -/
def pokeDataPortDirectionA (value : Nat) (s : CIA) : CIA :=
  let s := { s with DDRA := value }
  { s with PA := s.PALatch ||| not8 s.DDRA }

/-- Embedding of `pokeDataPortDirectionB` (both chips). -/
def pokeDataPortDirectionB (value : Nat) (s : CIA) : CIA :=
  let s := { s with DDRB := value }
  { s with PB := portB s }

/-- Embedding of `CIA::peek`: the value read and the state after the read. -/
def peek (chip : Chip) (pins : Pins) (addr : Nat) (s : CIA) : Nat × CIA :=
  let s := wakeUp s
  match addr with
  | 0x00 => (peekDataPortA chip pins s, s)
  | 0x01 => (peekDataPortB chip pins s, s)
  | 0x02 => (s.DDRA, s)
  | 0x03 => (s.DDRB, s)
  | 0x04 => (s.counterA &&& 0xFF, s)
  | 0x05 => ((s.counterA >>> 8) &&& 0xFF, s)
  | 0x06 => (s.counterB &&& 0xFF, s)
  | 0x07 => ((s.counterB >>> 8) &&& 0xFF, s)
  | 0x08 => (s.tod.tod.tenth, s)
  | 0x09 => (s.tod.tod.seconds, s)
  | 0x0A => (s.tod.tod.minutes, s)
  | 0x0B => (s.tod.tod.hours, s)
  | 0x0C => (s.SDR, s)
  | 0x0D =>
    let result := s.ICR
    -- Release interrupt request
    let s := if s.INT == false then releaseInterruptLine { s with INT := true } else s
    -- Discard pending interrupts
    let s := { s with delay := s.delay &&& not64 (Interrupt0 ||| Interrupt1) }
    -- Clear all bits except bit 7
    let s := { s with ICR := s.ICR &&& 0x80 }
    -- Schedule bit 7 to be cleared in the next cycle and remember the read access
    let s := { s with delay := s.delay ||| (ClearIcr0 ||| ReadIcr0) }
    (result, s)
  | 0x0E => (s.CRA &&& not8 0x10, s)
  | 0x0F => (s.CRB &&& not8 0x10, s)
  | _ => (0, s)

/-- The case `CIA_CONTROL_REG_A` of `CIA::poke`. -/
def pokeControlRegA (value : Nat) (s : CIA) : CIA :=
  -- Start or stop the timer
  let s :=
    if flag value 0x01 then
      let s := { s with delay := s.delay ||| (CountA1 ||| CountA0) }
      let s := { s with feed := s.feed ||| CountA0 }
      if !flag s.CRA 0x01 then { s with PB67Toggle := s.PB67Toggle ||| 0x40 } else s
    else
      let s := { s with delay := s.delay &&& not64 (CountA1 ||| CountA0) }
      { s with feed := s.feed &&& not64 CountA0 }
  -- Indicate timer underflow on port B bit 6
  let s :=
    if flag value 0x02 then
      let s := { s with PB67TimerMode := s.PB67TimerMode ||| 0x40 }
      if !flag value 0x04 then
        if (s.delay &&& PB7Low1) == 0 then
          { s with PB67TimerOut := s.PB67TimerOut &&& not8 0x40 }
        else
          { s with PB67TimerOut := s.PB67TimerOut ||| 0x40 }
      else
        { s with PB67TimerOut := (s.PB67TimerOut &&& not8 0x40) ||| (s.PB67Toggle &&& 0x40) }
    else
      { s with PB67TimerMode := s.PB67TimerMode &&& not8 0x40 }
  -- One shot mode
  let s :=
    if flag value 0x08 then { s with feed := s.feed ||| OneShotA0 }
    else { s with feed := s.feed &&& not64 OneShotA0 }
  -- Load start value into timer
  let s := if flag value 0x10 then { s with delay := s.delay ||| LoadA0 } else s
  -- Timer counts positive edges on CNT pin
  let s :=
    if flag value 0x20 then
      let s := { s with delay := s.delay &&& not64 (CountA1 ||| CountA0) }
      { s with feed := s.feed &&& not64 CountA0 }
    else s
  -- Serial shift register direction
  let s :=
    if flag (value ^^^ s.CRA) 0x40 then
      let s := { s with delay := s.delay &&& not64 (SerLoad0 ||| SerLoad1) }
      let s := { s with feed := s.feed &&& not64 SerLoad0 }
      let s := { s with serCounter := 0 }
      let s := { s with delay := s.delay &&& not64 (SerClk0 ||| SerClk1 ||| SerClk2) }
      { s with feed := s.feed &&& not64 SerClk0 }
    else s
  -- TOD speed
  let s := { s with tod := { s.tod with hz := if flag value 0x80 then 5 else 6 } }
  let s := { s with PB := portB s }
  { s with CRA := value }

/-- The case `CIA_CONTROL_REG_B` of `CIA::poke`. -/
def pokeControlRegB (value : Nat) (s : CIA) : CIA :=
  -- Start or stop the timer
  let s :=
    if flag value 0x01 then
      let s := { s with delay := s.delay ||| (CountB1 ||| CountB0) }
      let s := { s with feed := s.feed ||| CountB0 }
      if !flag s.CRB 0x01 then { s with PB67Toggle := s.PB67Toggle ||| 0x80 } else s
    else
      let s := { s with delay := s.delay &&& not64 (CountB1 ||| CountB0) }
      { s with feed := s.feed &&& not64 CountB0 }
  -- Indicate timer underflow on port B bit 7
  let s :=
    if flag value 0x02 then
      let s := { s with PB67TimerMode := s.PB67TimerMode ||| 0x80 }
      if (value &&& 0x04) == 0 then
        if (s.delay &&& PB7Low1) == 0 then
          { s with PB67TimerOut := s.PB67TimerOut &&& not8 0x80 }
        else
          { s with PB67TimerOut := s.PB67TimerOut ||| 0x80 }
      else
        { s with PB67TimerOut := (s.PB67TimerOut &&& not8 0x80) ||| (s.PB67Toggle &&& 0x80) }
    else
      { s with PB67TimerMode := s.PB67TimerMode &&& not8 0x80 }
  -- One shot mode
  let s :=
    if flag value 0x08 then { s with feed := s.feed ||| OneShotB0 }
    else { s with feed := s.feed &&& not64 OneShotB0 }
  -- Load start value into timer
  let s := if flag value 0x10 then { s with delay := s.delay ||| LoadB0 } else s
  -- Timer counts CNT edges or underflows of timer A
  let s :=
    if flag value 0x60 then
      let s := { s with delay := s.delay &&& not64 (CountB1 ||| CountB0) }
      { s with feed := s.feed &&& not64 CountB0 }
    else s
  let s := { s with PB := portB s }
  { s with CRB := value }

/-- The case `CIA_INTERRUPT_CONTROL` of `CIA::poke`. -/
def pokeInterruptControl (value : Nat) (s : CIA) : CIA :=
  -- Bit 7 means set (1) or clear (0) the other bits
  let s :=
    if (value &&& 0x80) != 0 then { s with IMR := s.IMR ||| (value &&& 0x1F) }
    else { s with IMR := s.IMR &&& not8 (value &&& 0x1F) }
  -- Raise an interrupt in the next cycle if conditions match
  if flag (s.IMR &&& s.ICR) 0x1F && s.INT then
    { s with delay := s.delay ||| (Interrupt0 ||| SetIcr0) }
  -- Clear pending interrupt if a write has occurred in the previous cycle
  else if flag s.delay ClearIcr2 then
    { s with delay := s.delay &&& not64 (Interrupt1 ||| SetIcr1) }
  else s

/-- Embedding of `CIA::poke`. -/
def poke (addr value : Nat) (s : CIA) : CIA :=
  let s := wakeUp s
  match addr with
  | 0x00 => pokeDataPortA value s
  | 0x01 => pokeDataPortB value s
  | 0x02 => pokeDataPortDirectionA value s
  | 0x03 => pokeDataPortDirectionB value s
  | 0x04 =>
    let s := { s with latchA := (s.latchA &&& 0xFF00) ||| value }
    if flag s.delay LoadA2 then { s with counterA := (s.counterA &&& 0xFF00) ||| value } else s
  | 0x05 =>
    let s := { s with latchA := (value <<< 8) ||| (s.latchA &&& 0xFF) }
    let s :=
      if flag s.delay LoadA2 then { s with counterA := (value <<< 8) ||| (s.counterA &&& 0xFF) }
      else s
    -- Load counter if timer is stopped
    if !flag s.CRA 0x01 then { s with delay := s.delay ||| LoadA0 } else s
  | 0x06 =>
    let s := { s with latchB := (s.latchB &&& 0xFF00) ||| value }
    if flag s.delay LoadB2 then { s with counterB := (s.counterB &&& 0xFF00) ||| value } else s
  | 0x07 =>
    let s := { s with latchB := (value <<< 8) ||| (s.latchB &&& 0xFF) }
    let s :=
      if flag s.delay LoadB2 then { s with counterB := (value <<< 8) ||| (s.counterB &&& 0xFF) }
      else s
    -- Load counter if timer is stopped
    if (s.CRB &&& 0x01) == 0 then { s with delay := s.delay ||| LoadB0 } else s
  | 0x08 =>
    if flag s.CRB 0x80 then
      checkForTODInterrupt
        { s with tod := { s.tod with alarm := { s.tod.alarm with tenth := value } } }
    else
      checkForTODInterrupt { s with tod := { s.tod with tod := { s.tod.tod with tenth := value } } }
  | 0x09 =>
    if flag s.CRB 0x80 then
      checkForTODInterrupt
        { s with tod := { s.tod with alarm := { s.tod.alarm with seconds := value } } }
    else
      checkForTODInterrupt
        { s with tod := { s.tod with tod := { s.tod.tod with seconds := value } } }
  | 0x0A =>
    if flag s.CRB 0x80 then
      checkForTODInterrupt
        { s with tod := { s.tod with alarm := { s.tod.alarm with minutes := value } } }
    else
      checkForTODInterrupt
        { s with tod := { s.tod with tod := { s.tod.tod with minutes := value } } }
  | 0x0B =>
    if flag s.CRB 0x80 then
      checkForTODInterrupt
        { s with tod := { s.tod with alarm := { s.tod.alarm with hours := value } } }
    else
      -- Writing 12 pm into hour register turns to 12 am and vice versa.
      let value := if (value &&& 0x1F) == 0x12 then value ^^^ 0x80 else value
      checkForTODInterrupt { s with tod := { s.tod with tod := { s.tod.tod with hours := value } } }
  | 0x0C =>
    let s := { s with SDR := value }
    let s := { s with delay := s.delay ||| SerLoad0 }
    { s with feed := s.feed ||| SerLoad0 }
  | 0x0D => pokeInterruptControl value s
  | 0x0E => pokeControlRegA value s
  | 0x0F => pokeControlRegB value s
  | _ => s

/-! ### One CIA cycle

`CIA::executeOneCycle` is one long function; it is embedded section by
section, in source order, and `executeOneCycle` below chains the sections.
The two locals `timerAOutput` and `timerBOutput` are passed from the timer
sections to the later ones. -/

/-- Section "Timer A" of `CIA::executeOneCycle`: the state after it and the
local `timerAOutput`. -/
def executeOneCycle.timerA (s : CIA) : CIA × Bool :=
  -- Decrement counter
  let s := if flag s.delay CountA3 then { s with counterA := dec16 s.counterA } else s
  -- Check underflow condition
  let timerAOutput := s.counterA == 0 && flag s.delay CountA2
  let s :=
    if timerAOutput then
      -- Stop timer in one shot mode
      let s :=
        if flag (s.delay ||| s.feed) OneShotA0 then
          let s := { s with CRA := s.CRA &&& not8 0x01 }
          let s := { s with delay := s.delay &&& not64 (CountA2 ||| CountA1 ||| CountA0) }
          { s with feed := s.feed &&& not64 CountA0 }
        else s
      -- Timer A output to timer B in cascade mode
      let s :=
        if (s.CRB &&& 0x61) == 0x41 || ((s.CRB &&& 0x61) == 0x61 && s.CNT) then
          { s with delay := s.delay ||| CountB1 }
        else s
      -- Reload counter immediately
      { s with delay := s.delay ||| LoadA1 }
    else s
  -- Load counter
  let s := if flag s.delay LoadA1 then reloadTimerA s else s
  (s, timerAOutput)

/-- Section "Timer B" of `CIA::executeOneCycle`: the state after it and the
local `timerBOutput`. -/
def executeOneCycle.timerB (s : CIA) : CIA × Bool :=
  -- Decrement counter
  let s := if flag s.delay CountB3 then { s with counterB := dec16 s.counterB } else s
  -- Check underflow condition
  let timerBOutput := s.counterB == 0 && flag s.delay CountB2
  let s :=
    if timerBOutput then
      -- Stop timer in one shot mode
      let s :=
        if flag (s.delay ||| s.feed) OneShotB0 then
          let s := { s with CRB := s.CRB &&& not8 0x01 }
          let s := { s with delay := s.delay &&& not64 (CountB2 ||| CountB1 ||| CountB0) }
          { s with feed := s.feed &&& not64 CountB0 }
        else s
      { s with delay := s.delay ||| LoadB1 }
    else s
  -- Load counter
  let s := if flag s.delay LoadB1 then reloadTimerB s else s
  (s, timerBOutput)

/-- Section "Serial register" of `CIA::executeOneCycle`. -/
def executeOneCycle.serial (timerAOutput : Bool) (s : CIA) : CIA :=
  -- Generate clock signal
  let s :=
    if timerAOutput && flag s.CRA 0x40 then
      if s.serCounter != 0 then
        -- Toggle serial clock signal
        { s with feed := s.feed ^^^ SerClk0 }
      else if flag s.delay SerLoad1 then
        -- Load shift register
        let s := { s with delay := s.delay &&& not64 (SerLoad1 ||| SerLoad0) }
        let s := { s with feed := s.feed &&& not64 SerLoad0 }
        let s := { s with serCounter := 8 }
        { s with feed := s.feed ^^^ SerClk0 }
      else s
    else s
  -- Run shift register with generated clock signal
  if s.serCounter != 0 then
    if (s.delay &&& (SerClk2 ||| SerClk1)) == SerClk1 then
      -- Positive edge
      if s.serCounter == 1 then { s with delay := s.delay ||| SerInt0 } else s
    else if (s.delay &&& (SerClk2 ||| SerClk1)) == SerClk2 then
      -- Negative edge
      { s with serCounter := s.serCounter - 1 }
    else s
  else s

/-- Section "Timer A output to PB6" of `CIA::executeOneCycle`. -/
def executeOneCycle.outputPB6 (timerAOutput : Bool) (s : CIA) : CIA :=
  if timerAOutput then
    let s := { s with PB67Toggle := s.PB67Toggle ^^^ 0x40 }
    if flag s.CRA 0x02 then
      if (s.CRA &&& 0x04) == 0 then
        -- set PB6 high for one clock cycle
        let s := { s with PB67TimerOut := s.PB67TimerOut ||| 0x40 }
        let s := { s with delay := s.delay ||| PB6Low0 }
        { s with delay := s.delay &&& not64 PB6Low1 }
      else
        -- toggle PB6
        { s with PB67TimerOut := s.PB67TimerOut ^^^ 0x40 }
    else s
  else s

/-- Section "Timer B output to PB7" of `CIA::executeOneCycle`. -/
def executeOneCycle.outputPB7 (timerBOutput : Bool) (s : CIA) : CIA :=
  if timerBOutput then
    let s := { s with PB67Toggle := s.PB67Toggle ^^^ 0x80 }
    if flag s.CRB 0x02 then
      if (s.CRB &&& 0x04) == 0 then
        -- set PB7 high for one clock cycle
        let s := { s with PB67TimerOut := s.PB67TimerOut ||| 0x80 }
        let s := { s with delay := s.delay ||| PB7Low0 }
        { s with delay := s.delay &&& not64 PB7Low1 }
      else
        -- toggle PB7
        { s with PB67TimerOut := s.PB67TimerOut ^^^ 0x80 }
    else s
  else s

/-- Sections "Set PB67 back to low" and "Write new PB" of
`CIA::executeOneCycle`. -/
def executeOneCycle.writePB (s : CIA) : CIA :=
  let s := if flag s.delay PB6Low1 then { s with PB67TimerOut := s.PB67TimerOut &&& not8 0x40 } else s
  let s := if flag s.delay PB7Low1 then { s with PB67TimerOut := s.PB67TimerOut &&& not8 0x80 } else s
  { s with PB := portB s }

/-- Section "Interrupt logic" of `CIA::executeOneCycle`, statements (9), (10)
and (11): the timer bits of ICR and the timer interrupt. -/
def executeOneCycle.timerInterrupt (timerAOutput timerBOutput : Bool) (s : CIA) : CIA :=
  -- (9)
  let s := if timerAOutput then { s with ICR := s.ICR ||| 0x01 } else s
  -- (10)
  let s := if timerBOutput && !flag s.delay ReadIcr0 then { s with ICR := s.ICR ||| 0x02 } else s
  -- Check for timer interrupt (11)
  if (timerAOutput && flag s.IMR 0x01) || (timerBOutput && flag s.IMR 0x02) then
    let s := { s with delay := s.delay ||| Interrupt0 }
    { s with delay := s.delay ||| SetIcr0 }
  else s

/-- Section "Check for TOD interrupt" of `CIA::executeOneCycle`. -/
def executeOneCycle.todInterrupt (s : CIA) : CIA :=
  if flag s.delay TODInt0 then
    let s := { s with ICR := s.ICR ||| 0x04 }
    if flag s.IMR 0x04 then
      let s := { s with delay := s.delay ||| Interrupt0 }
      { s with delay := s.delay ||| SetIcr0 }
    else s
  else s

/-- Section "Check for Serial interrupt" of `CIA::executeOneCycle`. -/
def executeOneCycle.serialInterrupt (s : CIA) : CIA :=
  if flag s.delay SerInt2 then
    let s := { s with ICR := s.ICR ||| 0x08 }
    if flag s.IMR 0x08 then
      let s := { s with delay := s.delay ||| Interrupt0 }
      { s with delay := s.delay ||| SetIcr0 }
    else s
  else s

/-- The block `if (delay & (ClearIcr1 | SetIcr1 | Interrupt1))` of
`CIA::executeOneCycle`, statements (12), (13) and (14). -/
def executeOneCycle.interruptLine (s : CIA) : CIA :=
  if flag s.delay (ClearIcr1 ||| SetIcr1 ||| Interrupt1) then
    -- (12)
    let s := if flag s.delay ClearIcr1 then { s with ICR := s.ICR &&& 0x7F } else s
    -- (13)
    let s := if flag s.delay SetIcr1 then { s with ICR := s.ICR ||| 0x80 } else s
    -- (14)
    if flag s.delay Interrupt1 then pullDownInterruptLine { s with INT := false } else s
  else s

/-- The statement "Move delay flags left and feed in new bits" of
`CIA::executeOneCycle`. -/
def executeOneCycle.shift (s : CIA) : CIA :=
  { s with delay := ((s.delay <<< 1) &&& DelayMask) ||| s.feed }

/-- Section "Go into idle state if possible" of `CIA::executeOneCycle`;
`cycle` is `c64->cycle`, read by `sleep`. -/
def executeOneCycle.idle (cycle oldDelay oldFeed : Nat) (s : CIA) : CIA :=
  if oldDelay == s.delay && oldFeed == s.feed then
    let s := { s with tiredness := (s.tiredness + 1) % 256 }
    if s.tiredness > 8 then
      let s := sleep cycle s
      { s with tiredness := 0 }
    else s
  else { s with tiredness := 0 }

/-- Embedding of `CIA::executeOneCycle`; `cycle` is the value of `c64->cycle`
during the call. -/
def executeOneCycle (cycle : Nat) (s : CIA) : CIA :=
  let s := wakeUp s
  let oldDelay := s.delay
  let oldFeed := s.feed
  let (s, timerAOutput) := executeOneCycle.timerA s
  let (s, timerBOutput) := executeOneCycle.timerB s
  let s := executeOneCycle.serial timerAOutput s
  let s := executeOneCycle.outputPB6 timerAOutput s
  let s := executeOneCycle.outputPB7 timerBOutput s
  let s := executeOneCycle.writePB s
  let s := executeOneCycle.timerInterrupt timerAOutput timerBOutput s
  let s := executeOneCycle.todInterrupt s
  let s := executeOneCycle.serialInterrupt s
  let s := executeOneCycle.interruptLine s
  let s := executeOneCycle.shift s
  executeOneCycle.idle cycle oldDelay oldFeed s

/-- The local `timerAOutput` of the `executeOneCycle` call made in state `s`:
timer A underflows in that cycle. -/
def timerAOutput (s : CIA) : Bool := (executeOneCycle.timerA (wakeUp s)).2

/-- The local `timerBOutput` of the `executeOneCycle` call made in state `s`:
timer B underflows in that cycle. -/
def timerBOutput (s : CIA) : Bool :=
  (executeOneCycle.timerB (executeOneCycle.timerA (wakeUp s)).1).2

/-- The chip after `n` successive `executeOneCycle` calls with no register
access in between; the `k`-th call sees `c64->cycle = clock k`. -/
def run (clock : Nat → Nat) : Nat → CIA → CIA
  | 0, s => s
  | n + 1, s => executeOneCycle (clock n) (run clock n s)

/-- Modelled from the spec: the state after `CIA::reset`. The snapshot items
are cleared (`CLEAR_ON_RESET`), then the pins and latches are set as in the
body of `CIA::reset`; the TOD clock and the sleep bookkeeping start at zero. -/
def reset : CIA :=
  { counterA := 0, latchA := 0xFFFF, counterB := 0, latchB := 0xFFFF, delay := 0, feed := 0,
    CRA := 0, CRB := 0, ICR := 0, IMR := 0, PB67TimerMode := 0, PB67TimerOut := 0,
    PB67Toggle := 0, PALatch := 0, PBLatch := 0, DDRA := 0, DDRB := 0, SDR := 0, serClk := 0,
    serCounter := 0, PA := 0xFF, PB := 0xFF, CNT := true, INT := true, tiredness := 0,
    wakeUpCycle := 0, idleCounter := 0, linePulled := false,
    tod := ⟨⟨0, 0, 0, 0⟩, ⟨0, 0, 0, 0⟩, 0⟩ }

/-! ## VIA 6522 and VC1541 drive (`VIA6522.cpp`, `VC1541.cpp`)

The two VIAs are members of the drive and reach back into it (`floppy->...`),
so the functions that do so are embedded as functions on the drive state.
An `assert` that the source places on a path is embedded as the result
`none`. Diagnostics (`debug`, `msg`, `warn`) and messages to the user
interface (`putMessage`) have no effect on the state and are left out. -/

/-- State of a `VIA6522`: the fields that `VIA6522::reset` clears and the
snapshot functions save. Bytes and 16 bit words are natural numbers; `io` is
the array `io[16]`. -/
structure VIA6522 where
  ddra : Nat
  ddrb : Nat
  ora : Nat
  orb : Nat
  ira : Nat
  irb : Nat
  t1 : Nat
  t2 : Nat
  t1_latch_lo : Nat
  t1_latch_hi : Nat
  t2_latch_lo : Nat
  io : Nat → Nat

/-- Modelled from the spec: the interrupt sources of the drive CPU that the
VIA code pulls and releases (`setIRQLineATN`, `clearIRQLineVIA1`, ...) and the
overflow flag set by the byte ready signal. -/
structure DriveCPU where
  irqLineATN : Bool
  irqLineVIA1 : Bool
  irqLineVIA2 : Bool
  V : Bool

/-- Modelled from the spec: the disk as the head sees it, `length ht` is
`disk.length.halftrack[ht]` and `data ht pos` the bit at offset `pos` of
halftrack `ht`. -/
structure Disk where
  length : Nat → Nat
  data : Nat → Nat → Bool

/-- Modelled from the spec: the IEC bus lines that `VIA1::peek` samples. -/
structure IEC where
  clockLine : Bool
  dataLine : Bool
  atnLine : Bool

/-- State of the `VC1541`: the fields set by `resetDrive` and `resetDisk`, the
two VIAs, the interrupt lines of the drive CPU and the disk. -/
structure VC1541 where
  via1 : VIA6522
  via2 : VIA6522
  cpu : DriveCPU
  disk : Disk
  bitAccuracy : Bool
  rotating : Bool
  redLED : Bool
  diskInserted : Bool
  writeProtected : Bool
  bitReadyTimer : Int
  byteReadyCounter : Nat
  halftrack : Nat
  bitoffset : Nat
  zone : Nat
  read_shiftreg : Nat
  write_shiftreg : Nat
  sync : Bool

/-- The two VIAs of the drive. -/
inductive ViaId where
  | via1
  | via2

/-- The VIA `w` of the drive (`this` in the code of `VIA6522`). -/
def VC1541.via (d : VC1541) : ViaId → VIA6522
  | ViaId.via1 => d.via1
  | ViaId.via2 => d.via2

/-- The drive with VIA `w` replaced. -/
def VC1541.setVia (d : VC1541) (w : ViaId) (v : VIA6522) : VC1541 :=
  match w with
  | ViaId.via1 => { d with via1 := v }
  | ViaId.via2 => { d with via2 := v }

/-- The array `io` after the assignment `io[k] = x`. -/
def setIo (io : Nat → Nat) (k x : Nat) : Nat → Nat := fun i => if i = k then x else io i

/-- Modelled from the spec: the macro `LO_BYTE`. -/
def LO_BYTE (x : Nat) : Nat := x &&& 0xFF

/-- Modelled from the spec: the macro `HI_BYTE`. -/
def HI_BYTE (x : Nat) : Nat := (x >>> 8) &&& 0xFF

/-- Modelled from the spec: the macro `HI_LO`, a 16 bit word from its high and
low byte. -/
def HI_LO (hi lo : Nat) : Nat := ((hi <<< 8) ||| lo) % 0x10000

/-- Modelled from the spec: `signalTimeOut1` sets the timer 1 flag, bit 6 of
the interrupt flag register `io[0x0D]` (the bit `dumpState` prints as
"Timer 1 interrupt flag"). -/
def signalTimeOut1 (v : VIA6522) : VIA6522 := { v with io := setIo v.io 0x0D (v.io 0x0D ||| 0x40) }

/-- Modelled from the spec: `signalTimeOut2` sets the timer 2 flag, bit 5 of
`io[0x0D]`. -/
def signalTimeOut2 (v : VIA6522) : VIA6522 := { v with io := setIo v.io 0x0D (v.io 0x0D ||| 0x20) }

/-- Modelled from the spec: `clearTimer1Indicator` clears bit 6 of `io[0x0D]`. -/
def clearTimer1Indicator (v : VIA6522) : VIA6522 :=
  { v with io := setIo v.io 0x0D (v.io 0x0D &&& not8 0x40) }

/-- Modelled from the spec: `clearTimer2Indicator` clears bit 5 of `io[0x0D]`. -/
def clearTimer2Indicator (v : VIA6522) : VIA6522 :=
  { v with io := setIo v.io 0x0D (v.io 0x0D &&& not8 0x20) }

/-- Modelled from the spec: `timerInterruptEnabled1`, bit 6 of the interrupt
enable register `io[0x0E]`. -/
def timerInterruptEnabled1 (v : VIA6522) : Bool := flag (v.io 0x0E) 0x40

/-- Modelled from the spec: `timerInterruptEnabled2`, bit 5 of `io[0x0E]`. -/
def timerInterruptEnabled2 (v : VIA6522) : Bool := flag (v.io 0x0E) 0x20

/-- Modelled from the spec: `atnInterruptsEnabled`, the CA1 bit (bit 1) of the
interrupt enable register of VIA1. -/
def atnInterruptsEnabled (v : VIA6522) : Bool := flag (v.io 0x0E) 0x02

/-- Modelled from the spec: `indicateAtnInterrupt` sets the CA1 flag, bit 1 of
`io[0x0D]`. -/
def indicateAtnInterrupt (v : VIA6522) : VIA6522 :=
  { v with io := setIo v.io 0x0D (v.io 0x0D ||| 0x02) }

/-- Modelled from the spec: `clearAtnIndicator` clears bit 1 of `io[0x0D]`. -/
def clearAtnIndicator (v : VIA6522) : VIA6522 :=
  { v with io := setIo v.io 0x0D (v.io 0x0D &&& not8 0x02) }

/-- Modelled from the spec: `VC1541::isWriteProtected`. -/
def VC1541.isWriteProtected (d : VC1541) : Bool := d.writeProtected

/-- Modelled from the spec: `VC1541::getSyncMark`, a SYNC mark is currently
detected. -/
def VC1541.getSyncMark (d : VC1541) : Bool := d.sync

/-- Embedding of `VIA6522::reset`: the state it leaves. -/
def VIA6522.reset : VIA6522 :=
  { ddra := 0, ddrb := 0, ora := 0, orb := 0, ira := 0, irb := 0, t1 := 0, t2 := 0,
    t1_latch_lo := 0, t1_latch_hi := 0, t2_latch_lo := 0, io := fun _ => 0 }

/-- Modelled from the spec: the drive CPU after its reset, no interrupt line
pulled. -/
def DriveCPU.reset : DriveCPU := ⟨false, false, false, false⟩

/-- Embedding of `VC1541::resetDrive`; the disk and the fields of `resetDisk`
are not touched. -/
def VC1541.resetDrive (d : VC1541) : VC1541 :=
  { d with
    cpu := DriveCPU.reset
    via1 := VIA6522.reset
    via2 := VIA6522.reset
    bitAccuracy := true
    rotating := false
    redLED := false
    bitReadyTimer := 0
    byteReadyCounter := 0
    halftrack := 41
    bitoffset := 0
    zone := 0
    read_shiftreg := 0
    write_shiftreg := 0
    sync := false }

/-- Embedding of `VIA1::executeTimer1`. -/
def VIA1.executeTimer1 (d : VC1541) : VC1541 :=
  let v := d.via1
  let old := v.t1
  let v := { v with t1 := dec16 v.t1 }
  -- Timer 1 time out
  let v := if old == 1 then signalTimeOut1 v else v
  { d with via1 := v }

/-- Embedding of `VIA1::executeTimer2`; the source tests and decrements `t1`. -/
def VIA1.executeTimer2 (d : VC1541) : VC1541 :=
  let v := d.via1
  let old := v.t1
  let v := { v with t1 := dec16 v.t1 }
  -- Timer 2 time out
  let v := if old == 1 then signalTimeOut2 v else v
  { d with via1 := v }

/-- Embedding of `VIA2::executeTimer1`. -/
def VIA2.executeTimer1 (d : VC1541) : VC1541 :=
  let v := d.via2
  let old := v.t1
  let v := { v with t1 := dec16 v.t1 }
  if old == 1 then
    -- Timer 1 time out
    let v := signalTimeOut1 v
    let d := { d with via2 := v }
    if timerInterruptEnabled1 v then { d with cpu := { d.cpu with irqLineVIA1 := true } } else d
  else { d with via2 := v }

/-- Embedding of `VIA2::executeTimer2`; the source tests and decrements `t1`. -/
def VIA2.executeTimer2 (d : VC1541) : VC1541 :=
  let v := d.via2
  let old := v.t1
  let v := { v with t1 := dec16 v.t1 }
  -- Timer 2 time out
  let v := if old == 1 then signalTimeOut2 v else v
  { d with via2 := v }

/-- Embedding of `VIA6522::peek`: the value read and the VIA after the read,
`none` when an assertion of the source fails. -/
def VIA6522.peek (addr : Nat) (v : VIA6522) : Option (Nat × VIA6522) :=
  if addr > 0xF then none
  else
    match addr with
    | 0x0 => none
    | 0x1 => none
    | 0xF => none
    | 0x2 => some (v.ddrb, v)
    | 0x3 => some (v.ddra, v)
    | 0x4 =>
      let v := clearTimer1Indicator v
      some (LO_BYTE v.t1, v)
    | 0x5 => some (HI_BYTE v.t1, v)
    | 0x6 => some (v.t1_latch_lo, v)
    | 0x7 => some (v.t1_latch_hi, v)
    | 0x8 =>
      let v := clearTimer2Indicator v
      some (LO_BYTE v.t2, v)
    | 0x9 => some (HI_BYTE v.t2, v)
    | 0xD => some (v.io 0x0D ||| (if (v.io 0x0D &&& v.io 0x0E) != 0 then 0x80 else 0), v)
    | 0xE => some (v.io 0x0E ||| 0x80, v)
    -- default behavior (registers 0xA, 0xB and 0xC)
    | _ => some (v.io addr, v)

/-- Embedding of `VIA1::peek`; `iec` are the bus lines sampled by the read of
port B. -/
def VIA1.peek (iec : IEC) (addr : Nat) (d : VC1541) : Option (Nat × VC1541) :=
  match addr with
  | 0x0 =>
    let pb_pins :=
      (if iec.clockLine then 0x00 else 0x04) ||| (if iec.dataLine then 0x00 else 0x01) |||
        (if iec.atnLine then 0x00 else 0x80)
    let result := (d.via1.ddrb &&& d.via1.orb) ||| (not8 d.via1.ddrb &&& pb_pins)
    -- Set device address to zero
    some (result &&& 0x9F, d)
  | 0x1 =>
    let d := { d with via1 := clearAtnIndicator d.via1 }
    let d := { d with cpu := { d.cpu with irqLineATN := false } }
    some (d.via1.ora, d)
  | _ =>
    match VIA6522.peek addr d.via1 with
    | none => none
    | some (r, v) => some (r, { d with via1 := v })

/-- Embedding of `VIA2::peek`. -/
def VIA2.peek (addr : Nat) (d : VC1541) : Option (Nat × VC1541) :=
  match addr with
  | 0x0 =>
    -- Bit 4: 0 = disc is write protected
    let v := d.via2
    let v :=
      if d.isWriteProtected then { v with orb := v.orb &&& not8 (bitAt 4) }
      else { v with orb := v.orb ||| bitAt 4 }
    -- Bit 7: 0 = SYNC mark
    let v :=
      if d.getSyncMark then { v with orb := v.orb &&& not8 (bitAt 7) }
      else { v with orb := v.orb ||| bitAt 7 }
    some (v.orb, { d with via2 := v })
  | 0x1 => some (d.via2.ora, d)
  | 0xF => some (d.via2.ora, d)
  | 0x4 =>
    let d := { d with cpu := { d.cpu with irqLineVIA1 := false } }
    match VIA6522.peek addr d.via2 with
    | none => none
    | some (r, v) => some (r, { d with via2 := v })
  | _ =>
    match VIA6522.peek addr d.via2 with
    | none => none
    | some (r, v) => some (r, { d with via2 := v })

/-- Embedding of `VC1541::moveHeadUp`. The new bit offset is computed in
single precision floating point, `(float)bitoffset / (float)length[old]`
times `length[new]`, converted back to `uint16_t`; this computation is the
parameter `scale bitoffset length_old length_new`, and `scaleF32` is its
single precision model. The assertion on the disk position after the move is
not part of the embedding. -/
def VC1541.moveHeadUp (scale : Nat → Nat → Nat → Nat) (d : VC1541) : VC1541 :=
  if d.halftrack < 84 then
    let position := scale d.bitoffset (d.disk.length d.halftrack)
    let d := { d with halftrack := d.halftrack + 1 }
    let d := { d with bitoffset := position (d.disk.length d.halftrack) % 0x10000 }
    -- Byte-align bitoffset
    let d := { d with bitoffset := d.bitoffset &&& 0xFFF8 }
    { d with byteReadyCounter := 0 }
  else d

/-- Embedding of `VC1541::moveHeadDown`, with the floating point computation
as in `moveHeadUp`. -/
def VC1541.moveHeadDown (scale : Nat → Nat → Nat → Nat) (d : VC1541) : VC1541 :=
  if d.halftrack > 1 then
    let position := scale d.bitoffset (d.disk.length d.halftrack)
    let d := { d with halftrack := d.halftrack - 1 }
    let d := { d with bitoffset := position (d.disk.length d.halftrack) % 0x10000 }
    -- Byte-align bitoffset
    let d := { d with bitoffset := d.bitoffset &&& 0xFFF8 }
    { d with byteReadyCounter := 0 }
  else d

/-- Embedding of `VC1541::setRedLED`. -/
def VC1541.setRedLED (b : Bool) (d : VC1541) : VC1541 :=
  if !d.redLED && b then { d with redLED := true }
  else if d.redLED && !b then { d with redLED := false }
  else d

/-- Embedding of `VC1541::setRotating`. -/
def VC1541.setRotating (b : Bool) (d : VC1541) : VC1541 :=
  if !d.rotating && b then { d with rotating := true }
  else if d.rotating && !b then { d with rotating := false }
  else d

/-- Modelled from the spec: `VC1541::startRotating`, the motor is switched on. -/
def VC1541.startRotating (d : VC1541) : VC1541 := d.setRotating true

/-- Modelled from the spec: `VC1541::stopRotating`, the motor is switched off. -/
def VC1541.stopRotating (d : VC1541) : VC1541 := d.setRotating false

/-- Modelled from the spec: `VC1541::activateRedLED`. -/
def VC1541.activateRedLED (d : VC1541) : VC1541 := d.setRedLED true

/-- Modelled from the spec: `VC1541::deactivateRedLED`. -/
def VC1541.deactivateRedLED (d : VC1541) : VC1541 := d.setRedLED false

/-- Embedding of `VC1541::simulateAtnInterrupt`. -/
def VC1541.simulateAtnInterrupt (d : VC1541) : VC1541 :=
  if atnInterruptsEnabled d.via1 then
    let d := { d with via1 := indicateAtnInterrupt d.via1 }
    { d with cpu := { d.cpu with irqLineATN := true } }
  else d

/-- Embedding of `VIA6522::poke` for the VIA `w` of the drive: the drive after
the write, `none` when an assertion of the source fails. -/
def VIA6522.poke (w : ViaId) (addr value : Nat) (d : VC1541) : Option VC1541 :=
  if addr > 0x0F then none
  else
    let v := d.via w
    match addr with
    -- Not reached
    | 0x0 => none
    | 0x1 => none
    | 0xF => none
    | 0x2 => some (d.setVia w { v with ddrb := value })
    | 0x3 => some (d.setVia w { v with ddra := value })
    | 0x4 => some (d.setVia w { v with t1_latch_lo := value })
    | 0x5 =>
      let v := { v with t1_latch_hi := value }
      let v := { v with t1 := HI_LO v.t1_latch_hi v.t1_latch_lo }
      let v := clearTimer1Indicator v
      let d := d.setVia w v
      some { d with cpu := { d.cpu with irqLineVIA1 := false } }
    | 0x6 => some (d.setVia w { v with t1_latch_lo := value })
    | 0x7 => some (d.setVia w { v with t1_latch_hi := value })
    | 0x8 => some (d.setVia w { v with t2_latch_lo := value })
    | 0x9 =>
      let v := { v with t2 := HI_LO value v.t2_latch_lo }
      let v := clearTimer2Indicator v
      let d := d.setVia w v
      some { d with cpu := { d.cpu with irqLineVIA2 := false } }
    | 0xD => some (d.setVia w { v with io := setIo v.io 0x0D (v.io 0x0D &&& not8 value) })
    | 0xE =>
      if (value &&& 0x80) != 0 then
        some (d.setVia w { v with io := setIo v.io 0x0E (v.io 0x0E ||| (value &&& 0x7F)) })
      else
        some (d.setVia w { v with io := setIo v.io 0x0E (v.io 0x0E &&& not8 value) })
    -- default behavior (registers 0xA, 0xB and 0xC)
    | _ => some (d.setVia w { v with io := setIo v.io addr value })

/-- Embedding of `VIA1::poke`; the call `iec->updateDevicePins` acts on the
bus outside the drive and is left out. -/
def VIA1.poke (addr value : Nat) (d : VC1541) : Option VC1541 :=
  match addr with
  | 0x0 =>
    let v := { d.via1 with orb := value }
    let v := { v with io := setIo v.io 0x0D (v.io 0x0D &&& 0xF7) }
    let v := { v with io := setIo v.io 0x0D (v.io 0x0D &&& 0xEF) }
    some { d with via1 := v }
  | 0x1 =>
    let v := { d.via1 with ora := value }
    let v := clearAtnIndicator v
    let v := { v with io := setIo v.io 0x0D (v.io 0x0D &&& 0xFE) }
    let d := { d with via1 := v }
    some { d with cpu := { d.cpu with irqLineATN := false } }
  | 0xF =>
    let v := { d.via1 with ora := value }
    let v := clearAtnIndicator v
    let v := { v with io := setIo v.io 0x0D (v.io 0x0D &&& 0xFE) }
    let d := { d with via1 := v }
    some { d with cpu := { d.cpu with irqLineATN := false } }
  | 0x2 => some { d with via1 := { d.via1 with ddrb := value } }
  | _ => VIA6522.poke ViaId.via1 addr value d

/-- The value of the C expression `(orb - 1) & 0x03`: the subtraction is done
in `int`, whose low 32 bits are taken. -/
def stepDown (orb : Nat) : Nat := ((orb + 0xFFFFFFFF) % 2 ^ 32) &&& 0x03

/-- Embedding of `VIA2::poke`; `scale` is the floating point computation of
the head moves. -/
def VIA2.poke (scale : Nat → Nat → Nat → Nat) (addr value : Nat) (d : VC1541) :
    Option VC1541 :=
  match addr with
  | 0x0 =>
    let orb := d.via2.orb
    -- Bits #0-#1: Head step direction
    let d :=
      if (orb &&& 0x03) != (value &&& 0x03) then
        if (value &&& 0x03) == ((orb + 1) &&& 0x03) then d.moveHeadUp scale
        else if (value &&& 0x03) == stepDown orb then d.moveHeadDown scale
        else d
      else d
    let d :=
      if (orb &&& 0x04) != (value &&& 0x04) then
        if (value &&& 0x04) != 0 then d.startRotating else d.stopRotating
      else d
    let d :=
      if (orb &&& 0x08) != (value &&& 0x08) then
        if (value &&& 0x08) != 0 then d.activateRedLED else d.deactivateRedLED
      else d
    some { d with via2 := { d.via2 with orb := value } }
  | 0x1 => some { d with via2 := { d.via2 with ora := value } }
  | 0xF => some { d with via2 := { d.via2 with ora := value } }
  | 0x3 => some { d with via2 := { d.via2 with ddra := value } }
  | 0xC => some { d with via2 := { d.via2 with io := setIo d.via2.io 0xC value } }
  | _ => VIA6522.poke ViaId.via2 addr value d

/-! ## Snapshot versions (`Snapshot.cpp`) -/

/-- The version constants `V_MAJOR`, `V_MINOR` and `V_SUBMINOR` of a build;
their header is not part of the sources, so they are parameters. -/
structure Version where
  major : Nat
  minor : Nat
  subminor : Nat

/-- Embedding of `Snapshot::isTooOld`; `data` is the byte array of the
snapshot, whose bytes 4, 5 and 6 hold its version. -/
def Snapshot.isTooOld (V : Version) (data : Nat → Nat) : Bool :=
  if data 4 < V.major then true
  else if data 4 > V.major then false
  else if data 5 < V.minor then true
  else if data 5 > V.minor then false
  else decide (data 6 < V.subminor)

/-- Embedding of `Snapshot::isTooNew`. -/
def Snapshot.isTooNew (V : Version) (data : Nat → Nat) : Bool :=
  if data 4 > V.major then true
  else if data 4 < V.major then false
  else if data 5 > V.minor then true
  else if data 5 < V.minor then false
  else decide (data 6 > V.subminor)

/-! ## VIC-II border comparison values (`VICII.h`) -/

/-- Modelled from the spec: the macro `GET_BIT`, bit `nr` of `x` is set. -/
def GET_BIT (x nr : Nat) : Bool := flag x (bitAt nr)

/-- The two control registers `reg.current.ctrl1` and `reg.current.ctrl2` of
the `VICII`, the only state the comparison values read. -/
structure VICII where
  ctrl1 : Nat
  ctrl2 : Nat

/-- Embedding of `VICII::isCSEL`. -/
def VICII.isCSEL (v : VICII) : Bool := GET_BIT v.ctrl2 3

/-- Embedding of `VICII::isRSEL`. -/
def VICII.isRSEL (v : VICII) : Bool := GET_BIT v.ctrl1 3

/-- Embedding of `VICII::leftComparisonValue`. -/
def VICII.leftComparisonValue (v : VICII) : Nat := if v.isCSEL then 24 else 31

/-- Embedding of `VICII::rightComparisonValue`. -/
def VICII.rightComparisonValue (v : VICII) : Nat := if v.isCSEL then 344 else 335

/-- Embedding of `VICII::upperComparisonValue`. -/
def VICII.upperComparisonValue (v : VICII) : Nat := if v.isRSEL then 51 else 55

/-- Embedding of `VICII::lowerComparisonValue`. -/
def VICII.lowerComparisonValue (v : VICII) : Nat := if v.isRSEL then 251 else 247

/-! ## The table of VIC cycle functions (`C64.cpp`) -/

/-- Modelled from the spec: the VIC revisions, as the case labels of
`C64::updateVicFunctionTable` name them. -/
inductive VICRevision where
  | PAL_6569_R1
  | PAL_6569_R3
  | PAL_8565
  | NTSC_6567_R56A
  | NTSC_6567
  | NTSC_8562
  deriving DecidableEq

/-- The suffix of the name of a cycle function: none, `pal` or `ntsc`. -/
inductive CycleVariant where
  | common
  | pal
  | ntsc
  deriving DecidableEq

/-- The member functions of `VIC` that the table points to: `cycle n v` is
`&VIC::cycle12`, `&VIC::cycle1pal`, `&VIC::cycle64ntsc`, ...; `cycle19to54` is
`&VIC::cycle19to54`. -/
inductive VICFunc where
  | cycle (n : Nat) (v : CycleVariant)
  | cycle19to54
  deriving DecidableEq

/-- The array `vicfunc` after the assignment `vicfunc[k] = f`; `none` is `NULL`. -/
def setFunc (t : Nat → Option VICFunc) (k : Nat) (f : Option VICFunc) : Nat → Option VICFunc :=
  fun i => if i = k then f else t i

/-- Embedding of `C64::updateVicFunctionTable`; `rev` is `vic.getRevision()`
and `vicfunc` the table before the call. -/
def updateVicFunctionTable (rev : VICRevision) (vicfunc : Nat → Option VICFunc) :
    Nat → Option VICFunc :=
  -- Assign model independent execution functions
  let t := setFunc vicfunc 0 none
  let t := setFunc t 12 (some (VICFunc.cycle 12 CycleVariant.common))
  let t := setFunc t 13 (some (VICFunc.cycle 13 CycleVariant.common))
  let t := setFunc t 14 (some (VICFunc.cycle 14 CycleVariant.common))
  let t := setFunc t 15 (some (VICFunc.cycle 15 CycleVariant.common))
  let t := setFunc t 16 (some (VICFunc.cycle 16 CycleVariant.common))
  let t := setFunc t 17 (some (VICFunc.cycle 17 CycleVariant.common))
  let t := setFunc t 18 (some (VICFunc.cycle 18 CycleVariant.common))
  let t := (List.range' 19 36).foldl (fun t cycle => setFunc t cycle (some VICFunc.cycle19to54)) t
  let t := setFunc t 56 (some (VICFunc.cycle 56 CycleVariant.common))
  -- Assign model specific execution functions
  match rev with
  | VICRevision.PAL_6569_R1 | VICRevision.PAL_6569_R3 | VICRevision.PAL_8565 =>
    let t := setFunc t 1 (some (VICFunc.cycle 1 CycleVariant.pal))
    let t := setFunc t 2 (some (VICFunc.cycle 2 CycleVariant.pal))
    let t := setFunc t 3 (some (VICFunc.cycle 3 CycleVariant.pal))
    let t := setFunc t 4 (some (VICFunc.cycle 4 CycleVariant.pal))
    let t := setFunc t 5 (some (VICFunc.cycle 5 CycleVariant.pal))
    let t := setFunc t 6 (some (VICFunc.cycle 6 CycleVariant.pal))
    let t := setFunc t 7 (some (VICFunc.cycle 7 CycleVariant.pal))
    let t := setFunc t 8 (some (VICFunc.cycle 8 CycleVariant.pal))
    let t := setFunc t 9 (some (VICFunc.cycle 9 CycleVariant.pal))
    let t := setFunc t 10 (some (VICFunc.cycle 10 CycleVariant.pal))
    let t := setFunc t 11 (some (VICFunc.cycle 11 CycleVariant.pal))
    let t := setFunc t 55 (some (VICFunc.cycle 55 CycleVariant.pal))
    let t := setFunc t 57 (some (VICFunc.cycle 57 CycleVariant.pal))
    let t := setFunc t 58 (some (VICFunc.cycle 58 CycleVariant.pal))
    let t := setFunc t 59 (some (VICFunc.cycle 59 CycleVariant.pal))
    let t := setFunc t 60 (some (VICFunc.cycle 60 CycleVariant.pal))
    let t := setFunc t 61 (some (VICFunc.cycle 61 CycleVariant.pal))
    let t := setFunc t 62 (some (VICFunc.cycle 62 CycleVariant.pal))
    let t := setFunc t 63 (some (VICFunc.cycle 63 CycleVariant.pal))
    let t := setFunc t 64 none
    setFunc t 65 none
  | VICRevision.NTSC_6567_R56A =>
    let t := setFunc t 1 (some (VICFunc.cycle 1 CycleVariant.pal))
    let t := setFunc t 2 (some (VICFunc.cycle 2 CycleVariant.pal))
    let t := setFunc t 3 (some (VICFunc.cycle 3 CycleVariant.pal))
    let t := setFunc t 4 (some (VICFunc.cycle 4 CycleVariant.pal))
    let t := setFunc t 5 (some (VICFunc.cycle 5 CycleVariant.pal))
    let t := setFunc t 6 (some (VICFunc.cycle 6 CycleVariant.pal))
    let t := setFunc t 7 (some (VICFunc.cycle 7 CycleVariant.pal))
    let t := setFunc t 8 (some (VICFunc.cycle 8 CycleVariant.pal))
    let t := setFunc t 9 (some (VICFunc.cycle 9 CycleVariant.pal))
    let t := setFunc t 10 (some (VICFunc.cycle 10 CycleVariant.pal))
    let t := setFunc t 11 (some (VICFunc.cycle 11 CycleVariant.pal))
    let t := setFunc t 55 (some (VICFunc.cycle 55 CycleVariant.ntsc))
    let t := setFunc t 57 (some (VICFunc.cycle 57 CycleVariant.ntsc))
    let t := setFunc t 58 (some (VICFunc.cycle 58 CycleVariant.ntsc))
    let t := setFunc t 59 (some (VICFunc.cycle 59 CycleVariant.ntsc))
    let t := setFunc t 60 (some (VICFunc.cycle 60 CycleVariant.ntsc))
    let t := setFunc t 61 (some (VICFunc.cycle 61 CycleVariant.ntsc))
    let t := setFunc t 62 (some (VICFunc.cycle 62 CycleVariant.ntsc))
    let t := setFunc t 63 (some (VICFunc.cycle 63 CycleVariant.ntsc))
    let t := setFunc t 64 (some (VICFunc.cycle 64 CycleVariant.ntsc))
    setFunc t 65 none
  | VICRevision.NTSC_6567 | VICRevision.NTSC_8562 =>
    let t := setFunc t 1 (some (VICFunc.cycle 1 CycleVariant.ntsc))
    let t := setFunc t 2 (some (VICFunc.cycle 2 CycleVariant.ntsc))
    let t := setFunc t 3 (some (VICFunc.cycle 3 CycleVariant.ntsc))
    let t := setFunc t 4 (some (VICFunc.cycle 4 CycleVariant.ntsc))
    let t := setFunc t 5 (some (VICFunc.cycle 5 CycleVariant.ntsc))
    let t := setFunc t 6 (some (VICFunc.cycle 6 CycleVariant.ntsc))
    let t := setFunc t 7 (some (VICFunc.cycle 7 CycleVariant.ntsc))
    let t := setFunc t 8 (some (VICFunc.cycle 8 CycleVariant.ntsc))
    let t := setFunc t 9 (some (VICFunc.cycle 9 CycleVariant.ntsc))
    let t := setFunc t 10 (some (VICFunc.cycle 10 CycleVariant.ntsc))
    let t := setFunc t 11 (some (VICFunc.cycle 11 CycleVariant.ntsc))
    let t := setFunc t 55 (some (VICFunc.cycle 55 CycleVariant.ntsc))
    let t := setFunc t 57 (some (VICFunc.cycle 57 CycleVariant.ntsc))
    let t := setFunc t 58 (some (VICFunc.cycle 58 CycleVariant.ntsc))
    let t := setFunc t 59 (some (VICFunc.cycle 59 CycleVariant.ntsc))
    let t := setFunc t 60 (some (VICFunc.cycle 60 CycleVariant.ntsc))
    let t := setFunc t 61 (some (VICFunc.cycle 61 CycleVariant.ntsc))
    let t := setFunc t 62 (some (VICFunc.cycle 62 CycleVariant.ntsc))
    let t := setFunc t 63 (some (VICFunc.cycle 63 CycleVariant.ntsc))
    let t := setFunc t 64 (some (VICFunc.cycle 64 CycleVariant.ntsc))
    setFunc t 65 (some (VICFunc.cycle 65 CycleVariant.ntsc))

/-- Modelled from the spec: the number of cycles of a raster line, 63 for the
PAL chips, 64 for the NTSC 6567 R56A, 65 for the NTSC 6567 and 8562. -/
def VICRevision.cyclesPerRasterline : VICRevision → Nat
  | VICRevision.PAL_6569_R1 | VICRevision.PAL_6569_R3 | VICRevision.PAL_8565 => 63
  | VICRevision.NTSC_6567_R56A => 64
  | VICRevision.NTSC_6567 | VICRevision.NTSC_8562 => 65

/-! ## Configuration (`C64.cpp`)

Only the configuration of the components is modelled. `suspend` and `resume`
act on the emulator thread and leave the configuration alone; warnings are
left out. An `assert` on the path is the result `none`. -/

/-- The fields of `VICConfig` that `C64::configure` reads and writes. -/
structure VICConfig where
  revision : Int
  grayDotBug : Bool
  glueLogic : Int
  deriving DecidableEq

/-- The fields of `CIAConfig` that `C64::configure` reads and writes. -/
structure CIAConfig where
  revision : Int
  timerBBug : Bool
  deriving DecidableEq

/-- The field of `SIDConfig` that `C64::configure` reads and writes. -/
structure SIDConfig where
  revision : Int
  deriving DecidableEq

/-- The components of the machine as far as they are configured: `vic`,
`cia1`, `cia2` and `sid`. -/
structure Machine where
  vic : VICConfig
  cia1 : CIAConfig
  cia2 : CIAConfig
  sid : SIDConfig
  deriving DecidableEq

/-- The type `C64Configuration`, without the memory configuration. -/
structure C64Configuration where
  vic : VICConfig
  cia1 : CIAConfig
  cia2 : CIAConfig
  sid : SIDConfig
  deriving DecidableEq

/-- The options that `C64::configure` handles; `other` stands for the
remaining values of the enumeration `OPT`. -/
inductive ConfigOption where
  | OPT_VIC_REVISION
  | OPT_GRAY_DOT_BUG
  | OPT_GLUE_LOGIC
  | OPT_CIA_REVISION
  | OPT_TIMER_B_BUG
  | OPT_SID_REVISION
  | other
  deriving DecidableEq

/-- The predicates `isVICRevision`, `isGlueLogic`, `isCIARevision` and
`isSIDRevision`; their headers are not part of the sources, so they are
parameters. -/
structure Validity where
  isVICRevision : Int → Bool
  isGlueLogic : Int → Bool
  isCIARevision : Int → Bool
  isSIDRevision : Int → Bool

/-- The value of a `bool` converted to `long`. -/
def boolToLong (b : Bool) : Int := if b then 1 else 0

/-- Embedding of `C64::getConfig()`. The local `config` is not initialised
and its member `sid` is never assigned: `uninit` is the value it happens to
hold. The second assertion fails when the two CIAs differ in `timerBBug`. -/
def Machine.getConfig (uninit : SIDConfig) (m : Machine) : Option C64Configuration :=
  let config : C64Configuration := { cia1 := m.cia1, cia2 := m.cia2, vic := m.vic, sid := uninit }
  -- Assure both CIAs are configured equally
  if config.cia1.revision != config.cia1.revision then none
  else if config.cia1.timerBBug != config.cia2.timerBBug then none
  else some config

/-- Embedding of `C64::configure`: the value returned and the machine after
the call. The setters are modelled as assignments to the configuration of the
component (Modelled from the spec: `setRevision`, `setGlueLogic`,
`setTimerBBug` are not part of the sources). -/
def Machine.configure (val : Validity) (uninit : SIDConfig) (option : ConfigOption)
    (value : Int) (m : Machine) : Option (Bool × Machine) :=
  match m.getConfig uninit with
  | none => none
  | some current =>
    match option with
    | ConfigOption.OPT_VIC_REVISION =>
      if !val.isVICRevision value then some (false, m)
      else if current.vic.revision == value then some (true, m)
      else some (true, { m with vic := { m.vic with revision := value } })
    | ConfigOption.OPT_GRAY_DOT_BUG =>
      if boolToLong current.vic.grayDotBug == value then some (true, m)
      else some (true, { m with vic := { m.vic with grayDotBug := value != 0 } })
    | ConfigOption.OPT_GLUE_LOGIC =>
      if !val.isGlueLogic value then some (false, m)
      else if current.vic.glueLogic == value then some (true, m)
      else some (true, { m with vic := { m.vic with glueLogic := value } })
    | ConfigOption.OPT_CIA_REVISION =>
      if !val.isCIARevision value then some (false, m)
      else if m.cia1.revision != m.cia2.revision then none
      else if current.cia1.revision == value then some (true, m)
      else
        let m := { m with cia1 := { m.cia1 with revision := value } }
        some (true, { m with cia2 := { m.cia2 with revision := value } })
    | ConfigOption.OPT_TIMER_B_BUG =>
      if m.cia1.timerBBug != m.cia2.timerBBug then none
      else if boolToLong current.cia1.timerBBug == value then some (true, m)
      else
        let m := { m with cia1 := { m.cia1 with timerBBug := value != 0 } }
        some (true, { m with cia2 := { m.cia2 with timerBBug := value != 0 } })
    | ConfigOption.OPT_SID_REVISION =>
      if !val.isSIDRevision value then some (false, m)
      else if current.sid.revision == value then some (true, m)
      else some (true, { m with sid := { m.sid with revision := value } })
    | ConfigOption.other => none

/-! ## Snapshot of a VIA (`VIA6522.cpp`) -/

/-- The argument `uint8_t **buffer` of the snapshot functions: the memory and
the position `*buffer` in it. -/
structure Buffer where
  mem : Nat → Nat
  ptr : Nat

/-- Modelled from the spec: `write8` stores a byte at the position and
advances the position by one. -/
def write8 (b : Buffer) (x : Nat) : Buffer :=
  ⟨fun a => if a = b.ptr then x % 0x100 else b.mem a, b.ptr + 1⟩

/-- Modelled from the spec: `write16` stores a 16 bit word, high byte first. -/
def write16 (b : Buffer) (x : Nat) : Buffer :=
  write8 (write8 b ((x % 0x10000) >>> 8)) x

/-- Modelled from the spec: `read8` returns the byte at the position and
advances the position by one. -/
def read8 (b : Buffer) : Nat × Buffer := (b.mem b.ptr, ⟨b.mem, b.ptr + 1⟩)

/-- Modelled from the spec: `read16` reads a 16 bit word, high byte first. -/
def read16 (b : Buffer) : Nat × Buffer :=
  let (hi, b) := read8 b
  let (lo, b) := read8 b
  (((hi <<< 8) ||| lo) % 0x10000, b)

/-- Embedding of `VIA6522::stateSize`; `sizeof(io)` is 16. -/
def VIA6522.stateSize : Nat := 13 + 16

/-- Embedding of `VIA6522::saveToBuffer`: the buffer after the call, `none`
when the assertion on the size fails. -/
def VIA6522.saveToBuffer (v : VIA6522) (buffer : Buffer) : Option Buffer :=
  let old := buffer.ptr
  let b := write8 buffer v.ddra
  let b := write8 b v.ddrb
  let b := write8 b v.ora
  let b := write8 b v.orb
  let b := write8 b v.ira
  let b := write8 b v.irb
  let b := write16 b v.t1
  let b := write16 b v.t2
  let b := write8 b v.t1_latch_lo
  let b := write8 b v.t1_latch_hi
  let b := write8 b v.t2_latch_lo
  let b := (List.range 16).foldl (fun b i => write8 b (v.io i)) b
  if b.ptr - old = VIA6522.stateSize then some b else none

/-- Embedding of `VIA6522::loadFromBuffer`: the VIA and the buffer after the
call, `none` when the assertion on the size fails. -/
def VIA6522.loadFromBuffer (v : VIA6522) (buffer : Buffer) : Option (VIA6522 × Buffer) :=
  let old := buffer.ptr
  let (x, b) := read8 buffer
  let v := { v with ddra := x }
  let (x, b) := read8 b
  let v := { v with ddrb := x }
  let (x, b) := read8 b
  let v := { v with ora := x }
  let (x, b) := read8 b
  let v := { v with orb := x }
  let (x, b) := read8 b
  let v := { v with ira := x }
  let (x, b) := read8 b
  let v := { v with irb := x }
  let (x, b) := read16 b
  let v := { v with t1 := x }
  let (x, b) := read16 b
  let v := { v with t2 := x }
  let (x, b) := read8 b
  let v := { v with t1_latch_lo := x }
  let (x, b) := read8 b
  let v := { v with t1_latch_hi := x }
  let (x, b) := read8 b
  let v := { v with t2_latch_lo := x }
  let (v, b) :=
    (List.range 16).foldl
      (fun (p : VIA6522 × Buffer) i =>
        let (x, b) := read8 p.2
        ({ p.1 with io := setIo p.1.io i x }, b))
      (v, b)
  if b.ptr - old = VIA6522.stateSize then some (v, b) else none

/-! ## The read/write logic of the drive (`VC1541.cpp`)

The helpers `readMode`, `CA2`, `overflowEnabled` and the table `cyclesPerBit`
are declared in headers that are not part of the sources; they are parameters
of the embedding. The assertion at the start of `executeByteReady` is the
result `none`. -/

/-- The helpers of the drive logic that the sources do not define:
`VC1541::readMode()` as a function of VIA2, `VIA6522::CA2()`,
`VIA6522::overflowEnabled()` and the table `cyclesPerBit[zone]`. -/
structure DriveLogic where
  readMode : VIA6522 → Bool
  CA2 : VIA6522 → Bool
  overflowEnabled : VIA6522 → Bool
  cyclesPerBit : Nat → Int

/-- The call `readMode()` in the drive `d`. -/
def VC1541.readMode (L : DriveLogic) (d : VC1541) : Bool := L.readMode d.via2

/-- Modelled from the spec: `writeMode()`, the drive is not in read mode. -/
def VC1541.writeMode (L : DriveLogic) (d : VC1541) : Bool := !L.readMode d.via2

/-- Modelled from the spec: `readBitFromHead()`, the bit of the disk at
`(halftrack, bitoffset)`. -/
def VC1541.readBitFromHead (d : VC1541) : Nat :=
  if d.disk.data d.halftrack d.bitoffset then 1 else 0

/-- Modelled from the spec: `writeBitToHead(bit)` stores the bit on the disk
at `(halftrack, bitoffset)`. -/
def VC1541.writeBitToHead (bit : Bool) (d : VC1541) : VC1541 :=
  { d with
    disk := { d.disk with
      data := fun ht pos =>
        if ht = d.halftrack ∧ pos = d.bitoffset then bit else d.disk.data ht pos } }

/-- Modelled from the spec: `rotateDisk()` moves the head to the next bit of
the halftrack and wraps at its length. -/
def VC1541.rotateDisk (d : VC1541) : VC1541 :=
  let d := { d with bitoffset := (d.bitoffset + 1) % 0x10000 }
  if d.bitoffset ≥ d.disk.length d.halftrack then { d with bitoffset := 0 } else d

/-- The value of an `int` stored into an `int16_t`. -/
def wrap16 (x : Int) : Int := (x + 0x8000) % 0x10000 - 0x8000

/-- Embedding of `VC1541::byteReady()`. -/
def VC1541.byteReady (L : DriveLogic) (d : VC1541) : VC1541 :=
  if L.overflowEnabled d.via2 then { d with cpu := { d.cpu with V := true } } else d

/-- Embedding of `VC1541::byteReady(uint8_t byte)`. -/
def VC1541.byteReadyByte (L : DriveLogic) (byte : Nat) (d : VC1541) : VC1541 :=
  if L.CA2 d.via2 then
    let d := { d with via2 := { d.via2 with ira := byte } }
    d.byteReady L
  else d

/-- Embedding of `VC1541::executeByteReady`; `none` when the assertion
`bitoffset % 8 == 0` fails. The argument of `byteReady` is converted to
`uint8_t`. -/
def VC1541.executeByteReady (L : DriveLogic) (d : VC1541) : Option VC1541 :=
  if d.bitoffset % 8 != 0 then none
  else
    let d := if d.readMode L && !d.sync then d.byteReadyByte L (d.read_shiftreg % 0x100) else d
    let d :=
      if d.writeMode L then
        let d := { d with write_shiftreg := d.via2.ora }
        d.byteReady L
      else d
    some d

/-- The statements of `VC1541::executeBitReady` up to and including
`rotateDisk()`. -/
def VC1541.executeBitReady.head (L : DriveLogic) (d : VC1541) : VC1541 :=
  let d := { d with read_shiftreg := (d.read_shiftreg <<< 1) % 0x10000 }
  let d :=
    if d.readMode L then
      -- Read mode
      let d := { d with read_shiftreg := d.read_shiftreg ||| d.readBitFromHead }
      -- Set SYNC signal
      if (d.read_shiftreg &&& 0x3FF) == 0x3FF then { d with sync := true }
      else
        -- Cleared on falling edge of SYNC
        let d := if d.sync then { d with byteReadyCounter := 0 } else d
        { d with sync := false }
    else
      -- Write mode
      let d := d.writeBitToHead ((d.write_shiftreg &&& 0x80) != 0)
      { d with sync := false }
  let d := { d with write_shiftreg := (d.write_shiftreg <<< 1) % 0x100 }
  d.rotateDisk

/-- Embedding of `VC1541::executeBitReady`; `none` when the assertion of
`executeByteReady` fails. -/
def VC1541.executeBitReady (L : DriveLogic) (d : VC1541) : Option VC1541 :=
  let d := VC1541.executeBitReady.head L d
  -- Perform action if byte is complete
  let old := d.byteReadyCounter
  let d := { d with byteReadyCounter := (d.byteReadyCounter + 1) % 0x100 }
  let r :=
    if old == 7 then (d.executeByteReady L).map fun d => { d with byteReadyCounter := 0 }
    else some d
  r.map fun d => { d with bitReadyTimer := wrap16 (d.bitReadyTimer + L.cyclesPerBit d.zone) }

/-! ## Single precision arithmetic of the head movement

`moveHeadUp` and `moveHeadDown` compute the new bit offset in `float`: the
IEEE 754 binary32 format with 24 significant bits, every operation rounded to
nearest, ties to even. The operands are 16 bit unsigned integers, which
binary32 holds exactly. A positive binary32 value below `2 ^ 24` is written
`mant / 2 ^ shift` with `2 ^ 23 ≤ mant ≤ 2 ^ 24`. -/

/-- The quotient `n / d` rounded to the nearest natural number, ties to the
even one. -/
def roundHalfEven (n d : Nat) : Nat :=
  let q := n / d
  let r := n % d
  if 2 * r < d then q
  else if d < 2 * r then q + 1
  else if q % 2 = 0 then q else q + 1

/-- A non-negative binary32 value below `2 ^ 24`: the number
`mant / 2 ^ shift`. -/
structure F32 where
  mant : Nat
  shift : Nat
  deriving DecidableEq

/-- The binary32 value nearest to `num / den` (ties to even), for
`2 ^ (-40) ≤ num / den < 2 ^ 24` or `num = 0`: the quotient is scaled by the
power of two that brings it into `[2 ^ 23, 2 ^ 24)` and rounded there. -/
def F32.round (num den : Nat) : F32 :=
  if num = 0 then ⟨0, 0⟩
  else
    let s := Nat.findGreatest (fun s => num * 2 ^ s < 2 ^ 24 * den) 64
    ⟨roundHalfEven (num * 2 ^ s) den, s⟩

/-- Single precision `(float)a / (float)b` of two integers below `2 ^ 24`. -/
def F32.div (a b : Nat) : F32 := F32.round a b

/-- Single precision product of a binary32 value and an integer below
`2 ^ 24`. -/
def F32.mul (p : F32) (c : Nat) : F32 := F32.round (p.mant * c) (2 ^ p.shift)

/-- Conversion of a binary32 value to an unsigned integer: the fraction is
cut off. -/
def F32.toNat (p : F32) : Nat := p.mant / 2 ^ p.shift

/-- The value that `moveHeadUp` and `moveHeadDown` assign to `bitoffset`
before the byte alignment: `position * length[new]` with
`position = (float)bitoffset / (float)length[old]`. -/
def scaleF32 (offset lengthOld lengthNew : Nat) : Nat :=
  F32.toNat (F32.mul (F32.div offset lengthOld) lengthNew)

/-! ## Standard models (`C64.cpp`, `C64Types.h`)

`getModel` and `setModel` read and write the configuration of the components
through getters and setters whose bodies are not part of the sources
(Modelled from the spec: a setter assigns the field its getter returns).
`suspend` and `resume` leave the configuration alone. -/

/-- The enumeration `C64_MODEL` of `C64Types.h`; `C64.cpp` writes `C64_CUSTOM`
for its last value. -/
inductive C64Model where
  | C64_MODEL_PAL
  | C64_MODEL_PAL_II
  | C64_MODEL_PAL_OLD
  | C64_MODEL_NTSC
  | C64_MODEL_NTSC_II
  | C64_MODEL_NTSC_OLD
  | C64_MODEL_CUSTOM
  deriving DecidableEq

/-- The value of an enumerator of `C64_MODEL`. -/
def C64Model.value : C64Model → Nat
  | C64Model.C64_MODEL_PAL => 0
  | C64Model.C64_MODEL_PAL_II => 1
  | C64Model.C64_MODEL_PAL_OLD => 2
  | C64Model.C64_MODEL_NTSC => 3
  | C64Model.C64_MODEL_NTSC_II => 4
  | C64Model.C64_MODEL_NTSC_OLD => 5
  | C64Model.C64_MODEL_CUSTOM => 6

/-- The cast `(C64Model)i` of a table index. -/
def C64Model.ofValue : Nat → C64Model
  | 0 => C64Model.C64_MODEL_PAL
  | 1 => C64Model.C64_MODEL_PAL_II
  | 2 => C64Model.C64_MODEL_PAL_OLD
  | 3 => C64Model.C64_MODEL_NTSC
  | 4 => C64Model.C64_MODEL_NTSC_II
  | 5 => C64Model.C64_MODEL_NTSC_OLD
  | _ => C64Model.C64_MODEL_CUSTOM

/-- The enumerators that the table `configurations` names. The enumerations
`VICRevision`, `CIARevision`, `SIDRevision`, `GlueLogic` and `RamPattern` are
declared in headers that are not part of the sources, so the values of their
enumerators are parameters. -/
structure Enumerators where
  VICREV_PAL_6569_R1 : Int
  VICREV_PAL_6569_R3 : Int
  VICREV_PAL_8565 : Int
  VICREV_NTSC_6567_R56A : Int
  VICREV_NTSC_6567 : Int
  VICREV_NTSC_8562 : Int
  MOS_6526 : Int
  MOS_8521 : Int
  MOS_6581 : Int
  MOS_8580 : Int
  GLUE_LOGIC_DISCRETE : Int
  GLUE_LOGIC_IC : Int
  RAM_PATTERN_C64 : Int
  RAM_PATTERN_C64C : Int

/-- The type `C64ConfigurationDeprecated` of `C64Types.h`. -/
structure C64ConfigurationDeprecated where
  vic : Int
  grayDotBug : Bool
  cia : Int
  timerBBug : Bool
  sid : Int
  sidFilter : Bool
  glue : Int
  pattern : Int
  deriving DecidableEq

/-- The table `configurations` of `C64Types.h`: the configurations of the
standard C64 models. -/
def configurations (K : Enumerators) : List C64ConfigurationDeprecated :=
  [ -- C64 PAL
    ⟨K.VICREV_PAL_6569_R3, false, K.MOS_6526, true, K.MOS_6581, true, K.GLUE_LOGIC_DISCRETE,
      K.RAM_PATTERN_C64⟩,
    -- C64_II_PAL
    ⟨K.VICREV_PAL_8565, true, K.MOS_8521, false, K.MOS_8580, true, K.GLUE_LOGIC_IC,
      K.RAM_PATTERN_C64C⟩,
    -- C64_OLD_PAL
    ⟨K.VICREV_PAL_6569_R1, false, K.MOS_6526, true, K.MOS_6581, true, K.GLUE_LOGIC_DISCRETE,
      K.RAM_PATTERN_C64⟩,
    -- C64_NTSC
    ⟨K.VICREV_NTSC_6567, false, K.MOS_6526, false, K.MOS_6581, true, K.GLUE_LOGIC_DISCRETE,
      K.RAM_PATTERN_C64⟩,
    -- C64_II_NTSC
    ⟨K.VICREV_NTSC_8562, true, K.MOS_8521, true, K.MOS_8580, true, K.GLUE_LOGIC_IC,
      K.RAM_PATTERN_C64C⟩,
    -- C64_OLD_NTSC
    ⟨K.VICREV_NTSC_6567_R56A, false, K.MOS_6526, false, K.MOS_6581, true, K.GLUE_LOGIC_DISCRETE,
      K.RAM_PATTERN_C64⟩ ]

/-- The machine as far as `getModel` and `setModel` read and write it: the
configuration of `vic`, `cia1`, `cia2` and `sid`, the audio filter switch of
the SID and the RAM init pattern of `mem`. -/
structure ConfiguredMachine where
  components : Machine
  audioFilter : Bool
  ramInitPattern : Int
  deriving DecidableEq

/-- The condition of the `if` in the loop of `C64::getModel`, for the table
entry `c`. -/
def getModel.sameAs (c : C64ConfigurationDeprecated) (m : ConfiguredMachine) : Bool :=
  m.components.vic.revision == c.vic &&
  m.components.vic.grayDotBug == c.grayDotBug &&
  m.components.cia1.revision == c.cia &&
  m.components.cia1.timerBBug == c.timerBBug &&
  m.components.sid.revision == c.sid &&
  m.components.vic.glueLogic == c.glue &&
  m.ramInitPattern == c.pattern

/-- The loop of `C64::getModel` over the entries that remain, `i` being the
index of the first of them. -/
def getModel.loop (m : ConfiguredMachine) : List C64ConfigurationDeprecated → Nat → C64Model
  | [], _ => C64Model.C64_MODEL_CUSTOM
  | c :: cs, i => if getModel.sameAs c m then C64Model.ofValue i else getModel.loop m cs (i + 1)

/-- Embedding of `C64::getModel`. -/
def getModel (K : Enumerators) (m : ConfiguredMachine) : C64Model :=
  -- Look for known configurations
  getModel.loop m (configurations K) 0

/-- Embedding of `C64::setModel`. -/
def setModel (K : Enumerators) (model : C64Model) (m : ConfiguredMachine) : ConfiguredMachine :=
  if model != C64Model.C64_MODEL_CUSTOM then
    match (configurations K)[model.value]? with
    | none => m
    | some c =>
      let s := m.components
      let s := { s with vic := { s.vic with revision := c.vic } }
      let s := { s with vic := { s.vic with grayDotBug := c.grayDotBug } }
      let s := { s with cia1 := { s.cia1 with revision := c.cia } }
      let s := { s with cia2 := { s.cia2 with revision := c.cia } }
      let s := { s with cia1 := { s.cia1 with timerBBug := c.timerBBug } }
      let s := { s with cia2 := { s.cia2 with timerBBug := c.timerBBug } }
      let s := { s with sid := { s.sid with revision := c.sid } }
      let m := { m with components := s, audioFilter := c.sidFilter }
      let m := { m with components := { m.components with vic := { m.components.vic with glueLogic := c.glue } } }
      { m with ramInitPattern := c.pattern }
  else m

/-! ## Cycle-wise execution (`C64.cpp`) -/

/-- Embedding of `C64::executeOneCycle`. `isLastCycleInRasterline` is the
function of that name of the VIC; it is declared in `VICII.h` ("returns true
if the end of the rasterline has been reached") and its body is not part of
the sources, so it is a parameter. -/
def C64.executeOneCycle (t : Timing) (isLastCycleInRasterline : Nat → Bool) (phi2 : Phi2)
    (m : C64) : C64 × Bool :=
  let isFirstCycle := m.rasterCycle == 1
  let isLastCycle := isLastCycleInRasterline m.rasterCycle
  let m := if isFirstCycle then beginRasterLine m else m
  let r := _executeOneCycle phi2 m
  let m := if isLastCycle then endRasterLine t r.1 else r.1
  (m, r.2)

/-! ## Vocabulary of the theorems -/

/-- The machine after `n` successive calls of `_executeOneCycle`. -/
def cyclesN (phi2 : Phi2) : Nat → C64 → C64
  | 0, m => m
  | n + 1, m => cyclesN phi2 n (_executeOneCycle phi2 m).1

/-- The interrupt mask after a write of `v` to register 0x0D. -/
def newIMR (v : Nat) (s : CIA) : Nat :=
  if v.testBit 7 then s.IMR ||| (v &&& 0x1F) else s.IMR &&& not8 (v &&& 0x1F)

/-- Surroundings in which no key is pressed, no joystick is moved and the IEC
lines are released. -/
def noPins : Pins := ⟨0xFF, 0xFF, fun _ => 0xFF, fun _ => 0xFF, true, true⟩

/-- A chip programmed with timer A latch 2, the timer A interrupt enabled
(0x81 written to register 0x0D) and the timer started with force load (0x11
written to register 0x0E), whose ICR is read and which then runs for two
cycles. Timer A underflows in the second of them. -/
def pendingAfterRead : CIA :=
  run (fun k => k) 2
    (peek Chip.cia1 noPins 0x0D
      (poke 0x0E 0x11 (poke 0x0D 0x81 (poke 0x05 0 (poke 0x04 2 reset))))).2

/-- Section "Timer A", first statement: the decrement of the counter. -/
def timerACount (s : CIA) : CIA :=
  if flag s.delay CountA3 then { s with counterA := dec16 s.counterA } else s

/-- Section "Timer A", the block `if (timerAOutput)`. -/
def timerAUnderflow (timerAOutput : Bool) (s : CIA) : CIA :=
  if timerAOutput then
    let s :=
      if flag (s.delay ||| s.feed) OneShotA0 then
        let s := { s with CRA := s.CRA &&& not8 0x01 }
        let s := { s with delay := s.delay &&& not64 (CountA2 ||| CountA1 ||| CountA0) }
        { s with feed := s.feed &&& not64 CountA0 }
      else s
    let s :=
      if (s.CRB &&& 0x61) == 0x41 || ((s.CRB &&& 0x61) == 0x61 && s.CNT) then
        { s with delay := s.delay ||| CountB1 }
      else s
    { s with delay := s.delay ||| LoadA1 }
  else s

/-- Section "Timer A", last statement: the load of the counter. -/
def timerALoad (s : CIA) : CIA := if flag s.delay LoadA1 then reloadTimerA s else s

/-- The state of an `executeOneCycle` call after its section "Timer A". -/
def afterTimerA (s : CIA) : CIA := (executeOneCycle.timerA (wakeUp s)).1

/-- The state of an `executeOneCycle` call after its section "Timer B". -/
def afterTimerB (s : CIA) : CIA := (executeOneCycle.timerB (afterTimerA s)).1

/-- The state of an `executeOneCycle` call before its section "Interrupt
logic". -/
def beforeInterrupts (s : CIA) : CIA :=
  executeOneCycle.writePB
    (executeOneCycle.outputPB7 (timerBOutput s)
      (executeOneCycle.outputPB6 (timerAOutput s)
        (executeOneCycle.serial (timerAOutput s) (afterTimerB s))))

/-- The state of an `executeOneCycle` call just before the statement that
shifts `delay`. -/
def beforeShift (s : CIA) : CIA :=
  executeOneCycle.interruptLine
    (executeOneCycle.serialInterrupt
      (executeOneCycle.todInterrupt
        (executeOneCycle.timerInterrupt (timerAOutput s) (timerBOutput s)
          (beforeInterrupts s))))

/-- An interrupt is raised in the `executeOneCycle` call made in state `s`:
one of the four sources fires while its mask bit is set. -/
def raises (s : CIA) : Bool :=
  (timerAOutput s && flag s.IMR 0x01) || (timerBOutput s && flag s.IMR 0x02) ||
    (flag s.delay TODInt0 && flag s.IMR 0x04) || (flag s.delay SerInt2 && flag s.IMR 0x08)

/-- A chip with both timers programmed with latch 2 and started together,
whose ICR is read after four cycles: in the state after the read `ReadIcr0`
is set and both timers underflow in the next cycle. -/
def readAtUnderflow : CIA :=
  (peek Chip.cia1 noPins 0x0D
    (run (fun k => k) 4
      (poke 0x0F 0x11 (poke 0x0E 0x11 (poke 0x0D 0x83
        (poke 0x07 0 (poke 0x06 2 (poke 0x05 0 (poke 0x04 2 reset))))))))).2

/-- A chip with timer B programmed with latch 2, its interrupt enabled (0x82
written to register 0x0D) and started; the ICR is read after three cycles and
one more cycle runs. Timer B underflows in the next cycle. -/
def timerBAboutToUnderflow : CIA :=
  executeOneCycle 3
    (peek Chip.cia2 noPins 0x0D
      (run (fun k => k) 3 (poke 0x0F 0x11 (poke 0x0D 0x82 (poke 0x07 0 (poke 0x06 2 reset)))))).2

/-- An interrupt is raised in the `executeOneCycle` call made in state `s` by
a source other than timer B. -/
def raisesWithoutTimerB (s : CIA) : Bool :=
  (timerAOutput s && flag s.IMR 0x01) ||
    (flag s.delay TODInt0 && flag s.IMR 0x04) || (flag s.delay SerInt2 && flag s.IMR 0x08)

/-- Timer A is halted: it is not fed, no count event is in the pipeline, and
`feed` holds stage-0 flags only. -/
def TimerAHalted (s : CIA) : Prop :=
  s.feed &&& DelayMask = 0 ∧ s.feed.testBit 0 = false ∧ s.delay.testBit 0 = false ∧
    s.delay.testBit 1 = false ∧ s.delay.testBit 2 = false ∧ s.delay.testBit 3 = false

/-- Timer A runs freely on system cycles with latch `N`, and `j` cycles have
been executed since the cycle of its last underflow ended (`j = 0` right
after the reload, when the count event of the next cycle is suppressed). -/
def TimerARunning (N j : Nat) (s : CIA) : Prop :=
  s.idleCounter = 0 ∧ s.latchA = N ∧ s.feed &&& DelayMask = 0 ∧ s.feed.testBit 0 = true ∧
    s.feed.testBit 20 = false ∧ s.delay.testBit 20 = false ∧ s.delay.testBit 0 = true ∧
    s.delay.testBit 1 = true ∧ s.delay.testBit 2 = true ∧ s.delay.testBit 3 = decide (j ≠ 0) ∧
    s.delay.testBit 8 = false ∧ s.delay.testBit 9 = false ∧ s.feed.testBit 8 = false ∧
    s.counterA = (if j = 0 then N else N - (j - 1))

/-- The scenario S2 of the spec: timer A latch 0x4025 (`TAlo = 0x25`,
`TAhi = 0x40`), `CRA = 0x11`, then one cycle. Timer A underflows in the next
cycle. -/
def timerAStarted : CIA :=
  run (fun k => k) 1 (poke 0x0E 0x11 (poke 0x05 0x40 (poke 0x04 0x25 reset)))

/-- Timer A latch 2, started in one shot mode with force load (`CRA = 0x19`),
then one cycle. Timer A underflows in the next cycle. -/
def oneShotStarted : CIA :=
  run (fun k => k) 1 (poke 0x0E 0x19 (poke 0x05 0 (poke 0x04 2 reset)))

/-- Fields that a section of the cycle leaves alone, and the bits of `delay`
and `feed` it may touch (`Kd`, `Kf`). -/
structure Quiet (Kd Kf : List Nat) (s t : CIA) : Prop where
  latchA : t.latchA = s.latchA
  IMR : t.IMR = s.IMR
  idleCounter : t.idleCounter = s.idleCounter
  delay : ∀ i, i < 64 → i ∉ Kd → t.delay.testBit i = s.delay.testBit i
  feed : ∀ i, i < 64 → i ∉ Kf → t.feed.testBit i = s.feed.testBit i

/-- The arbiter skips a cycle of a sleeping chip (`cia1.idleCounter++` in
`C64::_executeOneCycle`). -/
def skipCycle (s : CIA) : CIA := { s with idleCounter := (s.idleCounter + 1) % 2 ^ 64 }

/-- One cycle of a CIA as the arbiter clocks it:
`if (cycle >= cia1.wakeUpCycle) cia1.executeOneCycle(); else cia1.idleCounter++;`. -/
def clockCycle (cycle : Nat) (s : CIA) : CIA :=
  if cycle ≥ s.wakeUpCycle then executeOneCycle cycle s else skipCycle s

/-- The chip after `n` cycles clocked by the arbiter, the first one in cycle `c`. -/
def clockRun : Nat → Nat → CIA → CIA
  | _, 0, s => s
  | c, n + 1, s => clockRun (c + 1) n (clockCycle c s)

/-- Timer A latch 0x4025, started with force load (`CRA = 0x11`), then sixteen
cycles clocked by the arbiter: the chip fell asleep after twelve cycles and
has been skipped four times. -/
def asleepWithTimerA : CIA :=
  clockRun 0 16 (poke 0x0E 0x11 (poke 0x05 0x40 (poke 0x04 0x25 reset)))

/-- The state that `wakeUp` leaves: the idle cycles are subtracted from the
counters that are fed, the idle counter and the wake up cycle are zero. -/
def awake (s : CIA) : CIA :=
  { s with
    counterA :=
      if s.idleCounter != 0 && flag s.feed CountA0 then sub16 s.counterA s.idleCounter
      else s.counterA
    counterB :=
      if s.idleCounter != 0 && flag s.feed CountB0 then sub16 s.counterB s.idleCounter
      else s.counterB
    idleCounter := 0
    wakeUpCycle := 0 }

/-- The states of a CIA reachable from reset by register reads, register
writes of bytes, executed cycles and skipped cycles. -/
inductive Reachable : CIA → Prop
  | reset : Reachable reset
  | peek (chip : Chip) (pins : Pins) (addr : Nat) {s : CIA} :
      Reachable s → Reachable (peek chip pins addr s).2
  | poke (addr value : Nat) {s : CIA} : value < 256 → Reachable s → Reachable (poke addr value s)
  | cycle (c : Nat) {s : CIA} : Reachable s → Reachable (executeOneCycle c s)
  | skip {s : CIA} : Reachable s → Reachable (skipCycle s)

/-- The port fields of `t` are those of `s`. -/
structure SamePorts (s t : CIA) : Prop where
  PA : t.PA = s.PA
  PB : t.PB = s.PB
  PALatch : t.PALatch = s.PALatch
  PBLatch : t.PBLatch = s.PBLatch
  DDRA : t.DDRA = s.DDRA
  DDRB : t.DDRB = s.DDRB
  PB67TimerMode : t.PB67TimerMode = s.PB67TimerMode
  PB67TimerOut : t.PB67TimerOut = s.PB67TimerOut

/-- The latches, the direction registers and the timer outputs are bytes. -/
structure PortBytes (s : CIA) : Prop where
  PALatch : s.PALatch < 256
  PBLatch : s.PBLatch < 256
  DDRA : s.DDRA < 256
  DDRB : s.DDRB < 256
  PB67TimerMode : s.PB67TimerMode < 256
  PB67TimerOut : s.PB67TimerOut < 256

/-- The pins `PA` and `PB` show what the latches, the direction registers and
the timer outputs determine. -/
structure PortsConsistent (s : CIA) : Prop where
  bytes : PortBytes s
  PA : s.PA = s.PALatch ||| not8 s.DDRA
  PB : s.PB = portB s

/-- The statements "Start or stop the timer" of the case `CIA_CONTROL_REG_A`
of `CIA::poke`. -/
def pokeControlRegA.start (value : Nat) (s : CIA) : CIA :=
  if flag value 0x01 then
    let s := { s with delay := s.delay ||| (CountA1 ||| CountA0) }
    let s := { s with feed := s.feed ||| CountA0 }
    if !flag s.CRA 0x01 then { s with PB67Toggle := s.PB67Toggle ||| 0x40 } else s
  else
    let s := { s with delay := s.delay &&& not64 (CountA1 ||| CountA0) }
    { s with feed := s.feed &&& not64 CountA0 }

/-- The statements "Indicate timer underflow on port B bit 6" of the case
`CIA_CONTROL_REG_A` of `CIA::poke`. -/
def pokeControlRegA.output (value : Nat) (s : CIA) : CIA :=
  if flag value 0x02 then
    let s := { s with PB67TimerMode := s.PB67TimerMode ||| 0x40 }
    if !flag value 0x04 then
      if (s.delay &&& PB7Low1) == 0 then
        { s with PB67TimerOut := s.PB67TimerOut &&& not8 0x40 }
      else
        { s with PB67TimerOut := s.PB67TimerOut ||| 0x40 }
    else
      { s with PB67TimerOut := (s.PB67TimerOut &&& not8 0x40) ||| (s.PB67Toggle &&& 0x40) }
  else
    { s with PB67TimerMode := s.PB67TimerMode &&& not8 0x40 }

/-- The statements from "One shot mode" to "TOD speed" of the case
`CIA_CONTROL_REG_A` of `CIA::poke`. -/
def pokeControlRegA.mode (value : Nat) (s : CIA) : CIA :=
  let s :=
    if flag value 0x08 then { s with feed := s.feed ||| OneShotA0 }
    else { s with feed := s.feed &&& not64 OneShotA0 }
  let s := if flag value 0x10 then { s with delay := s.delay ||| LoadA0 } else s
  let s :=
    if flag value 0x20 then
      let s := { s with delay := s.delay &&& not64 (CountA1 ||| CountA0) }
      { s with feed := s.feed &&& not64 CountA0 }
    else s
  let s :=
    if flag (value ^^^ s.CRA) 0x40 then
      let s := { s with delay := s.delay &&& not64 (SerLoad0 ||| SerLoad1) }
      let s := { s with feed := s.feed &&& not64 SerLoad0 }
      let s := { s with serCounter := 0 }
      let s := { s with delay := s.delay &&& not64 (SerClk0 ||| SerClk1 ||| SerClk2) }
      { s with feed := s.feed &&& not64 SerClk0 }
    else s
  { s with tod := { s.tod with hz := if flag value 0x80 then 5 else 6 } }

/-- The statements "Start or stop the timer" of the case `CIA_CONTROL_REG_B`
of `CIA::poke`. -/
def pokeControlRegB.start (value : Nat) (s : CIA) : CIA :=
  if flag value 0x01 then
    let s := { s with delay := s.delay ||| (CountB1 ||| CountB0) }
    let s := { s with feed := s.feed ||| CountB0 }
    if !flag s.CRB 0x01 then { s with PB67Toggle := s.PB67Toggle ||| 0x80 } else s
  else
    let s := { s with delay := s.delay &&& not64 (CountB1 ||| CountB0) }
    { s with feed := s.feed &&& not64 CountB0 }

/-- The statements "Indicate timer underflow on port B bit 7" of the case
`CIA_CONTROL_REG_B` of `CIA::poke`. -/
def pokeControlRegB.output (value : Nat) (s : CIA) : CIA :=
  if flag value 0x02 then
    let s := { s with PB67TimerMode := s.PB67TimerMode ||| 0x80 }
    if (value &&& 0x04) == 0 then
      if (s.delay &&& PB7Low1) == 0 then
        { s with PB67TimerOut := s.PB67TimerOut &&& not8 0x80 }
      else
        { s with PB67TimerOut := s.PB67TimerOut ||| 0x80 }
    else
      { s with PB67TimerOut := (s.PB67TimerOut &&& not8 0x80) ||| (s.PB67Toggle &&& 0x80) }
  else
    { s with PB67TimerMode := s.PB67TimerMode &&& not8 0x80 }

/-- The statements from "One shot mode" to the count source of the case
`CIA_CONTROL_REG_B` of `CIA::poke`. -/
def pokeControlRegB.mode (value : Nat) (s : CIA) : CIA :=
  let s :=
    if flag value 0x08 then { s with feed := s.feed ||| OneShotB0 }
    else { s with feed := s.feed &&& not64 OneShotB0 }
  let s := if flag value 0x10 then { s with delay := s.delay ||| LoadB0 } else s
  if flag value 0x60 then
    let s := { s with delay := s.delay &&& not64 (CountB1 ||| CountB0) }
    { s with feed := s.feed &&& not64 CountB0 }
  else s

/-- From `s` to `t` the port fields are kept but for the pins `PB` and the
timer outputs, which remain bytes. -/
structure PortsKept (s t : CIA) : Prop where
  PA : t.PA = s.PA
  PALatch : t.PALatch = s.PALatch
  PBLatch : t.PBLatch = s.PBLatch
  DDRA : t.DDRA = s.DDRA
  DDRB : t.DDRB = s.DDRB
  PB67TimerMode : s.PB67TimerMode < 256 → t.PB67TimerMode < 256
  PB67TimerOut : s.PB67TimerOut < 256 → t.PB67TimerOut < 256

/-- A chip whose port A is programmed after reset: 0xA5 is written to the
data register 0x00, then 0x0F to the direction register 0x02. -/
def portAProgrammed : CIA := poke 0x02 0x0F (poke 0x00 0xA5 reset)

/-- A disk on which every halftrack holds 7692 zero bits. -/
def blankDisk : Disk := ⟨fun _ => 7692, fun _ _ => false⟩

/-- A drive with a blank disk, just reset. -/
def freshDrive : VC1541 :=
  VC1541.resetDrive
    { via1 := VIA6522.reset, via2 := VIA6522.reset, cpu := DriveCPU.reset, disk := blankDisk,
      bitAccuracy := true, rotating := false, redLED := false, diskInserted := true,
      writeProtected := false, bitReadyTimer := 0, byteReadyCounter := 0, halftrack := 41,
      bitoffset := 0, zone := 0, read_shiftreg := 0, write_shiftreg := 0, sync := false }

/-- A write to register `addr` of the VIA `w` of the drive: `VIA1::poke` or
`VIA2::poke`. -/
def pokeVia (scale : Nat → Nat → Nat → Nat) (w : ViaId) (addr value : Nat) (d : VC1541) :
    Option VC1541 :=
  match w with
  | ViaId.via1 => VIA1.poke addr value d
  | ViaId.via2 => VIA2.poke scale addr value d

/-- A read of register `addr` of the VIA `w` of the drive: `VIA1::peek` or
`VIA2::peek`. -/
def peekVia (iec : IEC) (w : ViaId) (addr : Nat) (d : VC1541) : Option (Nat × VC1541) :=
  match w with
  | ViaId.via1 => VIA1.peek iec addr d
  | ViaId.via2 => VIA2.peek addr d

/-- The call `executeTimer1` of the VIA `w`. -/
def executeTimer1 (w : ViaId) (d : VC1541) : VC1541 :=
  match w with
  | ViaId.via1 => VIA1.executeTimer1 d
  | ViaId.via2 => VIA2.executeTimer1 d

/-- The call `executeTimer2` of the VIA `w`. -/
def executeTimer2 (w : ViaId) (d : VC1541) : VC1541 :=
  match w with
  | ViaId.via1 => VIA1.executeTimer2 d
  | ViaId.via2 => VIA2.executeTimer2 d

/-- Exact rescaling of a bit offset, `offset * length_new / length_old`, used
where a concrete head move is evaluated. -/
def exactScale (offset lengthOld lengthNew : Nat) : Nat := offset * lengthNew / lengthOld

/-- The fresh drive after the VIA `w` got timer 1 loaded with 5 (registers 4
and 5) and timer 2 loaded with 1 (registers 8 and 9). -/
def timersLoaded (w : ViaId) : Option VC1541 :=
  (((pokeVia exactScale w 0x4 5 freshDrive).bind (pokeVia exactScale w 0x5 0)).bind
    (pokeVia exactScale w 0x8 1)).bind (pokeVia exactScale w 0x9 0)

/-- The drive states reachable from `resetDrive` by register writes of
bytes, register reads, timer events of both VIAs and ATN interrupts. -/
inductive DriveReachable (scale : Nat → Nat → Nat → Nat) : VC1541 → Prop
  | reset (d : VC1541) : DriveReachable scale d.resetDrive
  | poke (w : ViaId) (addr value : Nat) {d e : VC1541} :
      value < 256 → DriveReachable scale d → pokeVia scale w addr value d = some e →
      DriveReachable scale e
  | peek (iec : IEC) (w : ViaId) (addr : Nat) {d e : VC1541} {r : Nat} :
      DriveReachable scale d → peekVia iec w addr d = some (r, e) → DriveReachable scale e
  | timer1 (w : ViaId) {d : VC1541} : DriveReachable scale d → DriveReachable scale (executeTimer1 w d)
  | timer2 (w : ViaId) {d : VC1541} : DriveReachable scale d → DriveReachable scale (executeTimer2 w d)
  | atn {d : VC1541} : DriveReachable scale d → DriveReachable scale d.simulateAtnInterrupt

/-- Bit 7 of the interrupt flag register `io[0x0D]` is clear in both VIAs. -/
def IfrOk (d : VC1541) : Prop := d.via1.io 0x0D < 0x80 ∧ d.via2.io 0x0D < 0x80

/-- The fresh drive after timer 1 of VIA1 was loaded with 1 (registers 4 and
5) while its interrupt enable register is clear. -/
def timer1Armed : VC1541 :=
  (((pokeVia exactScale ViaId.via1 0x4 1 freshDrive).bind
    (pokeVia exactScale ViaId.via1 0x5 0)).getD freshDrive)

/-- The drive `timer1Armed` after 0xC0 was written to the interrupt enable
register of VIA2 (timer 1 interrupt enabled) and timer 1 of VIA2 was loaded
with 1. -/
def timer1Enabled : VC1541 :=
  ((((pokeVia exactScale ViaId.via2 0xE 0xC0 timer1Armed).bind
    (pokeVia exactScale ViaId.via2 0x4 1)).bind
    (pokeVia exactScale ViaId.via2 0x5 0)).getD freshDrive)

/-- The drive `timer1Enabled` after one timer 1 event in each VIA: both timers
have timed out, so the timer 1 flag (bit 6 of `io[0x0D]`) is set in both VIAs;
the flag is enabled in VIA2 (`io[0x0E] = 0x40`) and not in VIA1
(`io[0x0E] = 0`). -/
def timer1Expired : VC1541 :=
  executeTimer1 ViaId.via2 (executeTimer1 ViaId.via1 timer1Enabled)

/-- A build with version 4.1.0, used where the version test is evaluated. -/
def version410 : Version := ⟨4, 1, 0⟩

/-- The bytes of a snapshot header with version 4.0.0 behind the magic bytes. -/
def header400 : Nat → Nat := fun i => if i = 4 then 4 else 0

/-- Validity predicates that accept the values 0 to 5 as VIC revisions and
the values 0 and 1 as glue logic, CIA revision and SID revision. -/
def sampleValidity : Validity :=
  ⟨fun v => decide (0 ≤ v ∧ v ≤ 5), fun v => decide (0 ≤ v ∧ v ≤ 1),
   fun v => decide (0 ≤ v ∧ v ≤ 1), fun v => decide (0 ≤ v ∧ v ≤ 1)⟩

/-- A machine whose components all have revision 0 and no bug switched on. -/
def sampleMachine : Machine := ⟨⟨0, false, 0⟩, ⟨0, false⟩, ⟨0, false⟩, ⟨0⟩⟩

/-- The fields of a VIA hold what their C types can hold: bytes, and 16 bit
words for the two timers. -/
structure VIA6522.WellTyped (v : VIA6522) : Prop where
  ddra : v.ddra < 0x100
  ddrb : v.ddrb < 0x100
  ora : v.ora < 0x100
  orb : v.orb < 0x100
  ira : v.ira < 0x100
  irb : v.irb < 0x100
  t1 : v.t1 < 0x10000
  t2 : v.t2 < 0x10000
  t1_latch_lo : v.t1_latch_lo < 0x100
  t1_latch_hi : v.t1_latch_hi < 0x100
  t2_latch_lo : v.t2_latch_lo < 0x100
  io : ∀ i, i < 16 → v.io i < 0x100

/-- An empty buffer that starts at address 100. -/
def emptyBuffer : Buffer := ⟨fun _ => 0, 100⟩

/-- The buffer after the bytes `xs` are written one after the other. -/
def writeBytes (b : Buffer) (xs : List Nat) : Buffer := xs.foldl write8 b

/-- The bytes that `VIA6522::saveToBuffer` writes, in order. -/
def VIA6522.bytes (v : VIA6522) : List Nat :=
  [v.ddra, v.ddrb, v.ora, v.orb, v.ira, v.irb, (v.t1 % 0x10000) >>> 8, v.t1,
    (v.t2 % 0x10000) >>> 8, v.t2, v.t1_latch_lo, v.t1_latch_hi, v.t2_latch_lo]
  ++ (List.range 16).map v.io

/-- The VIA that `VIA6522::loadFromBuffer` builds from the 29 bytes at
position `p` of the memory `m`; `v` supplies what the function does not
read. -/
def VIA6522.loaded (v : VIA6522) (m : Nat → Nat) (p : Nat) : VIA6522 :=
  { v with
    ddra := m p
    ddrb := m (p + 1)
    ora := m (p + 2)
    orb := m (p + 3)
    ira := m (p + 4)
    irb := m (p + 5)
    t1 := ((m (p + 6) <<< 8) ||| m (p + 7)) % 0x10000
    t2 := ((m (p + 8) <<< 8) ||| m (p + 9)) % 0x10000
    t1_latch_lo := m (p + 10)
    t1_latch_hi := m (p + 11)
    t2_latch_lo := m (p + 12)
    io := fun i => if i < 16 then m (p + 13 + i) else v.io i }

/-- A VIA with timer 1 at 0x1234, port B at 0xA5 and `io[i] = i + 1`. -/
def sampleVia : VIA6522 :=
  { VIA6522.reset with t1 := 0x1234, orb := 0xA5, io := fun i => if i < 16 then i + 1 else 0 }

/-- Helpers that answer: read mode, CA2 high, overflow not enabled, four
cycles per bit. -/
def readLogic : DriveLogic := ⟨fun _ => true, fun _ => true, fun _ => false, fun _ => 4⟩

/-- Helpers that answer: read mode, CA2 low, overflow enabled, four cycles
per bit. -/
def silencedLogic : DriveLogic := ⟨fun _ => true, fun _ => false, fun _ => true, fun _ => 4⟩

/-- A drive just reset whose shift register holds the byte 0xA5 at a byte
boundary, while IRA of VIA2 holds 0. -/
def byteComplete : VC1541 := { freshDrive with read_shiftreg := 0xA5 }

/-- The bit offset after `k` calls of `rotateDisk` on the halftrack of `d`. -/
def offsetAfter (d : VC1541) : Nat → Nat
  | 0 => d.bitoffset
  | k + 1 => (VC1541.rotateDisk { d with bitoffset := offsetAfter d k }).bitoffset

/-- The `k`-th bit that passes the head from now on, while the head stays on
its halftrack and nothing is written: bit 0 is the bit under the head. -/
def stream (d : VC1541) (k : Nat) : Bool := d.disk.data d.halftrack (offsetAfter d k)

/-- The drive after `n` calls of `executeBitReady`; `none` once an assertion
failed. -/
def bitReadyRun (L : DriveLogic) : Nat → VC1541 → Option VC1541
  | 0, d => some d
  | n + 1, d => (bitReadyRun L n d).bind (VC1541.executeBitReady L)

/-- The helpers answer "read mode" and "CA2 high" for VIA2 of `d`, whatever
IRA holds. -/
def ReadingWithCA2High (L : DriveLogic) (d : VC1541) : Prop :=
  ∀ x, L.readMode { d.via2 with ira := x } = true ∧ L.CA2 { d.via2 with ira := x } = true

/-- The state of a drive `e` that has read `k` bits since the state `d`, in
which a SYNC mark was about to end, and has not detected a SYNC mark since:
the head has advanced by `k` bits, `read_shiftreg` holds the bits read, the
counter is `k mod 8`, and IRA holds the last complete byte. -/
structure Framed (d : VC1541) (k : Nat) (e : VC1541) : Prop where
  disk : e.disk = d.disk
  halftrack : e.halftrack = d.halftrack
  bitoffset : e.bitoffset = offsetAfter d k
  via2 : e.via2 = { d.via2 with ira := e.via2.ira }
  sync : e.sync = false
  counter : e.byteReadyCounter = k % 8
  bits : ∀ j, j < 16 → j < k → e.read_shiftreg.testBit j = stream d (k - 1 - j)
  early : k < 8 → e.via2.ira = d.via2.ira
  byte : 8 ≤ k → e.via2.ira < 0x100 ∧
    ∀ i, i < 8 → e.via2.ira.testBit i = stream d (8 * (k / 8) - 1 - i)

/-- A disk whose halftracks hold 7692 bits, all 1 except bit 16. -/
def gapDisk : Disk := ⟨fun _ => 7692, fun _ i => decide (i ≠ 16)⟩

/-- A drive just reset that reads `gapDisk`. -/
def readingDrive : VC1541 := { freshDrive with disk := gapDisk }

/-- A disk whose halftracks hold 7692 bits: the bytes 0x7F, 0xFF, 0x55, 0x2A
and 0x33 from bit 0 on, bit 7 of a byte first, and zeros behind them. Bits 1
to 15 are 1, a SYNC mark, which bit 16 ends. -/
def markedDisk : Disk :=
  ⟨fun _ => 7692, fun _ i => ([0x7F, 0xFF, 0x55, 0x2A, 0x33].getD (i / 8) 0).testBit (7 - i % 8)⟩

/-- A drive just reset that reads `markedDisk`. -/
def markedDrive : VC1541 := { freshDrive with disk := markedDisk }

/-- The head invariant: `1 ≤ halftrack ≤ 84` and `bitoffset` lies on the
halftrack. -/
def HeadInvariant (d : VC1541) : Prop :=
  1 ≤ d.halftrack ∧ d.halftrack ≤ 84 ∧ d.bitoffset < d.disk.length d.halftrack

/-- The exact rescaling `offset * lengthNew / lengthOld`, rounded down to a
natural number and then to a multiple of 8. -/
def alignedExact (offset lengthOld lengthNew : Nat) : Nat :=
  8 * (offset * lengthNew / lengthOld / 8)

/-- The head of `e` stands where a move from `d` puts it: `byteReadyCounter`
is 0 and `bitoffset` is the single precision rescaling `scaleF32` rounded down
to a multiple of 8, which is `alignedExact` or differs from it by 8. -/
def Rescaled (d e : VC1541) : Prop :=
  e.byteReadyCounter = 0 ∧
  e.bitoffset =
    8 * (scaleF32 d.bitoffset (d.disk.length d.halftrack) (d.disk.length e.halftrack) / 8) ∧
  alignedExact d.bitoffset (d.disk.length d.halftrack) (d.disk.length e.halftrack)
    ≤ e.bitoffset + 8 ∧
  e.bitoffset
    ≤ alignedExact d.bitoffset (d.disk.length d.halftrack) (d.disk.length e.halftrack) + 8

/-- A drive just reset (halftrack 41) over a disk whose halftracks hold
61536 bits (7692 bytes), with bit 8 under the head. -/
def secondByteDrive : VC1541 :=
  { freshDrive with disk := ⟨fun _ => 61536, fun _ _ => false⟩, bitoffset := 8 }

/-- The fields of a table entry that `getModel` compares. -/
def C64ConfigurationDeprecated.compared (c : C64ConfigurationDeprecated) :
    Int × Bool × Int × Bool × Int × Int × Int :=
  (c.vic, c.grayDotBug, c.cia, c.timerBBug, c.sid, c.glue, c.pattern)

/-- Sample values of the enumerators: the VIC revisions are the bit flags 1,
2, 4, 8, 16, 32, the other enumerations count from 0. -/
def sampleEnumerators : Enumerators := ⟨1, 2, 4, 8, 16, 32, 0, 1, 0, 1, 0, 1, 0, 1⟩

/-- A machine in no standard configuration. -/
def customMachine : ConfiguredMachine := ⟨⟨⟨0, false, 7⟩, ⟨0, false⟩, ⟨0, false⟩, ⟨0⟩⟩, false, 9⟩

/-- The machine after `n` successive calls of `C64::executeOneCycle`, and
whether all of them returned `true`. -/
def executeCycles (t : Timing) (isLastCycleInRasterline : Nat → Bool) (phi2 : Phi2) :
    Nat → C64 → C64 × Bool
  | 0, m => (m, true)
  | n + 1, m =>
    let r := executeCycles t isLastCycleInRasterline phi2 n m
    let r2 := C64.executeOneCycle t isLastCycleInRasterline phi2 r.1
    (r2.1, r.2 && r2.2)

/-- A PAL machine at the start of raster line 311, the last line of a frame
of 312 lines. -/
def lastLine : C64 := ⟨1000, 7, 311, 1, []⟩

/-- Timer A latch 2, started with force load in serial output mode
(`CRA = 0x51`), then one cycle: timer A underflows in the next cycle, nothing
has been written to the serial data register. -/
def serialOutputIdle : CIA :=
  run (fun k => k) 1 (poke 0x0E 0x51 (poke 0x05 0 (poke 0x04 2 reset)))

/-- Fields that no section of the cycle before the idle detection writes. -/
structure SideKept (s t : CIA) : Prop where
  tiredness : t.tiredness = s.tiredness
  wakeUpCycle : t.wakeUpCycle = s.wakeUpCycle
  latchB : t.latchB = s.latchB
  DDRA : t.DDRA = s.DDRA
  DDRB : t.DDRB = s.DDRB
  PALatch : t.PALatch = s.PALatch
  PBLatch : t.PBLatch = s.PBLatch
  PA : t.PA = s.PA
  SDR : t.SDR = s.SDR
  CNT : t.CNT = s.CNT
  tod : t.tod = s.tod
  PB67TimerMode : t.PB67TimerMode = s.PB67TimerMode

/-- The call `executeOneCycle c s` leaves the pair `(delay, feed)` as it was:
the condition `oldDelay == delay && oldFeed == feed` of the idle detection. -/
def pairKept (c : Nat) (s : CIA) : Bool :=
  decide ((executeOneCycle c s).delay = s.delay ∧ (executeOneCycle c s).feed = s.feed)

/-- The cycle up to which a timer lets the chip sleep, for a timer with the
given counter that is running or not, when the chip goes to sleep in cycle
`c`: the maximal value for a stopped timer, `c + counter - 1` for a running
timer with `counter > 2`, and 0 for a running timer that is about to
underflow. -/
def sleepTime (c counter : Nat) (running : Bool) : Nat :=
  if running then (if counter > 2 then (c + counter - 1) % 2 ^ 64 else 0) else mask64

/-- The cycle `c + counter - 1` for a running timer whatever its counter, and
the maximal value for a stopped timer. -/
def sleepTimeWithoutGuard (c counter : Nat) (running : Bool) : Nat :=
  if running then (c + counter - 1) % 2 ^ 64 else mask64

/-- Timer A latch 11, started with force load (`CRA = 0x11`), then eleven
cycles clocked by the arbiter, the first one in cycle 1: `tiredness` is 8 and
the counter is 3. -/
def tiredWithTimerA : CIA :=
  clockRun 1 11 (poke 0x0E 0x11 (poke 0x05 0 (poke 0x04 11 reset)))

/-- From `s` to `t` the bits of `delay` outside `Kd` and the bits of `feed`
outside `Kf` keep their values. -/
structure Touches (Kd Kf : List Nat) (s t : CIA) : Prop where
  delay : ∀ i, i < 64 → i ∉ Kd → t.delay.testBit i = s.delay.testBit i
  feed : ∀ i, i < 64 → i ∉ Kf → t.feed.testBit i = s.feed.testBit i

/-- In `delay`, a pending interrupt is accompanied by the event that sets
bit 7 of ICR, stage by stage. -/
structure SetIcrFollows (s : CIA) : Prop where
  stage0 : s.delay.testBit 18 = true → s.delay.testBit 27 = true
  stage1 : s.delay.testBit 19 = true → s.delay.testBit 28 = true

/-- The only bits of `feed` that are ever set: `CountA0`, `CountB0`,
`OneShotA0`, `OneShotB0`, `SerLoad0` and `SerClk0`. -/
def FeedOk (s : CIA) : Prop :=
  ∀ i, i < 64 → i ∉ [0, 4, 20, 21, 33, 35] → s.feed.testBit i = false

/-- Timer A latch 2, the timer A interrupt enabled, the timer started with
force load, then one cycle: the ICR is clear, the line is released, nothing is
pending in `delay` for the interrupt, and timer A underflows in the next
cycle. -/
def timerAAboutToUnderflow : CIA :=
  run (fun k => k) 1 (poke 0x0E 0x11 (poke 0x0D 0x81 (poke 0x05 0 (poke 0x04 2 reset))))

/-- Timer A latch 2, the timer A interrupt enabled, the timer started with
force load, then two cycles: timer A has underflowed and the interrupt is in
its last stage (`Interrupt1` in `delay`). -/
def interruptPending : CIA :=
  run (fun k => k) 2 (poke 0x0E 0x11 (poke 0x0D 0x81 (poke 0x05 0 (poke 0x04 2 reset))))

/-- The sticky timer bits of `feed` show what the control registers say. -/
structure MirrorsControl (s : CIA) : Prop where
  countA : s.feed.testBit 0 = (s.CRA.testBit 0 && !s.CRA.testBit 5)
  countB : s.feed.testBit 4 = (s.CRB.testBit 0 && !s.CRB.testBit 5 && !s.CRB.testBit 6)
  oneShotA : s.feed.testBit 20 = s.CRA.testBit 3
  oneShotB : s.feed.testBit 21 = s.CRB.testBit 3

/-- From `s` to `t` the control registers and the four sticky timer bits of
`feed` keep their values. -/
structure ControlKept (s t : CIA) : Prop where
  CRA : t.CRA = s.CRA
  CRB : t.CRB = s.CRB
  countA : t.feed.testBit 0 = s.feed.testBit 0
  countB : t.feed.testBit 4 = s.feed.testBit 4
  oneShotA : t.feed.testBit 20 = s.feed.testBit 20
  oneShotB : t.feed.testBit 21 = s.feed.testBit 21

/-- Timer A latch 2, timer A started in one shot mode with force load
(`CRA = 0x19`), timer B started in continuous mode (`CRB = 0x01`), then four
cycles: timer A has underflowed and stopped. -/
def oneShotDone : CIA :=
  run (fun k => k) 4 (poke 0x0F 0x01 (poke 0x0E 0x19 (poke 0x05 0 (poke 0x04 2 reset))))

/-- The SYNC signal falls in the `executeBitReady` call made in state `d`:
the statement `byteReadyCounter = 0` ("Cleared on falling edge of SYNC") is
executed. -/
def syncFalls (L : DriveLogic) (d : VC1541) : Bool :=
  d.readMode L && d.sync && !(VC1541.executeBitReady.head L d).sync

/-- A disk whose halftracks hold 61536 bits (7692 bytes), all 1 except
bit 10: the SYNC mark that starts at bit 0 ends inside the second byte. -/
def unalignedSyncDisk : Disk := ⟨fun _ => 61536, fun _ i => decide (i ≠ 10)⟩

/-- A drive just reset that reads `unalignedSyncDisk`. -/
def unalignedSyncDrive : VC1541 := { freshDrive with disk := unalignedSyncDisk }

/-- The drive after `n` calls of `executeBitReady`, while no assertion fails. -/
def afterBits (L : DriveLogic) (n : Nat) (d : VC1541) : VC1541 := (bitReadyRun L n d).getD d

/-- The pipeline is at rest: the shift at the end of `executeOneCycle`
reproduces `delay`. -/
def Quiescent (s : CIA) : Prop := ((s.delay <<< 1) &&& DelayMask) ||| s.feed = s.delay

/-- From `s` to `t` the pipeline, the counters and the latches keep their
values. -/
structure Still (s t : CIA) : Prop where
  delay : t.delay = s.delay
  feed : t.feed = s.feed
  counterA : t.counterA = s.counterA
  counterB : t.counterB = s.counterB
  latchA : t.latchA = s.latchA
  latchB : t.latchB = s.latchB

/-- A counter that has just been loaded holds its latch: with `LoadA2` in
`delay` the counter of timer A equals its latch, with `LoadB2` in `delay` the
counter of timer B equals its latch. -/
structure LoadedFromLatch (s : CIA) : Prop where
  timerA : s.delay.testBit 10 = true → s.counterA = s.latchA
  timerB : s.delay.testBit 13 = true → s.counterB = s.latchB

/-- The counters and the latches of the timers are 16 bits wide. -/
structure Words16 (s : CIA) : Prop where
  counterA : s.counterA < 0x10000
  counterB : s.counterB < 0x10000
  latchA : s.latchA < 0x10000
  latchB : s.latchB < 0x10000

/-- From `s` to `t` the counters, the latches, the sleep bookkeeping and the
last stages of the load events keep their values. -/
structure TimersKept (s t : CIA) : Prop where
  counterA : t.counterA = s.counterA
  counterB : t.counterB = s.counterB
  latchA : t.latchA = s.latchA
  latchB : t.latchB = s.latchB
  wakeUpCycle : t.wakeUpCycle = s.wakeUpCycle
  idleCounter : t.idleCounter = s.idleCounter
  loadA2 : t.delay.testBit 10 = s.delay.testBit 10
  loadB2 : t.delay.testBit 13 = s.delay.testBit 13

/-- The states of a CIA that the bus arbiter reaches from reset, together with
the value `n` that `c64->cycle` has in the next cycle. Registers are read and
written between cycles; in each cycle the arbiter executes the chip or skips
it (`clockCycle`). -/
inductive Clocked : Nat → CIA → Prop
  | reset (n : Nat) : Clocked n reset
  | peek (chip : Chip) (pins : Pins) (addr : Nat) {n : Nat} {s : CIA} :
      Clocked n s → Clocked n (peek chip pins addr s).2
  | poke (addr value : Nat) {n : Nat} {s : CIA} :
      value < 256 → Clocked n s → Clocked n (poke addr value s)
  | clock {n : Nat} {s : CIA} : Clocked n s → Clocked (n + 1) (clockCycle n s)

/-- What holds of a chip between two cycles, `n` being the next one: 16 bit
counters, loaded counters hold their latch, skipped cycles are cycles before
the wake-up cycle, and while a wake-up cycle is set the pipeline is at rest
and each running timer is far enough from its underflow. -/
structure SleepInv (n : Nat) (s : CIA) : Prop where
  words : Words16 s
  loaded : LoadedFromLatch s
  skipped : s.idleCounter ≠ 0 → s.wakeUpCycle ≠ 0 ∧ n ≤ s.wakeUpCycle
  asleep : s.wakeUpCycle ≠ 0 → Quiescent s ∧
    (s.feed.testBit 0 = true → s.idleCounter + s.wakeUpCycle + 2 ≤ n + s.counterA) ∧
    (s.feed.testBit 4 = true → s.idleCounter + s.wakeUpCycle + 2 ≤ n + s.counterB)

set_option maxRecDepth 100000

/-! ## Theorems: bus arbiter -/

theorem cyclesN_fields (phi2 : Phi2) (n : Nat) (m : C64) :
    (cyclesN phi2 n m).cycle % 2 ^ 64 = (m.cycle + n) % 2 ^ 64 ∧
    (m.cycle + n < 2 ^ 64 → (cyclesN phi2 n m).cycle = m.cycle + n) ∧
    (cyclesN phi2 n m).frame = m.frame ∧
    (cyclesN phi2 n m).rasterLine = m.rasterLine ∧
    executedCycles (cyclesN phi2 n m).calls = executedCycles m.calls + n := by
  induction n generalizing m with
  | zero => exact ⟨rfl, fun _ => rfl, rfl, rfl, rfl⟩
  | succ n ih =>
    obtain ⟨h1, h2, h3, h4, h5⟩ := ih (_executeOneCycle phi2 m).1
    have hc : (_executeOneCycle phi2 m).1.cycle = (m.cycle + 1) % 2 ^ 64 := rfl
    simp only [cyclesN]
    refine ⟨?_, ?_, ?_, ?_, ?_⟩
    · rw [h1, hc]; omega
    · intro hlt
      rw [h2 (by rw [hc]; omega), hc]; omega
    · rw [h3]; rfl
    · rw [h4]; rfl
    · rw [h5]; simp [_executeOneCycle, executedCycles]; omega

theorem loop_ok (t : Timing) (phi2 : Phi2) (hok : ∀ h, phi2 h = true) (lastCycle : Nat)
    (n i : Nat) (m : C64) :
    executeOneLine.loop t phi2 lastCycle n i m = (endRasterLine t (cyclesN phi2 n m), true) := by
  induction n generalizing i m with
  | zero => rfl
  | succ n ih =>
    have h : (_executeOneCycle phi2 m).2 = true := by simp [_executeOneCycle, hok]
    rw [executeOneLine.loop]
    generalize hr : _executeOneCycle phi2 m = r at h
    obtain ⟨m1, b⟩ := r
    simp only at h
    subst h
    simp only [cyclesN, hr]
    exact ih (i + 1) m1

/-- One raster line, started in its first cycle without CPU or drive error. -/
theorem executeOneLine_ok (t : Timing) (phi2 : Phi2) (hok : ∀ h, phi2 h = true) (m : C64)
    (hc : m.rasterCycle = 1) :
    (executeOneLine t phi2 m).2 = true ∧
    (executeOneLine t phi2 m).1.rasterCycle = 1 ∧
    (executeOneLine t phi2 m).1.rasterLine =
      (if m.rasterLine + 1 ≥ t.rasterlinesPerFrame then 0 else m.rasterLine + 1) ∧
    (executeOneLine t phi2 m).1.frame =
      (if m.rasterLine + 1 ≥ t.rasterlinesPerFrame then inc64 m.frame else m.frame) ∧
    (executeOneLine t phi2 m).1.cycle % 2 ^ 64 = (m.cycle + t.cyclesPerRasterline) % 2 ^ 64 ∧
    (m.cycle + t.cyclesPerRasterline < 2 ^ 64 →
      (executeOneLine t phi2 m).1.cycle = m.cycle + t.cyclesPerRasterline) ∧
    executedCycles (executeOneLine t phi2 m).1.calls =
      executedCycles m.calls + t.cyclesPerRasterline := by
  have hb : (beginRasterLine m).rasterCycle = 1 := by
    simp only [beginRasterLine]; split_ifs <;> exact hc
  have he : executeOneLine t phi2 m =
      (endRasterLine t (cyclesN phi2 t.cyclesPerRasterline (beginRasterLine m)), true) := by
    simp only [executeOneLine, hc, if_true, hb, Nat.add_sub_cancel]
    exact loop_ok t phi2 hok _ _ _ _
  obtain ⟨h1, h2, h3, h4, h5⟩ := cyclesN_fields phi2 t.cyclesPerRasterline (beginRasterLine m)
  have hbc : (beginRasterLine m).cycle = m.cycle := by
    simp only [beginRasterLine]; split_ifs <;> rfl
  have hbf : (beginRasterLine m).frame = m.frame := by
    simp only [beginRasterLine]; split_ifs <;> rfl
  have hbl : (beginRasterLine m).rasterLine = m.rasterLine := by
    simp only [beginRasterLine]; split_ifs <;> rfl
  have hbx : executedCycles (beginRasterLine m).calls = executedCycles m.calls := by
    simp only [beginRasterLine]; split_ifs <;> simp [executedCycles]
  rw [hbc] at h1 h2
  rw [hbf] at h3
  rw [hbl] at h4
  rw [hbx] at h5
  rw [he]
  generalize cyclesN phi2 t.cyclesPerRasterline (beginRasterLine m) = x at h1 h2 h3 h4 h5
  simp only [endRasterLine, endFrame, h4, ge_iff_le]
  refine ⟨trivial, ?_, ?_, ?_, ?_, ?_, ?_⟩ <;> split_ifs <;>
    simp_all [executedCycles]

/-- The `do ... while` loop of `executeOneFrame`, entered at the start of line
`R - d` with `d` lines to go. -/
theorem executeOneFrame_from (t : Timing) (phi2 : Phi2) (hok : ∀ h, phi2 h = true)
    (d : Nat) : ∀ (m : C64) (fuel : Nat), m.rasterLine + (d + 1) = t.rasterlinesPerFrame →
    m.rasterCycle = 1 → d + 1 ≤ fuel →
    ∃ r, executeOneFrame t phi2 fuel m = some (r, true) ∧
      r.rasterLine = 0 ∧ r.rasterCycle = 1 ∧ r.frame = inc64 m.frame ∧
      r.cycle % 2 ^ 64 = (m.cycle + (d + 1) * t.cyclesPerRasterline) % 2 ^ 64 ∧
      (m.cycle + (d + 1) * t.cyclesPerRasterline < 2 ^ 64 →
        r.cycle = m.cycle + (d + 1) * t.cyclesPerRasterline) ∧
      executedCycles r.calls = executedCycles m.calls + (d + 1) * t.cyclesPerRasterline := by
  induction d with
  | zero =>
    intro m fuel hl hc hf
    obtain ⟨f, rfl⟩ : ∃ f, fuel = f + 1 := ⟨fuel - 1, by omega⟩
    obtain ⟨h1, h2, h3, h4, h5, h6, h7⟩ := executeOneLine_ok t phi2 hok m hc
    rw [executeOneFrame]
    generalize executeOneLine t phi2 m = x at h1 h2 h3 h4 h5 h6 h7
    obtain ⟨r, b⟩ := x
    simp only at h1 h2 h3 h4 h5 h6 h7
    subst h1
    have hge : m.rasterLine + 1 ≥ t.rasterlinesPerFrame := by omega
    rw [if_pos hge] at h3 h4
    refine ⟨r, ?_, h3, h2, h4, ?_, ?_, ?_⟩
    · simp [h3]
    · simpa using h5
    · simpa using h6
    · simpa using h7
  | succ d ih =>
    intro m fuel hl hc hf
    obtain ⟨f, rfl⟩ : ∃ f, fuel = f + 1 := ⟨fuel - 1, by omega⟩
    obtain ⟨h1, h2, h3, h4, h5, h6, h7⟩ := executeOneLine_ok t phi2 hok m hc
    rw [executeOneFrame]
    generalize executeOneLine t phi2 m = x at h1 h2 h3 h4 h5 h6 h7
    obtain ⟨r, b⟩ := x
    simp only at h1 h2 h3 h4 h5 h6 h7
    subst h1
    have hlt : ¬ m.rasterLine + 1 ≥ t.rasterlinesPerFrame := by omega
    rw [if_neg hlt] at h3 h4
    obtain ⟨r2, e1, e2, e3, e4, e5, e6, e7⟩ := ih r f (by omega) h2 (by omega)
    have hne : r.rasterLine ≠ 0 := by omega
    have hmul : (d + 1 + 1) * t.cyclesPerRasterline
        = t.cyclesPerRasterline + (d + 1) * t.cyclesPerRasterline := by ring
    rw [hmul]
    generalize (d + 1) * t.cyclesPerRasterline = p at e5 e6 e7
    refine ⟨r2, ?_, e2, e3, ?_, ?_, ?_, ?_⟩
    · simp only [hne, ne_eq, not_false_eq_true, if_true]; exact e1
    · rw [e4, h4]
    · rw [e5]; omega
    · intro hb
      have h6b := h6 (by omega)
      rw [e6 (by omega), h6b]; omega
    · rw [e7, h7]; omega

/-- C1. For a timing whose cycles per line fit 8 bits and whose lines per
frame fit 16 bits (the VIC revisions have 63 to 65 cycles and 262 to 312
lines), the `unsigned` product of `getCyclesPerFrame` does not wrap and is
`getRasterlinesPerFrame() * getCyclesPerRasterline()`. Started at a frame
boundary (`rasterLine = 0`, `rasterCycle = 1`) with no CPU or drive error,
`executeOneFrame` returns `true` after exactly that many calls of
`_executeOneCycle`. Each call raises the 64-bit cycle counter by one, so the
counter grows by that product (modulo `2 ^ 64`, and exactly when the sum stays
inside the word); `frame` is incremented by one, and the run ends at
`rasterLine = 0` and `rasterCycle = 1` again. -/
theorem executeOneFrame_executes_cycles_per_frame (t : Timing) (phi2 : Phi2) (m : C64)
    (fuel : Nat) (hR : 1 ≤ t.rasterlinesPerFrame) (hlines : t.rasterlinesPerFrame < 2 ^ 16)
    (hcycles : t.cyclesPerRasterline < 2 ^ 8) (hok : ∀ h, phi2 h = true)
    (hline : m.rasterLine = 0) (hcycle : m.rasterCycle = 1)
    (hfuel : t.rasterlinesPerFrame ≤ fuel) :
    t.getCyclesPerFrame = t.rasterlinesPerFrame * t.cyclesPerRasterline ∧
    (∀ x : C64, (_executeOneCycle phi2 x).1.cycle = (x.cycle + 1) % 2 ^ 64 ∧
      executedCycles (_executeOneCycle phi2 x).1.calls = executedCycles x.calls + 1) ∧
    ∃ r, executeOneFrame t phi2 fuel m = some (r, true) ∧
      executedCycles r.calls
        = executedCycles m.calls + t.rasterlinesPerFrame * t.cyclesPerRasterline ∧
      executedCycles r.calls = executedCycles m.calls + t.getCyclesPerFrame ∧
      r.cycle % 2 ^ 64 = (m.cycle + t.getCyclesPerFrame) % 2 ^ 64 ∧
      (m.cycle + t.getCyclesPerFrame < 2 ^ 64 → r.cycle = m.cycle + t.getCyclesPerFrame) ∧
      r.frame = (m.frame + 1) % 2 ^ 64 ∧
      r.rasterLine = 0 ∧ r.rasterCycle = 1 := by
  have hprod : t.rasterlinesPerFrame * t.cyclesPerRasterline < 2 ^ 32 :=
    calc t.rasterlinesPerFrame * t.cyclesPerRasterline
        ≤ 2 ^ 16 * 2 ^ 8 := Nat.mul_le_mul hlines.le hcycles.le
      _ < 2 ^ 32 := by norm_num
  have hq : t.getCyclesPerFrame = t.rasterlinesPerFrame * t.cyclesPerRasterline :=
    Nat.mod_eq_of_lt hprod
  refine ⟨hq, fun x => ⟨rfl, by simp [_executeOneCycle, executedCycles]⟩, ?_⟩
  obtain ⟨d, hd⟩ : ∃ d, t.rasterlinesPerFrame = d + 1 := ⟨t.rasterlinesPerFrame - 1, by omega⟩
  obtain ⟨r, e1, e2, e3, e4, e5, e6, e7⟩ :=
    executeOneFrame_from t phi2 hok d m fuel (by omega) hcycle (by omega)
  have hp : t.getCyclesPerFrame = (d + 1) * t.cyclesPerRasterline := by
    rw [hq, hd]
  exact ⟨r, e1, by rw [e7, ← hp, hq], by rw [e7, hp], by rw [e5, hp],
    by rw [hp]; exact e6, e4, e2, e3⟩

/-- C1 at a PAL machine (312 lines of 63 cycles). -/
theorem executeOneFrame_executes_cycles_per_frame_witness :
    Timing.getCyclesPerFrame ⟨63, 312⟩ = 312 * 63 ∧
    (∀ x : C64, (_executeOneCycle (fun _ => true) x).1.cycle = (x.cycle + 1) % 2 ^ 64 ∧
      executedCycles (_executeOneCycle (fun _ => true) x).1.calls
        = executedCycles x.calls + 1) ∧
    ∃ r, executeOneFrame ⟨63, 312⟩ (fun _ => true) 312 ⟨0, 0, 0, 1, []⟩ = some (r, true) ∧
      executedCycles r.calls = executedCycles ([] : List Call) + 312 * 63 ∧
      executedCycles r.calls = executedCycles ([] : List Call) + 19656 ∧
      r.cycle % 2 ^ 64 = (0 + 19656) % 2 ^ 64 ∧
      (0 + 19656 < 2 ^ 64 → r.cycle = 0 + 19656) ∧
      r.frame = (0 + 1) % 2 ^ 64 ∧
      r.rasterLine = 0 ∧ r.rasterCycle = 1 :=
  executeOneFrame_executes_cycles_per_frame ⟨63, 312⟩ (fun _ => true) ⟨0, 0, 0, 1, []⟩ 312
    (by decide) (by decide) (by decide) (fun _ => rfl) rfl rfl (by decide)

/-! ## Theorems: CIA 6526 -/

/-! ### Bits of machine words -/

theorem testBit_bitAt (k i : Nat) : (bitAt k).testBit i = decide (k = i) := by
  simp [bitAt, Nat.one_shiftLeft, Nat.testBit_two_pow]

theorem flag_bitAt (x k : Nat) : flag x (bitAt k) = x.testBit k := by
  simp only [flag, bitAt, Nat.one_shiftLeft, Nat.and_two_pow]
  cases x.testBit k <;> simp

theorem flag_eq_true_iff (x m : Nat) :
    flag x m = true ↔ ∃ i, x.testBit i = true ∧ m.testBit i = true := by
  simp only [flag, bne_iff_ne, ne_eq]
  constructor
  · intro h
    obtain ⟨i, hi⟩ := Nat.ne_zero_implies_bit_true h
    exact ⟨i, by simpa [Nat.testBit_and] using hi⟩
  · rintro ⟨i, h1, h2⟩ h0
    have : (x &&& m).testBit i = true := by simp [Nat.testBit_and, h1, h2]
    simp [h0] at this

theorem flag_or (x a b : Nat) : flag x (a ||| b) = (flag x a || flag x b) := by
  rw [Bool.eq_iff_iff]
  simp only [Bool.or_eq_true, flag_eq_true_iff, Nat.testBit_or]
  constructor
  · rintro ⟨i, h1, h2⟩
    rcases (by simpa using h2 : a.testBit i = true ∨ b.testBit i = true) with h | h
    · exact Or.inl ⟨i, h1, h⟩
    · exact Or.inr ⟨i, h1, h⟩
  · rintro (⟨i, h1, h2⟩ | ⟨i, h1, h2⟩)
    · exact ⟨i, h1, by simp [h2]⟩
    · exact ⟨i, h1, by simp [h2]⟩

theorem testBit_not64 (m i : Nat) :
    (not64 m).testBit i = (decide (i < 64) ^^ m.testBit i) := by
  have h : mask64 = 2 ^ 64 - 1 := rfl
  simp only [not64, h, Nat.testBit_xor, Nat.testBit_two_pow_sub_one]

theorem testBit_not8 (m i : Nat) : (not8 m).testBit i = (decide (i < 8) ^^ m.testBit i) := by
  have h : (0xFF : Nat) = 2 ^ 8 - 1 := by norm_num
  simp only [not8, h, Nat.testBit_xor, Nat.testBit_two_pow_sub_one]

/-! ### Reads and writes of the interrupt registers -/

theorem wakeUp_fields (s : CIA) :
    (wakeUp s).delay = s.delay ∧ (wakeUp s).feed = s.feed ∧ (wakeUp s).ICR = s.ICR ∧
    (wakeUp s).IMR = s.IMR ∧ (wakeUp s).INT = s.INT ∧ (wakeUp s).linePulled = s.linePulled ∧
    (wakeUp s).latchA = s.latchA ∧ (wakeUp s).latchB = s.latchB ∧ (wakeUp s).CRA = s.CRA ∧
    (wakeUp s).CRB = s.CRB ∧ (wakeUp s).idleCounter = 0 := by
  simp only [wakeUp]
  split_ifs <;> simp_all

/-- The state after a read of register 0x0D, field by field. -/
theorem peek_icr_eq (chip : Chip) (pins : Pins) (s : CIA) :
    peek chip pins 0x0D s = (s.ICR,
      { wakeUp s with
        INT := true
        linePulled := if s.INT then s.linePulled else false
        delay := (s.delay &&& not64 (Interrupt0 ||| Interrupt1)) ||| (ClearIcr0 ||| ReadIcr0)
        ICR := s.ICR &&& 0x80 }) := by
  obtain ⟨hd, hf, hicr, him, hint, hl, -⟩ := wakeUp_fields s
  simp only [peek, releaseInterruptLine]
  generalize wakeUp s = w at *
  cases w
  cases h : s.INT <;> simp_all

/-- C5. A read of register 0x0D returns the ICR byte as it was before the
read; after the read ICR bits 0..6 are clear and ICR bit 7 is unchanged. -/
theorem peek_icr_returns_icr_and_clears_bits_0_to_6 (chip : Chip) (pins : Pins) (s : CIA) :
    (peek chip pins 0x0D s).1 = s.ICR ∧
    (∀ i, i < 7 → (peek chip pins 0x0D s).2.ICR.testBit i = false) ∧
    (peek chip pins 0x0D s).2.ICR.testBit 7 = s.ICR.testBit 7 := by
  have h80 : (0x80 : Nat) = bitAt 7 := rfl
  rw [peek_icr_eq]
  refine ⟨rfl, ?_, ?_⟩
  · intro i hi
    have : ¬ 7 = i := by omega
    simp only [h80, Nat.testBit_and, testBit_bitAt]
    simp [this]
  · simp only [h80, Nat.testBit_and, testBit_bitAt]
    simp

/-- C6. A read of register 0x0D leaves the interrupt line released (`INT = 1`
afterwards, and the CPU line released if it was pulled), removes `Interrupt0`
and `Interrupt1` from `delay`, sets `ClearIcr0` and `ReadIcr0` in `delay`, and
changes no other bit of the 64-bit `delay` word and nothing in `feed` or
`IMR`. -/
theorem peek_icr_releases_line_and_schedules_clear (chip : Chip) (pins : Pins) (s : CIA) :
    (peek chip pins 0x0D s).2.INT = true ∧
    (s.INT = false → (peek chip pins 0x0D s).2.linePulled = false) ∧
    flag (peek chip pins 0x0D s).2.delay Interrupt0 = false ∧
    flag (peek chip pins 0x0D s).2.delay Interrupt1 = false ∧
    flag (peek chip pins 0x0D s).2.delay ClearIcr0 = true ∧
    flag (peek chip pins 0x0D s).2.delay ReadIcr0 = true ∧
    (∀ i, i < 64 → (Interrupt0 ||| Interrupt1 ||| ClearIcr0 ||| ReadIcr0).testBit i = false →
      (peek chip pins 0x0D s).2.delay.testBit i = s.delay.testBit i) ∧
    (peek chip pins 0x0D s).2.feed = s.feed ∧
    (peek chip pins 0x0D s).2.IMR = s.IMR := by
  obtain ⟨hd, hf, -, him, hint, hl, -⟩ := wakeUp_fields s
  rw [peek_icr_eq]
  refine ⟨rfl, ?_, ?_, ?_, ?_, ?_, ?_, hf, him⟩
  · intro h; simp [h]
  · simp [Interrupt0, Interrupt1, ClearIcr0, ReadIcr0, flag_bitAt, testBit_not64, testBit_bitAt]
  · simp [Interrupt0, Interrupt1, ClearIcr0, ReadIcr0, flag_bitAt, testBit_not64, testBit_bitAt]
  · simp [Interrupt0, Interrupt1, ClearIcr0, ReadIcr0, flag_bitAt, testBit_not64, testBit_bitAt]
  · simp [Interrupt0, Interrupt1, ClearIcr0, ReadIcr0, flag_bitAt, testBit_not64, testBit_bitAt]
  · intro i hi
    simp only [Interrupt0, Interrupt1, ClearIcr0, ReadIcr0, Nat.testBit_or, Nat.testBit_and,
      testBit_not64, testBit_bitAt, Bool.or_eq_false_iff, decide_eq_false_iff_not]
    rintro ⟨⟨⟨h1, h2⟩, h3⟩, h4⟩
    simp [h1, h2, h3, h4, hi]

theorem poke_imr_def (v : Nat) (s : CIA) : poke 0x0D v s = pokeInterruptControl v (wakeUp s) :=
  rfl

/-- What a write of `v` to register 0x0D does to `IMR`, `delay` and the other
interrupt state. -/
theorem poke_imr_fields (v : Nat) (s : CIA) :
    (poke 0x0D v s).IMR = newIMR v s ∧
    (poke 0x0D v s).delay =
      (if flag (newIMR v s &&& s.ICR) 0x1F && s.INT then s.delay ||| (Interrupt0 ||| SetIcr0)
        else if flag s.delay ClearIcr2 then s.delay &&& not64 (Interrupt1 ||| SetIcr1)
        else s.delay) ∧
    (poke 0x0D v s).ICR = s.ICR ∧ (poke 0x0D v s).INT = s.INT ∧
    (poke 0x0D v s).feed = s.feed ∧ (poke 0x0D v s).linePulled = s.linePulled := by
  obtain ⟨hd, hf, hicr, him, hint, hl, -⟩ := wakeUp_fields s
  have h7 : ((v &&& 0x80) != 0) = v.testBit 7 := flag_bitAt v 7
  rw [poke_imr_def]
  simp only [pokeInterruptControl, newIMR, h7]
  refine ⟨?_, ?_, ?_, ?_, ?_, ?_⟩ <;> split_ifs <;> simp_all

/-- C10. A write of `v` to register 0x0D gives `IMR | (v & 0x1F)` when bit 7
of `v` is set and `IMR & ~(v & 0x1F)` when it is clear; bits 5..7 of IMR are
not changed by the write, and ICR is not changed by it. -/
theorem poke_imr_sets_or_clears_mask_bits (v : Nat) (s : CIA) :
    (v.testBit 7 = true → (poke 0x0D v s).IMR = s.IMR ||| (v &&& 0x1F)) ∧
    (v.testBit 7 = false → (poke 0x0D v s).IMR = s.IMR &&& not8 (v &&& 0x1F)) ∧
    (∀ i, 5 ≤ i → i ≤ 7 → (poke 0x0D v s).IMR.testBit i = s.IMR.testBit i) ∧
    (poke 0x0D v s).ICR = s.ICR := by
  obtain ⟨-, -, hicr, -⟩ := wakeUp_fields s
  have h1F : (0x1F : Nat) = 2 ^ 5 - 1 := by norm_num
  obtain ⟨e1, -, e3, -⟩ := poke_imr_fields v s
  rw [e1]
  refine ⟨?_, ?_, ?_, e3⟩
  · intro h; simp [newIMR, h]
  · intro h; simp [newIMR, h]
  · intro i h5 h7
    have hlt : ¬ i < 5 := by omega
    have hlt8 : i < 8 := by omega
    simp only [newIMR, h1F]
    split_ifs <;>
      simp only [Nat.testBit_or, Nat.testBit_and, testBit_not8, Nat.testBit_two_pow_sub_one] <;>
      simp [hlt, hlt8]

/-- C9 as stated fails: in the state `pendingAfterRead` (ICR read, then a
timer A underflow with its interrupt enabled two cycles later) `ClearIcr2` is
set, yet a write of 0x81 to register 0x0D leaves `Interrupt1` and `SetIcr1`
in `delay`. -/
theorem poke_imr_cancel_counterexample :
    ¬ ∀ (s : CIA) (v : Nat), flag s.delay ClearIcr2 = true →
      flag (poke 0x0D v s).delay Interrupt1 = false ∧
      flag (poke 0x0D v s).delay SetIcr1 = false := by
  intro h
  have h1 := h pendingAfterRead 0x81 (by decide)
  revert h1
  decide

/-- C9, amended. A write to register 0x0D made while `ClearIcr2` is set in
`delay` cancels the pending interrupt set (`Interrupt1` and `SetIcr1` are
clear afterwards) unless the write itself raises an interrupt, that is unless
the new mask meets a set ICR bit while `INT = 1`; in that case `Interrupt0`
and `SetIcr0` are scheduled and `Interrupt1` and `SetIcr1` stay as they
were. -/
theorem poke_imr_cancels_pending_unless_raising (v : Nat) (s : CIA)
    (h : flag s.delay ClearIcr2 = true) :
    ((flag (newIMR v s &&& s.ICR) 0x1F && s.INT) = false →
      flag (poke 0x0D v s).delay Interrupt1 = false ∧
      flag (poke 0x0D v s).delay SetIcr1 = false) ∧
    ((flag (newIMR v s &&& s.ICR) 0x1F && s.INT) = true →
      flag (poke 0x0D v s).delay Interrupt0 = true ∧
      flag (poke 0x0D v s).delay SetIcr0 = true ∧
      flag (poke 0x0D v s).delay Interrupt1 = flag s.delay Interrupt1 ∧
      flag (poke 0x0D v s).delay SetIcr1 = flag s.delay SetIcr1) := by
  obtain ⟨-, e2, -⟩ := poke_imr_fields v s
  rw [e2]
  constructor
  · intro hc
    rw [hc]
    simp [h, Interrupt1, SetIcr1, flag_bitAt, testBit_not64, testBit_bitAt]
  · intro hc
    rw [hc]
    simp [Interrupt0, SetIcr0, Interrupt1, SetIcr1, flag_bitAt, testBit_bitAt]

/-- C9, amended, at two writes to the state `pendingAfterRead`: a write of
0x01 clears the mask and cancels, a write of 0x81 raises. -/
theorem poke_imr_cancels_pending_unless_raising_witness :
    flag pendingAfterRead.delay ClearIcr2 = true ∧
    (flag (newIMR 0x01 pendingAfterRead &&& pendingAfterRead.ICR) 0x1F
      && pendingAfterRead.INT) = false ∧
    flag (poke 0x0D 0x01 pendingAfterRead).delay Interrupt1 = false ∧
    flag (poke 0x0D 0x01 pendingAfterRead).delay SetIcr1 = false :=
  ⟨by decide, by decide,
    (poke_imr_cancels_pending_unless_raising 0x01 pendingAfterRead (by decide)).1 (by decide)⟩

/-! ### Frame lemmas for the sections of one cycle -/

theorem timerA_quiet (s : CIA) : Quiet [0, 1, 2, 5, 9] [0] s (executeOneCycle.timerA s).1 := by
  simp only [executeOneCycle.timerA, reloadTimerA]
  split_ifs <;> constructor <;> first | rfl | (
    intro i hi hn
    simp only [List.mem_cons, List.mem_singleton, List.not_mem_nil, not_or, or_false] at hn
    simp [testBit_not64, testBit_bitAt, CountA0, CountA1, CountA2, CountB1, LoadA1, hi, Ne.symm,
      hn])

theorem timerA_side (s : CIA) :
    (executeOneCycle.timerA s).1.ICR = s.ICR ∧ (executeOneCycle.timerA s).1.INT = s.INT ∧
    (executeOneCycle.timerA s).1.linePulled = s.linePulled ∧
    (executeOneCycle.timerA s).1.counterB = s.counterB ∧
    (executeOneCycle.timerA s).1.latchB = s.latchB ∧
    (executeOneCycle.timerA s).1.CRB = s.CRB := by
  simp only [executeOneCycle.timerA, reloadTimerA]
  split_ifs <;> exact ⟨rfl, rfl, rfl, rfl, rfl, rfl⟩

theorem timerB_quiet (s : CIA) : Quiet [4, 5, 6, 12] [4] s (executeOneCycle.timerB s).1 := by
  simp only [executeOneCycle.timerB, reloadTimerB]
  split_ifs <;> constructor <;> first | rfl | (
    intro i hi hn
    simp only [List.mem_cons, List.mem_singleton, List.not_mem_nil, not_or, or_false] at hn
    simp [testBit_not64, testBit_bitAt, CountB0, CountB1, CountB2, LoadB1, hi, Ne.symm, hn])

theorem timerB_side (s : CIA) :
    (executeOneCycle.timerB s).1.ICR = s.ICR ∧ (executeOneCycle.timerB s).1.INT = s.INT ∧
    (executeOneCycle.timerB s).1.linePulled = s.linePulled ∧
    (executeOneCycle.timerB s).1.counterA = s.counterA ∧
    (executeOneCycle.timerB s).1.CRA = s.CRA := by
  simp only [executeOneCycle.timerB, reloadTimerB]
  split_ifs <;> exact ⟨rfl, rfl, rfl, rfl, rfl⟩

theorem serial_quiet (a : Bool) (s : CIA) :
    Quiet [30, 33, 34] [33, 35] s (executeOneCycle.serial a s) := by
  simp only [executeOneCycle.serial]
  split_ifs <;> constructor <;> first | rfl | (
    intro i hi hn
    simp only [List.mem_cons, List.mem_singleton, List.not_mem_nil, not_or, or_false] at hn
    simp [testBit_not64, testBit_bitAt, SerLoad0, SerLoad1, SerClk0, SerInt0, hi, Ne.symm, hn])

theorem serial_side (a : Bool) (s : CIA) :
    (executeOneCycle.serial a s).ICR = s.ICR ∧ (executeOneCycle.serial a s).INT = s.INT ∧
    (executeOneCycle.serial a s).linePulled = s.linePulled ∧
    (executeOneCycle.serial a s).counterA = s.counterA := by
  simp only [executeOneCycle.serial]
  split_ifs <;> exact ⟨rfl, rfl, rfl, rfl⟩

theorem outputPB6_quiet (a : Bool) (s : CIA) :
    Quiet [14, 15] [] s (executeOneCycle.outputPB6 a s) := by
  simp only [executeOneCycle.outputPB6]
  split_ifs <;> constructor <;> first | rfl | (
    intro i hi hn
    simp only [List.mem_cons, List.mem_singleton, List.not_mem_nil, not_or, or_false] at hn
    simp [testBit_not64, testBit_bitAt, PB6Low0, PB6Low1, hi, Ne.symm, hn])

theorem outputPB6_side (a : Bool) (s : CIA) :
    (executeOneCycle.outputPB6 a s).ICR = s.ICR ∧ (executeOneCycle.outputPB6 a s).INT = s.INT ∧
    (executeOneCycle.outputPB6 a s).linePulled = s.linePulled ∧
    (executeOneCycle.outputPB6 a s).counterA = s.counterA := by
  simp only [executeOneCycle.outputPB6]
  split_ifs <;> exact ⟨rfl, rfl, rfl, rfl⟩

theorem outputPB7_quiet (b : Bool) (s : CIA) :
    Quiet [16, 17] [] s (executeOneCycle.outputPB7 b s) := by
  simp only [executeOneCycle.outputPB7]
  split_ifs <;> constructor <;> first | rfl | (
    intro i hi hn
    simp only [List.mem_cons, List.mem_singleton, List.not_mem_nil, not_or, or_false] at hn
    simp [testBit_not64, testBit_bitAt, PB7Low0, PB7Low1, hi, Ne.symm, hn])

theorem outputPB7_side (b : Bool) (s : CIA) :
    (executeOneCycle.outputPB7 b s).ICR = s.ICR ∧ (executeOneCycle.outputPB7 b s).INT = s.INT ∧
    (executeOneCycle.outputPB7 b s).linePulled = s.linePulled ∧
    (executeOneCycle.outputPB7 b s).counterA = s.counterA := by
  simp only [executeOneCycle.outputPB7]
  split_ifs <;> exact ⟨rfl, rfl, rfl, rfl⟩

theorem writePB_quiet (s : CIA) : Quiet [] [] s (executeOneCycle.writePB s) := by
  simp only [executeOneCycle.writePB]
  split_ifs <;> constructor <;> first | rfl | (intro i _ _; rfl)

theorem writePB_side (s : CIA) :
    (executeOneCycle.writePB s).ICR = s.ICR ∧ (executeOneCycle.writePB s).INT = s.INT ∧
    (executeOneCycle.writePB s).linePulled = s.linePulled ∧
    (executeOneCycle.writePB s).counterA = s.counterA := by
  simp only [executeOneCycle.writePB]
  split_ifs <;> exact ⟨rfl, rfl, rfl, rfl⟩

theorem timerInterrupt_quiet (a b : Bool) (s : CIA) :
    Quiet [18, 27] [] s (executeOneCycle.timerInterrupt a b s) := by
  simp only [executeOneCycle.timerInterrupt]
  split_ifs <;> constructor <;> first | rfl | (
    intro i hi hn
    simp only [List.mem_cons, List.mem_singleton, List.not_mem_nil, not_or, or_false] at hn
    simp [testBit_bitAt, Interrupt0, SetIcr0, hi, Ne.symm, hn])

theorem timerInterrupt_side (a b : Bool) (s : CIA) :
    (executeOneCycle.timerInterrupt a b s).INT = s.INT ∧
    (executeOneCycle.timerInterrupt a b s).linePulled = s.linePulled ∧
    (executeOneCycle.timerInterrupt a b s).counterA = s.counterA := by
  simp only [executeOneCycle.timerInterrupt]
  split_ifs <;> exact ⟨rfl, rfl, rfl⟩

theorem todInterrupt_quiet (s : CIA) : Quiet [18, 27] [] s (executeOneCycle.todInterrupt s) := by
  simp only [executeOneCycle.todInterrupt]
  split_ifs <;> constructor <;> first | rfl | (
    intro i hi hn
    simp only [List.mem_cons, List.mem_singleton, List.not_mem_nil, not_or, or_false] at hn
    simp [testBit_bitAt, Interrupt0, SetIcr0, hi, Ne.symm, hn])

theorem todInterrupt_side (s : CIA) :
    (executeOneCycle.todInterrupt s).INT = s.INT ∧
    (executeOneCycle.todInterrupt s).linePulled = s.linePulled ∧
    (executeOneCycle.todInterrupt s).counterA = s.counterA := by
  simp only [executeOneCycle.todInterrupt]
  split_ifs <;> exact ⟨rfl, rfl, rfl⟩

theorem serialInterrupt_quiet (s : CIA) :
    Quiet [18, 27] [] s (executeOneCycle.serialInterrupt s) := by
  simp only [executeOneCycle.serialInterrupt]
  split_ifs <;> constructor <;> first | rfl | (
    intro i hi hn
    simp only [List.mem_cons, List.mem_singleton, List.not_mem_nil, not_or, or_false] at hn
    simp [testBit_bitAt, Interrupt0, SetIcr0, hi, Ne.symm, hn])

theorem serialInterrupt_side (s : CIA) :
    (executeOneCycle.serialInterrupt s).INT = s.INT ∧
    (executeOneCycle.serialInterrupt s).linePulled = s.linePulled ∧
    (executeOneCycle.serialInterrupt s).counterA = s.counterA := by
  simp only [executeOneCycle.serialInterrupt]
  split_ifs <;> exact ⟨rfl, rfl, rfl⟩

theorem interruptLine_quiet (s : CIA) : Quiet [] [] s (executeOneCycle.interruptLine s) := by
  simp only [executeOneCycle.interruptLine, pullDownInterruptLine]
  split_ifs <;> constructor <;> first | rfl | (intro i _ _; rfl)

theorem interruptLine_side (s : CIA) :
    (executeOneCycle.interruptLine s).counterA = s.counterA := by
  simp only [executeOneCycle.interruptLine, pullDownInterruptLine]
  split_ifs <;> rfl

theorem Quiet.trans {Kd Kf Kd2 Kf2 : List Nat} {s t u : CIA} (h1 : Quiet Kd Kf s t)
    (h2 : Quiet Kd2 Kf2 t u) : Quiet (Kd ++ Kd2) (Kf ++ Kf2) s u where
  latchA := h2.latchA.trans h1.latchA
  IMR := h2.IMR.trans h1.IMR
  idleCounter := h2.idleCounter.trans h1.idleCounter
  delay := fun i hi hn => by
    rw [List.mem_append, not_or] at hn
    exact (h2.delay i hi hn.2).trans (h1.delay i hi hn.1)
  feed := fun i hi hn => by
    rw [List.mem_append, not_or] at hn
    exact (h2.feed i hi hn.2).trans (h1.feed i hi hn.1)

/-! ### One whole cycle -/

theorem executeOneCycle_eq (c : Nat) (s : CIA) :
    executeOneCycle c s =
      executeOneCycle.idle c (wakeUp s).delay (wakeUp s).feed
        (executeOneCycle.shift (beforeShift s)) := rfl

theorem wakeUp_quiet (s : CIA) : Quiet [] [] s { wakeUp s with idleCounter := s.idleCounter } := by
  obtain ⟨hd, hf, -, him, -, -, hl, -⟩ := wakeUp_fields s
  exact ⟨hl, him, rfl, fun i _ _ => by rw [← hd], fun i _ _ => by rw [← hf]⟩

/-- From the awakened state to the state before the shift: the bits of `delay`
and `feed` that the sections of the cycle may touch. -/
theorem beforeShift_quiet (s : CIA) :
    Quiet [0, 1, 2, 5, 9, 4, 5, 6, 12, 30, 33, 34, 14, 15, 16, 17, 18, 27, 18, 27, 18, 27]
      [0, 4, 33, 35] (wakeUp s) (beforeShift s) :=
  (timerA_quiet (wakeUp s)).trans <| (timerB_quiet _).trans <| (serial_quiet _ _).trans <|
    (outputPB6_quiet _ _).trans <| (outputPB7_quiet _ _).trans <| (writePB_quiet _).trans <|
    (timerInterrupt_quiet _ _ _).trans <| (todInterrupt_quiet _).trans <|
    (serialInterrupt_quiet _).trans <| interruptLine_quiet _

/-- The sections between "Timer B" and the interrupt logic. -/
theorem middle_quiet (a b : Bool) (s : CIA) :
    Quiet [30, 33, 34, 14, 15, 16, 17] [33, 35] s
      (executeOneCycle.writePB (executeOneCycle.outputPB7 b (executeOneCycle.outputPB6 a
        (executeOneCycle.serial a s)))) :=
  (serial_quiet a s).trans <| (outputPB6_quiet _ _).trans <| (outputPB7_quiet _ _).trans <|
    writePB_quiet _

theorem idle_fields (c d f : Nat) (s : CIA) :
    (executeOneCycle.idle c d f s).delay = s.delay ∧ (executeOneCycle.idle c d f s).feed = s.feed ∧
    (executeOneCycle.idle c d f s).ICR = s.ICR ∧ (executeOneCycle.idle c d f s).IMR = s.IMR ∧
    (executeOneCycle.idle c d f s).INT = s.INT ∧
    (executeOneCycle.idle c d f s).linePulled = s.linePulled ∧
    (executeOneCycle.idle c d f s).latchA = s.latchA ∧
    (executeOneCycle.idle c d f s).counterA = s.counterA ∧
    (executeOneCycle.idle c d f s).idleCounter = s.idleCounter ∧
    (executeOneCycle.idle c d f s).CRA = s.CRA := by
  simp only [executeOneCycle.idle, sleep]
  split_ifs <;> exact ⟨rfl, rfl, rfl, rfl, rfl, rfl, rfl, rfl, rfl, rfl⟩

/-- The cycle leaves `IMR` and `latchA` alone and ends with the chip awake. -/
theorem executeOneCycle_keeps (c : Nat) (s : CIA) :
    (executeOneCycle c s).IMR = s.IMR ∧ (executeOneCycle c s).latchA = s.latchA ∧
    (executeOneCycle c s).idleCounter = 0 := by
  obtain ⟨-, -, -, him, -, -, hl, -, -, -, hi⟩ := wakeUp_fields s
  obtain ⟨-, -, -, e4, -, -, e7, -, e9, -⟩ :=
    idle_fields c (wakeUp s).delay (wakeUp s).feed (executeOneCycle.shift (beforeShift s))
  have q := beforeShift_quiet s
  rw [executeOneCycle_eq]
  exact ⟨by rw [e4]; exact q.IMR.trans him, by rw [e7]; exact q.latchA.trans hl,
    by rw [e9]; exact q.idleCounter.trans hi⟩

/-- Bits of `feed` after the cycle. -/
theorem executeOneCycle_feed (c : Nat) (s : CIA) (i : Nat) (hi : i < 64)
    (hn : i ∉ [0, 4, 33, 35]) :
    (executeOneCycle c s).feed.testBit i = s.feed.testBit i := by
  obtain ⟨-, hf, -⟩ := wakeUp_fields s
  obtain ⟨-, e2, -⟩ :=
    idle_fields c (wakeUp s).delay (wakeUp s).feed (executeOneCycle.shift (beforeShift s))
  rw [executeOneCycle_eq, e2, ← hf]
  exact (beforeShift_quiet s).feed i hi hn

/-- Bits of `delay` after the cycle: stage `j + 1` comes from stage `j`. -/
theorem executeOneCycle_delay_succ (c : Nat) (s : CIA) (j : Nat) :
    (executeOneCycle c s).delay.testBit (j + 1) =
      (((beforeShift s).delay.testBit j && DelayMask.testBit (j + 1)) ||
        (beforeShift s).feed.testBit (j + 1)) := by
  obtain ⟨e1, -⟩ :=
    idle_fields c (wakeUp s).delay (wakeUp s).feed (executeOneCycle.shift (beforeShift s))
  rw [executeOneCycle_eq, e1]
  simp [executeOneCycle.shift]

/-- Bit 0 of `delay` after the cycle comes from `feed`. -/
theorem executeOneCycle_delay_zero (c : Nat) (s : CIA) :
    (executeOneCycle c s).delay.testBit 0 = (beforeShift s).feed.testBit 0 := by
  obtain ⟨e1, -⟩ :=
    idle_fields c (wakeUp s).delay (wakeUp s).feed (executeOneCycle.shift (beforeShift s))
  rw [executeOneCycle_eq, e1]
  simp only [executeOneCycle.shift, Nat.testBit_or, Nat.testBit_and, Nat.testBit_shiftLeft]
  simp

/-! ### The interrupt logic of one cycle -/

theorem testBit_bitAt_comm (k i : Nat) : (bitAt k).testBit i = decide (i = k) := by
  rw [testBit_bitAt]
  by_cases h : k = i
  · simp [h]
  · simp [h, Ne.symm h]


theorem testBit_0x01 (i : Nat) : Nat.testBit 0x01 i = decide (i = 0) := testBit_bitAt_comm 0 i

theorem testBit_0x02 (i : Nat) : Nat.testBit 0x02 i = decide (i = 1) := testBit_bitAt_comm 1 i

theorem testBit_0x04 (i : Nat) : Nat.testBit 0x04 i = decide (i = 2) := testBit_bitAt_comm 2 i

theorem testBit_0x08 (i : Nat) : Nat.testBit 0x08 i = decide (i = 3) := testBit_bitAt_comm 3 i

theorem testBit_0x80 (i : Nat) : Nat.testBit 0x80 i = decide (i = 7) := testBit_bitAt_comm 7 i

theorem testBit_0x7F (i : Nat) : Nat.testBit 0x7F i = decide (i < 7) := by
  have h7F : (0x7F : Nat) = 2 ^ 7 - 1 := by norm_num
  rw [h7F, Nat.testBit_two_pow_sub_one]

theorem testBit_or_bitAt (x k i : Nat) :
    (x ||| bitAt k).testBit i = (x.testBit i || decide (i = k)) := by
  rw [Nat.testBit_or, testBit_bitAt_comm]

theorem testBit_or_0x01 (x i : Nat) : (x ||| 0x01).testBit i = (x.testBit i || decide (i = 0)) :=
  testBit_or_bitAt x 0 i

theorem testBit_or_0x02 (x i : Nat) : (x ||| 0x02).testBit i = (x.testBit i || decide (i = 1)) :=
  testBit_or_bitAt x 1 i

theorem testBit_or_0x04 (x i : Nat) : (x ||| 0x04).testBit i = (x.testBit i || decide (i = 2)) :=
  testBit_or_bitAt x 2 i

theorem testBit_or_0x08 (x i : Nat) : (x ||| 0x08).testBit i = (x.testBit i || decide (i = 3)) :=
  testBit_or_bitAt x 3 i

theorem testBit_or_0x80 (x i : Nat) : (x ||| 0x80).testBit i = (x.testBit i || decide (i = 7)) :=
  testBit_or_bitAt x 7 i

theorem testBit_and_0x7F (x i : Nat) :
    (x &&& 0x7F).testBit i = (x.testBit i && decide (i < 7)) := by
  have h7F : (0x7F : Nat) = 2 ^ 7 - 1 := by norm_num
  rw [h7F, Nat.testBit_and, Nat.testBit_two_pow_sub_one]

theorem flag_0x01 (x : Nat) : flag x 0x01 = x.testBit 0 := flag_bitAt x 0

theorem flag_0x02 (x : Nat) : flag x 0x02 = x.testBit 1 := flag_bitAt x 1

theorem flag_0x04 (x : Nat) : flag x 0x04 = x.testBit 2 := flag_bitAt x 2

theorem flag_0x08 (x : Nat) : flag x 0x08 = x.testBit 3 := flag_bitAt x 3

theorem timerInterrupt_ICR_eq (a b : Bool) (s : CIA) :
    (executeOneCycle.timerInterrupt a b s).ICR =
      if b && !flag s.delay ReadIcr0 then (if a then s.ICR ||| 0x01 else s.ICR) ||| 0x02
      else (if a then s.ICR ||| 0x01 else s.ICR) := by
  simp only [executeOneCycle.timerInterrupt]
  cases a <;> cases b <;> cases h : flag s.delay ReadIcr0 <;> simp [h] <;> split_ifs <;> rfl

theorem timerInterrupt_ICR (a b : Bool) (s : CIA) (i : Nat) :
    (executeOneCycle.timerInterrupt a b s).ICR.testBit i =
      (s.ICR.testBit i || (a && decide (i = 0)) ||
        (b && !s.delay.testBit 22 && decide (i = 1))) := by
  have h22 : flag s.delay ReadIcr0 = s.delay.testBit 22 := flag_bitAt _ _
  rw [timerInterrupt_ICR_eq, h22]
  cases a <;> cases b <;> cases s.delay.testBit 22 <;>
    simp only [Bool.false_and, Bool.true_and, Bool.false_or, Bool.or_false, Bool.not_true,
      Bool.not_false, Bool.and_true, Bool.and_false, if_true, if_false, Bool.false_eq_true,
      testBit_or_0x01, testBit_or_0x02, Bool.or_assoc]

theorem timerInterrupt_raise (a b : Bool) (s : CIA) (i : Nat) (hi : i = 18 ∨ i = 27) :
    (executeOneCycle.timerInterrupt a b s).delay.testBit i =
      (s.delay.testBit i || (a && flag s.IMR 0x01) || (b && flag s.IMR 0x02)) := by
  simp only [executeOneCycle.timerInterrupt]
  rcases hi with rfl | rfl <;> split_ifs <;>
    simp_all [testBit_bitAt, Interrupt0, SetIcr0] <;> tauto

theorem todInterrupt_ICR (s : CIA) (i : Nat) :
    (executeOneCycle.todInterrupt s).ICR.testBit i =
      (s.ICR.testBit i || (s.delay.testBit 29 && decide (i = 2))) := by
  simp only [executeOneCycle.todInterrupt, TODInt0, flag_bitAt]
  split_ifs <;> simp_all [testBit_0x04]

theorem todInterrupt_raise (s : CIA) (i : Nat) (hi : i = 18 ∨ i = 27) :
    (executeOneCycle.todInterrupt s).delay.testBit i =
      (s.delay.testBit i || (flag s.delay TODInt0 && flag s.IMR 0x04)) := by
  simp only [executeOneCycle.todInterrupt]
  rcases hi with rfl | rfl <;> split_ifs <;>
    simp_all [testBit_bitAt, Interrupt0, SetIcr0]

theorem serialInterrupt_ICR (s : CIA) (i : Nat) :
    (executeOneCycle.serialInterrupt s).ICR.testBit i =
      (s.ICR.testBit i || (s.delay.testBit 32 && decide (i = 3))) := by
  simp only [executeOneCycle.serialInterrupt, SerInt2, flag_bitAt]
  split_ifs <;> simp_all [testBit_0x08]

theorem serialInterrupt_raise (s : CIA) (i : Nat) (hi : i = 18 ∨ i = 27) :
    (executeOneCycle.serialInterrupt s).delay.testBit i =
      (s.delay.testBit i || (flag s.delay SerInt2 && flag s.IMR 0x08)) := by
  simp only [executeOneCycle.serialInterrupt]
  rcases hi with rfl | rfl <;> split_ifs <;>
    simp_all [testBit_bitAt, Interrupt0, SetIcr0]

theorem interruptLine_ICR (s : CIA) (i : Nat) (hi : i < 8) :
    (executeOneCycle.interruptLine s).ICR.testBit i =
      if i = 7 then (s.delay.testBit 28 || (s.ICR.testBit 7 && !s.delay.testBit 25))
      else s.ICR.testBit i := by
  simp only [executeOneCycle.interruptLine, pullDownInterruptLine, flag_or, ClearIcr1, SetIcr1,
    Interrupt1, flag_bitAt]
  by_cases h : i = 7
  · subst h
    split_ifs <;> simp_all [testBit_0x80, testBit_0x7F]
  · have hlt : i < 7 := by omega
    split_ifs <;> simp_all [testBit_0x80, testBit_0x7F]

theorem interruptLine_INT (s : CIA) :
    (executeOneCycle.interruptLine s).INT = (s.INT && !s.delay.testBit 19) ∧
    (executeOneCycle.interruptLine s).linePulled = (s.linePulled || s.delay.testBit 19) := by
  simp only [executeOneCycle.interruptLine, pullDownInterruptLine, flag_or, ClearIcr1, SetIcr1,
    Interrupt1, flag_bitAt]
  split_ifs <;> simp_all

/-- From the awakened state to the state before the interrupt logic. -/
theorem beforeInterrupts_quiet (s : CIA) :
    Quiet [0, 1, 2, 5, 9, 4, 5, 6, 12, 30, 33, 34, 14, 15, 16, 17] [0, 4, 33, 35] (wakeUp s)
      (beforeInterrupts s) :=
  (timerA_quiet (wakeUp s)).trans <| (timerB_quiet _).trans <| (serial_quiet _ _).trans <|
    (outputPB6_quiet _ _).trans <| (outputPB7_quiet _ _).trans <| writePB_quiet _

theorem beforeInterrupts_side (s : CIA) :
    (beforeInterrupts s).ICR = s.ICR ∧ (beforeInterrupts s).INT = s.INT ∧
    (beforeInterrupts s).linePulled = s.linePulled ∧ (beforeInterrupts s).IMR = s.IMR ∧
    (beforeInterrupts s).counterA = (afterTimerA s).counterA := by
  obtain ⟨-, -, w3, w4, w5, w6, -⟩ := wakeUp_fields s
  obtain ⟨a1, a2, a3, -⟩ := timerA_side (wakeUp s)
  obtain ⟨b1, b2, b3, b4, -⟩ := timerB_side (afterTimerA s)
  obtain ⟨c1, c2, c3, c4⟩ := serial_side (timerAOutput s) (afterTimerB s)
  obtain ⟨d1, d2, d3, d4⟩ := outputPB6_side (timerAOutput s)
    (executeOneCycle.serial (timerAOutput s) (afterTimerB s))
  obtain ⟨e1, e2, e3, e4⟩ := outputPB7_side (timerBOutput s)
    (executeOneCycle.outputPB6 (timerAOutput s)
      (executeOneCycle.serial (timerAOutput s) (afterTimerB s)))
  obtain ⟨f1, f2, f3, f4⟩ := writePB_side (executeOneCycle.outputPB7 (timerBOutput s)
    (executeOneCycle.outputPB6 (timerAOutput s)
      (executeOneCycle.serial (timerAOutput s) (afterTimerB s))))
  refine ⟨?_, ?_, ?_, ?_, ?_⟩
  · exact f1.trans (e1.trans (d1.trans (c1.trans (b1.trans (a1.trans w3)))))
  · exact f2.trans (e2.trans (d2.trans (c2.trans (b2.trans (a2.trans w5)))))
  · exact f3.trans (e3.trans (d3.trans (c3.trans (b3.trans (a3.trans w6)))))
  · exact (beforeInterrupts_quiet s).IMR.trans w4
  · exact f4.trans (e4.trans (d4.trans (c4.trans b4)))

/-- Bits of `delay` that reach the interrupt logic unchanged. -/
theorem beforeInterrupts_delay (s : CIA) (i : Nat) (hi : i < 64)
    (hn : i ∉ [0, 1, 2, 5, 9, 4, 5, 6, 12, 30, 33, 34, 14, 15, 16, 17]) :
    (beforeInterrupts s).delay.testBit i = s.delay.testBit i := by
  obtain ⟨w1, -⟩ := wakeUp_fields s
  rw [(beforeInterrupts_quiet s).delay i hi hn, w1]

/-- The ICR after one cycle, bit by bit: bit 7 follows `SetIcr1` and
`ClearIcr1`, bits 0..3 are set by the two timers (timer B only while no read
is in flight), the TOD alarm and the serial register. -/
theorem executeOneCycle_ICR (c : Nat) (s : CIA) (i : Nat) (hi : i < 8) :
    (executeOneCycle c s).ICR.testBit i =
      if i = 7 then (s.delay.testBit 28 || (s.ICR.testBit 7 && !s.delay.testBit 25))
      else (s.ICR.testBit i || (timerAOutput s && decide (i = 0)) ||
        (timerBOutput s && !s.delay.testBit 22 && decide (i = 1)) ||
        (s.delay.testBit 29 && decide (i = 2)) || (s.delay.testBit 32 && decide (i = 3))) := by
  obtain ⟨-, -, e3, -⟩ :=
    idle_fields c (wakeUp s).delay (wakeUp s).feed (executeOneCycle.shift (beforeShift s))
  obtain ⟨m1, -⟩ := beforeInterrupts_side s
  have q1 := timerInterrupt_quiet (timerAOutput s) (timerBOutput s) (beforeInterrupts s)
  have q2 := todInterrupt_quiet
    (executeOneCycle.timerInterrupt (timerAOutput s) (timerBOutput s) (beforeInterrupts s))
  have q3 := serialInterrupt_quiet (executeOneCycle.todInterrupt
    (executeOneCycle.timerInterrupt (timerAOutput s) (timerBOutput s) (beforeInterrupts s)))
  have d22 := beforeInterrupts_delay s 22 (by decide) (by decide)
  have d29 := beforeInterrupts_delay s 29 (by decide) (by decide)
  have d32 := beforeInterrupts_delay s 32 (by decide) (by decide)
  have d28 := beforeInterrupts_delay s 28 (by decide) (by decide)
  have d25 := beforeInterrupts_delay s 25 (by decide) (by decide)
  rw [executeOneCycle_eq, e3]
  show (executeOneCycle.interruptLine _).ICR.testBit i = _
  rw [interruptLine_ICR _ i hi]
  rw [q3.delay 28 (by decide) (by decide), q2.delay 28 (by decide) (by decide),
    q1.delay 28 (by decide) (by decide), d28,
    q3.delay 25 (by decide) (by decide), q2.delay 25 (by decide) (by decide),
    q1.delay 25 (by decide) (by decide), d25]
  simp only [serialInterrupt_ICR, todInterrupt_ICR, timerInterrupt_ICR]
  rw [q2.delay 32 (by decide) (by decide), q1.delay 32 (by decide) (by decide), d32,
    q1.delay 29 (by decide) (by decide), d29, d22, m1]
  split_ifs <;> simp

/-- The interrupt pin after one cycle: pulled low exactly by `Interrupt1`. -/
theorem executeOneCycle_INT (c : Nat) (s : CIA) :
    (executeOneCycle c s).INT = (s.INT && !s.delay.testBit 19) ∧
    (executeOneCycle c s).linePulled = (s.linePulled || s.delay.testBit 19) := by
  obtain ⟨-, -, -, -, e5, e6, -⟩ :=
    idle_fields c (wakeUp s).delay (wakeUp s).feed (executeOneCycle.shift (beforeShift s))
  obtain ⟨-, m2, m3, -⟩ := beforeInterrupts_side s
  have q1 := timerInterrupt_quiet (timerAOutput s) (timerBOutput s) (beforeInterrupts s)
  have q2 := todInterrupt_quiet
    (executeOneCycle.timerInterrupt (timerAOutput s) (timerBOutput s) (beforeInterrupts s))
  have q3 := serialInterrupt_quiet (executeOneCycle.todInterrupt
    (executeOneCycle.timerInterrupt (timerAOutput s) (timerBOutput s) (beforeInterrupts s)))
  obtain ⟨t1, t2, -⟩ := timerInterrupt_side (timerAOutput s) (timerBOutput s) (beforeInterrupts s)
  obtain ⟨u1, u2, -⟩ := todInterrupt_side
    (executeOneCycle.timerInterrupt (timerAOutput s) (timerBOutput s) (beforeInterrupts s))
  obtain ⟨v1, v2, -⟩ := serialInterrupt_side (executeOneCycle.todInterrupt
    (executeOneCycle.timerInterrupt (timerAOutput s) (timerBOutput s) (beforeInterrupts s)))
  have d19 := beforeInterrupts_delay s 19 (by decide) (by decide)
  rw [executeOneCycle_eq, e5, e6]
  show (executeOneCycle.interruptLine _).INT = _ ∧ (executeOneCycle.interruptLine _).linePulled = _
  rw [(interruptLine_INT _).1, (interruptLine_INT _).2,
    q3.delay 19 (by decide) (by decide), q2.delay 19 (by decide) (by decide),
    q1.delay 19 (by decide) (by decide), d19, v1, u1, t1, m2, v2, u2, t2, m3]
  exact ⟨rfl, rfl⟩

/-- The flags `Interrupt0` and `SetIcr0` before the shift: scheduled before the
cycle, or raised in it. -/
theorem beforeShift_raise (s : CIA) (i : Nat) (hi : i = 18 ∨ i = 27) :
    (beforeShift s).delay.testBit i = (s.delay.testBit i || raises s) := by
  obtain ⟨-, -, -, m4, -⟩ := beforeInterrupts_side s
  have q1 := timerInterrupt_quiet (timerAOutput s) (timerBOutput s) (beforeInterrupts s)
  have q2 := todInterrupt_quiet
    (executeOneCycle.timerInterrupt (timerAOutput s) (timerBOutput s) (beforeInterrupts s))
  have d29 := beforeInterrupts_delay s 29 (by decide) (by decide)
  have d32 := beforeInterrupts_delay s 32 (by decide) (by decide)
  have di := beforeInterrupts_delay s i (by omega) (by rcases hi with rfl | rfl <;> decide)
  have hT : ∀ x : CIA, flag x.delay TODInt0 = x.delay.testBit 29 := fun x => flag_bitAt _ _
  have hS : ∀ x : CIA, flag x.delay SerInt2 = x.delay.testBit 32 := fun x => flag_bitAt _ _
  rw [beforeShift, (interruptLine_quiet _).delay i (by omega) (by simp),
    serialInterrupt_raise _ i hi, todInterrupt_raise _ i hi, timerInterrupt_raise _ _ _ i hi,
    hS, hT, q2.delay 32 (by decide) (by decide), q1.delay 32 (by decide) (by decide), d32,
    q1.delay 29 (by decide) (by decide), d29, di, q2.IMR, q1.IMR, m4, raises, hS, hT]
  simp only [Bool.or_assoc]

/-! ### Races between timers, reads and writes -/

/-- C7. In a cycle that runs while `ReadIcr0` is set in `delay` (the cycle of
an ICR read), a timer B underflow does not set ICR bit 1, whereas a timer A
underflow sets ICR bit 0. -/
theorem read_cycle_latches_timer_a_but_not_timer_b (c : Nat) (s : CIA)
    (hread : flag s.delay ReadIcr0 = true) :
    (timerBOutput s = true → (executeOneCycle c s).ICR.testBit 1 = s.ICR.testBit 1) ∧
    (timerAOutput s = true → (executeOneCycle c s).ICR.testBit 0 = true) := by
  have h22 : s.delay.testBit 22 = true := by rw [← flag_bitAt]; exact hread
  constructor
  · intro _
    rw [executeOneCycle_ICR c s 1 (by decide)]
    simp [h22]
  · intro ha
    rw [executeOneCycle_ICR c s 0 (by decide)]
    simp [ha]

/-- C7 at the state `readAtUnderflow`, in which both timers underflow during
the cycle of a read: bit 1 stays clear and bit 0 is set. -/
theorem read_cycle_latches_timer_a_but_not_timer_b_witness :
    flag readAtUnderflow.delay ReadIcr0 = true ∧ timerAOutput readAtUnderflow = true ∧
    timerBOutput readAtUnderflow = true ∧ readAtUnderflow.ICR.testBit 1 = false ∧
    (executeOneCycle 4 readAtUnderflow).ICR.testBit 1 = readAtUnderflow.ICR.testBit 1 ∧
    (executeOneCycle 4 readAtUnderflow).ICR.testBit 0 = true :=
  ⟨by decide, by decide, by decide, by decide,
    (read_cycle_latches_timer_a_but_not_timer_b 4 readAtUnderflow (by decide)).1 (by decide),
    (read_cycle_latches_timer_a_but_not_timer_b 4 readAtUnderflow (by decide)).2 (by decide)⟩

/-- The flags `Interrupt1` and `SetIcr1` after a cycle: scheduled before it,
raised in it, or fed in. -/
theorem executeOneCycle_pending (c : Nat) (s : CIA) (i : Nat) (hi : i = 18 ∨ i = 27) :
    (executeOneCycle c s).delay.testBit (i + 1) =
      (s.delay.testBit i || raises s || s.feed.testBit (i + 1)) := by
  obtain ⟨-, hf, -⟩ := wakeUp_fields s
  have hm : DelayMask.testBit (i + 1) = true := by rcases hi with rfl | rfl <;> decide
  rw [executeOneCycle_delay_succ, beforeShift_raise s i hi, hm,
    (beforeShift_quiet s).feed (i + 1) (by omega) (by rcases hi with rfl | rfl <;> decide), hf]
  simp

/-- C3. If timer A underflows in a cycle while IMR bit 0 is set and no
interrupt is pending in `Interrupt1`, then ICR bit 0 is set in that cycle and
the interrupt line is not touched in it; one `executeOneCycle` later the line
is pulled low (`INT = 0`) and ICR bit 7 is set. The underflow cycle itself
does not act on ICR bit 7: after it the bit is set exactly when an earlier
interrupt was about to set it (`SetIcr1`) or it was set before and no earlier
read is clearing it (`ClearIcr1`); so with neither of them in `delay` the bit
is what it was, and a bit 7 that was clear is set by the second cycle and not
by the first. -/
theorem timer_a_interrupt_is_delayed_by_one_cycle (c1 c2 : Nat) (s : CIA)
    (hu : timerAOutput s = true) (hm : flag s.IMR 0x01 = true)
    (hp : flag s.delay Interrupt1 = false) :
    (executeOneCycle c1 s).ICR.testBit 0 = true ∧
    (executeOneCycle c1 s).INT = s.INT ∧
    (executeOneCycle c1 s).linePulled = s.linePulled ∧
    (executeOneCycle c1 s).ICR.testBit 7
      = (flag s.delay SetIcr1 || (s.ICR.testBit 7 && !flag s.delay ClearIcr1)) ∧
    (flag s.delay SetIcr1 = false → flag s.delay ClearIcr1 = false →
      (executeOneCycle c1 s).ICR.testBit 7 = s.ICR.testBit 7) ∧
    (flag s.delay SetIcr1 = false → s.ICR.testBit 7 = false →
      (executeOneCycle c1 s).ICR.testBit 7 = false) ∧
    (executeOneCycle c2 (executeOneCycle c1 s)).INT = false ∧
    (executeOneCycle c2 (executeOneCycle c1 s)).linePulled = true ∧
    (executeOneCycle c2 (executeOneCycle c1 s)).ICR.testBit 7 = true := by
  have h19 : s.delay.testBit 19 = false := by rw [← flag_bitAt]; exact hp
  have hr : raises s = true := by simp [raises, hu, hm]
  have p19 : (executeOneCycle c1 s).delay.testBit 19 = true := by
    rw [executeOneCycle_pending c1 s 18 (Or.inl rfl), hr]; simp
  have p28 : (executeOneCycle c1 s).delay.testBit 28 = true := by
    rw [executeOneCycle_pending c1 s 27 (Or.inr rfl), hr]; simp
  obtain ⟨i1, l1⟩ := executeOneCycle_INT c1 s
  obtain ⟨i2, l2⟩ := executeOneCycle_INT c2 (executeOneCycle c1 s)
  have h7 : (executeOneCycle c1 s).ICR.testBit 7
      = (flag s.delay SetIcr1 || (s.ICR.testBit 7 && !flag s.delay ClearIcr1)) := by
    have e28 : flag s.delay SetIcr1 = s.delay.testBit 28 := flag_bitAt s.delay 28
    have e25 : flag s.delay ClearIcr1 = s.delay.testBit 25 := flag_bitAt s.delay 25
    rw [executeOneCycle_ICR c1 s 7 (by decide), e28, e25]; simp
  refine ⟨?_, ?_, ?_, h7, ?_, ?_, ?_, ?_, ?_⟩
  · rw [executeOneCycle_ICR c1 s 0 (by decide)]; simp [hu]
  · rw [i1, h19]; simp
  · rw [l1, h19]; simp
  · intro a b; rw [h7, a, b]; simp
  · intro a b; rw [h7, a, b]; simp
  · rw [i2, p19]; simp
  · rw [l2, p19]; simp
  · rw [executeOneCycle_ICR c2 _ 7 (by decide), p28]; simp

/-- C3 at the state `timerAAboutToUnderflow`: timer A underflows with its
interrupt enabled while the ICR is clear and the line is released. ICR bit 7
is clear before the underflow cycle and after it, and set one cycle later. -/
theorem timer_a_interrupt_is_delayed_by_one_cycle_witness :
    timerAOutput timerAAboutToUnderflow = true ∧ flag timerAAboutToUnderflow.IMR 0x01 = true ∧
    flag timerAAboutToUnderflow.delay Interrupt1 = false ∧
    timerAAboutToUnderflow.INT = true ∧ timerAAboutToUnderflow.ICR = 0 ∧
    (executeOneCycle 1 timerAAboutToUnderflow).ICR = 0x01 ∧
    (executeOneCycle 1 timerAAboutToUnderflow).INT = true ∧
    (executeOneCycle 1 timerAAboutToUnderflow).linePulled = false ∧
    (executeOneCycle 1 timerAAboutToUnderflow).ICR.testBit 7 = false ∧
    (executeOneCycle 2 (executeOneCycle 1 timerAAboutToUnderflow)).ICR = 0x81 ∧
    (executeOneCycle 2 (executeOneCycle 1 timerAAboutToUnderflow)).INT = false ∧
    (executeOneCycle 2 (executeOneCycle 1 timerAAboutToUnderflow)).linePulled = true ∧
    (executeOneCycle 2 (executeOneCycle 1 timerAAboutToUnderflow)).ICR.testBit 7 = true :=
  have h := timer_a_interrupt_is_delayed_by_one_cycle 1 2 timerAAboutToUnderflow
    (by decide) (by decide) (by decide)
  ⟨by decide, by decide, by decide, by decide, by decide, by decide,
    h.2.1.trans (by decide), h.2.2.1.trans (by decide),
    h.2.2.2.2.2.1 (by decide) (by decide), by decide,
    h.2.2.2.2.2.2.1, h.2.2.2.2.2.2.2.1, h.2.2.2.2.2.2.2.2⟩

/-- C8 as stated fails in its last part: in the state
`timerBAboutToUnderflow`, 0x02 is written to register 0x0D (timer B interrupt
disabled), timer B underflows in the next cycle, and the read of register
0x0D that follows returns 0x02, bit 1 set. -/
theorem imr_write_then_underflow_read_counterexample :
    ¬ ∀ (s : CIA) (v c : Nat), v.testBit 7 = false → v.testBit 1 = true →
      timerBOutput (poke 0x0D v s) = true →
      (peek Chip.cia2 noPins 0x0D (executeOneCycle c (poke 0x0D v s))).1.testBit 1 = false := by
  intro h
  have h1 := h timerBAboutToUnderflow 0x02 4 (by decide) (by decide) (by decide)
  revert h1
  decide

/-- C8, amended. If register 0x0D is written with a value that disables the
timer B interrupt (bit 7 clear, bit 1 set) and timer B underflows in the cycle
that follows the write, the underflow latches no interrupt: IMR bit 1 is
clear, so `Interrupt1` and `SetIcr1` after that cycle are exactly what the
other sources give (scheduled before the cycle, raised in it by timer A, the
TOD alarm or the serial register, or fed in), and the line is pulled in the
cycle after only by that `Interrupt1`. The underflow still sets ICR bit 1
unless an ICR read is in flight (`ReadIcr0`), so a read of register 0x0D after
the cycle returns bit 1 set. -/
theorem imr_write_disabling_timer_b_blocks_interrupt_not_icr (chip : Chip) (pins : Pins)
    (v c c2 : Nat) (s : CIA) (h7 : v.testBit 7 = false) (h1 : v.testBit 1 = true)
    (hu : timerBOutput (poke 0x0D v s) = true) :
    flag (poke 0x0D v s).IMR 0x02 = false ∧
    raises (poke 0x0D v s) = raisesWithoutTimerB (poke 0x0D v s) ∧
    flag (executeOneCycle c (poke 0x0D v s)).delay Interrupt1 =
      (flag (poke 0x0D v s).delay Interrupt0 || raisesWithoutTimerB (poke 0x0D v s) ||
        flag (poke 0x0D v s).feed Interrupt1) ∧
    flag (executeOneCycle c (poke 0x0D v s)).delay SetIcr1 =
      (flag (poke 0x0D v s).delay SetIcr0 || raisesWithoutTimerB (poke 0x0D v s) ||
        flag (poke 0x0D v s).feed SetIcr1) ∧
    (executeOneCycle c2 (executeOneCycle c (poke 0x0D v s))).INT =
      ((executeOneCycle c (poke 0x0D v s)).INT &&
        !flag (executeOneCycle c (poke 0x0D v s)).delay Interrupt1) ∧
    (flag (poke 0x0D v s).delay ReadIcr0 = false →
      (peek chip pins 0x0D (executeOneCycle c (poke 0x0D v s))).1.testBit 1 = true) := by
  obtain ⟨e1, -⟩ := poke_imr_fields v s
  have h1F : (0x1F : Nat) = 2 ^ 5 - 1 := by norm_num
  have hm : flag (poke 0x0D v s).IMR 0x02 = false := by
    rw [flag_0x02, e1, newIMR, h7, h1F]
    simp only [Bool.false_eq_true, if_false, Nat.testBit_and, testBit_not8,
      Nat.testBit_two_pow_sub_one, h1]
    simp
  have hr : raises (poke 0x0D v s) = raisesWithoutTimerB (poke 0x0D v s) := by
    simp [raises, raisesWithoutTimerB, hm]
  refine ⟨hm, hr, ?_, ?_, ?_, ?_⟩
  · simp only [Interrupt0, Interrupt1, flag_bitAt]
    rw [executeOneCycle_pending c _ 18 (Or.inl rfl), hr]
  · simp only [SetIcr0, SetIcr1, flag_bitAt]
    rw [executeOneCycle_pending c _ 27 (Or.inr rfl), hr]
  · simp only [Interrupt1, flag_bitAt]
    exact (executeOneCycle_INT c2 _).1
  · intro hread
    have h22 : (poke 0x0D v s).delay.testBit 22 = false := by rw [← flag_bitAt]; exact hread
    have hp : (peek chip pins 0x0D (executeOneCycle c (poke 0x0D v s))).1
        = (executeOneCycle c (poke 0x0D v s)).ICR := by rw [peek_icr_eq]
    rw [hp, executeOneCycle_ICR c _ 1 (by decide)]
    simp [hu, h22]

/-- C8, amended, at the state `timerBAboutToUnderflow`, where no other source
raises an interrupt: after the write of 0x02 and the underflow nothing is
pending, the line stays released, and the read returns bit 1 set. -/
theorem imr_write_disabling_timer_b_blocks_interrupt_not_icr_witness :
    timerBOutput (poke 0x0D 0x02 timerBAboutToUnderflow) = true ∧
    flag (poke 0x0D 0x02 timerBAboutToUnderflow).IMR 0x02 = false ∧
    flag (executeOneCycle 4 (poke 0x0D 0x02 timerBAboutToUnderflow)).delay Interrupt1 = false ∧
    (executeOneCycle 5 (executeOneCycle 4 (poke 0x0D 0x02 timerBAboutToUnderflow))).INT = true ∧
    (peek Chip.cia2 noPins 0x0D
      (executeOneCycle 4 (poke 0x0D 0x02 timerBAboutToUnderflow))).1.testBit 1 = true :=
  ⟨by decide,
    (imr_write_disabling_timer_b_blocks_interrupt_not_icr Chip.cia2 noPins 0x02 4 5
      timerBAboutToUnderflow (by decide) (by decide) (by decide)).1,
    by decide, by decide,
    (imr_write_disabling_timer_b_blocks_interrupt_not_icr Chip.cia2 noPins 0x02 4 5
      timerBAboutToUnderflow (by decide) (by decide) (by decide)).2.2.2.2.2 (by decide)⟩

/-! ### Timer A -/

/-- Section "Timer A" is the decrement, the underflow block and the load. -/
theorem timerA_eq (w : CIA) :
    executeOneCycle.timerA w =
      (timerALoad (timerAUnderflow
        ((timerACount w).counterA == 0 && flag (timerACount w).delay CountA2) (timerACount w)),
        (timerACount w).counterA == 0 && flag (timerACount w).delay CountA2) := rfl

theorem timerACount_fields (w : CIA) :
    (timerACount w).counterA = (if w.delay.testBit 3 then dec16 w.counterA else w.counterA) ∧
    (timerACount w).delay = w.delay ∧ (timerACount w).feed = w.feed ∧
    (timerACount w).CRA = w.CRA ∧ (timerACount w).latchA = w.latchA := by
  simp only [timerACount, CountA3, flag_bitAt]
  split_ifs <;> exact ⟨rfl, rfl, rfl, rfl, rfl⟩

theorem timerAUnderflow_false (x : CIA) : timerAUnderflow false x = x := rfl

theorem timerAUnderflow_true (x : CIA) (one : Bool)
    (hone : one = (x.delay.testBit 20 || x.feed.testBit 20)) :
    (timerAUnderflow true x).counterA = x.counterA ∧
    (timerAUnderflow true x).latchA = x.latchA ∧
    (timerAUnderflow true x).delay.testBit 0 = (x.delay.testBit 0 && !one) ∧
    (timerAUnderflow true x).delay.testBit 1 = (x.delay.testBit 1 && !one) ∧
    (timerAUnderflow true x).delay.testBit 2 = (x.delay.testBit 2 && !one) ∧
    (timerAUnderflow true x).delay.testBit 9 = true ∧
    (timerAUnderflow true x).feed.testBit 0 = (x.feed.testBit 0 && !one) ∧
    (timerAUnderflow true x).CRA.testBit 0 = (x.CRA.testBit 0 && !one) := by
  subst hone
  simp only [timerAUnderflow, if_true, CountA2, CountA1, CountA0, CountB1, LoadA1, OneShotA0,
    flag_bitAt, Nat.testBit_or]
  cases h20 : x.delay.testBit 20 <;> cases h20f : x.feed.testBit 20 <;>
    simp only [Bool.or_false, Bool.or_true, Bool.false_eq_true, if_false, if_true] <;>
    split_ifs <;>
    simp [-Nat.testBit_zero, testBit_not64, testBit_not8, testBit_bitAt, testBit_0x01]

theorem timerALoad_fields (x : CIA) :
    (timerALoad x).counterA = (if x.delay.testBit 9 then x.latchA else x.counterA) ∧
    (timerALoad x).delay.testBit 0 = x.delay.testBit 0 ∧
    (timerALoad x).delay.testBit 1 = x.delay.testBit 1 ∧
    (timerALoad x).delay.testBit 2 = (x.delay.testBit 2 && !x.delay.testBit 9) ∧
    (timerALoad x).feed = x.feed ∧ (timerALoad x).CRA = x.CRA := by
  simp only [timerALoad, reloadTimerA, LoadA1, CountA2, flag_bitAt]
  split_ifs <;> simp_all [-Nat.testBit_zero, testBit_not64, testBit_bitAt]

/-- The local `timerAOutput` in terms of the awakened state. -/
theorem timerAOutput_eq (s : CIA) :
    timerAOutput s =
      ((if (wakeUp s).delay.testBit 3 then dec16 (wakeUp s).counterA else (wakeUp s).counterA) == 0
        && (wakeUp s).delay.testBit 2) := by
  obtain ⟨c1, c2, -⟩ := timerACount_fields (wakeUp s)
  rw [timerAOutput, timerA_eq]
  simp only [c1, c2, CountA2, flag_bitAt]

/-- Section "Timer A", effect by effect. `one` says that the timer is stopped
by one shot mode, `load` that the counter is reloaded. -/
theorem timerA_effect (w : CIA) (a one load : Bool) (cnt : Nat)
    (hcnt : cnt = if w.delay.testBit 3 then dec16 w.counterA else w.counterA)
    (ha : a = (cnt == 0 && w.delay.testBit 2))
    (hone : one = (a && (w.delay.testBit 20 || w.feed.testBit 20)))
    (hload : load = (a || w.delay.testBit 9)) :
    (executeOneCycle.timerA w).2 = a ∧
    (executeOneCycle.timerA w).1.counterA = (if load then w.latchA else cnt) ∧
    (executeOneCycle.timerA w).1.delay.testBit 0 = (w.delay.testBit 0 && !one) ∧
    (executeOneCycle.timerA w).1.delay.testBit 1 = (w.delay.testBit 1 && !one) ∧
    (executeOneCycle.timerA w).1.delay.testBit 2 = (w.delay.testBit 2 && !one && !load) ∧
    (executeOneCycle.timerA w).1.feed.testBit 0 = (w.feed.testBit 0 && !one) ∧
    (executeOneCycle.timerA w).1.CRA.testBit 0 = (w.CRA.testBit 0 && !one) := by
  obtain ⟨c1, c2, c3, c4, c5⟩ := timerACount_fields w
  have hA : ((timerACount w).counterA == 0 && flag (timerACount w).delay CountA2) = a := by
    rw [c1, c2, ha, hcnt]; simp only [CountA2, flag_bitAt]
  rw [timerA_eq, hA]
  obtain ⟨l1, l2, l3, l4, l5, l6⟩ := timerALoad_fields (timerAUnderflow a (timerACount w))
  refine ⟨rfl, ?_⟩
  simp only [l1, l2, l3, l4, l5, l6]
  cases a
  · simp only [timerAUnderflow_false, c1, c2, c3, c4, c5]
    simp only [Bool.false_and] at hone
    simp only [Bool.false_or] at hload
    subst hone hload hcnt
    simp
  · obtain ⟨u1, u2, u3, u4, u5, u6, u7, u8⟩ := timerAUnderflow_true (timerACount w) one
      (by rw [hone, c2, c3]; simp)
    simp only [Bool.true_or] at hload
    subst hload
    simp only [u1, u2, u3, u4, u5, u6, u7, u8, c1, c2, c3, c4, c5]
    simp

/-- From the end of section "Timer A" to the state before the shift. -/
theorem afterTimerA_quiet (s : CIA) :
    Quiet [4, 5, 6, 12, 30, 33, 34, 14, 15, 16, 17, 18, 27, 18, 27, 18, 27] [4, 33, 35]
      (afterTimerA s) (beforeShift s) :=
  (timerB_quiet _).trans <| (serial_quiet _ _).trans <|
    (outputPB6_quiet _ _).trans <| (outputPB7_quiet _ _).trans <| (writePB_quiet _).trans <|
    (timerInterrupt_quiet _ _ _).trans <| (todInterrupt_quiet _).trans <|
    (serialInterrupt_quiet _).trans <| interruptLine_quiet _

theorem serial_CRA (a : Bool) (s : CIA) : (executeOneCycle.serial a s).CRA = s.CRA := by
  simp only [executeOneCycle.serial]; split_ifs <;> rfl

theorem outputPB6_CRA (a : Bool) (s : CIA) : (executeOneCycle.outputPB6 a s).CRA = s.CRA := by
  simp only [executeOneCycle.outputPB6]; split_ifs <;> rfl

theorem outputPB7_CRA (b : Bool) (s : CIA) : (executeOneCycle.outputPB7 b s).CRA = s.CRA := by
  simp only [executeOneCycle.outputPB7]; split_ifs <;> rfl

theorem writePB_CRA (s : CIA) : (executeOneCycle.writePB s).CRA = s.CRA := by
  simp only [executeOneCycle.writePB]; split_ifs <;> rfl

theorem timerInterrupt_CRA (a b : Bool) (s : CIA) :
    (executeOneCycle.timerInterrupt a b s).CRA = s.CRA := by
  simp only [executeOneCycle.timerInterrupt]; split_ifs <;> rfl

theorem todInterrupt_CRA (s : CIA) : (executeOneCycle.todInterrupt s).CRA = s.CRA := by
  simp only [executeOneCycle.todInterrupt]; split_ifs <;> rfl

theorem serialInterrupt_CRA (s : CIA) : (executeOneCycle.serialInterrupt s).CRA = s.CRA := by
  simp only [executeOneCycle.serialInterrupt]; split_ifs <;> rfl

theorem interruptLine_CRA (s : CIA) : (executeOneCycle.interruptLine s).CRA = s.CRA := by
  simp only [executeOneCycle.interruptLine, pullDownInterruptLine]; split_ifs <;> rfl

/-- After section "Timer A" nothing in the cycle writes `counterA` or `CRA`. -/
theorem executeOneCycle_counterA_CRA (c : Nat) (s : CIA) :
    (executeOneCycle c s).counterA = (afterTimerA s).counterA ∧
    (executeOneCycle c s).CRA = (afterTimerA s).CRA := by
  obtain ⟨-, -, -, -, -, -, -, e8, -, e10⟩ :=
    idle_fields c (wakeUp s).delay (wakeUp s).feed (executeOneCycle.shift (beforeShift s))
  obtain ⟨-, -, -, -, m5⟩ := beforeInterrupts_side s
  rw [executeOneCycle_eq, e8, e10]
  constructor
  · show (beforeShift s).counterA = _
    rw [beforeShift, interruptLine_side, (serialInterrupt_side _).2.2, (todInterrupt_side _).2.2,
      (timerInterrupt_side _ _ _).2.2, m5]
  · show (beforeShift s).CRA = _
    rw [beforeShift, interruptLine_CRA, serialInterrupt_CRA, todInterrupt_CRA, timerInterrupt_CRA,
      beforeInterrupts, writePB_CRA, outputPB7_CRA, outputPB6_CRA, serial_CRA, afterTimerB,
      (timerB_side _).2.2.2.2]

/-- One cycle as timer A sees it. `cnt` is the counter after the decrement,
`a` the underflow, `one` the stop by one shot mode, `load` the reload. -/
theorem executeOneCycle_timerA (c : Nat) (s : CIA) (a one load : Bool) (cnt : Nat)
    (hcnt : cnt = if s.delay.testBit 3 then dec16 (wakeUp s).counterA else (wakeUp s).counterA)
    (ha : a = (cnt == 0 && s.delay.testBit 2))
    (hone : one = (a && (s.delay.testBit 20 || s.feed.testBit 20)))
    (hload : load = (a || s.delay.testBit 9)) :
    timerAOutput s = a ∧
    (executeOneCycle c s).counterA = (if load then s.latchA else cnt) ∧
    (executeOneCycle c s).delay.testBit 0 = (s.feed.testBit 0 && !one) ∧
    (executeOneCycle c s).delay.testBit 1 = ((s.delay.testBit 0 && !one) || s.feed.testBit 1) ∧
    (executeOneCycle c s).delay.testBit 2 = ((s.delay.testBit 1 && !one) || s.feed.testBit 2) ∧
    (executeOneCycle c s).delay.testBit 3 =
      ((s.delay.testBit 2 && !one && !load) || s.feed.testBit 3) ∧
    (executeOneCycle c s).delay.testBit 8 = s.feed.testBit 8 ∧
    (executeOneCycle c s).delay.testBit 9 = (s.delay.testBit 8 || s.feed.testBit 9) ∧
    (executeOneCycle c s).delay.testBit 20 = s.feed.testBit 20 ∧
    (executeOneCycle c s).feed.testBit 0 = (s.feed.testBit 0 && !one) ∧
    (executeOneCycle c s).CRA.testBit 0 = (s.CRA.testBit 0 && !one) := by
  obtain ⟨hd, hf, -, -, -, -, hl, -, hcra, -⟩ := wakeUp_fields s
  obtain ⟨t1, t2, t3, t4, t5, t6, t7⟩ := timerA_effect (wakeUp s) a one load cnt
    (by rw [hd]; exact hcnt) (by rw [hd]; exact ha) (by rw [hd, hf]; exact hone)
    (by rw [hd]; exact hload)
  rw [hd] at t3 t4 t5
  rw [hf] at t6
  rw [hl] at t2
  rw [hcra] at t7
  have q := afterTimerA_quiet s
  have qa := beforeShift_quiet s
  obtain ⟨k1, k2⟩ := executeOneCycle_counterA_CRA c s
  obtain ⟨-, e2, -⟩ :=
    idle_fields c (wakeUp s).delay (wakeUp s).feed (executeOneCycle.shift (beforeShift s))
  have f : ∀ i, i < 64 → i ∉ [0, 4, 33, 35] → (beforeShift s).feed.testBit i = s.feed.testBit i :=
    fun i hi hn => by rw [qa.feed i hi hn, hf]
  have f0 : (beforeShift s).feed.testBit 0 = (s.feed.testBit 0 && !one) := by
    rw [q.feed 0 (by decide) (by decide)]; exact t6
  refine ⟨t1, by rw [k1]; exact t2, ?_, ?_, ?_, ?_, ?_, ?_, ?_, ?_, by rw [k2]; exact t7⟩
  · rw [executeOneCycle_delay_zero, f0]
  · rw [executeOneCycle_delay_succ, q.delay 0 (by decide) (by decide),
      f 1 (by decide) (by decide)]
    have hm : DelayMask.testBit 1 = true := by decide
    rw [hm, Bool.and_true]; exact congrArg (· || s.feed.testBit 1) t3
  · rw [executeOneCycle_delay_succ, q.delay 1 (by decide) (by decide),
      f 2 (by decide) (by decide)]
    have hm : DelayMask.testBit 2 = true := by decide
    rw [hm, Bool.and_true]; exact congrArg (· || s.feed.testBit 2) t4
  · rw [executeOneCycle_delay_succ, q.delay 2 (by decide) (by decide),
      f 3 (by decide) (by decide)]
    have hm : DelayMask.testBit 3 = true := by decide
    rw [hm, Bool.and_true]; exact congrArg (· || s.feed.testBit 3) t5
  · rw [executeOneCycle_delay_succ, f 8 (by decide) (by decide)]
    have hm : DelayMask.testBit 8 = false := by decide
    rw [hm]; simp
  · rw [executeOneCycle_delay_succ, qa.delay 8 (by decide) (by decide), hd,
      f 9 (by decide) (by decide)]
    have hm : DelayMask.testBit 9 = true := by decide
    rw [hm, Bool.and_true]
  · rw [executeOneCycle_delay_succ, f 20 (by decide) (by decide)]
    have hm : DelayMask.testBit 20 = false := by decide
    rw [hm]; simp
  · rw [executeOneCycle_eq, e2]; exact f0

/-- A bit that survives `DelayMask` lies in the word and is no stage-0 flag
that `feed` may hold. -/
theorem DelayMask_testBit (i : Nat) (h : DelayMask.testBit i = true) :
    i < 64 ∧ i ∉ [0, 4, 33, 35] := by
  simp only [DelayMask, testBit_not64, Nat.testBit_or, testBit_bitAt, CountA0, CountB0, LoadA0,
    LoadB0, PB6Low0, PB7Low0, Interrupt0, OneShotA0, OneShotB0, ReadIcr0, ClearIcr0, SetIcr0,
    TODInt0, SerInt0, SerLoad0, SerClk0] at h
  by_cases hi : i < 64
  · refine ⟨hi, ?_⟩
    intro hm
    simp only [List.mem_cons, List.mem_singleton, List.not_mem_nil, or_false] at hm
    rcases hm with rfl | rfl | rfl | rfl <;> simp at h
  · exfalso
    simp only [hi, decide_False, Bool.false_bne, Bool.or_eq_true, decide_eq_true_eq] at h
    omega

theorem feed_testBit_of_stage0 (f i : Nat) (h : f &&& DelayMask = 0)
    (hm : DelayMask.testBit i = true) : f.testBit i = false := by
  have h2 : (f &&& DelayMask).testBit i = false := by rw [h]; exact Nat.zero_testBit i
  rw [Nat.testBit_and, hm, Bool.and_true] at h2
  exact h2

/-- The cycle keeps `feed` within the stage-0 flags. -/
theorem executeOneCycle_feed_stage0 (c : Nat) (s : CIA) (h : s.feed &&& DelayMask = 0) :
    (executeOneCycle c s).feed &&& DelayMask = 0 := by
  apply Nat.eq_of_testBit_eq
  intro i
  rw [Nat.zero_testBit, Nat.testBit_and]
  cases hm : DelayMask.testBit i
  · simp
  · obtain ⟨hi, hn⟩ := DelayMask_testBit i hm
    rw [executeOneCycle_feed c s i hi hn, feed_testBit_of_stage0 _ i h hm]
    rfl

theorem wakeUp_counterA (s : CIA) (h : s.idleCounter = 0 ∨ s.feed.testBit 0 = false) :
    (wakeUp s).counterA = s.counterA := by
  simp only [wakeUp, CountA0, CountB0, flag_bitAt]
  rcases h with h | h
  · simp [h]
  · simp only [h, Bool.false_eq_true, if_false]
    split_ifs <;> rfl

/-- A halted timer A stays halted: the cycle neither decrements the counter
nor underflows. -/
theorem timerAHalted_step (c : Nat) (s : CIA) (h : TimerAHalted s) :
    timerAOutput s = false ∧ TimerAHalted (executeOneCycle c s) ∧
    ((executeOneCycle c s).counterA = s.counterA ∨
      (executeOneCycle c s).counterA = s.latchA) := by
  obtain ⟨hw, f0, d0, d1, d2, d3⟩ := h
  have hc := wakeUp_counterA s (Or.inr f0)
  obtain ⟨r1, r2, r3, r4, r5, r6, -, -, -, r10, -⟩ :=
    executeOneCycle_timerA c s false false (s.delay.testBit 9) s.counterA
      (by rw [d3, hc]; rfl) (by rw [d2]; simp) (by simp) (by simp)
  have f1 := feed_testBit_of_stage0 _ 1 hw (by decide)
  have f2 := feed_testBit_of_stage0 _ 2 hw (by decide)
  have f3 := feed_testBit_of_stage0 _ 3 hw (by decide)
  refine ⟨r1, ⟨executeOneCycle_feed_stage0 c s hw, ?_, ?_, ?_, ?_, ?_⟩, ?_⟩
  · rw [r10, f0]; rfl
  · rw [r3, f0]; rfl
  · rw [r4, d0, f1]; rfl
  · rw [r5, d1, f2]; rfl
  · rw [r6, d2, f3]; rfl
  · rw [r2]; cases s.delay.testBit 9
    · exact Or.inl rfl
    · exact Or.inr rfl

theorem timerAHalted_run (clock : Nat → Nat) (k : Nat) (s : CIA) (h : TimerAHalted s) :
    TimerAHalted (run clock k s) := by
  induction k with
  | zero => exact h
  | succ k ih => exact (timerAHalted_step (clock k) _ ih).2.1

/-- C4. If timer A underflows while one shot mode is selected (`OneShotA0` in
`delay` or `feed`), then after that cycle CRA bit 0 is clear (register 0x0E
reads bit 0 as 0), `CountA0` is removed from `feed` and `CountA0..CountA3`
are absent from `delay`; without register writes the counter is never
decremented again (no `CountA3` event and no fed `CountA0`, it changes by a
load only) and never underflows again. -/
theorem one_shot_timer_a_stops_after_underflow (clock : Nat → Nat) (chip : Chip) (pins : Pins)
    (c : Nat) (s : CIA) (hfeed : s.feed &&& DelayMask = 0)
    (hone : flag (s.delay ||| s.feed) OneShotA0 = true) (hu : timerAOutput s = true) :
    flag (executeOneCycle c s).CRA 0x01 = false ∧
    (peek chip pins 0x0E (executeOneCycle c s)).1.testBit 0 = false ∧
    flag (executeOneCycle c s).feed CountA0 = false ∧
    flag (executeOneCycle c s).delay (CountA0 ||| CountA1 ||| CountA2 ||| CountA3) = false ∧
    ∀ k, timerAOutput (run clock k (executeOneCycle c s)) = false ∧
      flag (run clock k (executeOneCycle c s)).delay CountA3 = false ∧
      flag (run clock k (executeOneCycle c s)).feed CountA0 = false ∧
      ((run clock (k + 1) (executeOneCycle c s)).counterA =
          (run clock k (executeOneCycle c s)).counterA ∨
        (run clock (k + 1) (executeOneCycle c s)).counterA =
          (run clock k (executeOneCycle c s)).latchA) := by
  obtain ⟨hd, -⟩ := wakeUp_fields s
  have ha : true = ((if s.delay.testBit 3 then dec16 (wakeUp s).counterA
      else (wakeUp s).counterA) == 0 && s.delay.testBit 2) := by
    have h := hu
    rw [timerAOutput_eq, hd] at h
    exact h.symm
  have ho : (s.delay.testBit 20 || s.feed.testBit 20) = true := by
    rw [← Nat.testBit_or, ← flag_bitAt]; exact hone
  obtain ⟨-, -, r3, r4, r5, r6, -, -, -, r10, r11⟩ :=
    executeOneCycle_timerA c s true true true _ rfl ha (by rw [ho]; rfl) (by simp)
  have f1 := feed_testBit_of_stage0 _ 1 hfeed (by decide)
  have f2 := feed_testBit_of_stage0 _ 2 hfeed (by decide)
  have f3 := feed_testBit_of_stage0 _ 3 hfeed (by decide)
  have e0 : (executeOneCycle c s).delay.testBit 0 = false := by rw [r3]; simp
  have e1 : (executeOneCycle c s).delay.testBit 1 = false := by rw [r4, f1]; simp
  have e2 : (executeOneCycle c s).delay.testBit 2 = false := by rw [r5, f2]; simp
  have e3 : (executeOneCycle c s).delay.testBit 3 = false := by rw [r6, f3]; simp
  have g0 : (executeOneCycle c s).feed.testBit 0 = false := by rw [r10]; simp
  have g1 : (executeOneCycle c s).CRA.testBit 0 = false := by rw [r11]; simp
  have hh : TimerAHalted (executeOneCycle c s) :=
    ⟨executeOneCycle_feed_stage0 c s hfeed, g0, e0, e1, e2, e3⟩
  refine ⟨by rw [flag_0x01]; exact g1, ?_, by rw [CountA0, flag_bitAt]; exact g0, ?_, ?_⟩
  · obtain ⟨-, -, -, -, -, -, -, -, hcra, -⟩ := wakeUp_fields (executeOneCycle c s)
    have hp : (peek chip pins 0x0E (executeOneCycle c s)).1
        = (wakeUp (executeOneCycle c s)).CRA &&& not8 0x10 := rfl
    rw [hp, hcra, Nat.testBit_and, g1]; rfl
  · simp only [flag_or, CountA0, CountA1, CountA2, CountA3, flag_bitAt, e0, e1, e2, e3]; rfl
  · intro k
    have hk := timerAHalted_run clock k _ hh
    obtain ⟨s1, -, s3⟩ := timerAHalted_step (clock k) _ hk
    obtain ⟨-, k0, -, -, -, k3⟩ := hk
    exact ⟨s1, by rw [CountA3, flag_bitAt]; exact k3, by rw [CountA0, flag_bitAt]; exact k0, s3⟩

/-- C4 at the state `oneShotStarted`. -/
theorem one_shot_timer_a_stops_after_underflow_witness :
    oneShotStarted.feed &&& DelayMask = 0 ∧
    flag (oneShotStarted.delay ||| oneShotStarted.feed) OneShotA0 = true ∧
    timerAOutput oneShotStarted = true ∧
    flag (executeOneCycle 1 oneShotStarted).CRA 0x01 = false ∧
    (peek Chip.cia1 noPins 0x0E (executeOneCycle 1 oneShotStarted)).1.testBit 0 = false ∧
    flag (executeOneCycle 1 oneShotStarted).feed CountA0 = false ∧
    flag (executeOneCycle 1 oneShotStarted).delay
      (CountA0 ||| CountA1 ||| CountA2 ||| CountA3) = false ∧
    ∀ k, timerAOutput (run (fun j => j + 2) k (executeOneCycle 1 oneShotStarted)) = false ∧
      flag (run (fun j => j + 2) k (executeOneCycle 1 oneShotStarted)).delay CountA3 = false ∧
      flag (run (fun j => j + 2) k (executeOneCycle 1 oneShotStarted)).feed CountA0 = false ∧
      ((run (fun j => j + 2) (k + 1) (executeOneCycle 1 oneShotStarted)).counterA =
          (run (fun j => j + 2) k (executeOneCycle 1 oneShotStarted)).counterA ∨
        (run (fun j => j + 2) (k + 1) (executeOneCycle 1 oneShotStarted)).counterA =
          (run (fun j => j + 2) k (executeOneCycle 1 oneShotStarted)).latchA) :=
  ⟨by decide, by decide, by decide,
    one_shot_timer_a_stops_after_underflow (fun j => j + 2) Chip.cia1 noPins 1 oneShotStarted
      (by decide) (by decide) (by decide)⟩

theorem dec16_of_pos (x : Nat) (h1 : 1 ≤ x) (h2 : x < 0x10000) : dec16 x = x - 1 := by
  simp only [dec16]
  omega

/-- One cycle of the free-running timer A: it underflows exactly in phase
`j = N`, and the phase advances. -/
theorem timerARunning_step (c N j : Nat) (s : CIA) (hN : N < 0x10000) (hj : j ≤ N)
    (h : TimerARunning N j s) :
    timerAOutput s = decide (j = N) ∧
    TimerARunning N (if j = N then 0 else j + 1) (executeOneCycle c s) := by
  obtain ⟨hi, hl, hw, f0, f20, d20, d0, d1, d2, d3, d8, d9, f8, hc⟩ := h
  have hwc := wakeUp_counterA s (Or.inl hi)
  have hcnt : (if s.delay.testBit 3 then dec16 (wakeUp s).counterA else (wakeUp s).counterA)
      = N - j := by
    rw [d3, hwc, hc]
    by_cases h0 : j = 0
    · simp [h0]
    · simp only [h0, ne_eq, not_false_eq_true, decide_True, if_true, if_false]
      rw [dec16_of_pos _ (by omega) (by omega)]
      omega
  have ha : decide (j = N) = ((N - j) == 0 && s.delay.testBit 2) := by
    rw [d2, Bool.and_true]
    by_cases hjn : j = N
    · simp [hjn]
    · have : N - j ≠ 0 := by omega
      simp [hjn, this]
  obtain ⟨r1, r2, r3, r4, r5, r6, r7, r8, r9, r10, -⟩ :=
    executeOneCycle_timerA c s (decide (j = N)) false (decide (j = N)) (N - j) hcnt.symm ha
      (by rw [d20, f20]; simp) (by rw [d9]; simp)
  obtain ⟨-, k2, k3⟩ := executeOneCycle_keeps c s
  have f1 := feed_testBit_of_stage0 _ 1 hw (by decide)
  have f2 := feed_testBit_of_stage0 _ 2 hw (by decide)
  have f3 := feed_testBit_of_stage0 _ 3 hw (by decide)
  have f9 := feed_testBit_of_stage0 _ 9 hw (by decide)
  refine ⟨r1, k3, k2.trans hl, executeOneCycle_feed_stage0 c s hw, ?_, ?_, ?_, ?_, ?_, ?_, ?_,
    ?_, ?_, ?_, ?_⟩
  · rw [r10, f0]; rfl
  · rw [executeOneCycle_feed c s 20 (by decide) (by decide), f20]
  · rw [r9, f20]
  · rw [r3, f0]; rfl
  · rw [r4, d0]; rfl
  · rw [r5, d1]; rfl
  · rw [r6, d2, f3]
    by_cases hjn : j = N <;> simp [hjn]
  · rw [r7, f8]
  · rw [r8, d8, f9]; rfl
  · rw [executeOneCycle_feed c s 8 (by decide) (by decide), f8]
  · rw [r2, hl]
    by_cases hjn : j = N
    · simp [hjn]
    · simp [hjn]

theorem phase_succ (N p : Nat) (hp : p ≤ N) :
    (if p = N then 0 else p + 1) = (p + 1) % (N + 1) := by
  by_cases h : p = N
  · simp [h]
  · rw [if_neg h, Nat.mod_eq_of_lt (by omega)]

/-- The free-running timer A after `k` cycles: the phase is `(j + k) mod
(N + 1)`. -/
theorem timerARunning_run (clock : Nat → Nat) (N j : Nat) (s : CIA) (hN : N < 0x10000)
    (hj : j ≤ N) (h : TimerARunning N j s) (k : Nat) :
    TimerARunning N ((j + k) % (N + 1)) (run clock k s) := by
  induction k with
  | zero => rw [Nat.add_zero, Nat.mod_eq_of_lt (by omega)]; exact h
  | succ k ih =>
    have hp : (j + k) % (N + 1) ≤ N := by
      have := Nat.mod_lt (j + k) (show 0 < N + 1 by omega)
      omega
    have hs := (timerARunning_step (clock k) N _ _ hN hp ih).2
    rw [phase_succ N _ hp, Nat.mod_add_mod] at hs
    exact hs

theorem run_succ_eq (clock : Nat → Nat) (k : Nat) (s : CIA) :
    run clock (k + 1) s = run (fun i => clock (i + 1)) k (executeOneCycle (clock 0) s) := by
  induction k with
  | zero => rfl
  | succ k ih =>
    show executeOneCycle (clock (k + 1)) (run clock (k + 1) s) = _
    rw [ih]
    rfl

theorem mod_eq_last_iff (N k : Nat) : k % (N + 1) = N ↔ (N + 1) ∣ (k + 1) := by
  rw [Nat.dvd_iff_mod_eq_zero, Nat.add_mod]
  have hp : k % (N + 1) < N + 1 := Nat.mod_lt _ (by omega)
  generalize k % (N + 1) = p at hp ⊢
  by_cases h1 : N = 0
  · subst h1
    have : p = 0 := by omega
    subst this
    simp
  · rw [Nat.mod_eq_of_lt (a := 1) (by omega)]
    by_cases h : p = N
    · subst h; simp
    · rw [Nat.mod_eq_of_lt (by omega)]
      omega

/-- C2. With timer A running continuously on system cycles (`CountA0` fed, the
count events in the pipeline, no one shot mode, no load scheduled, no register
access) and `latchA = N`, the underflows of timer A are exactly `N + 1`
`executeOneCycle` calls apart: counted from a cycle with an underflow, the
`k`-th following cycle underflows if and only if `N + 1` divides `k`. The
cycles with an underflow are the cycles that set ICR bit 0. -/
theorem timer_a_underflows_every_latch_plus_one_cycles (clock : Nat → Nat) (N : Nat) (s : CIA)
    (hN : N < 0x10000) (hlatch : s.latchA = N) (hfeed : s.feed &&& DelayMask = 0)
    (hrun : flag s.feed CountA0 = true) (hc0 : flag s.delay CountA0 = true)
    (hc1 : flag s.delay CountA1 = true)
    (hone : flag (s.delay ||| s.feed) OneShotA0 = false)
    (hload : flag (s.delay ||| s.feed) LoadA0 = false)
    (hu : timerAOutput s = true) :
    ∀ k, (timerAOutput (run clock k s) = true ↔ (N + 1) ∣ k) ∧
      (run clock (k + 1) s).ICR.testBit 0 =
        ((run clock k s).ICR.testBit 0 || timerAOutput (run clock k s)) := by
  obtain ⟨hd, -⟩ := wakeUp_fields s
  have f0 : s.feed.testBit 0 = true := by rw [← flag_bitAt]; exact hrun
  have d0 : s.delay.testBit 0 = true := by rw [← flag_bitAt]; exact hc0
  have d1 : s.delay.testBit 1 = true := by rw [← flag_bitAt]; exact hc1
  have ho : (s.delay.testBit 20 || s.feed.testBit 20) = false := by
    rw [← Nat.testBit_or, ← flag_bitAt]; exact hone
  have hl : (s.delay.testBit 8 || s.feed.testBit 8) = false := by
    rw [← Nat.testBit_or, ← flag_bitAt]; exact hload
  rw [Bool.or_eq_false_iff] at ho hl
  have ha : true = ((if s.delay.testBit 3 then dec16 (wakeUp s).counterA
      else (wakeUp s).counterA) == 0 && s.delay.testBit 2) := by
    have h := hu
    rw [timerAOutput_eq, hd] at h
    exact h.symm
  have d2 : s.delay.testBit 2 = true := by
    cases h : s.delay.testBit 2
    · rw [h] at ha; simp at ha
    · rfl
  obtain ⟨-, r2, r3, r4, r5, r6, r7, r8, r9, r10, -⟩ :=
    executeOneCycle_timerA (clock 0) s true false true _ rfl ha (by rw [ho.1, ho.2]; rfl)
      (by simp)
  obtain ⟨-, k2, k3⟩ := executeOneCycle_keeps (clock 0) s
  have f3 := feed_testBit_of_stage0 _ 3 hfeed (by decide)
  have f9 := feed_testBit_of_stage0 _ 9 hfeed (by decide)
  have h1 : TimerARunning N 0 (executeOneCycle (clock 0) s) := by
    refine ⟨k3, k2.trans hlatch, executeOneCycle_feed_stage0 _ s hfeed, ?_, ?_, ?_, ?_, ?_, ?_,
      ?_, ?_, ?_, ?_, ?_⟩
    · rw [r10, f0]; rfl
    · rw [executeOneCycle_feed _ s 20 (by decide) (by decide), ho.2]
    · rw [r9, ho.2]
    · rw [r3, f0]; rfl
    · rw [r4, d0]; rfl
    · rw [r5, d1]; rfl
    · rw [r6, d2, f3]; rfl
    · rw [r7, hl.2]
    · rw [r8, hl.1, f9]; rfl
    · rw [executeOneCycle_feed _ s 8 (by decide) (by decide), hl.2]
    · rw [r2, hlatch]; rfl
  intro k
  constructor
  · cases k with
    | zero => simp [run, hu]
    | succ k =>
      have hr := timerARunning_run (fun i => clock (i + 1)) N 0 _ hN (Nat.zero_le N) h1 k
      have hp : (0 + k) % (N + 1) ≤ N := by
        have := Nat.mod_lt (0 + k) (show 0 < N + 1 by omega)
        omega
      have hs := (timerARunning_step 0 N _ _ hN hp hr).1
      rw [run_succ_eq, hs, Nat.zero_add, decide_eq_true_eq]
      exact mod_eq_last_iff N k
  · show (executeOneCycle (clock k) (run clock k s)).ICR.testBit 0 = _
    rw [executeOneCycle_ICR _ _ 0 (by decide)]
    simp

/-- C2 at the scenario S2 of the spec, `timerAStarted` with latch 0x4025: an
underflow every 0x4026 cycles. -/
theorem timer_a_underflows_every_latch_plus_one_cycles_witness :
    timerAStarted.latchA = 0x4025 ∧ timerAOutput timerAStarted = true ∧
    ∀ k, (timerAOutput (run (fun j => j + 1) k timerAStarted) = true ↔ (0x4025 + 1) ∣ k) ∧
      (run (fun j => j + 1) (k + 1) timerAStarted).ICR.testBit 0 =
        ((run (fun j => j + 1) k timerAStarted).ICR.testBit 0 ||
          timerAOutput (run (fun j => j + 1) k timerAStarted)) :=
  ⟨by decide, by decide,
    timer_a_underflows_every_latch_plus_one_cycles (fun j => j + 1) 0x4025 timerAStarted
      (by decide) (by decide) (by decide) (by decide) (by decide) (by decide) (by decide)
      (by decide) (by decide)⟩

/-! ### Control registers, TOD hours, FLAG pin, unmapped addresses -/

theorem wakeUp_eq_awake (s : CIA) : wakeUp s = awake s := by
  simp only [wakeUp, awake]
  cases s
  split_ifs <;> simp_all

theorem wakeUp_tod (s : CIA) : (wakeUp s).tod = s.tod := by
  rw [wakeUp_eq_awake]; rfl

theorem peek_default (chip : Chip) (pins : Pins) (addr : Nat) (s : CIA) (h : 0x0F < addr) :
    peek chip pins addr s = (0, wakeUp s) := by
  unfold peek
  split <;> first | omega | rfl

theorem poke_default (addr v : Nat) (s : CIA) (h : 0x0F < addr) :
    poke addr v s = wakeUp s := by
  unfold poke
  split <;> first | omega | rfl

theorem poke_CRA (v : Nat) (s : CIA) : (poke 0x0E v s).CRA = v := rfl

theorem poke_CRB (v : Nat) (s : CIA) : (poke 0x0F v s).CRB = v := rfl

theorem testBit_and_not8_0x10 (x i : Nat) :
    (x &&& not8 0x10).testBit i = (decide (i < 8 ∧ i ≠ 4) && x.testBit i) := by
  have h10 : (0x10 : Nat) = bitAt 4 := rfl
  simp only [h10, Nat.testBit_and, testBit_not8, testBit_bitAt]
  by_cases h8 : i < 8 <;> by_cases h4 : 4 = i <;> simp [h8, h4] <;> omega

/-- C11. A read of control register 0x0E (0x0F) returns CRA (CRB) with bit 4
cleared: bit 4 of the value read is 0 and every other bit of the byte is the
stored bit, also directly after a write of any value `v` to the register. -/
theorem peek_control_register_never_shows_bit_4 (chip : Chip) (pins : Pins) (s : CIA)
    (v i : Nat) :
    (peek chip pins 0x0E s).1 = s.CRA &&& not8 0x10 ∧
    (peek chip pins 0x0F s).1 = s.CRB &&& not8 0x10 ∧
    (peek chip pins 0x0E s).1.testBit i = (decide (i < 8 ∧ i ≠ 4) && s.CRA.testBit i) ∧
    (peek chip pins 0x0F s).1.testBit i = (decide (i < 8 ∧ i ≠ 4) && s.CRB.testBit i) ∧
    (peek chip pins 0x0E (poke 0x0E v s)).1.testBit i
      = (decide (i < 8 ∧ i ≠ 4) && v.testBit i) ∧
    (peek chip pins 0x0F (poke 0x0F v s)).1.testBit i
      = (decide (i < 8 ∧ i ≠ 4) && v.testBit i) := by
  have hA : ∀ t : CIA, (peek chip pins 0x0E t).1 = t.CRA &&& not8 0x10 := fun t => by
    show (wakeUp t).CRA &&& not8 0x10 = _
    rw [(wakeUp_fields t).2.2.2.2.2.2.2.2.1]
  have hB : ∀ t : CIA, (peek chip pins 0x0F t).1 = t.CRB &&& not8 0x10 := fun t => by
    show (wakeUp t).CRB &&& not8 0x10 = _
    rw [(wakeUp_fields t).2.2.2.2.2.2.2.2.2.1]
  refine ⟨hA s, hB s, ?_, ?_, ?_, ?_⟩
  · rw [hA, testBit_and_not8_0x10]
  · rw [hB, testBit_and_not8_0x10]
  · rw [hA, testBit_and_not8_0x10, poke_CRA]
  · rw [hB, testBit_and_not8_0x10, poke_CRB]

theorem checkForTODInterrupt_tod (s : CIA) : (checkForTODInterrupt s).tod = s.tod := by
  simp only [checkForTODInterrupt]
  split_ifs <;> rfl

/-- C13. A write of `v` to register 0x0B while CRB bit 7 is clear stores
`v XOR 0x80` as the TOD hours when `(v AND 0x1F) = 0x12` and `v` itself
otherwise, and leaves the alarm alone; while CRB bit 7 is set, `v` goes
unmodified to the alarm hours and the TOD time is not written. -/
theorem poke_tod_hours_flips_am_pm_at_twelve (v : Nat) (s : CIA) :
    (poke 0x0B v s).tod =
      if flag s.CRB 0x80 then { s.tod with alarm := { s.tod.alarm with hours := v } }
      else { s.tod with
             tod := { s.tod.tod with hours := if (v &&& 0x1F) = 0x12 then v ^^^ 0x80 else v } } := by
  have hC := (wakeUp_fields s).2.2.2.2.2.2.2.2.2.1
  have hT := wakeUp_tod s
  show (if flag (wakeUp s).CRB 0x80 then _ else _ : CIA).tod = _
  rw [hC]
  split_ifs with h1 h2 <;> simp_all [checkForTODInterrupt_tod]

/-- C14. A rising edge on the FLAG pin changes nothing. A falling edge sets
ICR bit 4; when IMR bit 4 is set it also sets ICR bit 7 and pulls the
interrupt line low (INT = 0), and when IMR bit 4 is clear it changes nothing
but ICR bit 4. -/
theorem flag_pin_falling_edge_sets_icr_bit_4 (s : CIA) :
    triggerRisingEdgeOnFlagPin s = s ∧
    triggerFallingEdgeOnFlagPin s =
      (if s.IMR.testBit 4 then
        { s with ICR := s.ICR ||| 0x10 ||| 0x80, INT := false, linePulled := true }
       else { s with ICR := s.ICR ||| 0x10 }) ∧
    (triggerFallingEdgeOnFlagPin s).ICR.testBit 4 = true ∧
    (triggerFallingEdgeOnFlagPin s).ICR.testBit 7 = (s.IMR.testBit 4 || s.ICR.testBit 7) ∧
    (triggerFallingEdgeOnFlagPin s).INT = (!s.IMR.testBit 4 && s.INT) ∧
    (triggerFallingEdgeOnFlagPin s).linePulled = (s.IMR.testBit 4 || s.linePulled) := by
  have h10 : (0x10 : Nat) = bitAt 4 := rfl
  have h80 : (0x80 : Nat) = bitAt 7 := rfl
  have hf : flag s.IMR 0x10 = s.IMR.testBit 4 := by rw [h10, flag_bitAt]
  have hE : triggerFallingEdgeOnFlagPin s =
      (if s.IMR.testBit 4 then
        { s with ICR := s.ICR ||| 0x10 ||| 0x80, INT := false, linePulled := true }
       else { s with ICR := s.ICR ||| 0x10 }) := by
    simp only [triggerFallingEdgeOnFlagPin, pullDownInterruptLine, hf]
  refine ⟨rfl, hE, ?_, ?_, ?_, ?_⟩ <;> rw [hE] <;> cases h : s.IMR.testBit 4 <;>
    simp [h10, h80, Nat.testBit_or, testBit_bitAt]

/-- C15. For every address outside 0x00..0x0F a read returns 0, and a write
does what `wakeUp` alone does: registers, latches, `delay` and `feed` keep
their values, and a counter changes only when the chip was asleep and the
counter is fed, in which case the idle cycles are subtracted from it; when the
chip is awake (`idleCounter = 0`) no counter changes, and in every case the
next access or cycle, which starts with `wakeUp`, starts from the same state
as without the write. -/
theorem unmapped_access_only_wakes_the_chip (chip : Chip) (pins : Pins) (addr v : Nat)
    (s : CIA) (h : 0x0F < addr) :
    (peek chip pins addr s).1 = 0 ∧
    poke addr v s = awake s ∧
    (s.idleCounter = 0 →
      (poke addr v s).counterA = s.counterA ∧ (poke addr v s).counterB = s.counterB) ∧
    wakeUp (poke addr v s) = wakeUp s := by
  rw [peek_default chip pins addr s h, poke_default addr v s h, wakeUp_eq_awake,
    wakeUp_eq_awake]
  refine ⟨rfl, rfl, fun h0 => ?_, ?_⟩
  · simp [awake, h0]
  · simp [awake]

theorem unmapped_access_only_wakes_the_chip_witness :
    (peek Chip.cia1 noPins 0x10 reset).1 = 0 ∧
    poke 0x10 0xFF reset = awake reset ∧
    (reset.idleCounter = 0 →
      (poke 0x10 0xFF reset).counterA = reset.counterA ∧
      (poke 0x10 0xFF reset).counterB = reset.counterB) ∧
    wakeUp (poke 0x10 0xFF reset) = wakeUp reset :=
  unmapped_access_only_wakes_the_chip Chip.cia1 noPins 0x10 0xFF reset (by decide)

/-- C15, counterexample to the claim as worded: a write to address 0x10 of a
chip that has slept for four cycles with timer A running changes counter A
(from 16412 to 16408). -/
theorem poke_unmapped_changes_counter_counterexample :
    asleepWithTimerA.counterA = 16412 ∧ asleepWithTimerA.idleCounter = 4 ∧
    (poke 0x10 0 asleepWithTimerA).counterA = 16408 ∧
    ¬ (poke 0x10 0 asleepWithTimerA).counterA = asleepWithTimerA.counterA := by
  decide

/-! ### The port pins -/

theorem samePorts_refl (s : CIA) : SamePorts s s := ⟨rfl, rfl, rfl, rfl, rfl, rfl, rfl, rfl⟩

theorem SamePorts.andThen {s t u : CIA} (h1 : SamePorts s t) (h2 : SamePorts t u) :
    SamePorts s u :=
  ⟨h2.PA.trans h1.PA, h2.PB.trans h1.PB, h2.PALatch.trans h1.PALatch,
   h2.PBLatch.trans h1.PBLatch, h2.DDRA.trans h1.DDRA, h2.DDRB.trans h1.DDRB,
   h2.PB67TimerMode.trans h1.PB67TimerMode, h2.PB67TimerOut.trans h1.PB67TimerOut⟩

theorem SamePorts.keepsConsistent {s t : CIA} (h : SamePorts s t) (hs : PortsConsistent s) :
    PortsConsistent t := by
  obtain ⟨⟨b1, b2, b3, b4, b5, b6⟩, hA, hB⟩ := hs
  refine ⟨⟨?_, ?_, ?_, ?_, ?_, ?_⟩, ?_, ?_⟩
  · rw [h.PALatch]; exact b1
  · rw [h.PBLatch]; exact b2
  · rw [h.DDRA]; exact b3
  · rw [h.DDRB]; exact b4
  · rw [h.PB67TimerMode]; exact b5
  · rw [h.PB67TimerOut]; exact b6
  · rw [h.PA, h.PALatch, h.DDRA]; exact hA
  · rw [h.PB, hB]; simp only [portB, h.PBLatch, h.DDRB, h.PB67TimerMode, h.PB67TimerOut]

theorem wakeUp_samePorts (s : CIA) : SamePorts s (wakeUp s) := by
  rw [wakeUp_eq_awake]; exact ⟨rfl, rfl, rfl, rfl, rfl, rfl, rfl, rfl⟩

theorem peek_samePorts (chip : Chip) (pins : Pins) (addr : Nat) (s : CIA) :
    SamePorts s (peek chip pins addr s).2 := by
  refine (wakeUp_samePorts s).andThen ?_
  unfold peek
  split <;> first
    | exact samePorts_refl _
    | (simp only []; split_ifs <;> exact ⟨rfl, rfl, rfl, rfl, rfl, rfl, rfl, rfl⟩)

theorem reset_consistent : PortsConsistent reset :=
  ⟨⟨by decide, by decide, by decide, by decide, by decide, by decide⟩, by decide, by decide⟩

theorem or_byte {a b : Nat} (ha : a < 256) (hb : b < 256) : a ||| b < 256 :=
  Nat.or_lt_two_pow (n := 8) ha hb

theorem xor_byte {a b : Nat} (ha : a < 256) (hb : b < 256) : a ^^^ b < 256 :=
  Nat.xor_lt_two_pow (n := 8) ha hb

theorem and_byte {a : Nat} (b : Nat) (ha : a < 256) : a &&& b < 256 :=
  lt_of_le_of_lt Nat.and_le_left ha

theorem and_byte_right (a : Nat) {b : Nat} (hb : b < 256) : a &&& b < 256 :=
  lt_of_le_of_lt Nat.and_le_right hb

theorem pokeControlRegA_eq (v : Nat) (s : CIA) :
    pokeControlRegA v s =
      { pokeControlRegA.mode v (pokeControlRegA.output v (pokeControlRegA.start v s)) with
        PB := portB (pokeControlRegA.mode v (pokeControlRegA.output v (pokeControlRegA.start v s)))
        CRA := v } := rfl

theorem pokeControlRegB_eq (v : Nat) (s : CIA) :
    pokeControlRegB v s =
      { pokeControlRegB.mode v (pokeControlRegB.output v (pokeControlRegB.start v s)) with
        PB := portB (pokeControlRegB.mode v (pokeControlRegB.output v (pokeControlRegB.start v s)))
        CRB := v } := rfl

theorem pokeControlRegA_start_samePorts (v : Nat) (s : CIA) :
    SamePorts s (pokeControlRegA.start v s) := by
  simp only [pokeControlRegA.start]
  split_ifs <;> exact ⟨rfl, rfl, rfl, rfl, rfl, rfl, rfl, rfl⟩

theorem pokeControlRegA_mode_samePorts (v : Nat) (s : CIA) :
    SamePorts s (pokeControlRegA.mode v s) := by
  simp only [pokeControlRegA.mode]
  split_ifs <;> exact ⟨rfl, rfl, rfl, rfl, rfl, rfl, rfl, rfl⟩

theorem pokeControlRegB_start_samePorts (v : Nat) (s : CIA) :
    SamePorts s (pokeControlRegB.start v s) := by
  simp only [pokeControlRegB.start]
  split_ifs <;> exact ⟨rfl, rfl, rfl, rfl, rfl, rfl, rfl, rfl⟩

theorem pokeControlRegB_mode_samePorts (v : Nat) (s : CIA) :
    SamePorts s (pokeControlRegB.mode v s) := by
  simp only [pokeControlRegB.mode]
  split_ifs <;> exact ⟨rfl, rfl, rfl, rfl, rfl, rfl, rfl, rfl⟩
theorem SamePorts.kept {s t : CIA} (h : SamePorts s t) : PortsKept s t :=
  ⟨h.PA, h.PALatch, h.PBLatch, h.DDRA, h.DDRB, fun b => by rw [h.PB67TimerMode]; exact b,
   fun b => by rw [h.PB67TimerOut]; exact b⟩

theorem PortsKept.followedBy {s t u : CIA} (h1 : PortsKept s t) (h2 : PortsKept t u) :
    PortsKept s u :=
  ⟨h2.PA.trans h1.PA, h2.PALatch.trans h1.PALatch, h2.PBLatch.trans h1.PBLatch,
   h2.DDRA.trans h1.DDRA, h2.DDRB.trans h1.DDRB,
   fun b => h2.PB67TimerMode (h1.PB67TimerMode b),
   fun b => h2.PB67TimerOut (h1.PB67TimerOut b)⟩

/-- Writing `PB` anew after steps that kept the other port fields leaves the
ports consistent. -/
theorem PortsKept.rewritePB {s t u : CIA} (h : PortsKept s t) (hs : PortsConsistent s)
    (hu : SamePorts { t with PB := portB t } u) : PortsConsistent u := by
  refine hu.keepsConsistent ?_
  obtain ⟨⟨b1, b2, b3, b4, b5, b6⟩, hA, -⟩ := hs
  refine ⟨⟨?_, ?_, ?_, ?_, h.PB67TimerMode b5, h.PB67TimerOut b6⟩, ?_, rfl⟩
  · show t.PALatch < 256
    rw [h.PALatch]; exact b1
  · show t.PBLatch < 256
    rw [h.PBLatch]; exact b2
  · show t.DDRA < 256
    rw [h.DDRA]; exact b3
  · show t.DDRB < 256
    rw [h.DDRB]; exact b4
  · show t.PA = t.PALatch ||| not8 t.DDRA
    rw [h.PA, h.PALatch, h.DDRA]; exact hA

theorem pokeControlRegA_output_kept (v : Nat) (s : CIA) :
    PortsKept s (pokeControlRegA.output v s) := by
  simp only [pokeControlRegA.output]
  split_ifs <;> refine ⟨rfl, rfl, rfl, rfl, rfl, fun b => ?_, fun b => ?_⟩ <;>
    first
      | exact b
      | exact or_byte b (by decide)
      | exact and_byte _ b
      | exact or_byte (and_byte _ b) (and_byte_right _ (by decide))

theorem pokeControlRegB_output_kept (v : Nat) (s : CIA) :
    PortsKept s (pokeControlRegB.output v s) := by
  simp only [pokeControlRegB.output]
  split_ifs <;> refine ⟨rfl, rfl, rfl, rfl, rfl, fun b => ?_, fun b => ?_⟩ <;>
    first
      | exact b
      | exact or_byte b (by decide)
      | exact and_byte _ b
      | exact or_byte (and_byte _ b) (and_byte_right _ (by decide))

theorem pokeControlRegA_consistent (v : Nat) (s : CIA) (hs : PortsConsistent s) :
    PortsConsistent (pokeControlRegA v s) := by
  rw [pokeControlRegA_eq]
  exact (((pokeControlRegA_start_samePorts v s).kept.followedBy
    (pokeControlRegA_output_kept v _)).followedBy
    (pokeControlRegA_mode_samePorts v _).kept).rewritePB hs ⟨rfl, rfl, rfl, rfl, rfl, rfl, rfl, rfl⟩

theorem pokeControlRegB_consistent (v : Nat) (s : CIA) (hs : PortsConsistent s) :
    PortsConsistent (pokeControlRegB v s) := by
  rw [pokeControlRegB_eq]
  exact (((pokeControlRegB_start_samePorts v s).kept.followedBy
    (pokeControlRegB_output_kept v _)).followedBy
    (pokeControlRegB_mode_samePorts v _).kept).rewritePB hs ⟨rfl, rfl, rfl, rfl, rfl, rfl, rfl, rfl⟩

theorem poke_consistent (addr v : Nat) (s : CIA) (hv : v < 256) (hs : PortsConsistent s) :
    PortsConsistent (poke addr v s) := by
  have hw : PortsConsistent (wakeUp s) := (wakeUp_samePorts s).keepsConsistent hs
  have same : ∀ t : CIA, SamePorts (wakeUp s) t → PortsConsistent t := fun t h => h.keepsConsistent hw
  obtain ⟨⟨b1, b2, b3, b4, b5, b6⟩, hA, hB⟩ := hw
  unfold poke
  split
  · exact ⟨⟨hv, b2, b3, b4, b5, b6⟩, rfl, hB⟩
  · exact ⟨⟨b1, hv, b3, b4, b5, b6⟩, hA, rfl⟩
  · exact ⟨⟨b1, b2, hv, b4, b5, b6⟩, rfl, hB⟩
  · exact ⟨⟨b1, b2, b3, hv, b5, b6⟩, hA, rfl⟩
  · apply same; simp only []; split_ifs <;> exact ⟨rfl, rfl, rfl, rfl, rfl, rfl, rfl, rfl⟩
  · apply same; simp only []; split_ifs <;> exact ⟨rfl, rfl, rfl, rfl, rfl, rfl, rfl, rfl⟩
  · apply same; simp only []; split_ifs <;> exact ⟨rfl, rfl, rfl, rfl, rfl, rfl, rfl, rfl⟩
  · apply same; simp only []; split_ifs <;> exact ⟨rfl, rfl, rfl, rfl, rfl, rfl, rfl, rfl⟩
  · apply same; simp only [checkForTODInterrupt]
    split_ifs <;> exact ⟨rfl, rfl, rfl, rfl, rfl, rfl, rfl, rfl⟩
  · apply same; simp only [checkForTODInterrupt]
    split_ifs <;> exact ⟨rfl, rfl, rfl, rfl, rfl, rfl, rfl, rfl⟩
  · apply same; simp only [checkForTODInterrupt]
    split_ifs <;> exact ⟨rfl, rfl, rfl, rfl, rfl, rfl, rfl, rfl⟩
  · apply same; simp only [checkForTODInterrupt]
    split_ifs <;> exact ⟨rfl, rfl, rfl, rfl, rfl, rfl, rfl, rfl⟩
  · exact same _ ⟨rfl, rfl, rfl, rfl, rfl, rfl, rfl, rfl⟩
  · apply same; simp only [pokeInterruptControl]
    split_ifs <;> exact ⟨rfl, rfl, rfl, rfl, rfl, rfl, rfl, rfl⟩
  · exact pokeControlRegA_consistent v _ ⟨⟨b1, b2, b3, b4, b5, b6⟩, hA, hB⟩
  · exact pokeControlRegB_consistent v _ ⟨⟨b1, b2, b3, b4, b5, b6⟩, hA, hB⟩
  · exact ⟨⟨b1, b2, b3, b4, b5, b6⟩, hA, hB⟩

theorem timerA_samePorts (s : CIA) : SamePorts s (executeOneCycle.timerA s).1 := by
  simp only [executeOneCycle.timerA, reloadTimerA]
  split_ifs <;> exact ⟨rfl, rfl, rfl, rfl, rfl, rfl, rfl, rfl⟩

theorem timerB_samePorts (s : CIA) : SamePorts s (executeOneCycle.timerB s).1 := by
  simp only [executeOneCycle.timerB, reloadTimerB]
  split_ifs <;> exact ⟨rfl, rfl, rfl, rfl, rfl, rfl, rfl, rfl⟩

theorem serial_samePorts (a : Bool) (s : CIA) : SamePorts s (executeOneCycle.serial a s) := by
  simp only [executeOneCycle.serial]
  split_ifs <;> exact ⟨rfl, rfl, rfl, rfl, rfl, rfl, rfl, rfl⟩

theorem outputPB6_kept (a : Bool) (s : CIA) : PortsKept s (executeOneCycle.outputPB6 a s) := by
  simp only [executeOneCycle.outputPB6]
  split_ifs <;> refine ⟨rfl, rfl, rfl, rfl, rfl, fun b => b, fun b => ?_⟩ <;>
    first
      | exact b
      | exact or_byte b (by decide)
      | exact xor_byte b (by decide)

theorem outputPB7_kept (a : Bool) (s : CIA) : PortsKept s (executeOneCycle.outputPB7 a s) := by
  simp only [executeOneCycle.outputPB7]
  split_ifs <;> refine ⟨rfl, rfl, rfl, rfl, rfl, fun b => b, fun b => ?_⟩ <;>
    first
      | exact b
      | exact or_byte b (by decide)
      | exact xor_byte b (by decide)

theorem writePB_consistent {s t : CIA} (h : PortsKept s t) (hs : PortsConsistent s) :
    PortsConsistent (executeOneCycle.writePB t) := by
  have hk : PortsKept t
      (if flag (if flag t.delay PB6Low1 then
            { t with PB67TimerOut := t.PB67TimerOut &&& not8 0x40 } else t).delay PB7Low1 then
          { (if flag t.delay PB6Low1 then
              { t with PB67TimerOut := t.PB67TimerOut &&& not8 0x40 } else t) with
            PB67TimerOut := (if flag t.delay PB6Low1 then
              { t with PB67TimerOut := t.PB67TimerOut &&& not8 0x40 } else t).PB67TimerOut
                &&& not8 0x80 }
        else (if flag t.delay PB6Low1 then
            { t with PB67TimerOut := t.PB67TimerOut &&& not8 0x40 } else t)) := by
    split_ifs <;> refine ⟨rfl, rfl, rfl, rfl, rfl, fun b => b, fun b => ?_⟩ <;>
      first
        | exact b
        | exact and_byte _ b
        | exact and_byte _ (and_byte _ b)
  exact (h.followedBy hk).rewritePB hs ⟨rfl, rfl, rfl, rfl, rfl, rfl, rfl, rfl⟩

theorem timerInterrupt_samePorts (a b : Bool) (s : CIA) :
    SamePorts s (executeOneCycle.timerInterrupt a b s) := by
  simp only [executeOneCycle.timerInterrupt]
  split_ifs <;> exact ⟨rfl, rfl, rfl, rfl, rfl, rfl, rfl, rfl⟩

theorem todInterrupt_samePorts (s : CIA) : SamePorts s (executeOneCycle.todInterrupt s) := by
  simp only [executeOneCycle.todInterrupt]
  split_ifs <;> exact ⟨rfl, rfl, rfl, rfl, rfl, rfl, rfl, rfl⟩

theorem serialInterrupt_samePorts (s : CIA) :
    SamePorts s (executeOneCycle.serialInterrupt s) := by
  simp only [executeOneCycle.serialInterrupt]
  split_ifs <;> exact ⟨rfl, rfl, rfl, rfl, rfl, rfl, rfl, rfl⟩

theorem interruptLine_samePorts (s : CIA) : SamePorts s (executeOneCycle.interruptLine s) := by
  simp only [executeOneCycle.interruptLine, pullDownInterruptLine]
  split_ifs <;> exact ⟨rfl, rfl, rfl, rfl, rfl, rfl, rfl, rfl⟩

theorem idle_samePorts (c d f : Nat) (s : CIA) : SamePorts s (executeOneCycle.idle c d f s) := by
  simp only [executeOneCycle.idle, sleep]
  split_ifs <;> exact ⟨rfl, rfl, rfl, rfl, rfl, rfl, rfl, rfl⟩

theorem executeOneCycle_consistent (c : Nat) (s : CIA) (hs : PortsConsistent s) :
    PortsConsistent (executeOneCycle c s) := by
  rw [executeOneCycle_eq]
  refine (idle_samePorts _ _ _ _).keepsConsistent ?_
  refine (⟨rfl, rfl, rfl, rfl, rfl, rfl, rfl, rfl⟩ :
    SamePorts (beforeShift s) (executeOneCycle.shift (beforeShift s))).keepsConsistent ?_
  refine (interruptLine_samePorts _).keepsConsistent ?_
  refine (serialInterrupt_samePorts _).keepsConsistent ?_
  refine (todInterrupt_samePorts _).keepsConsistent ?_
  refine (timerInterrupt_samePorts _ _ _).keepsConsistent ?_
  refine writePB_consistent ?_ hs
  exact (wakeUp_samePorts s).kept.followedBy <| (timerA_samePorts _).kept.followedBy <|
    (timerB_samePorts _).kept.followedBy <| (serial_samePorts _ _).kept.followedBy <|
    (outputPB6_kept _ _).followedBy (outputPB7_kept _ _)

theorem Reachable.portsConsistent {s : CIA} (h : Reachable s) : PortsConsistent s := by
  induction h with
  | reset => exact reset_consistent
  | peek chip pins addr _ ih => exact (peek_samePorts chip pins addr _).keepsConsistent ih
  | poke addr v hv _ ih => exact poke_consistent addr v _ hv ih
  | cycle c _ ih => exact executeOneCycle_consistent c _ ih
  | @skip s _ ih =>
    exact (⟨rfl, rfl, rfl, rfl, rfl, rfl, rfl, rfl⟩ : SamePorts s (skipCycle s)).keepsConsistent ih

theorem and_0xFF_of_byte {x : Nat} (h : x < 256) : x &&& 0xFF = x := by
  have hFF : (0xFF : Nat) = 2 ^ 8 - 1 := by norm_num
  rw [hFF, Nat.and_pow_two_sub_one_eq_mod]
  exact Nat.mod_eq_of_lt h

theorem not8_byte {x : Nat} (h : x < 256) : not8 x < 256 := xor_byte (by decide) h

/-- C12. In every state reachable from reset by register reads, writes of
bytes, executed cycles and skipped cycles, `PA = (PALatch | ~DDRA) & 0xFF` and
`PB = (((PBLatch | ~DDRB) & ~PB67TimerMode) | (PB67TimerOut & PB67TimerMode)) & 0xFF`
(the complement taken in a byte); every PA bit configured as output shows its
latch bit and every PA bit configured as input reads 1. -/
theorem reachable_ports_follow_latches_and_directions (s : CIA) (h : Reachable s) :
    s.PA = (s.PALatch ||| not8 s.DDRA) &&& 0xFF ∧
    s.PB = (((s.PBLatch ||| not8 s.DDRB) &&& not8 s.PB67TimerMode)
              ||| (s.PB67TimerOut &&& s.PB67TimerMode)) &&& 0xFF ∧
    (∀ i, i < 8 → s.DDRA.testBit i = true → s.PA.testBit i = s.PALatch.testBit i) ∧
    (∀ i, i < 8 → s.DDRA.testBit i = false → s.PA.testBit i = true) := by
  obtain ⟨⟨b1, b2, b3, b4, b5, b6⟩, hA, hB⟩ := h.portsConsistent
  refine ⟨?_, ?_, ?_, ?_⟩
  · rw [and_0xFF_of_byte (or_byte b1 (not8_byte b3))]; exact hA
  · rw [and_0xFF_of_byte (or_byte (and_byte _ (or_byte b2 (not8_byte b4))) (and_byte _ b6))]
    exact hB
  · intro i hi hd
    rw [hA, Nat.testBit_or, testBit_not8, hd]
    simp [hi]
  · intro i hi hd
    rw [hA, Nat.testBit_or, testBit_not8, hd]
    simp [hi]

theorem reachable_ports_follow_latches_and_directions_witness :
    Reachable portAProgrammed ∧
    portAProgrammed.PA = (portAProgrammed.PALatch ||| not8 portAProgrammed.DDRA) &&& 0xFF ∧
    portAProgrammed.PB =
      (((portAProgrammed.PBLatch ||| not8 portAProgrammed.DDRB)
          &&& not8 portAProgrammed.PB67TimerMode)
        ||| (portAProgrammed.PB67TimerOut &&& portAProgrammed.PB67TimerMode)) &&& 0xFF ∧
    (∀ i, i < 8 → portAProgrammed.DDRA.testBit i = true →
      portAProgrammed.PA.testBit i = portAProgrammed.PALatch.testBit i) ∧
    (∀ i, i < 8 → portAProgrammed.DDRA.testBit i = false →
      portAProgrammed.PA.testBit i = true) :=
  have hr : Reachable portAProgrammed :=
    Reachable.poke 0x02 0x0F (by decide) (Reachable.poke 0x00 0xA5 (by decide) Reachable.reset)
  ⟨hr, reachable_ports_follow_latches_and_directions portAProgrammed hr⟩

/-! ## Theorems: VIA 6522 and VC1541 -/

/-! ### The timers -/

theorem setIo_same (io : Nat → Nat) (k x : Nat) : setIo io k x k = x := by simp [setIo]

theorem setIo_other (io : Nat → Nat) {k i : Nat} (x : Nat) (h : i ≠ k) :
    setIo io k x i = io i := by simp [setIo, h]

/-- C17. The code of `executeTimer2`, for both VIAs and every drive state:
timer 2 keeps its value, timer 1 is decremented modulo 2^16, and the timer 2
flag (bit 5 of `io[0x0D]`) is set when timer 1 was 1. With timer 1 at 5 and
timer 2 at 1 the call leaves timer 2 at 1, timer 1 at 4 and the flags at 0. -/
theorem executeTimer2_decrements_timer_1_not_timer_2 (w : ViaId) (d : VC1541) :
    ((executeTimer2 w d).via w).t2 = (d.via w).t2 ∧
    ((executeTimer2 w d).via w).t1 = dec16 (d.via w).t1 ∧
    ((executeTimer2 w d).via w).io 0x0D =
      (if (d.via w).t1 = 1 then (d.via w).io 0x0D ||| 0x20 else (d.via w).io 0x0D) ∧
    (timersLoaded w).map (fun d => ((d.via w).t1, (d.via w).t2, (d.via w).io 0x0D))
      = some (5, 1, 0) ∧
    (timersLoaded w).map (fun d => (((executeTimer2 w d).via w).t1,
        ((executeTimer2 w d).via w).t2, ((executeTimer2 w d).via w).io 0x0D))
      = some (4, 1, 0) := by
  cases w
  · refine ⟨?_, ?_, ?_, by decide, by decide⟩
    · simp only [executeTimer2, VIA1.executeTimer2, VC1541.via, signalTimeOut2]
      split <;> simp only []
    · simp only [executeTimer2, VIA1.executeTimer2, VC1541.via, signalTimeOut2]
      split <;> simp only []
    · simp only [executeTimer2, VIA1.executeTimer2, VC1541.via, signalTimeOut2, setIo]
      by_cases h : d.via1.t1 = 1 <;> simp [h, setIo_same]
  · refine ⟨?_, ?_, ?_, by decide, by decide⟩
    · simp only [executeTimer2, VIA2.executeTimer2, VC1541.via, signalTimeOut2]
      split <;> simp only []
    · simp only [executeTimer2, VIA2.executeTimer2, VC1541.via, signalTimeOut2]
      split <;> simp only []
    · simp only [executeTimer2, VIA2.executeTimer2, VC1541.via, signalTimeOut2, setIo]
      by_cases h : d.via2.t1 = 1 <;> simp [h, setIo_same]
theorem HI_LO_eq {hi lo : Nat} (hhi : hi < 256) (hlo : lo < 256) : HI_LO hi lo = hi * 256 + lo := by
  have h := Nat.mul_add_lt_is_or (i := 8) (b := lo) (by simpa using hlo) hi
  simp only [HI_LO, Nat.shiftLeft_eq]
  rw [Nat.mul_comm hi, ← h]
  norm_num
  omega

theorem LO_BYTE_eq {hi lo : Nat} (hlo : lo < 256) : LO_BYTE (hi * 256 + lo) = lo := by
  have hFF : (0xFF : Nat) = 2 ^ 8 - 1 := by norm_num
  simp only [LO_BYTE, hFF, Nat.and_pow_two_sub_one_eq_mod]
  omega

theorem HI_BYTE_eq {hi lo : Nat} (hhi : hi < 256) (hlo : lo < 256) :
    HI_BYTE (hi * 256 + lo) = hi := by
  have hFF : (0xFF : Nat) = 2 ^ 8 - 1 := by norm_num
  simp only [HI_BYTE, hFF, Nat.and_pow_two_sub_one_eq_mod, Nat.shiftRight_eq_div_pow]
  omega

theorem testBit_and_not8_0x40 (x : Nat) : (x &&& not8 0x40).testBit 6 = false := by
  have h40 : (0x40 : Nat) = bitAt 6 := rfl
  simp [h40, Nat.testBit_and, testBit_not8, testBit_bitAt]

theorem via_setVia (d : VC1541) (w : ViaId) (v : VIA6522) : (d.setVia w v).via w = v := by
  cases w <;> rfl

example (d : VC1541) (lo : Nat) : VIA1.poke 0x4 lo d = some (d.setVia ViaId.via1 { d.via ViaId.via1 with t1_latch_lo := lo }) := by
  simp only [VIA1.poke, VIA6522.poke]
  simp
theorem pokeVia_t1_latch_lo (scale : Nat → Nat → Nat → Nat) (w : ViaId) (v : Nat) (d : VC1541) :
    pokeVia scale w 0x4 v d = some (d.setVia w { d.via w with t1_latch_lo := v }) := by
  cases w
  · simp only [pokeVia, VIA1.poke, VIA6522.poke]; simp
  · simp only [pokeVia, VIA2.poke, VIA6522.poke]; simp

theorem pokeVia_t1_latch_lo_6 (scale : Nat → Nat → Nat → Nat) (w : ViaId) (v : Nat)
    (d : VC1541) :
    pokeVia scale w 0x6 v d = some (d.setVia w { d.via w with t1_latch_lo := v }) := by
  cases w
  · simp only [pokeVia, VIA1.poke, VIA6522.poke]; simp
  · simp only [pokeVia, VIA2.poke, VIA6522.poke]; simp

theorem pokeVia_t1_latch_hi (scale : Nat → Nat → Nat → Nat) (w : ViaId) (v : Nat) (d : VC1541) :
    pokeVia scale w 0x7 v d = some (d.setVia w { d.via w with t1_latch_hi := v }) := by
  cases w
  · simp only [pokeVia, VIA1.poke, VIA6522.poke]; simp
  · simp only [pokeVia, VIA2.poke, VIA6522.poke]; simp

theorem pokeVia_t1_counter_hi (scale : Nat → Nat → Nat → Nat) (w : ViaId) (v : Nat)
    (d : VC1541) :
    pokeVia scale w 0x5 v d =
      some { d.setVia w (clearTimer1Indicator
              { d.via w with t1_latch_hi := v, t1 := HI_LO v (d.via w).t1_latch_lo }) with
             cpu := { d.cpu with irqLineVIA1 := false } } := by
  cases w
  · rfl
  · rfl

theorem peekVia_t1_hi (iec : IEC) (w : ViaId) (d : VC1541) :
    (peekVia iec w 0x5 d).map Prod.fst = some (HI_BYTE (d.via w).t1) := by
  cases w
  · simp only [peekVia, VIA1.peek, VIA6522.peek]; simp; rfl
  · simp only [peekVia, VIA2.peek, VIA6522.peek]; simp; rfl

theorem peekVia_t1_lo (iec : IEC) (w : ViaId) (d : VC1541) :
    (peekVia iec w 0x4 d).map Prod.fst = some (LO_BYTE (d.via w).t1) := by
  cases w
  · simp only [peekVia, VIA1.peek, VIA6522.peek]; simp; rfl
  · simp only [peekVia, VIA2.peek, VIA6522.peek]; simp; rfl
/-- C18. For all bytes `lo` and `hi`, on either VIA: the write of `lo` to
register 4 followed by the write of `hi` to register 5 succeeds, loads the
timer 1 counter with `hi * 256 + lo`, leaves bit 6 of `io[0x0D]` clear, and
then register 5 reads `hi` and register 4 reads `lo`; a write to register 4,
6 or 7 alone changes only the latch `t1_latch_lo` resp. `t1_latch_hi`. -/
theorem t1_low_then_high_write_loads_counter (scale : Nat → Nat → Nat → Nat) (iec : IEC)
    (w : ViaId) (lo hi : Nat) (d : VC1541) (hlo : lo < 256) (hhi : hi < 256) :
    ((pokeVia scale w 0x4 lo d).bind (pokeVia scale w 0x5 hi)).map
        (fun e => ((e.via w).t1, ((e.via w).io 0x0D).testBit 6,
          (peekVia iec w 0x5 e).map Prod.fst, (peekVia iec w 0x4 e).map Prod.fst))
      = some (hi * 256 + lo, false, some hi, some lo) ∧
    (∀ v, pokeVia scale w 0x4 v d = some (d.setVia w { d.via w with t1_latch_lo := v })) ∧
    (∀ v, pokeVia scale w 0x6 v d = some (d.setVia w { d.via w with t1_latch_lo := v })) ∧
    (∀ v, pokeVia scale w 0x7 v d = some (d.setVia w { d.via w with t1_latch_hi := v })) := by
  refine ⟨?_, fun v => pokeVia_t1_latch_lo scale w v d,
    fun v => pokeVia_t1_latch_lo_6 scale w v d, fun v => pokeVia_t1_latch_hi scale w v d⟩
  rw [pokeVia_t1_latch_lo, Option.some_bind, pokeVia_t1_counter_hi, Option.map_some',
    peekVia_t1_hi, peekVia_t1_lo]
  have hv : ∀ (e : VC1541) (c : DriveCPU), ({ e with cpu := c } : VC1541).via w = e.via w :=
    fun e c => by cases w <;> rfl
  rw [hv, via_setVia, via_setVia]
  simp only [clearTimer1Indicator, setIo_same]
  rw [HI_LO_eq hhi hlo, testBit_and_not8_0x40, HI_BYTE_eq hhi hlo, LO_BYTE_eq hlo]

theorem t1_low_then_high_write_loads_counter_witness :
    0x34 < 256 ∧ 0x12 < 256 ∧
    ((pokeVia exactScale ViaId.via2 0x4 0x34 freshDrive).bind
          (pokeVia exactScale ViaId.via2 0x5 0x12)).map
        (fun e => ((e.via ViaId.via2).t1, ((e.via ViaId.via2).io 0x0D).testBit 6,
          (peekVia ⟨true, true, true⟩ ViaId.via2 0x5 e).map Prod.fst,
          (peekVia ⟨true, true, true⟩ ViaId.via2 0x4 e).map Prod.fst))
      = some (0x12 * 256 + 0x34, false, some 0x12, some 0x34) ∧
    (∀ v, pokeVia exactScale ViaId.via2 0x4 v freshDrive
      = some (freshDrive.setVia ViaId.via2
          { freshDrive.via ViaId.via2 with t1_latch_lo := v })) ∧
    (∀ v, pokeVia exactScale ViaId.via2 0x6 v freshDrive
      = some (freshDrive.setVia ViaId.via2
          { freshDrive.via ViaId.via2 with t1_latch_lo := v })) ∧
    (∀ v, pokeVia exactScale ViaId.via2 0x7 v freshDrive
      = some (freshDrive.setVia ViaId.via2
          { freshDrive.via ViaId.via2 with t1_latch_hi := v })) :=
  ⟨by decide, by decide,
    t1_low_then_high_write_loads_counter exactScale ⟨true, true, true⟩ ViaId.via2 0x34 0x12
      freshDrive (by decide) (by decide)⟩
/-! ### Port B of VIA2 -/

theorem and_3_eq_mod (x : Nat) : x &&& 0x03 = x % 4 := by
  have h3 : (0x03 : Nat) = 2 ^ 2 - 1 := by norm_num
  rw [h3, Nat.and_pow_two_sub_one_eq_mod]

theorem stepDown_eq (orb : Nat) : stepDown orb = (orb + 3) % 4 := by
  rw [stepDown, and_3_eq_mod]
  omega

theorem testBit_via2_port_b (orb : Nat) (wp sync : Bool) (i : Nat) (hi : i < 8) :
    ((if sync then (if wp then orb &&& not8 (bitAt 4) else orb ||| bitAt 4) &&& not8 (bitAt 7)
      else (if wp then orb &&& not8 (bitAt 4) else orb ||| bitAt 4) ||| bitAt 7)).testBit i
      = if i = 4 then !wp else if i = 7 then !sync else orb.testBit i := by
  by_cases h4 : i = 4
  · subst h4
    cases wp <;> cases sync <;>
      simp [Nat.testBit_and, Nat.testBit_or, testBit_not8, testBit_bitAt]
  · by_cases h7 : i = 7
    · subst h7
      cases wp <;> cases sync <;>
        simp [Nat.testBit_and, Nat.testBit_or, testBit_not8, testBit_bitAt]
    · have h4' : ¬ 4 = i := fun h => h4 h.symm
      have h7' : ¬ 7 = i := fun h => h7 h.symm
      cases wp <;> cases sync <;>
        simp [Nat.testBit_and, Nat.testBit_or, testBit_not8, testBit_bitAt, h4, h7, h4', h7', hi]

theorem VIA2_peek_port_b (d : VC1541) :
    (VIA2.peek 0x0 d).map Prod.fst =
      some (if d.sync then
          (if d.writeProtected then d.via2.orb &&& not8 (bitAt 4) else d.via2.orb ||| bitAt 4)
            &&& not8 (bitAt 7)
        else
          (if d.writeProtected then d.via2.orb &&& not8 (bitAt 4) else d.via2.orb ||| bitAt 4)
            ||| bitAt 7) := by
  simp only [VIA2.peek, VC1541.isWriteProtected, VC1541.getSyncMark, Option.map_some']
  split_ifs <;> rfl

/-- C19. A read of register 0 of VIA2 succeeds and returns bit 4 = 0 exactly
when the disk is write protected and bit 7 = 0 exactly when a SYNC mark is
detected; every other bit of the byte read is the bit of ORB before the
read. -/
theorem via2_port_b_read_shows_write_protect_and_sync (d : VC1541) :
    (VIA2.peek 0x0 d).map (fun p => (p.1.testBit 4, p.1.testBit 7))
      = some (!d.writeProtected, !d.sync) ∧
    (∀ i, i < 8 → i ≠ 4 → i ≠ 7 →
      (VIA2.peek 0x0 d).map (fun p => p.1.testBit i) = some (d.via2.orb.testBit i)) := by
  have h := VIA2_peek_port_b d
  cases hp : VIA2.peek 0x0 d with
  | none => rw [hp] at h; simp at h
  | some p =>
    rw [hp] at h
    simp only [Option.map_some', Option.some.injEq] at h
    refine ⟨?_, fun i hi h4 h7 => ?_⟩
    · simp only [Option.map_some', h, testBit_via2_port_b _ _ _ 4 (by decide),
        testBit_via2_port_b _ _ _ 7 (by decide)]
      simp
    · simp only [Option.map_some', h, testBit_via2_port_b _ _ _ i hi]
      simp [h4, h7]
theorem setRotating_head (b : Bool) (d : VC1541) :
    (d.setRotating b).halftrack = d.halftrack ∧ (d.setRotating b).bitoffset = d.bitoffset := by
  simp only [VC1541.setRotating]
  split_ifs <;> exact ⟨rfl, rfl⟩

theorem setRedLED_head (b : Bool) (d : VC1541) :
    (d.setRedLED b).halftrack = d.halftrack ∧ (d.setRedLED b).bitoffset = d.bitoffset := by
  simp only [VC1541.setRedLED]
  split_ifs <;> exact ⟨rfl, rfl⟩

/-- The head after the motor and LED statements of `VIA2::poke` is where the
stepper statements left it. -/
theorem VIA2_poke_port_b_head (scale : Nat → Nat → Nat → Nat) (v : Nat) (d : VC1541) :
    (VIA2.poke scale 0x0 v d).map (fun e => (e.halftrack, e.bitoffset)) =
      some
        ((if (d.via2.orb &&& 0x03) != (v &&& 0x03) then
            if (v &&& 0x03) == ((d.via2.orb + 1) &&& 0x03) then d.moveHeadUp scale
            else if (v &&& 0x03) == stepDown d.via2.orb then d.moveHeadDown scale
            else d
          else d).halftrack,
         (if (d.via2.orb &&& 0x03) != (v &&& 0x03) then
            if (v &&& 0x03) == ((d.via2.orb + 1) &&& 0x03) then d.moveHeadUp scale
            else if (v &&& 0x03) == stepDown d.via2.orb then d.moveHeadDown scale
            else d
          else d).bitoffset) := by
  simp only [VIA2.poke, Option.map_some', VC1541.startRotating, VC1541.stopRotating,
    VC1541.activateRedLED, VC1541.deactivateRedLED]
  generalize (if (d.via2.orb &&& 0x03) != (v &&& 0x03) then
            if (v &&& 0x03) == ((d.via2.orb + 1) &&& 0x03) then d.moveHeadUp scale
            else if (v &&& 0x03) == stepDown d.via2.orb then d.moveHeadDown scale
            else d
          else d) = e
  split_ifs <;>
    simp only [(setRotating_head _ _).1, (setRotating_head _ _).2, (setRedLED_head _ _).1,
      (setRedLED_head _ _).2]

/-- C20. A write of `v` to register 0 of VIA2 with old output register `orb`
succeeds, and the head is left as follows: if `(v & 3) = ((orb + 1) & 3)` it
is where `moveHeadUp` puts it, one halftrack up unless it is at halftrack 84;
if `(v & 3) = ((orb - 1) & 3)` it is where `moveHeadDown` puts it, one
halftrack down unless it is at halftrack 1; in every other case, and at the
two end stops, `halftrack` and `bitoffset` are unchanged. A head that moves
gets the rescaled bit offset, byte aligned. -/
theorem via2_port_b_write_steps_head_by_one_halftrack (scale : Nat → Nat → Nat → Nat)
    (v : Nat) (d : VC1541) :
    (VIA2.poke scale 0x0 v d).map (fun e => (e.halftrack, e.bitoffset)) =
      some
        (if (v &&& 0x03) = ((d.via2.orb + 1) &&& 0x03) then
          ((d.moveHeadUp scale).halftrack, (d.moveHeadUp scale).bitoffset)
         else if (v &&& 0x03) = stepDown d.via2.orb then
          ((d.moveHeadDown scale).halftrack, (d.moveHeadDown scale).bitoffset)
         else (d.halftrack, d.bitoffset)) ∧
    (d.moveHeadUp scale).halftrack = (if d.halftrack < 84 then d.halftrack + 1 else d.halftrack) ∧
    (d.moveHeadDown scale).halftrack
      = (if 1 < d.halftrack then d.halftrack - 1 else d.halftrack) ∧
    (d.moveHeadUp scale).bitoffset =
      (if d.halftrack < 84 then
        (scale d.bitoffset (d.disk.length d.halftrack) (d.disk.length (d.halftrack + 1))
          % 0x10000) &&& 0xFFF8
       else d.bitoffset) ∧
    (d.moveHeadDown scale).bitoffset =
      (if 1 < d.halftrack then
        (scale d.bitoffset (d.disk.length d.halftrack) (d.disk.length (d.halftrack - 1))
          % 0x10000) &&& 0xFFF8
       else d.bitoffset) ∧
    stepDown d.via2.orb = (d.via2.orb + 3) % 4 ∧
    (d.via2.orb + 1) &&& 0x03 = (d.via2.orb + 1) % 4 ∧ v &&& 0x03 = v % 4 := by
  refine ⟨?_, ?_, ?_, ?_, ?_, stepDown_eq _, and_3_eq_mod _, and_3_eq_mod _⟩
  · rw [VIA2_poke_port_b_head]
    simp only [stepDown_eq, and_3_eq_mod, bne_iff_ne, ne_eq, beq_iff_eq]
    by_cases hu : v % 4 = (d.via2.orb + 1) % 4
    · have hne : ¬ d.via2.orb % 4 = v % 4 := by omega
      simp only [eq_true hu, eq_false hne, if_true, if_false, not_false_eq_true]
    · by_cases hd : v % 4 = (d.via2.orb + 3) % 4
      · have hne : ¬ d.via2.orb % 4 = v % 4 := by omega
        simp only [eq_true hd, eq_false hu, eq_false hne, if_true, if_false, not_false_eq_true]
      · simp only [eq_false hd, eq_false hu, if_false]
        split_ifs <;> rfl
  · simp only [VC1541.moveHeadUp]
    split_ifs <;> rfl
  · simp only [VC1541.moveHeadDown, gt_iff_lt]
    split_ifs <;> rfl
  · simp only [VC1541.moveHeadUp]
    split_ifs <;> rfl
  · simp only [VC1541.moveHeadDown, gt_iff_lt]
    split_ifs <;> rfl

/-! ### The interrupt registers of the VIAs -/

theorem ifrOk_via {d : VC1541} (h : IfrOk d) (w : ViaId) : (d.via w).io 0x0D < 0x80 := by
  cases w
  · exact h.1
  · exact h.2

theorem ifrOk_setVia {d : VC1541} (h : IfrOk d) (w : ViaId) {v : VIA6522}
    (hv : v.io 0x0D < 0x80) : IfrOk (d.setVia w v) := by
  cases w
  · exact ⟨hv, h.2⟩
  · exact ⟨h.1, hv⟩

theorem and_lt_0x80 {a : Nat} (b : Nat) (h : a < 0x80) : a &&& b < 0x80 :=
  lt_of_le_of_lt Nat.and_le_left h

theorem or_lt_0x80 {a b : Nat} (ha : a < 0x80) (hb : b < 0x80) : a ||| b < 0x80 :=
  Nat.or_lt_two_pow (n := 7) ha hb

theorem VIA6522_poke_ifrOk (w : ViaId) (addr v : Nat) {d e : VC1541}
    (h : VIA6522.poke w addr v d = some e) (hd : IfrOk d) : IfrOk e := by
  have hw := ifrOk_via hd w
  unfold VIA6522.poke at h
  split at h
  · cases h
  · split at h
    all_goals first
      | (cases h; done)
      | (cases h; exact ifrOk_setVia hd w hw)
      | (cases h
         exact ifrOk_setVia hd w (by
          simp only [clearTimer1Indicator, clearTimer2Indicator, setIo_same]
          exact and_lt_0x80 _ hw))
      | skip
    · split at h <;> cases h <;>
        exact ifrOk_setVia hd w (by
          dsimp only
          rw [setIo_other (k := 0x0E) (i := 0x0D) _ _ (by decide)]; exact hw)
    · rename_i hD _
      cases h
      exact ifrOk_setVia hd w (by
        dsimp only
        rw [setIo_other (k := addr) (i := 0x0D) _ _ (fun hh => hD hh.symm)]; exact hw)

theorem VIA1_poke_ifrOk (addr v : Nat) {d e : VC1541}
    (h : VIA1.poke addr v d = some e) (hd : IfrOk d) : IfrOk e := by
  unfold VIA1.poke at h
  split at h
  · cases h
    refine ⟨?_, hd.2⟩
    simp only [setIo_same]
    exact and_lt_0x80 _ (and_lt_0x80 _ hd.1)
  · cases h
    refine ⟨?_, hd.2⟩
    simp only [clearAtnIndicator, setIo_same]
    exact and_lt_0x80 _ (and_lt_0x80 _ hd.1)
  · cases h
    refine ⟨?_, hd.2⟩
    simp only [clearAtnIndicator, setIo_same]
    exact and_lt_0x80 _ (and_lt_0x80 _ hd.1)
  · cases h
    exact hd
  · exact VIA6522_poke_ifrOk _ _ _ h hd

theorem setRotating_vias (b : Bool) (d : VC1541) :
    (d.setRotating b).via1 = d.via1 ∧ (d.setRotating b).via2 = d.via2 := by
  simp only [VC1541.setRotating]
  split_ifs <;> exact ⟨rfl, rfl⟩

theorem setRedLED_vias (b : Bool) (d : VC1541) :
    (d.setRedLED b).via1 = d.via1 ∧ (d.setRedLED b).via2 = d.via2 := by
  simp only [VC1541.setRedLED]
  split_ifs <;> exact ⟨rfl, rfl⟩

theorem moveHeadUp_vias (scale : Nat → Nat → Nat → Nat) (d : VC1541) :
    (d.moveHeadUp scale).via1 = d.via1 ∧ (d.moveHeadUp scale).via2 = d.via2 := by
  simp only [VC1541.moveHeadUp]
  split_ifs <;> exact ⟨rfl, rfl⟩

theorem moveHeadDown_vias (scale : Nat → Nat → Nat → Nat) (d : VC1541) :
    (d.moveHeadDown scale).via1 = d.via1 ∧ (d.moveHeadDown scale).via2 = d.via2 := by
  simp only [VC1541.moveHeadDown]
  split_ifs <;> exact ⟨rfl, rfl⟩
theorem VIA2_poke_port_b_vias (scale : Nat → Nat → Nat → Nat) (v : Nat) (d e : VC1541)
    (h : VIA2.poke scale 0x0 v d = some e) :
    e.via1 = d.via1 ∧ e.via2.io = d.via2.io := by
  simp only [VIA2.poke, VC1541.startRotating, VC1541.stopRotating, VC1541.activateRedLED,
    VC1541.deactivateRedLED, Option.some.injEq] at h
  subst h
  dsimp only
  split_ifs <;>
    simp only [(setRotating_vias _ _).1, (setRotating_vias _ _).2, (setRedLED_vias _ _).1,
      (setRedLED_vias _ _).2, (moveHeadUp_vias _ _).1, (moveHeadUp_vias _ _).2,
      (moveHeadDown_vias _ _).1, (moveHeadDown_vias _ _).2, and_self]

theorem VIA2_poke_ifrOk (scale : Nat → Nat → Nat → Nat) (addr v : Nat) {d e : VC1541}
    (h : VIA2.poke scale addr v d = some e) (hd : IfrOk d) : IfrOk e := by
  by_cases h0 : addr = 0
  · subst h0
    obtain ⟨h1, h2⟩ := VIA2_poke_port_b_vias scale v d e h
    exact ⟨by rw [h1]; exact hd.1, by rw [h2]; exact hd.2⟩
  · unfold VIA2.poke at h
    split at h
    · exact absurd rfl h0
    · cases h; exact hd
    · cases h; exact hd
    · cases h; exact hd
    · cases h
      refine ⟨hd.1, ?_⟩
      dsimp only
      rw [setIo_other (k := 0xC) (i := 0x0D) _ _ (by decide)]; exact hd.2
    · exact VIA6522_poke_ifrOk _ _ _ h hd

theorem VIA6522_peek_ifr (addr : Nat) {v u : VIA6522} {r : Nat}
    (h : VIA6522.peek addr v = some (r, u)) (hv : v.io 0x0D < 0x80) : u.io 0x0D < 0x80 := by
  unfold VIA6522.peek at h
  split at h
  · cases h
  · split at h
    all_goals first
      | (cases h; done)
      | (cases h; exact hv)
      | (cases h
         simp only [clearTimer1Indicator, clearTimer2Indicator, setIo_same]
         exact and_lt_0x80 _ hv)

theorem VIA1_peek_ifrOk (iec : IEC) (addr : Nat) {d e : VC1541} {r : Nat}
    (h : VIA1.peek iec addr d = some (r, e)) (hd : IfrOk d) : IfrOk e := by
  unfold VIA1.peek at h
  split at h
  · cases h; exact hd
  · cases h
    refine ⟨?_, hd.2⟩
    simp only [clearAtnIndicator, setIo_same]
    exact and_lt_0x80 _ hd.1
  · cases hp : VIA6522.peek addr d.via1 with
    | none => rw [hp] at h; cases h
    | some p =>
      obtain ⟨r', u⟩ := p
      rw [hp] at h
      cases h
      exact ⟨VIA6522_peek_ifr addr hp hd.1, hd.2⟩

theorem VIA2_peek_ifrOk (addr : Nat) {d e : VC1541} {r : Nat}
    (h : VIA2.peek addr d = some (r, e)) (hd : IfrOk d) : IfrOk e := by
  unfold VIA2.peek at h
  split at h
  · cases h
    refine ⟨hd.1, ?_⟩
    dsimp only
    split_ifs <;> exact hd.2
  · cases h; exact hd
  · cases h; exact hd
  · cases hp : VIA6522.peek 0x4 d.via2 with
    | none => simp only [hp] at h; cases h
    | some p =>
      obtain ⟨r', u⟩ := p
      simp only [hp] at h
      cases h
      exact ⟨hd.1, VIA6522_peek_ifr _ hp hd.2⟩
  · cases hp : VIA6522.peek addr d.via2 with
    | none => rw [hp] at h; cases h
    | some p =>
      obtain ⟨r', u⟩ := p
      rw [hp] at h
      cases h
      exact ⟨hd.1, VIA6522_peek_ifr addr hp hd.2⟩

theorem executeTimer1_ifrOk (w : ViaId) {d : VC1541} (hd : IfrOk d) :
    IfrOk (executeTimer1 w d) := by
  cases w
  · refine ⟨?_, hd.2⟩
    simp only [executeTimer1, VIA1.executeTimer1, signalTimeOut1]
    split
    · simp only [setIo_same]; exact or_lt_0x80 hd.1 (by decide)
    · exact hd.1
  · simp only [executeTimer1, VIA2.executeTimer1, signalTimeOut1]
    split_ifs
    · exact ⟨hd.1, by simp only [setIo_same]; exact or_lt_0x80 hd.2 (by decide)⟩
    · exact ⟨hd.1, by simp only [setIo_same]; exact or_lt_0x80 hd.2 (by decide)⟩
    · exact ⟨hd.1, hd.2⟩

theorem executeTimer2_ifrOk (w : ViaId) {d : VC1541} (hd : IfrOk d) :
    IfrOk (executeTimer2 w d) := by
  cases w
  · refine ⟨?_, hd.2⟩
    simp only [executeTimer2, VIA1.executeTimer2, signalTimeOut2]
    split
    · simp only [setIo_same]; exact or_lt_0x80 hd.1 (by decide)
    · exact hd.1
  · refine ⟨hd.1, ?_⟩
    simp only [executeTimer2, VIA2.executeTimer2, signalTimeOut2]
    split
    · simp only [setIo_same]; exact or_lt_0x80 hd.2 (by decide)
    · exact hd.2

theorem simulateAtnInterrupt_ifrOk {d : VC1541} (hd : IfrOk d) :
    IfrOk d.simulateAtnInterrupt := by
  simp only [VC1541.simulateAtnInterrupt, indicateAtnInterrupt]
  split
  · exact ⟨by simp only [setIo_same]; exact or_lt_0x80 hd.1 (by decide), hd.2⟩
  · exact hd

theorem DriveReachable.ifrOk {scale : Nat → Nat → Nat → Nat} {d : VC1541}
    (h : DriveReachable scale d) : IfrOk d := by
  induction h with
  | reset d => exact ⟨(by decide : (0 : Nat) < 0x80), (by decide : (0 : Nat) < 0x80)⟩
  | poke w addr v _ _ hp ih =>
    cases w
    · exact VIA1_poke_ifrOk addr v hp ih
    · exact VIA2_poke_ifrOk scale addr v hp ih
  | peek iec w addr _ hp ih =>
    cases w
    · exact VIA1_peek_ifrOk iec addr hp ih
    · exact VIA2_peek_ifrOk addr hp ih
  | timer1 w _ ih => exact executeTimer1_ifrOk w ih
  | timer2 w _ ih => exact executeTimer2_ifrOk w ih
  | atn _ ih => exact simulateAtnInterrupt_ifrOk ih
theorem peekVia_ifr (iec : IEC) (w : ViaId) (d : VC1541) :
    (peekVia iec w 0x0D d).map Prod.fst =
      some ((d.via w).io 0x0D |||
        (if ((d.via w).io 0x0D &&& (d.via w).io 0x0E) != 0 then 0x80 else 0)) := by
  cases w <;> rfl

theorem peekVia_ier (iec : IEC) (w : ViaId) (d : VC1541) :
    (peekVia iec w 0x0E d).map Prod.fst = some ((d.via w).io 0x0E ||| 0x80) := by
  cases w <;> rfl

theorem map_testBit_eq {o : Option (Nat × VC1541)} {r : Nat} (i : Nat)
    (h : o.map Prod.fst = some r) : o.map (fun p => p.1.testBit i) = some (r.testBit i) := by
  cases o with
  | none => simp at h
  | some p =>
    simp only [Option.map_some', Option.some.injEq] at h ⊢
    rw [h]

theorem testBit_0x80_eq (i : Nat) : (0x80 : Nat).testBit i = decide (7 = i) := by
  have h80 : (0x80 : Nat) = bitAt 7 := rfl
  rw [h80, testBit_bitAt]

/-- C16. In every drive state reachable from `resetDrive` by register writes
of bytes, register reads, timer events and ATN interrupts, on either VIA: a
read of register 0x0D succeeds and returns the bits 0..6 of `io[0x0D]`, with
bit 7 set exactly when `(io[0x0D] & io[0x0E] & 0x7F) != 0`; a read of register
0x0E succeeds and has bit 7 set. -/
theorem reachable_ifr_read_sets_bit_7_iff_enabled_flag (scale : Nat → Nat → Nat → Nat)
    (iec : IEC) (w : ViaId) (d : VC1541) (h : DriveReachable scale d) :
    (∀ i, i < 7 → (peekVia iec w 0x0D d).map (fun p => p.1.testBit i)
      = some (((d.via w).io 0x0D).testBit i)) ∧
    (peekVia iec w 0x0D d).map (fun p => p.1.testBit 7)
      = some (decide ((d.via w).io 0x0D &&& (d.via w).io 0x0E &&& 0x7F ≠ 0)) ∧
    (peekVia iec w 0x0E d).map (fun p => p.1.testBit 7) = some true := by
  have hlt : (d.via w).io 0x0D < 2 ^ 7 := ifrOk_via h.ifrOk w
  have h7 : ((d.via w).io 0x0D).testBit 7 = false := Nat.testBit_lt_two_pow hlt
  have hm : (d.via w).io 0x0D &&& (d.via w).io 0x0E &&& 0x7F
      = (d.via w).io 0x0D &&& (d.via w).io 0x0E := by
    have h7F : (0x7F : Nat) = 2 ^ 7 - 1 := by norm_num
    rw [h7F, Nat.and_pow_two_sub_one_eq_mod]
    exact Nat.mod_eq_of_lt (lt_of_le_of_lt Nat.and_le_left hlt)
  refine ⟨fun i hi => ?_, ?_, ?_⟩
  · rw [map_testBit_eq i (peekVia_ifr iec w d), Nat.testBit_or]
    have : ¬ 7 = i := by omega
    split <;> simp [testBit_0x80_eq, this]
  · rw [map_testBit_eq 7 (peekVia_ifr iec w d), Nat.testBit_or, h7, hm]
    by_cases hz : (d.via w).io 0x0D &&& (d.via w).io 0x0E = 0
    · simp [hz]
    · simp [hz, testBit_0x80_eq]
  · rw [map_testBit_eq 7 (peekVia_ier iec w d), Nat.testBit_or, testBit_0x80_eq]
    simp

/-- C16 at the drive `timer1Expired`, reached from the reset by register writes
and two timer events. In VIA2 the timer 1 flag is set and enabled: the read of
register 0x0D returns 0xC0, bit 7 set. In VIA1 the timer 1 flag is set and not
enabled: the read returns 0x40, bit 7 clear. -/
theorem reachable_ifr_read_sets_bit_7_iff_enabled_flag_witness :
    DriveReachable exactScale timer1Expired ∧
    (timer1Expired.via ViaId.via2).io 0x0D = 0x40 ∧
    (timer1Expired.via ViaId.via2).io 0x0E = 0x40 ∧
    (timer1Expired.via ViaId.via1).io 0x0D = 0x40 ∧
    (timer1Expired.via ViaId.via1).io 0x0E = 0 ∧
    (peekVia ⟨true, true, true⟩ ViaId.via2 0x0D timer1Expired).map (fun p => p.1) = some 0xC0 ∧
    (peekVia ⟨true, true, true⟩ ViaId.via1 0x0D timer1Expired).map (fun p => p.1) = some 0x40 ∧
    (∀ i, i < 7 →
      (peekVia ⟨true, true, true⟩ ViaId.via2 0x0D timer1Expired).map (fun p => p.1.testBit i)
        = some (((timer1Expired.via ViaId.via2).io 0x0D).testBit i)) ∧
    (peekVia ⟨true, true, true⟩ ViaId.via2 0x0D timer1Expired).map (fun p => p.1.testBit 7)
      = some true ∧
    (peekVia ⟨true, true, true⟩ ViaId.via2 0x0E timer1Expired).map (fun p => p.1.testBit 7)
      = some true ∧
    (∀ i, i < 7 →
      (peekVia ⟨true, true, true⟩ ViaId.via1 0x0D timer1Expired).map (fun p => p.1.testBit i)
        = some (((timer1Expired.via ViaId.via1).io 0x0D).testBit i)) ∧
    (peekVia ⟨true, true, true⟩ ViaId.via1 0x0D timer1Expired).map (fun p => p.1.testBit 7)
      = some false ∧
    (peekVia ⟨true, true, true⟩ ViaId.via1 0x0E timer1Expired).map (fun p => p.1.testBit 7)
      = some true :=
  have h0 : DriveReachable exactScale freshDrive := DriveReachable.reset _
  have h1 := DriveReachable.poke ViaId.via1 0x4 1 (by decide) h0 rfl
  have h2 := DriveReachable.poke ViaId.via1 0x5 0 (by decide) h1 rfl
  have h3 := DriveReachable.poke ViaId.via2 0xE 0xC0 (by decide) h2 rfl
  have h4 := DriveReachable.poke ViaId.via2 0x4 1 (by decide) h3 rfl
  have h5 := DriveReachable.poke ViaId.via2 0x5 0 (by decide) h4 rfl
  have hr : DriveReachable exactScale timer1Expired :=
    DriveReachable.timer1 ViaId.via2 (DriveReachable.timer1 ViaId.via1 h5)
  have a := reachable_ifr_read_sets_bit_7_iff_enabled_flag exactScale ⟨true, true, true⟩
    ViaId.via2 timer1Expired hr
  have b := reachable_ifr_read_sets_bit_7_iff_enabled_flag exactScale ⟨true, true, true⟩
    ViaId.via1 timer1Expired hr
  ⟨hr, by decide, by decide, by decide, by decide, by decide, by decide,
    a.1, a.2.1.trans (by decide), a.2.2, b.1, b.2.1.trans (by decide), b.2.2⟩

/-! ### The delay pipeline -/

/-- C30. The cycle ends with `delay := ((delay << 1) & DelayMask) | feed`,
taken on the state before the shift, and `feed` is not touched afterwards; so
after every `executeOneCycle` each bit set in `delay` is a bit of `DelayMask`
or a bit set in `feed`, each bit set in `feed` is set in `delay`, and at the
positions that `DelayMask` clears `delay` holds what `feed` holds. -/
theorem executeOneCycle_shifts_delay_through_mask_and_feed (c : Nat) (s : CIA) :
    (executeOneCycle c s).delay
      = (((beforeShift s).delay <<< 1) &&& DelayMask) ||| (beforeShift s).feed ∧
    (executeOneCycle c s).feed = (beforeShift s).feed ∧
    (∀ i, (executeOneCycle c s).delay.testBit i = true →
      DelayMask.testBit i = true ∨ (executeOneCycle c s).feed.testBit i = true) ∧
    (∀ i, (executeOneCycle c s).feed.testBit i = true →
      (executeOneCycle c s).delay.testBit i = true) ∧
    (∀ i, DelayMask.testBit i = false →
      (executeOneCycle c s).delay.testBit i = (executeOneCycle c s).feed.testBit i) := by
  obtain ⟨e1, e2, -⟩ :=
    idle_fields c (wakeUp s).delay (wakeUp s).feed (executeOneCycle.shift (beforeShift s))
  have hd : (executeOneCycle c s).delay
      = (((beforeShift s).delay <<< 1) &&& DelayMask) ||| (beforeShift s).feed := by
    rw [executeOneCycle_eq, e1]; rfl
  have hf : (executeOneCycle c s).feed = (beforeShift s).feed := by
    rw [executeOneCycle_eq, e2]; rfl
  refine ⟨hd, hf, fun i h => ?_, fun i h => ?_, fun i h => ?_⟩
  · rw [hd, Nat.testBit_or, Nat.testBit_and, Bool.or_eq_true, Bool.and_eq_true] at h
    rw [hf]
    rcases h with h | h
    · exact Or.inl h.2
    · exact Or.inr h
  · rw [hf] at h
    rw [hd, Nat.testBit_or, h, Bool.or_true]
  · rw [hd, hf, Nat.testBit_or, Nat.testBit_and, h, Bool.and_false, Bool.false_or]
/-! ## Theorems: snapshot versions, comparison values, VIC function table -/

/-- C26, counterexample to the claim as worded: in a build with version
4.1.0 a snapshot of version 4.0.0, same major and older minor version, is too
old. -/
theorem older_minor_is_too_old_counterexample :
    header400 4 = version410.major ∧ header400 5 < version410.minor ∧
    Snapshot.isTooOld version410 header400 = true := by
  decide

/-- C26. The two tests compare the version of the snapshot with the version
of the build in lexicographic order: `isTooOld` is true exactly when the
version bytes (major, minor, subminor) are lexicographically smaller than
those of the build, `isTooNew` exactly when they are lexicographically
greater. Hence a snapshot whose major version differs is too old or too new;
one with the same major and an older minor version is too old, with a newer
minor version too new; a snapshot is neither too old nor too new exactly when
its three version bytes are those of the build, and no snapshot is both. -/
theorem snapshot_accepted_iff_same_version (V : Version) (data : Nat → Nat) :
    (Snapshot.isTooOld V data = true ↔
      (data 4 < V.major ∨ (data 4 = V.major ∧
        (data 5 < V.minor ∨ (data 5 = V.minor ∧ data 6 < V.subminor))))) ∧
    (Snapshot.isTooNew V data = true ↔
      (V.major < data 4 ∨ (data 4 = V.major ∧
        (V.minor < data 5 ∨ (data 5 = V.minor ∧ V.subminor < data 6))))) ∧
    (data 4 ≠ V.major →
      (Snapshot.isTooOld V data = true ∨ Snapshot.isTooNew V data = true)) ∧
    (data 4 < V.major → Snapshot.isTooOld V data = true ∧ Snapshot.isTooNew V data = false) ∧
    (V.major < data 4 → Snapshot.isTooNew V data = true ∧ Snapshot.isTooOld V data = false) ∧
    (data 4 = V.major → data 5 < V.minor →
      Snapshot.isTooOld V data = true ∧ Snapshot.isTooNew V data = false) ∧
    (data 4 = V.major → V.minor < data 5 →
      Snapshot.isTooNew V data = true ∧ Snapshot.isTooOld V data = false) ∧
    ((Snapshot.isTooOld V data = false ∧ Snapshot.isTooNew V data = false) ↔
      (data 4 = V.major ∧ data 5 = V.minor ∧ data 6 = V.subminor)) ∧
    ¬ (Snapshot.isTooOld V data = true ∧ Snapshot.isTooNew V data = true) := by
  have hold : Snapshot.isTooOld V data = true ↔
      (data 4 < V.major ∨ (data 4 = V.major ∧
        (data 5 < V.minor ∨ (data 5 = V.minor ∧ data 6 < V.subminor)))) := by
    simp only [Snapshot.isTooOld]
    split_ifs <;> simp <;> omega
  have hnew : Snapshot.isTooNew V data = true ↔
      (V.major < data 4 ∨ (data 4 = V.major ∧
        (V.minor < data 5 ∨ (data 5 = V.minor ∧ V.subminor < data 6)))) := by
    simp only [Snapshot.isTooNew]
    split_ifs <;> simp <;> omega
  have bo : ∀ b : Bool, b = false ↔ ¬ b = true := fun b => by cases b <;> simp
  refine ⟨hold, hnew, fun h => ?_, fun h => ?_, fun h => ?_, fun h1 h2 => ?_, fun h1 h2 => ?_,
    ?_, ?_⟩
  · rw [hold, hnew]; omega
  · rw [bo, hold, hnew]; omega
  · rw [bo, hold, hnew]; omega
  · rw [bo, hold, hnew]; omega
  · rw [bo, hold, hnew]; omega
  · rw [bo, bo, hold, hnew]; omega
  · rw [hold, hnew]; omega

/-- C28. The comparison values of the border flipflops: left is 24 with CSEL
set and 31 otherwise, right is 344 resp. 335, upper is 51 with RSEL set and
55 otherwise, lower is 251 resp. 247. Hence left is below right and upper
below lower for every register state, and the window of CSEL = 0, RSEL = 0
lies strictly inside the window of CSEL = 1, RSEL = 1. -/
theorem comparison_values_follow_csel_and_rsel (v w : VICII) :
    v.leftComparisonValue = (if v.ctrl2.testBit 3 then 24 else 31) ∧
    v.rightComparisonValue = (if v.ctrl2.testBit 3 then 344 else 335) ∧
    v.upperComparisonValue = (if v.ctrl1.testBit 3 then 51 else 55) ∧
    v.lowerComparisonValue = (if v.ctrl1.testBit 3 then 251 else 247) ∧
    v.leftComparisonValue < v.rightComparisonValue ∧
    v.upperComparisonValue < v.lowerComparisonValue ∧
    (if v.isCSEL && !w.isCSEL then
        v.leftComparisonValue < w.leftComparisonValue ∧
        w.rightComparisonValue < v.rightComparisonValue
      else True) ∧
    (if v.isRSEL && !w.isRSEL then
        v.upperComparisonValue < w.upperComparisonValue ∧
        w.lowerComparisonValue < v.lowerComparisonValue
      else True) := by
  simp only [VICII.leftComparisonValue, VICII.rightComparisonValue,
    VICII.upperComparisonValue, VICII.lowerComparisonValue, VICII.isCSEL, VICII.isRSEL,
    GET_BIT, flag_bitAt]
  cases v.ctrl2.testBit 3 <;> cases v.ctrl1.testBit 3 <;> cases w.ctrl2.testBit 3 <;>
    cases w.ctrl1.testBit 3 <;> simp

theorem updateVicFunctionTable_common (rev : VICRevision) (t : Nat → Option VICFunc) (i : Nat)
    (h1 : 12 ≤ i) (h2 : i ≤ 54) :
    updateVicFunctionTable rev t i =
      some (if i ≤ 18 then VICFunc.cycle i CycleVariant.common else VICFunc.cycle19to54) := by
  interval_cases i <;> cases rev <;> rfl

/-- C29. After `updateVicFunctionTable`, whatever the table held before, and
for every revision: every raster cycle from 1 to the number of cycles of a
line has a function, index 0 and the indices above that number up to 65 hold
`NULL`, and the functions of cycles 12 to 54 do not depend on the revision. -/
theorem vic_function_table_covers_every_raster_cycle (rev rev2 : VICRevision)
    (t t2 : Nat → Option VICFunc) (i : Nat) :
    (1 ≤ i → i ≤ rev.cyclesPerRasterline → (updateVicFunctionTable rev t i).isSome = true) ∧
    updateVicFunctionTable rev t 0 = none ∧
    (rev.cyclesPerRasterline < i → i ≤ 65 → updateVicFunctionTable rev t i = none) ∧
    (12 ≤ i → i ≤ 54 → updateVicFunctionTable rev t i = updateVicFunctionTable rev2 t2 i) := by
  refine ⟨fun h1 h2 => ?_, ?_, fun h1 h2 => ?_, fun h1 h2 => ?_⟩
  · cases rev <;> simp only [VICRevision.cyclesPerRasterline] at h2 <;>
      interval_cases i <;> rfl
  · cases rev <;> rfl
  · cases rev <;> simp only [VICRevision.cyclesPerRasterline] at h1 <;>
      interval_cases i <;> rfl
  · rw [updateVicFunctionTable_common rev t i h1 h2,
      updateVicFunctionTable_common rev2 t2 i h1 h2]

/-! ## Theorems: configuration -/

theorem getConfig_eq (uninit : SIDConfig) (m : Machine)
    (h : m.cia1.timerBBug = m.cia2.timerBBug) :
    m.getConfig uninit = some { cia1 := m.cia1, cia2 := m.cia2, vic := m.vic, sid := uninit } := by
  simp [Machine.getConfig, h]

/-- C27. In a machine whose two CIAs agree in `timerBBug`, as `getConfig`
asserts: `configure` called for the VIC revision, the glue logic, the CIA
revision or the SID revision with a value that the validity predicate rejects
returns false and leaves the machine, hence the result of `getConfig`, as it
was; called with a value that the predicate accepts it returns true (for the
CIA revision when the two CIAs agree in their revision, as asserted there). -/
theorem configure_rejects_invalid_revision_without_change (val : Validity) (uninit : SIDConfig)
    (value : Int) (m : Machine) (h : m.cia1.timerBBug = m.cia2.timerBBug) :
    (val.isVICRevision value = false →
      m.configure val uninit ConfigOption.OPT_VIC_REVISION value = some (false, m)) ∧
    (val.isGlueLogic value = false →
      m.configure val uninit ConfigOption.OPT_GLUE_LOGIC value = some (false, m)) ∧
    (val.isCIARevision value = false →
      m.configure val uninit ConfigOption.OPT_CIA_REVISION value = some (false, m)) ∧
    (val.isSIDRevision value = false →
      m.configure val uninit ConfigOption.OPT_SID_REVISION value = some (false, m)) ∧
    (val.isVICRevision value = true →
      (m.configure val uninit ConfigOption.OPT_VIC_REVISION value).map Prod.fst = some true) ∧
    (val.isGlueLogic value = true →
      (m.configure val uninit ConfigOption.OPT_GLUE_LOGIC value).map Prod.fst = some true) ∧
    (val.isCIARevision value = true → m.cia1.revision = m.cia2.revision →
      (m.configure val uninit ConfigOption.OPT_CIA_REVISION value).map Prod.fst = some true) ∧
    (val.isSIDRevision value = true →
      (m.configure val uninit ConfigOption.OPT_SID_REVISION value).map Prod.fst = some true) := by
  refine ⟨fun hv => ?_, fun hv => ?_, fun hv => ?_, fun hv => ?_, fun hv => ?_, fun hv => ?_,
    fun hv hr => ?_, fun hv => ?_⟩
  all_goals simp only [Machine.configure, getConfig_eq uninit m h, hv]
  · rfl
  · rfl
  · rfl
  · rfl
  · by_cases hc : m.vic.revision = value <;> simp [hc]
  · by_cases hc : m.vic.glueLogic = value <;> simp [hc]
  · have hne : (m.cia1.revision != m.cia2.revision) = false := by simp [hr]
    simp only [hne]
    by_cases hc : m.cia1.revision = value <;> simp [hc]
  · by_cases hc : uninit.revision = value <;> simp [hc]

theorem configure_rejects_invalid_revision_without_change_witness :
    sampleMachine.cia1.timerBBug = sampleMachine.cia2.timerBBug ∧
    (sampleValidity.isVICRevision 7 = false →
      sampleMachine.configure sampleValidity ⟨0⟩ ConfigOption.OPT_VIC_REVISION 7
        = some (false, sampleMachine)) ∧
    (sampleValidity.isGlueLogic 7 = false →
      sampleMachine.configure sampleValidity ⟨0⟩ ConfigOption.OPT_GLUE_LOGIC 7
        = some (false, sampleMachine)) ∧
    (sampleValidity.isCIARevision 7 = false →
      sampleMachine.configure sampleValidity ⟨0⟩ ConfigOption.OPT_CIA_REVISION 7
        = some (false, sampleMachine)) ∧
    (sampleValidity.isSIDRevision 7 = false →
      sampleMachine.configure sampleValidity ⟨0⟩ ConfigOption.OPT_SID_REVISION 7
        = some (false, sampleMachine)) ∧
    (sampleValidity.isVICRevision 7 = true →
      (sampleMachine.configure sampleValidity ⟨0⟩ ConfigOption.OPT_VIC_REVISION 7).map Prod.fst
        = some true) ∧
    (sampleValidity.isGlueLogic 7 = true →
      (sampleMachine.configure sampleValidity ⟨0⟩ ConfigOption.OPT_GLUE_LOGIC 7).map Prod.fst
        = some true) ∧
    (sampleValidity.isCIARevision 7 = true →
      sampleMachine.cia1.revision = sampleMachine.cia2.revision →
      (sampleMachine.configure sampleValidity ⟨0⟩ ConfigOption.OPT_CIA_REVISION 7).map Prod.fst
        = some true) ∧
    (sampleValidity.isSIDRevision 7 = true →
      (sampleMachine.configure sampleValidity ⟨0⟩ ConfigOption.OPT_SID_REVISION 7).map Prod.fst
        = some true) :=
  ⟨by decide,
    configure_rejects_invalid_revision_without_change sampleValidity ⟨0⟩ 7 sampleMachine
      (by decide)⟩

/-! ## Theorems: snapshot of a VIA -/

theorem writeBytes_ptr (xs : List Nat) (b : Buffer) :
    (writeBytes b xs).ptr = b.ptr + xs.length := by
  induction xs generalizing b with
  | nil => rfl
  | cons x xs ih =>
    show (writeBytes (write8 b x) xs).ptr = _
    rw [ih]
    show b.ptr + 1 + xs.length = b.ptr + (xs.length + 1)
    omega

theorem writeBytes_mem_below (xs : List Nat) (b : Buffer) (a : Nat) (h : a < b.ptr) :
    (writeBytes b xs).mem a = b.mem a := by
  induction xs generalizing b with
  | nil => rfl
  | cons x xs ih =>
    show (writeBytes (write8 b x) xs).mem a = _
    rw [ih (write8 b x) (show a < b.ptr + 1 by omega)]
    show (if a = b.ptr then x % 0x100 else b.mem a) = b.mem a
    rw [if_neg (by omega)]

/-- The byte at offset `k` behind the old position is the `k`-th byte written. -/
theorem writeBytes_mem (xs : List Nat) (b : Buffer) (k : Nat) (h : k < xs.length) :
    (writeBytes b xs).mem (b.ptr + k) = xs.getD k 0 % 0x100 := by
  induction xs generalizing b k with
  | nil => simp at h
  | cons x xs ih =>
    show (writeBytes (write8 b x) xs).mem (b.ptr + k) = _
    cases k with
    | zero =>
      rw [writeBytes_mem_below xs (write8 b x) (b.ptr + 0) (show b.ptr + 0 < b.ptr + 1 by omega)]
      show (if b.ptr + 0 = b.ptr then x % 0x100 else _) = _
      simp
    | succ k =>
      have := ih (write8 b x) k (by simpa using h)
      have hp : (write8 b x).ptr + k = b.ptr + (k + 1) := by
        show b.ptr + 1 + k = _
        omega
      rw [hp] at this
      rw [this]
      simp

theorem saveToBuffer_eq (v : VIA6522) (b : Buffer) :
    v.saveToBuffer b = some (writeBytes b v.bytes) := by
  have h : v.saveToBuffer b =
      if (writeBytes b v.bytes).ptr - b.ptr = VIA6522.stateSize then some (writeBytes b v.bytes)
      else none := rfl
  rw [h, if_pos]
  rw [writeBytes_ptr]
  simp [VIA6522.bytes, VIA6522.stateSize]
theorem word_hi_lo {x : Nat} (h : x < 0x10000) :
    ((((x % 0x10000) >>> 8) % 0x100) <<< 8 ||| x % 0x100) % 0x10000 = x := by
  have h1 : ((x % 0x10000) >>> 8) % 0x100 = x / 256 := by
    rw [Nat.mod_eq_of_lt h, Nat.shiftRight_eq_div_pow]
    exact Nat.mod_eq_of_lt (by norm_num; omega)
  rw [h1, Nat.shiftLeft_eq, Nat.mul_comm,
    ← Nat.mul_add_lt_is_or (i := 8) (b := x % 0x100) (by norm_num; omega) (x / 256)]
  norm_num
  omega

theorem loadFromBuffer_eq (v : VIA6522) (m : Nat → Nat) (p : Nat) :
    v.loadFromBuffer ⟨m, p⟩ = some (v.loaded m p, ⟨m, p + VIA6522.stateSize⟩) := by
  simp only [VIA6522.loadFromBuffer, read8, read16, List.range, List.range.loop, List.foldl,
    VIA6522.stateSize]
  rw [if_pos (by omega)]
  simp only [VIA6522.loaded, Option.some.injEq, Prod.mk.injEq, Buffer.mk.injEq, true_and,
    VIA6522.mk.injEq]
  refine ⟨?_, trivial⟩
  funext i
  by_cases hi : i < 16
  · rw [if_pos hi]
    interval_cases i <;> rfl
  · rw [if_neg hi]
    have h : ∀ k, k < 16 → i ≠ k := fun k hk => by omega
    rw [setIo_other _ _ (h 15 (by decide)), setIo_other _ _ (h 14 (by decide)),
      setIo_other _ _ (h 13 (by decide)), setIo_other _ _ (h 12 (by decide)),
      setIo_other _ _ (h 11 (by decide)), setIo_other _ _ (h 10 (by decide)),
      setIo_other _ _ (h 9 (by decide)), setIo_other _ _ (h 8 (by decide)),
      setIo_other _ _ (h 7 (by decide)), setIo_other _ _ (h 6 (by decide)),
      setIo_other _ _ (h 5 (by decide)), setIo_other _ _ (h 4 (by decide)),
      setIo_other _ _ (h 3 (by decide)), setIo_other _ _ (h 2 (by decide)),
      setIo_other _ _ (h 1 (by decide)), setIo_other _ _ (h 0 (by decide))]
/-- C25. For every VIA state `v` whose fields fit their C types and every
buffer: `saveToBuffer` succeeds and advances the buffer by `stateSize() = 29`
bytes, and `loadFromBuffer` applied to those bytes, into any VIA, succeeds,
advances the buffer by 29 bytes as well and restores every state field and
`io[0..15]` to its value in `v`. -/
theorem via_snapshot_load_restores_saved_state (v v0 : VIA6522) (b : Buffer)
    (h : v.WellTyped) :
    VIA6522.stateSize = 13 + 16 ∧
    ∃ b1, v.saveToBuffer b = some b1 ∧ b1.ptr = b.ptr + VIA6522.stateSize ∧
      ∃ u b2, v0.loadFromBuffer ⟨b1.mem, b.ptr⟩ = some (u, b2) ∧
        b2.ptr = b.ptr + VIA6522.stateSize ∧
        u.ddra = v.ddra ∧ u.ddrb = v.ddrb ∧ u.ora = v.ora ∧ u.orb = v.orb ∧
        u.ira = v.ira ∧ u.irb = v.irb ∧ u.t1 = v.t1 ∧ u.t2 = v.t2 ∧
        u.t1_latch_lo = v.t1_latch_lo ∧ u.t1_latch_hi = v.t1_latch_hi ∧
        u.t2_latch_lo = v.t2_latch_lo ∧ (∀ i, i < 16 → u.io i = v.io i) := by
  have hlen : v.bytes.length = 29 := by simp [VIA6522.bytes]
  have hm : ∀ k, k < 29 →
      (writeBytes b v.bytes).mem (b.ptr + k) = v.bytes.getD k 0 % 0x100 :=
    fun k hk => writeBytes_mem v.bytes b k (by rw [hlen]; exact hk)
  have hm0 : (writeBytes b v.bytes).mem b.ptr = v.bytes.getD 0 0 % 0x100 := hm 0 (by decide)
  refine ⟨rfl, writeBytes b v.bytes, saveToBuffer_eq v b, ?_,
    v0.loaded (writeBytes b v.bytes).mem b.ptr, _, loadFromBuffer_eq v0 _ b.ptr, rfl, ?_⟩
  · rw [writeBytes_ptr, hlen]; rfl
  · simp only [VIA6522.loaded]
    refine ⟨?_, ?_, ?_, ?_, ?_, ?_, ?_, ?_, ?_, ?_, ?_, ?_⟩
    · rw [hm0]; exact Nat.mod_eq_of_lt h.ddra
    · rw [hm 1 (by decide)]; exact Nat.mod_eq_of_lt h.ddrb
    · rw [hm 2 (by decide)]; exact Nat.mod_eq_of_lt h.ora
    · rw [hm 3 (by decide)]; exact Nat.mod_eq_of_lt h.orb
    · rw [hm 4 (by decide)]; exact Nat.mod_eq_of_lt h.ira
    · rw [hm 5 (by decide)]; exact Nat.mod_eq_of_lt h.irb
    · rw [hm 6 (by decide), hm 7 (by decide)]; exact word_hi_lo h.t1
    · rw [hm 8 (by decide), hm 9 (by decide)]; exact word_hi_lo h.t2
    · rw [hm 10 (by decide)]; exact Nat.mod_eq_of_lt h.t1_latch_lo
    · rw [hm 11 (by decide)]; exact Nat.mod_eq_of_lt h.t1_latch_hi
    · rw [hm 12 (by decide)]; exact Nat.mod_eq_of_lt h.t2_latch_lo
    · intro i hi
      rw [if_pos hi, Nat.add_assoc, hm (13 + i) (by omega)]
      have hio := h.io i hi
      interval_cases i <;> exact Nat.mod_eq_of_lt hio
theorem via_snapshot_load_restores_saved_state_witness :
    sampleVia.WellTyped ∧ VIA6522.stateSize = 13 + 16 ∧
    ∃ b1, sampleVia.saveToBuffer emptyBuffer = some b1 ∧
      b1.ptr = emptyBuffer.ptr + VIA6522.stateSize ∧
      ∃ u b2, VIA6522.reset.loadFromBuffer ⟨b1.mem, emptyBuffer.ptr⟩ = some (u, b2) ∧
        b2.ptr = emptyBuffer.ptr + VIA6522.stateSize ∧
        u.ddra = sampleVia.ddra ∧ u.ddrb = sampleVia.ddrb ∧ u.ora = sampleVia.ora ∧
        u.orb = sampleVia.orb ∧ u.ira = sampleVia.ira ∧ u.irb = sampleVia.irb ∧
        u.t1 = sampleVia.t1 ∧ u.t2 = sampleVia.t2 ∧
        u.t1_latch_lo = sampleVia.t1_latch_lo ∧ u.t1_latch_hi = sampleVia.t1_latch_hi ∧
        u.t2_latch_lo = sampleVia.t2_latch_lo ∧ (∀ i, i < 16 → u.io i = sampleVia.io i) :=
  have hw : sampleVia.WellTyped :=
    ⟨by decide, by decide, by decide, by decide, by decide, by decide, by decide, by decide,
      by decide, by decide, by decide, by decide⟩
  ⟨hw, via_snapshot_load_restores_saved_state sampleVia VIA6522.reset emptyBuffer hw⟩

/-! ## Theorems: the read/write logic of the drive -/

theorem byteReady_fields (L : DriveLogic) (d : VC1541) :
    (d.byteReady L).via2 = d.via2 ∧ (d.byteReady L).sync = d.sync ∧
    (d.byteReady L).read_shiftreg = d.read_shiftreg ∧
    (d.byteReady L).write_shiftreg = d.write_shiftreg ∧
    (d.byteReady L).byteReadyCounter = d.byteReadyCounter ∧
    (d.byteReady L).bitoffset = d.bitoffset ∧ (d.byteReady L).halftrack = d.halftrack ∧
    (d.byteReady L).disk = d.disk ∧ (d.byteReady L).zone = d.zone ∧
    (d.byteReady L).cpu.V = (L.overflowEnabled d.via2 || d.cpu.V) := by
  simp only [VC1541.byteReady]
  split <;> simp_all

theorem byteReadyByte_fields (L : DriveLogic) (x : Nat) (d : VC1541) :
    (d.byteReadyByte L x).via2 = (if L.CA2 d.via2 then { d.via2 with ira := x } else d.via2) ∧
    (d.byteReadyByte L x).sync = d.sync ∧
    (d.byteReadyByte L x).read_shiftreg = d.read_shiftreg ∧
    (d.byteReadyByte L x).write_shiftreg = d.write_shiftreg ∧
    (d.byteReadyByte L x).byteReadyCounter = d.byteReadyCounter ∧
    (d.byteReadyByte L x).bitoffset = d.bitoffset ∧
    (d.byteReadyByte L x).halftrack = d.halftrack ∧
    (d.byteReadyByte L x).disk = d.disk ∧ (d.byteReadyByte L x).zone = d.zone := by
  simp only [VC1541.byteReadyByte]
  split
  · obtain ⟨h1, h2, h3, h4, h5, h6, h7, h8, h9, -⟩ :=
      byteReady_fields L { d with via2 := { d.via2 with ira := x } }
    exact ⟨h1, h2, h3, h4, h5, h6, h7, h8, h9⟩
  · exact ⟨rfl, rfl, rfl, rfl, rfl, rfl, rfl, rfl, rfl⟩

/-- What `executeByteReady` leaves alone when it returns. -/
theorem executeByteReady_fields (L : DriveLogic) (d e : VC1541)
    (h : d.executeByteReady L = some e) :
    d.bitoffset % 8 = 0 ∧ e.sync = d.sync ∧ e.read_shiftreg = d.read_shiftreg ∧
    e.byteReadyCounter = d.byteReadyCounter ∧ e.bitoffset = d.bitoffset ∧
    e.halftrack = d.halftrack ∧ e.disk = d.disk ∧ e.zone = d.zone := by
  simp only [VC1541.executeByteReady] at h
  split at h
  · cases h
  · rename_i ha
    cases h
    refine ⟨by simpa using ha, ?_⟩
    simp only [VC1541.readMode, VC1541.writeMode]
    split_ifs <;>
      simp only [byteReady_fields, byteReadyByte_fields, and_self]

theorem executeByteReady_isSome (L : DriveLogic) (d : VC1541) :
    (d.executeByteReady L).isSome = decide (d.bitoffset % 8 = 0) := by
  simp only [VC1541.executeByteReady]
  split <;> simp_all

theorem head_read_shiftreg (L : DriveLogic) (d : VC1541) :
    (VC1541.executeBitReady.head L d).read_shiftreg =
      ((d.read_shiftreg <<< 1) % 0x10000) ||| (if d.readMode L then d.readBitFromHead else 0) := by
  simp only [VC1541.executeBitReady.head, VC1541.rotateDisk, VC1541.readMode,
    VC1541.writeBitToHead, VC1541.readBitFromHead]
  split_ifs <;> simp

theorem head_sync (L : DriveLogic) (d : VC1541) :
    (VC1541.executeBitReady.head L d).sync =
      (d.readMode L &&
        decide ((VC1541.executeBitReady.head L d).read_shiftreg &&& 0x3FF = 0x3FF)) := by
  rw [head_read_shiftreg]
  simp only [VC1541.executeBitReady.head, VC1541.rotateDisk, VC1541.readMode,
    VC1541.writeBitToHead, VC1541.readBitFromHead]
  split_ifs <;> simp_all

theorem executeBitReady_some (L : DriveLogic) (d e : VC1541)
    (h : d.executeBitReady L = some e) :
    e.read_shiftreg = (VC1541.executeBitReady.head L d).read_shiftreg ∧
    e.sync = (VC1541.executeBitReady.head L d).sync ∧
    e.bitoffset = (VC1541.executeBitReady.head L d).bitoffset ∧
    e.halftrack = (VC1541.executeBitReady.head L d).halftrack ∧
    e.disk = (VC1541.executeBitReady.head L d).disk := by
  simp only [VC1541.executeBitReady] at h
  split at h
  · cases hx : VC1541.executeByteReady L
      { VC1541.executeBitReady.head L d with
        byteReadyCounter := ((VC1541.executeBitReady.head L d).byteReadyCounter + 1) % 0x100 } with
    | none => simp [hx] at h
    | some x =>
      obtain ⟨-, h1, h2, -, h3, h4, h5, -⟩ := executeByteReady_fields L _ x hx
      simp only [hx, Option.map_some', Option.some.injEq] at h
      subst h
      exact ⟨h2, h1, h3, h4, h5⟩
  · simp only [Option.map_some', Option.some.injEq] at h
    subst h
    exact ⟨rfl, rfl, rfl, rfl, rfl⟩

theorem executeBitReady_isSome (L : DriveLogic) (d : VC1541) :
    (d.executeBitReady L).isSome =
      !((VC1541.executeBitReady.head L d).byteReadyCounter == 7 &&
        (VC1541.executeBitReady.head L d).bitoffset % 8 != 0) := by
  simp only [VC1541.executeBitReady]
  split
  · rename_i h7
    simp only [Option.isSome_map', executeByteReady_isSome, h7, Bool.true_and]
    by_cases ha : (VC1541.executeBitReady.head L d).bitoffset % 8 = 0 <;> simp [ha]
  · rename_i h7
    simp [h7]

theorem and_0x3FF_iff (x : Nat) :
    x &&& 0x3FF = 0x3FF ↔ ∀ j, j < 10 → x.testBit j = true := by
  have h3 : (0x3FF : Nat) = 2 ^ 10 - 1 := by norm_num
  rw [h3]
  constructor
  · intro h j hj
    have := congrArg (fun y => Nat.testBit y j) h
    simp only [Nat.testBit_and, Nat.testBit_two_pow_sub_one] at this
    simpa [hj] using this
  · intro h
    apply Nat.eq_of_testBit_eq
    intro j
    rw [Nat.testBit_and, Nat.testBit_two_pow_sub_one]
    by_cases hj : j < 10
    · simp [hj, h j hj]
    · simp [hj]

theorem testBit_shifted_in (rs : Nat) (b : Bool) (j : Nat) (hj : j < 16) :
    (((rs <<< 1) % 0x10000) ||| (if b then 1 else 0)).testBit j
      = if j = 0 then b else rs.testBit (j - 1) := by
  have h16 : (0x10000 : Nat) = 2 ^ 16 := by norm_num
  rw [Nat.testBit_or, h16, Nat.testBit_mod_two_pow, Nat.testBit_shiftLeft]
  cases j with
  | zero => cases b <;> simp
  | succ j =>
    have : (if b then 1 else 0 : Nat).testBit (j + 1) = false := by
      cases b <;> simp [Nat.testBit_succ]
    simp [this, hj]

/-- C22. For every drive state, `executeBitReady` returns unless the
assertion of `executeByteReady` fails (the byte is complete and `bitoffset` is
no multiple of 8), and then: `read_shiftreg` is the old value shifted left by
one within 16 bits, with the bit read from the head in bit 0 in read mode; in
read mode `sync` is true exactly when `(read_shiftreg & 0x3FF) = 0x3FF`, that
is when the ten bits shifted in last are all 1; in write mode `sync` is
false. -/
theorem executeBitReady_sets_sync_iff_ten_ones (L : DriveLogic) (d : VC1541) :
    (d.executeBitReady L).map (fun e => (e.read_shiftreg, e.sync)) =
      (if (VC1541.executeBitReady.head L d).byteReadyCounter = 7 ∧
          (VC1541.executeBitReady.head L d).bitoffset % 8 ≠ 0 then none
       else
        some (((d.read_shiftreg <<< 1) % 0x10000) |||
            (if d.readMode L then d.readBitFromHead else 0),
          d.readMode L &&
            decide ((((d.read_shiftreg <<< 1) % 0x10000) |||
              (if d.readMode L then d.readBitFromHead else 0)) &&& 0x3FF = 0x3FF))) ∧
    (∀ j, j < 10 →
      ((((d.read_shiftreg <<< 1) % 0x10000) ||| d.readBitFromHead).testBit j
        = if j = 0 then d.disk.data d.halftrack d.bitoffset
          else d.read_shiftreg.testBit (j - 1))) ∧
    (∀ x : Nat, x &&& 0x3FF = 0x3FF ↔ ∀ j, j < 10 → x.testBit j = true) := by
  refine ⟨?_, fun j hj => ?_, and_0x3FF_iff⟩
  · have hs := executeBitReady_isSome L d
    cases hx : d.executeBitReady L with
    | none =>
      rw [hx] at hs
      have hc : (VC1541.executeBitReady.head L d).byteReadyCounter = 7 ∧
          (VC1541.executeBitReady.head L d).bitoffset % 8 ≠ 0 := by
        simpa using hs
      rw [if_pos hc]; rfl
    | some e =>
      rw [hx] at hs
      have hc : ¬ ((VC1541.executeBitReady.head L d).byteReadyCounter = 7 ∧
          (VC1541.executeBitReady.head L d).bitoffset % 8 ≠ 0) := by
        intro hc
        simp [hc.1, hc.2] at hs
      obtain ⟨h1, h2, -⟩ := executeBitReady_some L d e hx
      rw [if_neg hc, Option.map_some', h1, h2, head_sync, head_read_shiftreg]
  · simp only [VC1541.readBitFromHead]
    exact testBit_shifted_in _ _ j (by omega)
/-- A byte ready event while `CA2()` of VIA2 answers low, for every behaviour
of the helpers `readMode`, `CA2` and `overflowEnabled`. In read mode an event
that passes the assertion changes nothing: IRA is not latched and V is not
set. In write mode IRA is not latched either, `write_shiftreg` is loaded from
ORA, and V is set exactly when `overflowEnabled()` holds: this branch calls
`byteReady()` without consulting `CA2()`. -/
theorem byte_ready_with_ca2_low (L : DriveLogic) (d : VC1541)
    (h : L.CA2 d.via2 = false) :
    (d.readMode L = true →
      d.executeByteReady L = if d.bitoffset % 8 = 0 then some d else none) ∧
    (d.readMode L = false →
      (d.executeByteReady L).map (fun e => (e.via2.ira, e.cpu.V, e.write_shiftreg)) =
        if d.bitoffset % 8 = 0 then
          some (d.via2.ira, L.overflowEnabled d.via2 || d.cpu.V, d.via2.ora)
        else none) := by
  constructor
  · intro hr
    have hr2 : L.readMode d.via2 = true := hr
    simp only [VC1541.executeByteReady, VC1541.byteReadyByte, VC1541.readMode,
      VC1541.writeMode, h, hr2]
    by_cases ha : d.bitoffset % 8 = 0 <;> simp [ha, hr2]
  · intro hr
    have hr2 : L.readMode d.via2 = false := hr
    simp only [VC1541.executeByteReady, VC1541.byteReadyByte, VC1541.readMode,
      VC1541.writeMode, VC1541.byteReady, h, hr2]
    by_cases ha : d.bitoffset % 8 = 0 <;> by_cases ho : L.overflowEnabled d.via2 = true <;>
      simp [ha, ho, hr2]

/-- The drive `byteComplete` in read mode, overflow enabled. With helpers that
answer "CA2 high" the byte ready event latches 0xA5 into IRA and sets V; with
helpers that answer "CA2 low" the event returns the drive as it was, IRA 0 and
V clear. -/
theorem byte_ready_with_ca2_low_in_read_mode :
    byteComplete.readMode silencedLogic = true ∧ silencedLogic.CA2 byteComplete.via2 = false ∧
    silencedLogic.overflowEnabled byteComplete.via2 = true ∧
    byteComplete.via2.ira = 0 ∧ byteComplete.cpu.V = false ∧
    (byteComplete.executeByteReady { silencedLogic with CA2 := fun _ => true }).map
        (fun e => (e.via2.ira, e.cpu.V)) = some (0xA5, true) ∧
    byteComplete.executeByteReady silencedLogic = some byteComplete :=
  ⟨rfl, rfl, rfl, rfl, rfl, by decide,
    ((byte_ready_with_ca2_low silencedLogic byteComplete rfl).1 rfl).trans (if_pos rfl)⟩

theorem head_kept (L : DriveLogic) (d : VC1541) (hr : d.readMode L = true) :
    (VC1541.executeBitReady.head L d).disk = d.disk ∧
    (VC1541.executeBitReady.head L d).halftrack = d.halftrack ∧
    (VC1541.executeBitReady.head L d).via2 = d.via2 ∧
    (VC1541.executeBitReady.head L d).bitoffset = d.rotateDisk.bitoffset := by
  simp only [VC1541.readMode] at hr
  simp only [VC1541.executeBitReady.head, VC1541.rotateDisk, VC1541.readMode, hr, if_true]
  split_ifs <;> simp_all

theorem head_counter (L : DriveLogic) (d : VC1541) :
    (VC1541.executeBitReady.head L d).byteReadyCounter =
      (if d.readMode L = true ∧ d.sync = true ∧ (VC1541.executeBitReady.head L d).sync = false
        then 0 else d.byteReadyCounter) := by
  rw [head_sync, head_read_shiftreg]
  cases hr : L.readMode d.via2 <;>
  simp only [VC1541.executeBitReady.head, VC1541.rotateDisk, VC1541.readMode,
    VC1541.writeBitToHead, VC1541.readBitFromHead, hr] <;>
  split_ifs <;> simp_all

/-- The byte-ready action in read mode with CA2 high. -/
theorem executeByteReady_reading (L : DriveLogic) (d : VC1541)
    (hm : ∀ x, L.readMode { d.via2 with ira := x } = true ∧ L.CA2 { d.via2 with ira := x } = true)
    (ha : d.bitoffset % 8 = 0) :
    ∃ e, d.executeByteReady L = some e ∧
      e.via2 = (if d.sync then d.via2 else { d.via2 with ira := d.read_shiftreg % 0x100 }) ∧
      e.sync = d.sync ∧ e.read_shiftreg = d.read_shiftreg ∧
      e.byteReadyCounter = d.byteReadyCounter ∧ e.bitoffset = d.bitoffset ∧
      e.halftrack = d.halftrack ∧ e.disk = d.disk := by
  have hr : L.readMode d.via2 = true := (hm d.via2.ira).1
  have hc : L.CA2 d.via2 = true := (hm d.via2.ira).2
  cases hs : d.sync
  · have hv := byteReadyByte_fields L (d.read_shiftreg % 0x100) d
    simp only [hc, if_true] at hv
    obtain ⟨h1, h2, h3, h4, h5, h6, h7, h8, h9⟩ := hv
    have hr2 : L.readMode (d.byteReadyByte L (d.read_shiftreg % 0x100)).via2 = true := by
      rw [h1]; exact (hm _).1
    refine ⟨d.byteReadyByte L (d.read_shiftreg % 0x100), ?_, ?_⟩
    · simp only [VC1541.executeByteReady, VC1541.readMode, VC1541.writeMode, ha, hr, hs]
      simp [hr2]
    · simp only [Bool.false_eq_true, if_false]
      exact ⟨h1, by rw [h2, hs], h3, h5, h6, h7, h8⟩
  · refine ⟨d, ?_, ?_⟩
    · simp only [VC1541.executeByteReady, VC1541.readMode, VC1541.writeMode, ha, hr, hs]
      simp [hr]
    · simp [hs]
/-- One call of `executeBitReady` in read mode with CA2 high, in terms of the
state `executeBitReady.head` leaves. -/
theorem executeBitReady_reading (L : DriveLogic) (d : VC1541)
    (hm : ∀ x, L.readMode { d.via2 with ira := x } = true ∧ L.CA2 { d.via2 with ira := x } = true)
    (ha : (VC1541.executeBitReady.head L d).byteReadyCounter = 7 →
      d.rotateDisk.bitoffset % 8 = 0) :
    ∃ e, d.executeBitReady L = some e ∧
      e.disk = d.disk ∧ e.halftrack = d.halftrack ∧ e.bitoffset = d.rotateDisk.bitoffset ∧
      e.read_shiftreg = (VC1541.executeBitReady.head L d).read_shiftreg ∧
      e.sync = (VC1541.executeBitReady.head L d).sync ∧
      e.byteReadyCounter =
        (if (VC1541.executeBitReady.head L d).byteReadyCounter = 7 then 0
         else ((VC1541.executeBitReady.head L d).byteReadyCounter + 1) % 0x100) ∧
      e.via2 =
        (if (VC1541.executeBitReady.head L d).byteReadyCounter = 7 ∧
            (VC1541.executeBitReady.head L d).sync = false
         then { d.via2 with ira := (VC1541.executeBitReady.head L d).read_shiftreg % 0x100 }
         else d.via2) := by
  have hr : d.readMode L = true := (hm d.via2.ira).1
  obtain ⟨k1, k2, k3, k4⟩ := head_kept L d hr
  by_cases h7 : (VC1541.executeBitReady.head L d).byteReadyCounter = 7
  · obtain ⟨e, he, e1, e2, e3, e4, e5, e6, e7⟩ := executeByteReady_reading L
      { VC1541.executeBitReady.head L d with
        byteReadyCounter := ((VC1541.executeBitReady.head L d).byteReadyCounter + 1) % 0x100 }
      (by rw [k3]; exact hm) (by rw [k4]; exact ha h7)
    refine ⟨{ e with byteReadyCounter := 0,
                     bitReadyTimer := wrap16 (e.bitReadyTimer + L.cyclesPerBit e.zone) }, ?_, ?_⟩
    · simp only [h7] at he
      simp only [VC1541.executeBitReady, h7, beq_self_eq_true, if_true, he, Option.map_some']
    · simp only [h7, if_true, true_and]
      refine ⟨e7.trans k1, e6.trans k2, e5.trans k4, e3, e2, ?_⟩
      rw [e1]
      simp only [k3]
      cases (VC1541.executeBitReady.head L d).sync <;> simp
  · refine ⟨{ VC1541.executeBitReady.head L d with
        byteReadyCounter := ((VC1541.executeBitReady.head L d).byteReadyCounter + 1) % 0x100,
        bitReadyTimer := wrap16 ((VC1541.executeBitReady.head L d).bitReadyTimer +
          L.cyclesPerBit (VC1541.executeBitReady.head L d).zone) }, ?_, ?_⟩
    · simp only [VC1541.executeBitReady, beq_iff_eq, h7, if_false, Option.map_some']
    · simp only [h7, if_false, false_and, and_true, true_and]
      exact ⟨k1, k2, k4, k3⟩

theorem offsetAfter_succ (d : VC1541) (k : Nat) :
    offsetAfter d (k + 1) = (VC1541.rotateDisk { d with bitoffset := offsetAfter d k }).bitoffset :=
  rfl

theorem rotateDisk_bitoffset (d e : VC1541) (h1 : e.disk = d.disk)
    (h2 : e.halftrack = d.halftrack) :
    e.rotateDisk.bitoffset = (VC1541.rotateDisk { d with bitoffset := e.bitoffset }).bitoffset := by
  simp only [VC1541.rotateDisk, h1, h2]
  split_ifs <;> rfl

theorem head_bits (L : DriveLogic) (d e : VC1541) (k : Nat)
    (hr : e.readMode L = true) (h1 : e.disk = d.disk) (h2 : e.halftrack = d.halftrack)
    (h3 : e.bitoffset = offsetAfter d k) (j : Nat) (hj : j < 16) :
    (VC1541.executeBitReady.head L e).read_shiftreg.testBit j =
      if j = 0 then stream d k else e.read_shiftreg.testBit (j - 1) := by
  rw [head_read_shiftreg, hr, if_pos rfl]
  simp only [VC1541.readBitFromHead, h1, h2, h3]
  exact testBit_shifted_in _ (d.disk.data d.halftrack (offsetAfter d k)) j hj

theorem mod_256_lt (x : Nat) : x % 0x100 < 0x100 := Nat.mod_lt _ (by norm_num)

theorem testBit_mod_256 (x i : Nat) (hi : i < 8) : (x % 0x100).testBit i = x.testBit i := by
  have h : (0x100 : Nat) = 2 ^ 8 := by norm_num
  rw [h, Nat.testBit_mod_two_pow]
  simp [hi]

/-- The bit that ends a SYNC mark starts the count of the bits of a byte. -/
theorem framed_first (L : DriveLogic) (d : VC1541) (hm : ReadingWithCA2High L d)
    (hs : d.sync = true) (h0 : stream d 0 = false) :
    ∃ e, d.executeBitReady L = some e ∧ Framed d 1 e := by
  have hr : d.readMode L = true := (hm d.via2.ira).1
  have hb := head_bits L d d 0 hr rfl rfl rfl
  have hS : (VC1541.executeBitReady.head L d).sync = false := by
    rw [head_sync, hr, Bool.true_and, decide_eq_false_iff_not, and_0x3FF_iff]
    intro h
    have := h 0 (by norm_num)
    rw [hb 0 (by norm_num), if_pos rfl, h0] at this
    cases this
  have hc : (VC1541.executeBitReady.head L d).byteReadyCounter = 0 := by
    rw [head_counter, if_pos ⟨hr, hs, hS⟩]
  obtain ⟨e, he, e1, e2, e3, e4, e5, e6, e7⟩ := executeBitReady_reading L d hm
    (by rw [hc]; intro h; cases h)
  rw [hc] at e6 e7
  simp only [OfNat.zero_ne_ofNat, false_and, if_false] at e6 e7
  refine ⟨e, he, ⟨e1, e2, ?_, ?_, e5.trans hS, e6, ?_, ?_, ?_⟩⟩
  · rw [e3, offsetAfter_succ]; rfl
  · rw [e7]
  · intro j hj hj1
    have hj0 : j = 0 := by omega
    subst hj0
    rw [e4, hb 0 hj, if_pos rfl]
  · intro _
    rw [e7]
  · intro h
    omega
/-- A further bit read without a SYNC mark keeps the framing. -/
theorem framed_step (L : DriveLogic) (d e : VC1541) (k : Nat) (hm : ReadingWithCA2High L d)
    (hk : 1 ≤ k) (hf : Framed d k e)
    (hq : ∃ j, j < 10 ∧ j ≤ k ∧ stream d (k - j) = false)
    (ha : (k + 1) % 8 = 0 → offsetAfter d (k + 1) % 8 = 0) :
    ∃ e2, e.executeBitReady L = some e2 ∧ Framed d (k + 1) e2 := by
  have hm2 : ∀ x, L.readMode { e.via2 with ira := x } = true ∧
      L.CA2 { e.via2 with ira := x } = true := by
    intro x
    rw [hf.via2]
    exact hm x
  have hr : e.readMode L = true := (hm2 e.via2.ira).1
  have hb := head_bits L d e k hr hf.disk hf.halftrack hf.bitoffset
  have hbits : ∀ j, j < 16 → j < k + 1 →
      (VC1541.executeBitReady.head L e).read_shiftreg.testBit j = stream d (k - j) := by
    intro j hj hjk
    rw [hb j hj]
    split
    · rename_i h0
      rw [h0]; rfl
    · rename_i h0
      rw [hf.bits (j - 1) (by omega) (by omega)]
      congr 1
      omega
  have hS : (VC1541.executeBitReady.head L e).sync = false := by
    rw [head_sync, hr, Bool.true_and, decide_eq_false_iff_not, and_0x3FF_iff]
    intro h
    obtain ⟨j, hj, hjk, hz⟩ := hq
    have := h j hj
    rw [hbits j (by omega) (by omega), hz] at this
    cases this
  have hc : (VC1541.executeBitReady.head L e).byteReadyCounter = k % 8 := by
    rw [head_counter, if_neg (by rw [hf.sync]; simp), hf.counter]
  have hoff : e.rotateDisk.bitoffset = offsetAfter d (k + 1) := by
    rw [rotateDisk_bitoffset d e hf.disk hf.halftrack, hf.bitoffset, offsetAfter_succ]
  obtain ⟨e2, he, e1, e2h, e3, e4, e5, e6, e7⟩ := executeBitReady_reading L e hm2
    (by rw [hc, hoff]; intro h; exact ha (by omega))
  rw [hc] at e6 e7
  simp only [hS, and_true] at e7
  refine ⟨e2, he, ⟨e1.trans hf.disk, e2h.trans hf.halftrack, e3.trans hoff, ?_, e5.trans hS, ?_,
    ?_, ?_, ?_⟩⟩
  · rw [e7]
    split
    · rw [hf.via2]
    · exact hf.via2
  · rw [e6]
    split <;> omega
  · intro j hj hjk
    rw [e4, hbits j hj hjk]
    congr 1
  · intro h8
    rw [e7, if_neg (by omega)]
    exact hf.early (by omega)
  · intro h8
    rw [e7]
    split
    · rename_i h7
      refine ⟨mod_256_lt _, ?_⟩
      intro i hi
      show (_ % 0x100).testBit i = _
      rw [testBit_mod_256 _ i hi, hbits i (by omega) (by omega)]
      congr 1
      omega
    · rename_i h7
      have h8k : 8 ≤ k := by omega
      have hdiv : (k + 1) / 8 = k / 8 := by omega
      rw [hdiv]
      exact hf.byte h8k
/-- C23 (counterexample). Read mode, CA2 high, a drive just reset over a disk
whose bits are 1 except bit 16: after 16 bits a SYNC mark is detected, bit 17
ends it, the byte 0x7F is latched with bit 24, and bits 25..32 (all 1) are not
latched, because a new SYNC mark has been detected: IRA still holds 0x7F after
bit 32. -/
theorem second_byte_not_latched_in_new_sync_counterexample :
    (bitReadyRun readLogic 16 readingDrive).map
        (fun e => (e.sync, e.bitoffset, stream e 0)) = some (true, 16, false) ∧
    (bitReadyRun readLogic 17 readingDrive).map
        (fun e => (e.sync, e.byteReadyCounter)) = some (false, 1) ∧
    (bitReadyRun readLogic 23 readingDrive).map (fun e => e.via2.ira) = some 0xFF ∧
    (bitReadyRun readLogic 24 readingDrive).map (fun e => e.via2.ira) = some 0x7F ∧
    (bitReadyRun readLogic 32 readingDrive).map
        (fun e => (e.via2.ira, e.read_shiftreg % 0x100, e.sync, e.byteReadyCounter)) =
      some (0x7F, 0xFF, true, 0) := by
  decide
theorem counter_le_seven (L : DriveLogic) (d e : VC1541) (h : d.executeBitReady L = some e)
    (hc : d.byteReadyCounter ≤ 7) : e.byteReadyCounter ≤ 7 := by
  have hh : (VC1541.executeBitReady.head L d).byteReadyCounter ≤ 7 := by
    rw [head_counter]
    split <;> omega
  simp only [VC1541.executeBitReady] at h
  split at h
  · cases hx : VC1541.executeByteReady L
      { VC1541.executeBitReady.head L d with
        byteReadyCounter := ((VC1541.executeBitReady.head L d).byteReadyCounter + 1) % 0x100 } with
    | none => simp [hx] at h
    | some x =>
      simp only [hx, Option.map_some', Option.some.injEq] at h
      subst h
      exact Nat.zero_le _
  · rename_i h7
    simp only [Option.map_some', Option.some.injEq] at h
    subst h
    simp only [beq_iff_eq] at h7
    show ((VC1541.executeBitReady.head L d).byteReadyCounter + 1) % 0x100 ≤ 7
    omega

theorem bitReadyRun_counter (L : DriveLogic) (n : Nat) (d e : VC1541)
    (h : bitReadyRun L n d = some e) (hc : d.byteReadyCounter ≤ 7) :
    e.byteReadyCounter ≤ 7 := by
  induction n generalizing e with
  | zero =>
    simp only [bitReadyRun, Option.some.injEq] at h
    subst h
    exact hc
  | succ n ih =>
    simp only [bitReadyRun] at h
    cases hx : bitReadyRun L n d with
    | none => simp [hx] at h
    | some x =>
      simp only [hx, Option.some_bind] at h
      exact counter_le_seven L x e h (ih x hx)

/-- The byte-ready action in read mode while a SYNC mark is detected: nothing
is latched, the drive is as before. -/
theorem executeByteReady_in_sync (L : DriveLogic) (d : VC1541) (hr : d.readMode L = true)
    (hs : d.sync = true) (ha : d.bitoffset % 8 = 0) : d.executeByteReady L = some d := by
  have hr2 : L.readMode d.via2 = true := hr
  simp [VC1541.executeByteReady, VC1541.readMode, VC1541.writeMode, ha, hr2, hs]

/-- A call of `executeBitReady` in read mode after which `sync` is true
returns unless the assertion fails at a byte boundary, and leaves VIA2 as it
was. -/
theorem executeBitReady_in_sync (L : DriveLogic) (x : VC1541) (hr : x.readMode L = true)
    (hs : (VC1541.executeBitReady.head L x).sync = true)
    (ha : (VC1541.executeBitReady.head L x).byteReadyCounter = 7 →
      x.rotateDisk.bitoffset % 8 = 0) :
    ∃ y, x.executeBitReady L = some y ∧ y.sync = true ∧ y.via2 = x.via2 := by
  obtain ⟨k1, k2, k3, k4⟩ := head_kept L x hr
  by_cases h7 : (VC1541.executeBitReady.head L x).byteReadyCounter = 7
  · have he := executeByteReady_in_sync L
      { VC1541.executeBitReady.head L x with
        byteReadyCounter := ((VC1541.executeBitReady.head L x).byteReadyCounter + 1) % 0x100 }
      (by show L.readMode (VC1541.executeBitReady.head L x).via2 = true; rw [k3]; exact hr)
      hs (by show (VC1541.executeBitReady.head L x).bitoffset % 8 = 0; rw [k4]; exact ha h7)
    refine ⟨{ VC1541.executeBitReady.head L x with
        byteReadyCounter := 0,
        bitReadyTimer := wrap16 ((VC1541.executeBitReady.head L x).bitReadyTimer +
          L.cyclesPerBit (VC1541.executeBitReady.head L x).zone) }, ?_, hs, k3⟩
    simp only [VC1541.executeBitReady, h7, beq_self_eq_true, if_true]
    simp only [h7] at he
    simp only [he, Option.map_some']
  · refine ⟨{ VC1541.executeBitReady.head L x with
        byteReadyCounter := ((VC1541.executeBitReady.head L x).byteReadyCounter + 1) % 0x100,
        bitReadyTimer := wrap16 ((VC1541.executeBitReady.head L x).bitReadyTimer +
          L.cyclesPerBit (VC1541.executeBitReady.head L x).zone) }, ?_, hs, k3⟩
    simp only [VC1541.executeBitReady, beq_iff_eq, h7, if_false, Option.map_some']

theorem executeBitReady_synced (L : DriveLogic) (x y : VC1541) (hr : x.readMode L = true)
    (h : x.executeBitReady L = some y) (hs : y.sync = true) : y.via2 = x.via2 := by
  obtain ⟨-, e2, -⟩ := executeBitReady_some L x y h
  have hiss := executeBitReady_isSome L x
  rw [h] at hiss
  have ha : (VC1541.executeBitReady.head L x).byteReadyCounter = 7 →
      x.rotateDisk.bitoffset % 8 = 0 := by
    intro h7
    rw [← (head_kept L x hr).2.2.2]
    by_contra hne
    simp [h7, hne] at hiss
  obtain ⟨z, hz, -, hv⟩ := executeBitReady_in_sync L x hr (by rw [← e2]; exact hs) ha
  rw [h] at hz
  cases hz
  exact hv

theorem framed_run (L : DriveLogic) (d : VC1541) (n : Nat) (hm : ReadingWithCA2High L d)
    (hs : d.sync = true) (h0 : stream d 0 = false)
    (hq : ∀ k, k < n + 1 → 10 ≤ k → ∃ j, j < 10 ∧ stream d (k - j) = false)
    (ha : ∀ k, 1 ≤ k → k ≤ n + 1 → k % 8 = 0 → offsetAfter d k % 8 = 0) :
    ∃ e, bitReadyRun L (n + 1) d = some e ∧ Framed d (n + 1) e := by
  induction n with
  | zero =>
    obtain ⟨e, he, hf⟩ := framed_first L d hm hs h0
    exact ⟨e, by simp only [bitReadyRun, Option.some_bind, he], hf⟩
  | succ n ih =>
    obtain ⟨e, he, hf⟩ := ih (fun k hk => hq k (by omega)) (fun k h1 hk => ha k h1 (by omega))
    have hq2 : ∃ j, j < 10 ∧ j ≤ n + 1 ∧ stream d (n + 1 - j) = false := by
      by_cases h10 : 10 ≤ n + 1
      · obtain ⟨j, hj, hz⟩ := hq (n + 1) (by omega) h10
        exact ⟨j, hj, by omega, hz⟩
      · refine ⟨n + 1, by omega, le_refl _, ?_⟩
        rw [Nat.sub_self]
        exact h0
    obtain ⟨e2, he2, hf2⟩ := framed_step L d e (n + 1) hm (by omega) hf hq2
      (fun h8 => ha (n + 1 + 1) (by omega) (le_refl _) h8)
    refine ⟨e2, ?_, hf2⟩
    show (bitReadyRun L (n + 1) d).bind (VC1541.executeBitReady L) = some e2
    rw [he, Option.some_bind, he2]

/-- C23. Read mode with CA2 high, whatever IRA holds; in `d` a SYNC mark has
been detected and the bit under the head is 0. Let `n ≥ 1` bits be read such
that no ten consecutive bits among them are all 1 (no further SYNC mark) and
`bitoffset` is a multiple of 8 after every eighth bit (the assertion of
`executeByteReady`). Then the `n` calls of `executeBitReady` return, `sync` is
false, `byteReadyCounter` is `n mod 8`, IRA of VIA2 is unchanged while fewer
than 8 bits have been read, and from the eighth bit on it holds the last
complete group of 8 bits, counted from the bit that ended the SYNC mark, the
bit read first in bit 7. While a SYNC mark is detected no byte is latched: a
call of `executeBitReady` in read mode that reads a bit with which the last
ten bits are all 1 returns (if `bitoffset` is a multiple of 8 at a byte
boundary) with `sync` true and VIA2 as it was, and every call in read mode
that returns with `sync` true has left VIA2 as it was. Besides,
`byteReadyCounter` never leaves 0..7 in any run of `executeBitReady`. -/
theorem bytes_are_latched_every_8_bits_until_next_sync (L : DriveLogic) (d : VC1541) (n : Nat)
    (hm : ReadingWithCA2High L d) (hs : d.sync = true) (h0 : stream d 0 = false)
    (hn : 1 ≤ n)
    (hq : ∀ k, k < n → 10 ≤ k → ∃ j, j < 10 ∧ stream d (k - j) = false)
    (ha : ∀ k, 1 ≤ k → k ≤ n → k % 8 = 0 → offsetAfter d k % 8 = 0) :
    (∃ e, bitReadyRun L n d = some e ∧ e.sync = false ∧ e.byteReadyCounter = n % 8 ∧
      (n < 8 → e.via2.ira = d.via2.ira) ∧
      (8 ≤ n → e.via2.ira < 0x100 ∧
        ∀ i, i < 8 → e.via2.ira.testBit i = stream d (8 * (n / 8) - 1 - i))) ∧
    (∀ x : VC1541, x.readMode L = true →
      (VC1541.executeBitReady.head L x).read_shiftreg &&& 0x3FF = 0x3FF →
      ((VC1541.executeBitReady.head L x).byteReadyCounter = 7 →
        x.rotateDisk.bitoffset % 8 = 0) →
      ∃ y, x.executeBitReady L = some y ∧ y.sync = true ∧ y.via2 = x.via2) ∧
    (∀ x y : VC1541, x.readMode L = true → x.executeBitReady L = some y → y.sync = true →
      y.via2 = x.via2) ∧
    (∀ (M : DriveLogic) (x y : VC1541) (m : Nat), x.byteReadyCounter ≤ 7 →
      bitReadyRun M m x = some y → y.byteReadyCounter ≤ 7) := by
  obtain ⟨n, rfl⟩ : ∃ m, n = m + 1 := ⟨n - 1, by omega⟩
  obtain ⟨e, he, hf⟩ := framed_run L d n hm hs h0 hq ha
  refine ⟨⟨e, he, hf.sync, hf.counter, hf.early, hf.byte⟩, fun x hr h10 hal => ?_,
    fun x y hr hy hsy => executeBitReady_synced L x y hr hy hsy,
    fun M x y m hx hy => bitReadyRun_counter M m x y hy hx⟩
  refine executeBitReady_in_sync L x hr ?_ hal
  rw [head_sync, hr, Bool.true_and, decide_eq_true_iff]
  exact h10

/-- C23 on `markedDisk`, read from bit 0 by a drive just reset. The byte 0x7F
is latched with the eighth bit; the SYNC mark is detected from bit 10 on, so
the byte boundary at bit 16 latches nothing, IRA keeps 0x7F although the last
8 bits read are 0xFF. After 16 bits the bit under the head ends the SYNC
mark, and the bytes 0x55, 0x2A and 0x33 are latched 8, 16 and 24 bits later. -/
theorem bytes_are_latched_every_8_bits_until_next_sync_witness :
    bitReadyRun readLogic 15 markedDrive = some (afterBits readLogic 15 markedDrive) ∧
    bitReadyRun readLogic 16 markedDrive = some (afterBits readLogic 16 markedDrive) ∧
    (afterBits readLogic 15 markedDrive).via2.ira = 0x7F ∧
    (afterBits readLogic 15 markedDrive).byteReadyCounter = 7 ∧
    (∃ y, (afterBits readLogic 15 markedDrive).executeBitReady readLogic = some y ∧
      y.sync = true ∧ y.via2 = (afterBits readLogic 15 markedDrive).via2) ∧
    (afterBits readLogic 16 markedDrive).via2.ira = 0x7F ∧
    (afterBits readLogic 16 markedDrive).read_shiftreg % 0x100 = 0xFF ∧
    (ReadingWithCA2High readLogic (afterBits readLogic 16 markedDrive) ∧
      (afterBits readLogic 16 markedDrive).sync = true ∧
      stream (afterBits readLogic 16 markedDrive) 0 = false ∧
      (∀ k, k < 24 → 10 ≤ k →
        ∃ j, j < 10 ∧ stream (afterBits readLogic 16 markedDrive) (k - j) = false) ∧
      (∀ k, 1 ≤ k → k ≤ 24 → k % 8 = 0 →
        offsetAfter (afterBits readLogic 16 markedDrive) k % 8 = 0)) ∧
    (∃ e, bitReadyRun readLogic 24 (afterBits readLogic 16 markedDrive) = some e ∧
      e.sync = false ∧ e.byteReadyCounter = 24 % 8 ∧
      (24 < 8 → e.via2.ira = (afterBits readLogic 16 markedDrive).via2.ira) ∧
      (8 ≤ 24 → e.via2.ira < 0x100 ∧
        ∀ i, i < 8 → e.via2.ira.testBit i
          = stream (afterBits readLogic 16 markedDrive) (8 * (24 / 8) - 1 - i))) ∧
    (bitReadyRun readLogic 7 (afterBits readLogic 16 markedDrive)).map (fun e => e.via2.ira)
      = some 0x7F ∧
    (bitReadyRun readLogic 8 (afterBits readLogic 16 markedDrive)).map (fun e => e.via2.ira)
      = some 0x55 ∧
    (bitReadyRun readLogic 16 (afterBits readLogic 16 markedDrive)).map (fun e => e.via2.ira)
      = some 0x2A ∧
    (bitReadyRun readLogic 24 (afterBits readLogic 16 markedDrive)).map (fun e => e.via2.ira)
      = some 0x33 :=
  have hm : ReadingWithCA2High readLogic (afterBits readLogic 16 markedDrive) :=
    fun _ => ⟨rfl, rfl⟩
  have hs : (afterBits readLogic 16 markedDrive).sync = true := by decide
  have h0 : stream (afterBits readLogic 16 markedDrive) 0 = false := by decide
  have hq : ∀ k, k < 24 → 10 ≤ k →
      ∃ j, j < 10 ∧ stream (afterBits readLogic 16 markedDrive) (k - j) = false := by
    decide
  have ha : ∀ k, 1 ≤ k → k ≤ 24 → k % 8 = 0 →
      offsetAfter (afterBits readLogic 16 markedDrive) k % 8 = 0 := by decide
  have h := bytes_are_latched_every_8_bits_until_next_sync readLogic
    (afterBits readLogic 16 markedDrive) 24 hm hs h0 (by decide) hq ha
  ⟨rfl, rfl, by decide, by decide,
    h.2.1 (afterBits readLogic 15 markedDrive) rfl (by decide) (fun _ => by decide),
    by decide, by decide, ⟨hm, hs, h0, hq, ha⟩, h.1, by decide, by decide, by decide, by decide⟩

/-! ## Theorems: the head movement -/

theorem roundHalfEven_near (n d : Nat) (hd : 0 < d) :
    2 * (roundHalfEven n d * d) ≤ 2 * n + d ∧ 2 * n ≤ 2 * (roundHalfEven n d * d) + d := by
  have h1 := Nat.div_add_mod n d
  have h2 := Nat.mod_lt n hd
  have h3 : d * (n / d) = n / d * d := Nat.mul_comm _ _
  simp only [roundHalfEven]
  split_ifs <;> constructor <;> (try rw [Nat.add_mul]) <;> omega

theorem roundHalfEven_le (n d k : Nat) (hd : 0 < d) (h : n ≤ k * d) : roundHalfEven n d ≤ k := by
  have h1 := (roundHalfEven_near n d hd).1
  by_contra hc
  have h2 : (k + 1) * d ≤ roundHalfEven n d * d := Nat.mul_le_mul_right d (by omega)
  rw [Nat.add_mul] at h2
  omega

theorem le_roundHalfEven (n d k : Nat) (hd : 0 < d) (h : k * d ≤ n) : k ≤ roundHalfEven n d := by
  have h1 := (roundHalfEven_near n d hd).2
  by_contra hc
  have h2 : (roundHalfEven n d + 1) * d ≤ k * d := Nat.mul_le_mul_right d (by omega)
  rw [Nat.add_mul] at h2
  omega

/-- The scaling of `F32.round` brings the quotient into `[2 ^ 23, 2 ^ 24)`. -/
theorem round_shift (num den : Nat) (h0 : num * 2 ^ 0 < 2 ^ 24 * den)
    (h64 : 2 ^ 24 * den ≤ num * 2 ^ 64) :
    num * 2 ^ Nat.findGreatest (fun s => num * 2 ^ s < 2 ^ 24 * den) 64 < 2 ^ 24 * den ∧
    2 ^ 23 * den ≤ num * 2 ^ Nat.findGreatest (fun s => num * 2 ^ s < 2 ^ 24 * den) 64 ∧
    Nat.findGreatest (fun s => num * 2 ^ s < 2 ^ 24 * den) 64 < 64 := by
  have hs : num * 2 ^ Nat.findGreatest (fun s => num * 2 ^ s < 2 ^ 24 * den) 64 < 2 ^ 24 * den :=
    Nat.findGreatest_spec (P := fun s => num * 2 ^ s < 2 ^ 24 * den) (Nat.zero_le 64) h0
  have hle : Nat.findGreatest (fun s => num * 2 ^ s < 2 ^ 24 * den) 64 ≤ 64 :=
    Nat.findGreatest_le 64
  have hlt : Nat.findGreatest (fun s => num * 2 ^ s < 2 ^ 24 * den) 64 < 64 := by
    rcases Nat.lt_or_ge (Nat.findGreatest (fun s => num * 2 ^ s < 2 ^ 24 * den) 64) 64 with h | h
    · exact h
    · have he : Nat.findGreatest (fun s => num * 2 ^ s < 2 ^ 24 * den) 64 = 64 := by omega
      rw [he] at hs
      omega
  refine ⟨hs, ?_, hlt⟩
  have hn : ¬ (num * 2 ^ (Nat.findGreatest (fun s => num * 2 ^ s < 2 ^ 24 * den) 64 + 1)
      < 2 ^ 24 * den) :=
    Nat.findGreatest_is_greatest (P := fun s => num * 2 ^ s < 2 ^ 24 * den)
      (Nat.lt_succ_self _) hlt
  rw [pow_succ, ← Nat.mul_assoc] at hn
  omega
/-- Two roundings to nearest move the quotient `b * ln / lo` by less than
one unit, when the scalings `S` and `T` are at least `ln` and 1. -/
theorem two_roundings_near (b lo ln m m2 S T : Nat) (hlo : 0 < lo) (hS0 : 0 < S) (hS : ln ≤ S)
    (hT : 1 ≤ T)
    (h1 : 2 * (m * lo) ≤ 2 * (b * S) + lo) (h1b : 2 * (b * S) ≤ 2 * (m * lo) + lo)
    (h2 : 2 * (m2 * S) ≤ 2 * (m * ln * T) + S) (h2b : 2 * (m * ln * T) ≤ 2 * (m2 * S) + S) :
    m2 / T ≤ b * ln / lo + 1 ∧ b * ln / lo ≤ m2 / T + 1 := by
  have hTpos : 0 < T := hT
  have hSTlo1 : ln * T * lo ≤ S * T * lo :=
    Nat.mul_le_mul_right lo (Nat.mul_le_mul_right T hS)
  have hSTlo2 : S * 1 * lo ≤ S * T * lo :=
    Nat.mul_le_mul_right lo (Nat.mul_le_mul_left S hT)
  constructor
  · have hE : b * ln < (b * ln / lo + 1) * lo := by
      have := Nat.lt_succ_self (b * ln / lo)
      exact (Nat.div_lt_iff_lt_mul hlo).1 this
    suffices h : m2 < (b * ln / lo + 2) * T from
      Nat.lt_succ_iff.1 ((Nat.div_lt_iff_lt_mul hTpos).2 h)
    by_contra hc
    have hc : (b * ln / lo + 2) * T ≤ m2 := Nat.le_of_not_lt hc
    have A1 := Nat.mul_le_mul_left (ln * T) h1
    have A2 := Nat.mul_le_mul_left lo h2
    have A3 := Nat.mul_le_mul_left (2 * S * T) (Nat.succ_le_of_lt hE)
    have A4 := Nat.mul_le_mul_left (2 * S * lo) hc
    have A5 : 1 ≤ S * T := Nat.mul_pos hS0 hTpos
    nlinarith
  · have hR : m2 < (m2 / T + 1) * T := by
      have := Nat.lt_succ_self (m2 / T)
      exact (Nat.div_lt_iff_lt_mul hTpos).1 this
    suffices h : b * ln < (m2 / T + 2) * lo from
      Nat.lt_succ_iff.1 ((Nat.div_lt_iff_lt_mul hlo).2 h)
    by_contra hc
    have hc : (m2 / T + 2) * lo ≤ b * ln := Nat.le_of_not_lt hc
    have A1 := Nat.mul_le_mul_left (ln * T) h1b
    have A2 := Nat.mul_le_mul_left lo h2b
    have A3 := Nat.mul_le_mul_left (2 * S * lo) (Nat.succ_le_of_lt hR)
    have A4 := Nat.mul_le_mul_left (2 * S * T) hc
    have A5 : 1 ≤ S * lo := Nat.mul_pos hS0 hlo
    nlinarith
/-- What `F32.round` returns for a positive quotient in its range. -/
theorem round_spec (num den : Nat) (hn : 0 < num) (hd : 0 < den) (h0 : num < 2 ^ 24 * den)
    (h64 : 2 ^ 24 * den ≤ num * 2 ^ 64) :
    (F32.round num den).shift < 64 ∧
    num * 2 ^ (F32.round num den).shift < 2 ^ 24 * den ∧
    2 ^ 23 * den ≤ num * 2 ^ (F32.round num den).shift ∧
    2 * ((F32.round num den).mant * den) ≤ 2 * (num * 2 ^ (F32.round num den).shift) + den ∧
    2 * (num * 2 ^ (F32.round num den).shift) ≤ 2 * ((F32.round num den).mant * den) + den ∧
    2 ^ 23 ≤ (F32.round num den).mant := by
  obtain ⟨a1, a2, a3⟩ := round_shift num den (by simpa using h0) h64
  have hne : num ≠ 0 := by omega
  simp only [F32.round, hne, if_false]
  obtain ⟨b1, b2⟩ := roundHalfEven_near
    (num * 2 ^ Nat.findGreatest (fun s => num * 2 ^ s < 2 ^ 24 * den) 64) den hd
  exact ⟨a3, a1, a2, b1, b2, le_roundHalfEven _ _ _ hd a2⟩

theorem scaleF32_zero (lo ln : Nat) : scaleF32 0 lo ln = 0 := by
  simp [scaleF32, F32.div, F32.mul, F32.round, F32.toNat]

theorem position_below_one (b lo m U : Nat) (hlo : lo ≤ 65536) (hb : b < lo)
    (a4 : 2 * (m * lo) ≤ 2 * (b * (U * 65536)) + lo) : m ≤ 65535 * U := by
  by_contra hc
  have hc : 65535 * U + 1 ≤ m := by omega
  have A1 := Nat.mul_le_mul_left (2 * lo) hc
  have A2 := Nat.mul_le_mul_left (2 * 65536 * U) (Nat.succ_le_of_lt hb)
  have A3 := Nat.mul_le_mul_left (2 * U) hlo
  nlinarith

theorem product_below_length (m m2 ln U T : Nat) (hU : 0 < U) (hm : m ≤ 65535 * U)
    (c3 : 2 ^ 23 * (U * 65536) ≤ m * ln * T)
    (c4 : 2 * (m2 * (U * 65536)) ≤ 2 * (m * ln * T) + U * 65536) : m2 < ln * T := by
  by_contra hc
  have hc : ln * T ≤ m2 := Nat.le_of_not_lt hc
  have A1 := Nat.mul_le_mul_right (ln * T) hm
  have A2 := Nat.mul_le_mul_left (2 * (U * 65536)) hc
  nlinarith

/-- The single precision rescaling stays below the new length and within one
unit of the exact quotient. -/
theorem scaleF32_spec (b lo ln : Nat) (hlo : lo ≤ 0x10000) (hln : 0 < ln)
    (hln2 : ln ≤ 0x10000) (hb : b < lo) :
    scaleF32 b lo ln < ln ∧ scaleF32 b lo ln ≤ b * ln / lo + 1 ∧
      b * ln / lo ≤ scaleF32 b lo ln + 1 := by
  rcases Nat.eq_zero_or_pos b with hb0 | hbpos
  · subst hb0
    rw [scaleF32_zero]
    simp [hln]
  have hlopos : 0 < lo := by omega
  obtain ⟨a1, a2, a3, a4, a5, a6⟩ := round_spec b lo hbpos hlopos (by omega) (by omega)
  have hp : ∀ k : Nat, 0 < 2 ^ k := fun k => Nat.pow_pos (by norm_num)
  have hs24 : 24 ≤ (F32.round b lo).shift := by
    by_contra hc
    have : 2 ^ (F32.round b lo).shift ≤ 2 ^ 23 :=
      Nat.pow_le_pow_right (by norm_num) (by omega)
    have h1 : b * 2 ^ (F32.round b lo).shift ≤ b * 2 ^ 23 := Nat.mul_le_mul_left b this
    have h2 : b * 2 ^ 23 < lo * 2 ^ 23 := Nat.mul_lt_mul_of_pos_right hb (hp 23)
    omega
  obtain ⟨u, hu⟩ : ∃ u, (F32.round b lo).shift = u + 16 :=
    ⟨(F32.round b lo).shift - 16, by omega⟩
  have hS : 2 ^ (F32.round b lo).shift = 2 ^ u * 65536 := by
    rw [hu, pow_add]
    norm_num
  have hU := hp u
  have hU63 : 2 ^ u * 65536 ≤ 2 ^ 63 := by
    rw [← hS]
    exact Nat.pow_le_pow_right (by norm_num) (by omega)
  rw [hS] at a2 a3 a4 a5
  have hm := position_below_one b lo _ _ hlo hb a4
  have hmpos : 0 < (F32.round b lo).mant := lt_of_lt_of_le (hp 23) a6
  have hmln : (F32.round b lo).mant * ln ≤ (F32.round b lo).mant * 65536 :=
    Nat.mul_le_mul_left _ hln2
  have hmln2 : (F32.round b lo).mant * 1 ≤ (F32.round b lo).mant * ln :=
    Nat.mul_le_mul_left _ hln
  obtain ⟨c1, c2, c3, c4, c5, c6⟩ := round_spec ((F32.round b lo).mant * ln)
    (2 ^ (F32.round b lo).shift) (Nat.mul_pos hmpos hln) (hp _)
    (by rw [hS]; omega) (by rw [hS]; omega)
  have hscale : scaleF32 b lo ln =
      (F32.round ((F32.round b lo).mant * ln) (2 ^ (F32.round b lo).shift)).mant /
        2 ^ (F32.round ((F32.round b lo).mant * ln) (2 ^ (F32.round b lo).shift)).shift := rfl
  rw [hscale]
  rw [hS] at c3 c4 c5
  have hlt := product_below_length _ _ ln _ _ hU hm c3 c4
  refine ⟨?_, ?_⟩
  · apply Nat.div_lt_of_lt_mul
    rw [hS]
    exact lt_of_lt_of_eq hlt (Nat.mul_comm _ _)
  · rw [hS]
    exact two_roundings_near b lo ln _ _ (2 ^ u * 65536) _ hlopos (by omega) (by omega)
      (hp _) a4 a5 c4 c5
/-- The byte alignment `& 0xFFF8` of a 16 bit value rounds down to a multiple of 8. -/
theorem and_0xFFF8 (x : Nat) (hx : x < 0x10000) : x &&& 0xFFF8 = 8 * (x / 8) := by
  have h1 : (0xFFF8 : Nat) = 2 ^ 3 * (2 ^ 13 - 1) := by norm_num
  have h2 : 8 * (x / 8) = 2 ^ 3 * (x >>> 3) := by
    rw [Nat.shiftRight_eq_div_pow]
    norm_num
  rw [h1, h2]
  apply Nat.eq_of_testBit_eq
  intro j
  rw [Nat.testBit_and, Nat.testBit_mul_pow_two, Nat.testBit_mul_pow_two,
    Nat.testBit_two_pow_sub_one, Nat.testBit_shiftRight]
  by_cases h3 : 3 ≤ j
  · have hj : 3 + (j - 3) = j := by omega
    rw [hj]
    by_cases h16 : j < 16
    · have : j - 3 < 13 := by omega
      simp [h3, this]
    · have hf : x.testBit j = false := by
        apply Nat.testBit_lt_two_pow
        calc x < 2 ^ 16 := hx
          _ ≤ 2 ^ j := Nat.pow_le_pow_right (by norm_num) (by omega)
      simp [hf]
  · simp [h3]
theorem rescaled_offset (b lo ln : Nat) (hlo : lo ≤ 0x10000) (hln : 0 < ln)
    (hln2 : ln ≤ 0x10000) (hb : b < lo) :
    (scaleF32 b lo ln % 0x10000) &&& 0xFFF8 = 8 * (scaleF32 b lo ln / 8) ∧
    8 * (scaleF32 b lo ln / 8) < ln ∧
    alignedExact b lo ln ≤ 8 * (scaleF32 b lo ln / 8) + 8 ∧
    8 * (scaleF32 b lo ln / 8) ≤ alignedExact b lo ln + 8 := by
  obtain ⟨h1, h2, h3⟩ := scaleF32_spec b lo ln hlo hln hln2 hb
  have hlt : scaleF32 b lo ln < 0x10000 := by omega
  rw [Nat.mod_eq_of_lt hlt, and_0xFFF8 _ hlt]
  simp only [alignedExact]
  refine ⟨trivial, ?_, ?_, ?_⟩ <;> omega

/-- C21 (counterexample). Halftrack 41 and 42 (and 40) hold 61536 bits and
the head stands on bit 8: the exact rescaling is 8, a multiple of 8, but
`moveHeadUp` and `moveHeadDown` set `bitoffset` to 0, because the single
precision product is just below 8 and is cut off to 7. -/
theorem head_move_falls_back_a_byte_counterexample :
    secondByteDrive.halftrack = 41 ∧ secondByteDrive.bitoffset = 8 ∧
    secondByteDrive.disk.length 41 = 61536 ∧ secondByteDrive.disk.length 42 = 61536 ∧
    secondByteDrive.disk.length 40 = 61536 ∧
    8 * 61536 / 61536 = 8 ∧ alignedExact 8 61536 61536 = 8 ∧
    scaleF32 8 61536 61536 = 7 ∧
    (secondByteDrive.moveHeadUp scaleF32).halftrack = 42 ∧
    (secondByteDrive.moveHeadUp scaleF32).bitoffset = 0 ∧
    (secondByteDrive.moveHeadDown scaleF32).halftrack = 40 ∧
    (secondByteDrive.moveHeadDown scaleF32).bitoffset = 0 := by
  decide

/-- C21. On a disk whose halftracks have positive lengths below `2 ^ 16`
(they are `uint16_t`), `moveHeadUp` and `moveHeadDown` keep the head
invariant `1 ≤ halftrack ≤ 84`, `bitoffset < length[halftrack]`. `moveHeadUp`
moves the head exactly when `halftrack < 84`, `moveHeadDown` exactly when
`halftrack > 1`; otherwise they change nothing. When the head moves, by one
halftrack, `byteReadyCounter` is 0 and `bitoffset` is the single precision
value of `bitoffset / length[old] * length[new]` cut off to an integer and
rounded down to a multiple of 8; it is the exact
`floor(bitoffset * length[new] / length[old])` rounded down to a multiple of
8, or differs from that by 8. -/
theorem head_move_keeps_invariant_and_rescales_in_single_precision (d : VC1541)
    (hl : ∀ h, 0 < d.disk.length h ∧ d.disk.length h < 0x10000) (hi : HeadInvariant d) :
    (HeadInvariant (d.moveHeadUp scaleF32) ∧
      (d.halftrack < 84 → (d.moveHeadUp scaleF32).halftrack = d.halftrack + 1 ∧
        Rescaled d (d.moveHeadUp scaleF32)) ∧
      (¬ d.halftrack < 84 → d.moveHeadUp scaleF32 = d)) ∧
    (HeadInvariant (d.moveHeadDown scaleF32) ∧
      (d.halftrack > 1 → (d.moveHeadDown scaleF32).halftrack = d.halftrack - 1 ∧
        Rescaled d (d.moveHeadDown scaleF32)) ∧
      (¬ d.halftrack > 1 → d.moveHeadDown scaleF32 = d)) := by
  obtain ⟨i1, i2, i3⟩ := hi
  constructor
  · obtain ⟨r1, r2, r3, r4⟩ := rescaled_offset d.bitoffset (d.disk.length d.halftrack)
      (d.disk.length (d.halftrack + 1)) (le_of_lt (hl _).2) (hl _).1 (le_of_lt (hl _).2) i3
    by_cases h : d.halftrack < 84
    · have he : d.moveHeadUp scaleF32 =
          { d with
            halftrack := d.halftrack + 1
            bitoffset := 8 * (scaleF32 d.bitoffset (d.disk.length d.halftrack)
              (d.disk.length (d.halftrack + 1)) / 8)
            byteReadyCounter := 0 } := by
        simp only [VC1541.moveHeadUp, h, if_true, r1]
      rw [he]
      exact ⟨⟨Nat.le_add_left 1 _, h, r2⟩, fun _ => ⟨rfl, rfl, rfl, r3, r4⟩,
        fun hn => absurd h hn⟩
    · have he : d.moveHeadUp scaleF32 = d := by
        simp only [VC1541.moveHeadUp, h, if_false]
      rw [he]
      exact ⟨⟨i1, i2, i3⟩, fun hp => absurd hp h, fun _ => rfl⟩
  · obtain ⟨r1, r2, r3, r4⟩ := rescaled_offset d.bitoffset (d.disk.length d.halftrack)
      (d.disk.length (d.halftrack - 1)) (le_of_lt (hl _).2) (hl _).1 (le_of_lt (hl _).2) i3
    by_cases h : d.halftrack > 1
    · have he : d.moveHeadDown scaleF32 =
          { d with
            halftrack := d.halftrack - 1
            bitoffset := 8 * (scaleF32 d.bitoffset (d.disk.length d.halftrack)
              (d.disk.length (d.halftrack - 1)) / 8)
            byteReadyCounter := 0 } := by
        simp only [VC1541.moveHeadDown, h, if_true, r1]
      rw [he]
      have h1 : 1 ≤ d.halftrack - 1 := by omega
      have h2 : d.halftrack - 1 ≤ 84 := by omega
      exact ⟨⟨h1, h2, r2⟩, fun _ => ⟨rfl, rfl, rfl, r3, r4⟩, fun hn => absurd h hn⟩
    · have he : d.moveHeadDown scaleF32 = d := by
        simp only [VC1541.moveHeadDown, h, if_false]
      rw [he]
      exact ⟨⟨i1, i2, i3⟩, fun hp => absurd hp h, fun _ => rfl⟩

theorem head_move_keeps_invariant_and_rescales_in_single_precision_witness :
    ((∀ h, 0 < secondByteDrive.disk.length h ∧ secondByteDrive.disk.length h < 0x10000) ∧
      HeadInvariant secondByteDrive) ∧
    ((HeadInvariant (secondByteDrive.moveHeadUp scaleF32) ∧
      (secondByteDrive.halftrack < 84 →
        (secondByteDrive.moveHeadUp scaleF32).halftrack = secondByteDrive.halftrack + 1 ∧
        Rescaled secondByteDrive (secondByteDrive.moveHeadUp scaleF32)) ∧
      (¬ secondByteDrive.halftrack < 84 →
        secondByteDrive.moveHeadUp scaleF32 = secondByteDrive)) ∧
    (HeadInvariant (secondByteDrive.moveHeadDown scaleF32) ∧
      (secondByteDrive.halftrack > 1 →
        (secondByteDrive.moveHeadDown scaleF32).halftrack = secondByteDrive.halftrack - 1 ∧
        Rescaled secondByteDrive (secondByteDrive.moveHeadDown scaleF32)) ∧
      (¬ secondByteDrive.halftrack > 1 →
        secondByteDrive.moveHeadDown scaleF32 = secondByteDrive))) :=
  have hl : ∀ h, 0 < secondByteDrive.disk.length h ∧ secondByteDrive.disk.length h < 0x10000 :=
    fun _ => ⟨(by decide : 0 < 61536), (by decide : 61536 < 0x10000)⟩
  have hi : HeadInvariant secondByteDrive := ⟨by decide, by decide, by decide⟩
  ⟨⟨hl, hi⟩, head_move_keeps_invariant_and_rescales_in_single_precision secondByteDrive hl hi⟩

/-! ## Theorems: registers 0, 1 and 15 of the VIAs -/

/-- C39. For every register address 0..15: `VIA2::peek`, `VIA1::poke` and
`VIA2::poke` return without reaching an assertion of the base class, and
`VIA1::peek` does so for every address but 15. `VIA1::peek` has no case for
register 15 and passes it to `VIA6522::peek`, whose case 0xF is the assertion
"VIA register 1 needs individual handling". -/
theorem via_registers_0_1_15_are_handled_except_via1_peek_15
    (scale : Nat → Nat → Nat → Nat) (iec : IEC) (addr value : Nat) (d : VC1541)
    (h : addr ≤ 0xF) :
    (VIA2.peek addr d).isSome = true ∧
    (VIA1.poke addr value d).isSome = true ∧
    (VIA2.poke scale addr value d).isSome = true ∧
    ((VIA1.peek iec addr d).isSome = true ↔ addr ≠ 0xF) ∧
    VIA1.peek iec 0xF d = none := by
  have h16 : addr < 16 := by omega
  refine ⟨?_, ?_, ?_, ?_, rfl⟩
  · interval_cases addr <;> rfl
  · interval_cases addr <;> simp [VIA1.poke, VIA6522.poke] <;> split <;> rfl
  · interval_cases addr <;> simp [VIA2.poke, VIA6522.poke] <;> split <;> rfl
  · interval_cases addr <;> simp [VIA1.peek, VIA6522.peek]

theorem via_registers_0_1_15_are_handled_except_via1_peek_15_witness :
    (15 : Nat) ≤ 0xF ∧
    ((VIA2.peek 15 freshDrive).isSome = true ∧
    (VIA1.poke 15 0 freshDrive).isSome = true ∧
    (VIA2.poke scaleF32 15 0 freshDrive).isSome = true ∧
    ((VIA1.peek ⟨true, true, true⟩ 15 freshDrive).isSome = true ↔ 15 ≠ 0xF) ∧
    VIA1.peek ⟨true, true, true⟩ 0xF freshDrive = none) :=
  ⟨by decide, via_registers_0_1_15_are_handled_except_via1_peek_15 scaleF32 ⟨true, true, true⟩
    15 0 freshDrive (by decide)⟩

/-! ## Theorems: standard models -/

/-- C38. Provided the enumerators `VICREV_PAL_6569_R3` and
`VICREV_PAL_6569_R1` differ and `VICREV_NTSC_6567` and
`VICREV_NTSC_6567_R56A` differ: the entries of `configurations` are pairwise
distinct on the fields `getModel` compares, `getModel` after `setModel(m)`
returns `m` for each of the six standard models, and `setModel` applied to
the custom model changes nothing. -/
theorem getModel_after_setModel_returns_the_model (K : Enumerators)
    (hpal : K.VICREV_PAL_6569_R3 ≠ K.VICREV_PAL_6569_R1)
    (hntsc : K.VICREV_NTSC_6567 ≠ K.VICREV_NTSC_6567_R56A)
    (model : C64Model) (m : ConfiguredMachine) :
    ((configurations K).map C64ConfigurationDeprecated.compared).Nodup ∧
    (model ≠ C64Model.C64_MODEL_CUSTOM → getModel K (setModel K model m) = model) ∧
    setModel K C64Model.C64_MODEL_CUSTOM m = m := by
  have hpal2 : K.VICREV_PAL_6569_R1 ≠ K.VICREV_PAL_6569_R3 := fun h => hpal h.symm
  have hntsc2 : K.VICREV_NTSC_6567_R56A ≠ K.VICREV_NTSC_6567 := fun h => hntsc h.symm
  refine ⟨?_, ?_, rfl⟩
  · simp [configurations, C64ConfigurationDeprecated.compared, hpal, hntsc, hpal2, hntsc2]
  · intro hm
    cases model <;>
      simp [getModel, setModel, configurations, getModel.loop, getModel.sameAs, C64Model.value,
        C64Model.ofValue, hpal, hntsc, hpal2, hntsc2] at hm ⊢

theorem getModel_after_setModel_returns_the_model_witness :
    (sampleEnumerators.VICREV_PAL_6569_R3 ≠ sampleEnumerators.VICREV_PAL_6569_R1 ∧
      sampleEnumerators.VICREV_NTSC_6567 ≠ sampleEnumerators.VICREV_NTSC_6567_R56A) ∧
    (((configurations sampleEnumerators).map C64ConfigurationDeprecated.compared).Nodup ∧
    (C64Model.C64_MODEL_PAL_OLD ≠ C64Model.C64_MODEL_CUSTOM →
      getModel sampleEnumerators (setModel sampleEnumerators C64Model.C64_MODEL_PAL_OLD
        customMachine) = C64Model.C64_MODEL_PAL_OLD) ∧
    setModel sampleEnumerators C64Model.C64_MODEL_CUSTOM customMachine = customMachine) :=
  ⟨⟨by decide, by decide⟩,
    getModel_after_setModel_returns_the_model sampleEnumerators (by decide) (by decide)
      C64Model.C64_MODEL_PAL_OLD customMachine⟩

/-! ## Theorems: line-wise and cycle-wise execution -/

theorem cyclesN_succ_last (phi2 : Phi2) (n : Nat) (m : C64) :
    cyclesN phi2 (n + 1) m = (_executeOneCycle phi2 (cyclesN phi2 n m)).1 := by
  induction n generalizing m with
  | zero => rfl
  | succ n ih =>
    show cyclesN phi2 (n + 1) (_executeOneCycle phi2 m).1 = _
    rw [ih]
    rfl

theorem cyclesN_rasterCycle (phi2 : Phi2) (n : Nat) (m : C64) :
    (cyclesN phi2 n m).rasterCycle = m.rasterCycle + n := by
  induction n generalizing m with
  | zero => rfl
  | succ n ih =>
    show (cyclesN phi2 n (_executeOneCycle phi2 m).1).rasterCycle = _
    rw [ih]
    show m.rasterCycle + 1 + n = _
    omega

theorem beginRasterLine_rasterCycle (m : C64) :
    (beginRasterLine m).rasterCycle = m.rasterCycle := by
  simp only [beginRasterLine]
  split_ifs <;> rfl

/-- The first `j < cyclesPerRasterline` calls of `C64::executeOneCycle` in a
line begin the line and execute `j` cycles. -/
theorem executeCycles_within_line (t : Timing) (isLast : Nat → Bool) (phi2 : Phi2)
    (hok : ∀ h, phi2 h = true)
    (hlast : ∀ c, 1 ≤ c → c ≤ t.cyclesPerRasterline →
      (isLast c = true ↔ c = t.cyclesPerRasterline))
    (m : C64) (hc : m.rasterCycle = 1) (j : Nat) (hj : j + 1 < t.cyclesPerRasterline) :
    executeCycles t isLast phi2 (j + 1) m = (cyclesN phi2 (j + 1) (beginRasterLine m), true) := by
  induction j with
  | zero =>
    have hl : isLast 1 = false := by
      have := hlast 1 (le_refl 1) (by omega)
      cases h : isLast 1
      · rfl
      · have := this.1 h
        omega
    simp only [executeCycles, C64.executeOneCycle, hc, beq_self_eq_true, if_true, hl,
      Bool.false_eq_true, if_false, Bool.true_and]
    simp only [_executeOneCycle, hok, cyclesN]
  | succ j ih =>
    have ih := ih (by omega)
    have hr : (cyclesN phi2 (j + 1) (beginRasterLine m)).rasterCycle = j + 2 := by
      rw [cyclesN_rasterCycle, beginRasterLine_rasterCycle, hc]
      omega
    have hl : isLast (j + 2) = false := by
      have := hlast (j + 2) (by omega) (by omega)
      cases h : isLast (j + 2)
      · rfl
      · have := this.1 h
        omega
    have hne : ((j + 2 : Nat) == 1) = false := by simp
    rw [executeCycles, ih]
    simp only [C64.executeOneCycle, hr, hne, hl, Bool.false_eq_true, if_false, Bool.true_and]
    rw [cyclesN_succ_last phi2 (j + 1)]
    simp only [_executeOneCycle, hok]

/-- C37. Starting with `rasterCycle = 1`, with no CPU or drive error, a line
of at least one cycle, and `isLastCycleInRasterline` true for the last cycle
of the line and false for the cycles before it: `executeOneLine` returns the
same machine state, with the same history of calls into the components, and
the same result `true` as `getCyclesPerRasterline()` successive calls of
`executeOneCycle`. -/
theorem executeOneLine_equals_cycle_by_cycle (t : Timing) (isLast : Nat → Bool) (phi2 : Phi2)
    (hok : ∀ h, phi2 h = true) (hpos : 0 < t.cyclesPerRasterline)
    (hlast : ∀ c, 1 ≤ c → c ≤ t.cyclesPerRasterline →
      (isLast c = true ↔ c = t.cyclesPerRasterline))
    (m : C64) (hc : m.rasterCycle = 1) :
    executeOneLine t phi2 m = executeCycles t isLast phi2 t.cyclesPerRasterline m ∧
    (executeOneLine t phi2 m).2 = true := by
  have hline : executeOneLine t phi2 m =
      (endRasterLine t (cyclesN phi2 t.cyclesPerRasterline (beginRasterLine m)), true) := by
    simp only [executeOneLine, hc, if_true]
    rw [beginRasterLine_rasterCycle, hc, loop_ok t phi2 hok]
    rfl
  refine ⟨?_, by rw [hline]⟩
  rw [hline]
  have hl : isLast t.cyclesPerRasterline = true :=
    (hlast _ hpos (le_refl _)).2 rfl
  obtain ⟨n, hn⟩ : ∃ n, t.cyclesPerRasterline = n + 1 := ⟨t.cyclesPerRasterline - 1, by omega⟩
  rw [hn] at hl ⊢
  cases n with
  | zero =>
    simp only [executeCycles, C64.executeOneCycle, hc, beq_self_eq_true, if_true, hl,
      Bool.true_and]
    simp only [_executeOneCycle, hok, cyclesN]
  | succ n =>
    have hw := executeCycles_within_line t isLast phi2 hok hlast m hc n (by omega)
    have hr : (cyclesN phi2 (n + 1) (beginRasterLine m)).rasterCycle = n + 2 := by
      rw [cyclesN_rasterCycle, beginRasterLine_rasterCycle, hc]
      omega
    have hne : ((n + 2 : Nat) == 1) = false := by simp
    rw [executeCycles, hw]
    simp only [C64.executeOneCycle, hr, hne, hl, Bool.false_eq_true, if_false, if_true,
      Bool.true_and]
    rw [cyclesN_succ_last phi2 (n + 1)]
    simp only [_executeOneCycle, hok]

theorem executeOneLine_equals_cycle_by_cycle_witness :
    ((∀ h, (fun _ : List Call => true) h = true) ∧ 0 < (⟨63, 312⟩ : Timing).cyclesPerRasterline ∧
      (∀ c, 1 ≤ c → c ≤ (⟨63, 312⟩ : Timing).cyclesPerRasterline →
        ((fun c => decide (c ≥ 63)) c = true ↔ c = (⟨63, 312⟩ : Timing).cyclesPerRasterline)) ∧
      lastLine.rasterCycle = 1) ∧
    (executeOneLine ⟨63, 312⟩ (fun _ => true) lastLine =
        executeCycles ⟨63, 312⟩ (fun c => decide (c ≥ 63)) (fun _ => true)
          (⟨63, 312⟩ : Timing).cyclesPerRasterline lastLine ∧
      (executeOneLine ⟨63, 312⟩ (fun _ => true) lastLine).2 = true) :=
  have hok : ∀ h, (fun _ : List Call => true) h = true := fun _ => rfl
  have hlast : ∀ c, 1 ≤ c → c ≤ (⟨63, 312⟩ : Timing).cyclesPerRasterline →
      ((fun c => decide (c ≥ 63)) c = true ↔ c = (⟨63, 312⟩ : Timing).cyclesPerRasterline) := by
    intro c h1 h2
    have h63 : (⟨63, 312⟩ : Timing).cyclesPerRasterline = 63 := rfl
    rw [h63] at h2 ⊢
    simp only [decide_eq_true_eq]
    constructor <;> intro h <;> omega
  ⟨⟨hok, by decide, hlast, rfl⟩,
    executeOneLine_equals_cycle_by_cycle ⟨63, 312⟩ (fun c => decide (c ≥ 63)) (fun _ => true)
      hok (by decide) hlast lastLine rfl⟩

/-! ### The serial clock -/

theorem flag_0x40 (x : Nat) : flag x 0x40 = x.testBit 6 := flag_bitAt x 6

theorem timerA_serial_side (w : CIA) :
    (executeOneCycle.timerA w).1.serCounter = w.serCounter ∧
    (executeOneCycle.timerA w).1.CRA.testBit 6 = w.CRA.testBit 6 := by
  simp only [executeOneCycle.timerA, reloadTimerA]
  split_ifs <;> refine ⟨rfl, ?_⟩ <;>
    simp [-Nat.testBit_zero, testBit_not8, testBit_0x01]

theorem timerB_serial_side (w : CIA) :
    (executeOneCycle.timerB w).1.serCounter = w.serCounter := by
  simp only [executeOneCycle.timerB, reloadTimerB]
  split_ifs <;> rfl

/-- The serial clock flag of `feed` after the section "Serial register". -/
theorem serial_clock (a : Bool) (w : CIA) :
    (executeOneCycle.serial a w).feed.testBit 35 =
      (w.feed.testBit 35 ^^
        (a && w.CRA.testBit 6 && (w.serCounter != 0 || w.delay.testBit 34))) := by
  have h34 : flag w.delay SerLoad1 = w.delay.testBit 34 := flag_bitAt _ _
  simp only [executeOneCycle.serial, flag_0x40, h34]
  cases a <;> cases h6 : w.CRA.testBit 6 <;> cases hc : (w.serCounter != 0) <;>
    cases hl : w.delay.testBit 34 <;>
    simp only [Bool.true_and, Bool.false_and, Bool.and_true, Bool.and_false, Bool.or_true,
      Bool.or_false, Bool.or_self, Bool.xor_false, Bool.false_eq_true, if_false, if_true,
      Bool.and_self] <;>
    split_ifs <;>
    simp [-Nat.testBit_zero, SerClk0, SerLoad0, testBit_not64, testBit_bitAt, Nat.testBit_xor]

/-- C34 (counterexample). Serial output mode, timer A underflows in the next
cycle, but `serCounter` is 0 and `SerLoad1` is not set: the cycle leaves
`SerClk0` in `feed` as it was. -/
theorem underflow_without_serial_data_keeps_clock_counterexample :
    flag serialOutputIdle.CRA 0x40 = true ∧ timerAOutput serialOutputIdle = true ∧
    serialOutputIdle.serCounter = 0 ∧ flag serialOutputIdle.delay SerLoad1 = false ∧
    flag (executeOneCycle 1 serialOutputIdle).feed SerClk0 = flag serialOutputIdle.feed SerClk0 := by
  decide

/-- C34. For every state, the cycle toggles `SerClk0` in `feed` exactly when
timer A underflows in serial output mode (CRA bit 6) and either `serCounter`
is not 0 or `SerLoad1` is set in `delay`; otherwise `SerClk0` keeps its
value. -/
theorem underflow_toggles_serial_clock_while_shifting_or_loading (c : Nat) (s : CIA) :
    (executeOneCycle c s).feed.testBit 35 =
      (s.feed.testBit 35 ^^
        (timerAOutput s && s.CRA.testBit 6 && (s.serCounter != 0 || s.delay.testBit 34))) := by
  obtain ⟨-, e2, -⟩ :=
    idle_fields c (wakeUp s).delay (wakeUp s).feed (executeOneCycle.shift (beforeShift s))
  have hw : (wakeUp s).serCounter = s.serCounter := by rw [wakeUp_eq_awake]; rfl
  obtain ⟨w1, w2, -, -, -, -, -, -, w9, -⟩ := wakeUp_fields s
  obtain ⟨a1, a2⟩ := timerA_serial_side (wakeUp s)
  have b1 := timerB_serial_side (afterTimerA s)
  have b2 := (timerB_side (afterTimerA s)).2.2.2.2
  have qa := timerA_quiet (wakeUp s)
  have qb := timerB_quiet (afterTimerA s)
  have q := (outputPB6_quiet (timerAOutput s)
      (executeOneCycle.serial (timerAOutput s) (afterTimerB s))).trans <|
    (outputPB7_quiet (timerBOutput s) _).trans <| (writePB_quiet _).trans <|
    (timerInterrupt_quiet (timerAOutput s) (timerBOutput s) _).trans <|
    (todInterrupt_quiet _).trans <| (serialInterrupt_quiet _).trans <| interruptLine_quiet _
  rw [executeOneCycle_eq, e2]
  show (beforeShift s).feed.testBit 35 = _
  have hq : (beforeShift s).feed.testBit 35 =
      (executeOneCycle.serial (timerAOutput s) (afterTimerB s)).feed.testBit 35 :=
    q.feed 35 (by decide) (by decide)
  rw [hq, serial_clock]
  have h1 : (afterTimerB s).feed.testBit 35 = s.feed.testBit 35 := by
    rw [afterTimerB, qb.feed 35 (by decide) (by decide), afterTimerA,
      qa.feed 35 (by decide) (by decide), w2]
  have h2 : (afterTimerB s).CRA.testBit 6 = s.CRA.testBit 6 := by
    rw [afterTimerB, b2, afterTimerA, a2, w9]
  have h3 : (afterTimerB s).serCounter = s.serCounter := by
    rw [afterTimerB, b1, afterTimerA, a1, hw]
  have h4 : (afterTimerB s).delay.testBit 34 = s.delay.testBit 34 := by
    rw [afterTimerB, qb.delay 34 (by decide) (by decide), afterTimerA,
      qa.delay 34 (by decide) (by decide), w1]
  rw [h1, h2, h3, h4]

/-! ### Idle detection and sleep -/

theorem SideKept.then {s t u : CIA} (h1 : SideKept s t) (h2 : SideKept t u) : SideKept s u :=
  ⟨h2.tiredness.trans h1.tiredness, h2.wakeUpCycle.trans h1.wakeUpCycle,
    h2.latchB.trans h1.latchB, h2.DDRA.trans h1.DDRA, h2.DDRB.trans h1.DDRB,
    h2.PALatch.trans h1.PALatch, h2.PBLatch.trans h1.PBLatch, h2.PA.trans h1.PA,
    h2.SDR.trans h1.SDR, h2.CNT.trans h1.CNT, h2.tod.trans h1.tod,
    h2.PB67TimerMode.trans h1.PB67TimerMode⟩

theorem timerA_sideKept (s : CIA) : SideKept s (executeOneCycle.timerA s).1 := by
  simp only [executeOneCycle.timerA, reloadTimerA]
  split_ifs <;> exact ⟨rfl, rfl, rfl, rfl, rfl, rfl, rfl, rfl, rfl, rfl, rfl, rfl⟩

theorem timerB_sideKept (s : CIA) : SideKept s (executeOneCycle.timerB s).1 := by
  simp only [executeOneCycle.timerB, reloadTimerB]
  split_ifs <;> exact ⟨rfl, rfl, rfl, rfl, rfl, rfl, rfl, rfl, rfl, rfl, rfl, rfl⟩

theorem serial_sideKept (a : Bool) (s : CIA) : SideKept s (executeOneCycle.serial a s) := by
  simp only [executeOneCycle.serial]
  split_ifs <;> exact ⟨rfl, rfl, rfl, rfl, rfl, rfl, rfl, rfl, rfl, rfl, rfl, rfl⟩

theorem outputPB6_sideKept (a : Bool) (s : CIA) : SideKept s (executeOneCycle.outputPB6 a s) := by
  simp only [executeOneCycle.outputPB6]
  split_ifs <;> exact ⟨rfl, rfl, rfl, rfl, rfl, rfl, rfl, rfl, rfl, rfl, rfl, rfl⟩

theorem outputPB7_sideKept (b : Bool) (s : CIA) : SideKept s (executeOneCycle.outputPB7 b s) := by
  simp only [executeOneCycle.outputPB7]
  split_ifs <;> exact ⟨rfl, rfl, rfl, rfl, rfl, rfl, rfl, rfl, rfl, rfl, rfl, rfl⟩

theorem writePB_sideKept (s : CIA) : SideKept s (executeOneCycle.writePB s) := by
  simp only [executeOneCycle.writePB]
  split_ifs <;> exact ⟨rfl, rfl, rfl, rfl, rfl, rfl, rfl, rfl, rfl, rfl, rfl, rfl⟩

theorem timerInterrupt_sideKept (a b : Bool) (s : CIA) :
    SideKept s (executeOneCycle.timerInterrupt a b s) := by
  simp only [executeOneCycle.timerInterrupt]
  split_ifs <;> exact ⟨rfl, rfl, rfl, rfl, rfl, rfl, rfl, rfl, rfl, rfl, rfl, rfl⟩

theorem todInterrupt_sideKept (s : CIA) : SideKept s (executeOneCycle.todInterrupt s) := by
  simp only [executeOneCycle.todInterrupt]
  split_ifs <;> exact ⟨rfl, rfl, rfl, rfl, rfl, rfl, rfl, rfl, rfl, rfl, rfl, rfl⟩

theorem serialInterrupt_sideKept (s : CIA) : SideKept s (executeOneCycle.serialInterrupt s) := by
  simp only [executeOneCycle.serialInterrupt]
  split_ifs <;> exact ⟨rfl, rfl, rfl, rfl, rfl, rfl, rfl, rfl, rfl, rfl, rfl, rfl⟩

theorem interruptLine_sideKept (s : CIA) : SideKept s (executeOneCycle.interruptLine s) := by
  simp only [executeOneCycle.interruptLine, pullDownInterruptLine]
  split_ifs <;> exact ⟨rfl, rfl, rfl, rfl, rfl, rfl, rfl, rfl, rfl, rfl, rfl, rfl⟩

/-- From the awakened state to the state before the shift. -/
theorem beforeShift_sideKept (s : CIA) : SideKept (wakeUp s) (beforeShift s) :=
  (timerA_sideKept (wakeUp s)).then <| (timerB_sideKept _).then <|
    (serial_sideKept _ _).then <| (outputPB6_sideKept _ _).then <|
    (outputPB7_sideKept _ _).then <| (writePB_sideKept _).then <|
    (timerInterrupt_sideKept _ _ _).then <| (todInterrupt_sideKept _).then <|
    (serialInterrupt_sideKept _).then <| interruptLine_sideKept _

theorem wakeUp_sleep_side (s : CIA) :
    (wakeUp s).tiredness = s.tiredness ∧ (wakeUp s).wakeUpCycle = 0 := by
  rw [wakeUp_eq_awake]
  exact ⟨rfl, rfl⟩

/-- The values `sleep` reads are those of the state the cycle ends in. -/
theorem sleep_wakeUpCycle_congr (c : Nat) (x y : CIA) (h1 : x.counterA = y.counterA)
    (h2 : x.counterB = y.counterB) (h3 : x.feed = y.feed) :
    (sleep c x).wakeUpCycle = (sleep c y).wakeUpCycle := by
  simp only [sleep, h1, h2, h3]

theorem decide_pair_eq (a b x y : Nat) : decide (x = a ∧ y = b) = (a == x && b == y) := by
  by_cases h1 : x = a
  · by_cases h2 : y = b
    · subst h1 h2
      simp
    · have h3 : ¬ b = y := fun h => h2 h.symm
      simp [h2, h3]
  · have h3 : ¬ a = x := fun h => h1 h.symm
    simp [h1, h3]

theorem idle_sleep_fields (c d f : Nat) (x : CIA) :
    (executeOneCycle.idle c d f x).tiredness =
      (if (d == x.delay && f == x.feed) = true ∧ (x.tiredness + 1) % 256 ≤ 8
       then (x.tiredness + 1) % 256 else 0) ∧
    (executeOneCycle.idle c d f x).wakeUpCycle =
      (if (d == x.delay && f == x.feed) = true ∧ 8 < (x.tiredness + 1) % 256
       then (sleep c x).wakeUpCycle else x.wakeUpCycle) ∧
    (executeOneCycle.idle c d f x).counterB = x.counterB := by
  cases hk : (d == x.delay && f == x.feed)
  · simp only [executeOneCycle.idle, hk, Bool.false_eq_true, if_false, false_and, and_self]
  · by_cases h8 : (x.tiredness + 1) % 256 > 8
    · have h8n : ¬ (x.tiredness + 1) % 256 ≤ 8 := by omega
      simp only [executeOneCycle.idle, hk, if_true, true_and, h8, h8n, if_false, sleep,
        and_self]
    · have h8n : (x.tiredness + 1) % 256 ≤ 8 := by omega
      have h8f : ¬ 8 < (x.tiredness + 1) % 256 := by omega
      simp only [executeOneCycle.idle, hk, if_true, true_and, h8, h8n, h8f, if_false,
        and_self]

/-- The idle detection of one cycle: `tiredness` and `wakeUpCycle` after the
call. -/
theorem executeOneCycle_idle (c : Nat) (s : CIA) :
    (executeOneCycle c s).tiredness =
      (if pairKept c s = true ∧ (s.tiredness + 1) % 256 ≤ 8 then (s.tiredness + 1) % 256
       else 0) ∧
    (executeOneCycle c s).wakeUpCycle =
      (if pairKept c s = true ∧ 8 < (s.tiredness + 1) % 256
       then (sleep c (executeOneCycle c s)).wakeUpCycle else 0) := by
  obtain ⟨w1, w2, -⟩ := wakeUp_fields s
  obtain ⟨e1, e2, -, -, -, -, -, e8, -⟩ :=
    idle_fields c (wakeUp s).delay (wakeUp s).feed (executeOneCycle.shift (beforeShift s))
  obtain ⟨i1, i2, i3⟩ :=
    idle_sleep_fields c (wakeUp s).delay (wakeUp s).feed (executeOneCycle.shift (beforeShift s))
  have k := beforeShift_sideKept s
  obtain ⟨k1, k2⟩ := wakeUp_sleep_side s
  have ht : (executeOneCycle.shift (beforeShift s)).tiredness = s.tiredness :=
    k.tiredness.trans k1
  have hw : (executeOneCycle.shift (beforeShift s)).wakeUpCycle = 0 :=
    k.wakeUpCycle.trans k2
  have hp : pairKept c s =
      ((wakeUp s).delay == (executeOneCycle.shift (beforeShift s)).delay &&
        (wakeUp s).feed == (executeOneCycle.shift (beforeShift s)).feed) := by
    rw [pairKept, executeOneCycle_eq, e1, e2, w1, w2]
    exact decide_pair_eq _ _ _ _
  have hs : (sleep c (executeOneCycle c s)).wakeUpCycle =
      (sleep c (executeOneCycle.shift (beforeShift s))).wakeUpCycle := by
    apply sleep_wakeUpCycle_congr
    · rw [executeOneCycle_eq, e8]
    · rw [executeOneCycle_eq, i3]
    · rw [executeOneCycle_eq, e2]
  rw [hp, hs, executeOneCycle_eq, i1, i2, ht, hw]
  exact ⟨rfl, rfl⟩
/-- Consecutive calls that leave the pair unchanged count `tiredness` up. -/
theorem run_tiredness (clock : Nat → Nat) (s : CIA) (h0 : s.tiredness = 0) (n : Nat)
    (hn : n ≤ 8) (hk : ∀ j, j < n → pairKept (clock j) (run clock j s) = true) :
    (run clock n s).tiredness = n := by
  induction n with
  | zero => exact h0
  | succ n ih =>
    have ih := ih (by omega) (fun j hj => hk j (by omega))
    have hp := hk n (by omega)
    show (executeOneCycle (clock n) (run clock n s)).tiredness = n + 1
    rw [(executeOneCycle_idle (clock n) (run clock n s)).1, ih, hp]
    have h1 : (n + 1) % 256 = n + 1 := by omega
    rw [h1, if_pos ⟨rfl, hn⟩]

/-- C32 (counterexample). From reset, each of the first nine calls of
`executeOneCycle` leaves `(delay, feed)` unchanged. After the eighth call
`tiredness` is 8, not 0, and `wakeUpCycle` is still 0: `sleep` has not been
called. The ninth call calls `sleep`, which sets `wakeUpCycle` to the maximal
value since both timers are stopped, and resets `tiredness`. -/
theorem eighth_unchanged_cycle_does_not_sleep_counterexample :
    (∀ n, n < 9 → pairKept n (run (fun k => k) n reset) = true) ∧
    (run (fun k => k) 8 reset).tiredness = 8 ∧
    (run (fun k => k) 8 reset).wakeUpCycle = 0 ∧
    (run (fun k => k) 9 reset).tiredness = 0 ∧
    (run (fun k => k) 9 reset).wakeUpCycle = mask64 := by
  decide

/-- C32. For a chip with `tiredness ≤ 8` (as after reset and after every
cycle): a call of `executeOneCycle` that changes `delay` or `feed` resets
`tiredness` to 0 and leaves the chip awake (`wakeUpCycle = 0`); a call that
leaves the pair unchanged increments `tiredness` while it is below 8, and at
`tiredness = 8` it calls `sleep` (the wake-up cycle is the one `sleep`
computes) and resets `tiredness` to 0. So, counted from a call that reset
`tiredness`, the first eight consecutive calls that leave the pair unchanged
bring `tiredness` to 1, ..., 8, and the ninth goes to sleep. -/
theorem cia_sleeps_in_ninth_unchanged_cycle (c : Nat) (s : CIA) (ht : s.tiredness ≤ 8) :
    (executeOneCycle c s).tiredness =
      (if pairKept c s = true ∧ s.tiredness < 8 then s.tiredness + 1 else 0) ∧
    (executeOneCycle c s).wakeUpCycle =
      (if pairKept c s = true ∧ s.tiredness = 8
       then (sleep c (executeOneCycle c s)).wakeUpCycle else 0) ∧
    (executeOneCycle c s).tiredness ≤ 8 ∧
    (∀ (clock : Nat → Nat) (n : Nat), s.tiredness = 0 → n ≤ 8 →
      (∀ j, j < n → pairKept (clock j) (run clock j s) = true) →
      (run clock n s).tiredness = n ∧
      (pairKept (clock n) (run clock n s) = true → n = 8 →
        (run clock (n + 1) s).tiredness = 0 ∧
        (run clock (n + 1) s).wakeUpCycle =
          (sleep (clock n) (run clock (n + 1) s)).wakeUpCycle)) := by
  obtain ⟨h1, h2⟩ := executeOneCycle_idle c s
  have hm : (s.tiredness + 1) % 256 = s.tiredness + 1 := by omega
  rw [hm] at h1 h2
  have e1 : (executeOneCycle c s).tiredness =
      (if pairKept c s = true ∧ s.tiredness < 8 then s.tiredness + 1 else 0) := by
    rw [h1]
    by_cases hp : pairKept c s = true <;> by_cases h8 : s.tiredness < 8 <;>
      simp [hp, h8] <;> omega
  have e2 : (executeOneCycle c s).wakeUpCycle =
      (if pairKept c s = true ∧ s.tiredness = 8
       then (sleep c (executeOneCycle c s)).wakeUpCycle else 0) := by
    rw [h2]
    by_cases hp : pairKept c s = true <;> by_cases h8 : s.tiredness = 8 <;>
      simp [hp, h8] <;> omega
  refine ⟨e1, e2, ?_, ?_⟩
  · rw [e1]
    split <;> omega
  · intro clock n h0 hn hk
    have hr := run_tiredness clock s h0 n hn hk
    refine ⟨hr, ?_⟩
    intro hp h8
    subst h8
    obtain ⟨g1, g2⟩ := executeOneCycle_idle (clock 8) (run clock 8 s)
    rw [hr, hp] at g1 g2
    have hrun : run clock (8 + 1) s = executeOneCycle (clock 8) (run clock 8 s) := rfl
    have h9 : ¬ (8 + 1) % 256 ≤ 8 := by decide
    have h9b : 8 < (8 + 1) % 256 := by decide
    rw [if_neg (fun h => h9 h.2)] at g1
    rw [if_pos ⟨rfl, h9b⟩] at g2
    rw [hrun]
    exact ⟨g1, g2⟩

theorem cia_sleeps_in_ninth_unchanged_cycle_witness :
    reset.tiredness ≤ 8 ∧
    ((executeOneCycle 0 reset).tiredness =
      (if pairKept 0 reset = true ∧ reset.tiredness < 8 then reset.tiredness + 1 else 0) ∧
    (executeOneCycle 0 reset).wakeUpCycle =
      (if pairKept 0 reset = true ∧ reset.tiredness = 8
       then (sleep 0 (executeOneCycle 0 reset)).wakeUpCycle else 0) ∧
    (executeOneCycle 0 reset).tiredness ≤ 8 ∧
    (∀ (clock : Nat → Nat) (n : Nat), reset.tiredness = 0 → n ≤ 8 →
      (∀ j, j < n → pairKept (clock j) (run clock j reset) = true) →
      (run clock n reset).tiredness = n ∧
      (pairKept (clock n) (run clock n reset) = true → n = 8 →
        (run clock (n + 1) reset).tiredness = 0 ∧
        (run clock (n + 1) reset).wakeUpCycle =
          (sleep (clock n) (run clock (n + 1) reset)).wakeUpCycle))) :=
  ⟨by decide, cia_sleeps_in_ninth_unchanged_cycle 0 reset (by decide)⟩

/-- C33 (counterexample). Timer A runs with latch 11; the call of
`executeOneCycle` in cycle 12 leaves `(delay, feed)` unchanged at
`tiredness = 8` and so calls `sleep`, with `counterA = 2` and timer B stopped.
The wake-up cycle is set to 0, not to `min(12 + 2 - 1, max) = 13`. -/
theorem sleep_with_counter_2_sets_wake_up_cycle_0_counterexample :
    tiredWithTimerA.tiredness = 8 ∧ pairKept 12 tiredWithTimerA = true ∧
    (executeOneCycle 12 tiredWithTimerA).counterA = 2 ∧
    flag (executeOneCycle 12 tiredWithTimerA).feed CountA0 = true ∧
    flag (executeOneCycle 12 tiredWithTimerA).feed CountB0 = false ∧
    (executeOneCycle 12 tiredWithTimerA).wakeUpCycle = 0 ∧
    min (sleepTimeWithoutGuard 12 (executeOneCycle 12 tiredWithTimerA).counterA
          (flag (executeOneCycle 12 tiredWithTimerA).feed CountA0))
        (sleepTimeWithoutGuard 12 (executeOneCycle 12 tiredWithTimerA).counterB
          (flag (executeOneCycle 12 tiredWithTimerA).feed CountB0)) = 13 := by
  decide

theorem sleep_wakeUpCycle (c : Nat) (s : CIA) :
    (sleep c s).wakeUpCycle =
      min (sleepTime c s.counterA (flag s.feed CountA0))
        (sleepTime c s.counterB (flag s.feed CountB0)) := by
  simp only [sleep, sleepTime]
  cases flag s.feed CountA0 <;> cases flag s.feed CountB0 <;> rfl

/-- C33. For every state and every cycle `c`: `sleep` writes nothing but the
wake-up cycle, which it sets to `min(wA, wB)`, where `wA` is the maximal 64
bit value if timer A is stopped (`CountA0` not in `feed`), `c + counterA - 1`
if it runs and `counterA > 2`, and 0 if it runs and `counterA ≤ 2`; `wB`
likewise. This is the wake-up cycle of a chip that goes to sleep in
`executeOneCycle`, computed from the counters at the end of that cycle. For
16 bit counters and `c + 2 ^ 16 ≤ 2 ^ 64`, the arbiter skips the chip in
cycle `c + 1` exactly when each timer is stopped or has a counter above 2. -/
theorem sleep_sets_wake_up_cycle_with_guard_for_small_counters (c : Nat) (s : CIA) :
    sleep c s =
      { s with
        wakeUpCycle := (min (sleepTime c s.counterA (flag s.feed CountA0))
          (sleepTime c s.counterB (flag s.feed CountB0))) } ∧
    (pairKept c s = true → s.tiredness = 8 →
      (executeOneCycle c s).wakeUpCycle =
        min (sleepTime c (executeOneCycle c s).counterA (flag (executeOneCycle c s).feed CountA0))
          (sleepTime c (executeOneCycle c s).counterB
            (flag (executeOneCycle c s).feed CountB0))) ∧
    (s.counterA < 0x10000 → s.counterB < 0x10000 → c + 0x10000 ≤ 2 ^ 64 →
      (c + 1 < (sleep c s).wakeUpCycle ↔
        (flag s.feed CountA0 = true → 2 < s.counterA) ∧
        (flag s.feed CountB0 = true → 2 < s.counterB))) := by
  refine ⟨?_, ?_, ?_⟩
  · simp only [sleep, sleepTime]
    cases flag s.feed CountA0 <;> cases flag s.feed CountB0 <;> rfl
  · intro hp h8
    rw [(executeOneCycle_idle c s).2, hp, h8, if_pos ⟨rfl, by decide⟩, sleep_wakeUpCycle]
  · intro hA hB hc
    rw [sleep_wakeUpCycle]
    simp only [sleepTime, mask64, Nat.min_def]
    cases flag s.feed CountA0 <;> cases flag s.feed CountB0 <;>
      simp only [Bool.false_eq_true, if_false, if_true, false_implies, true_implies, and_self,
        true_and, and_true] <;>
      split_ifs <;> (try simp only [iff_true]) <;> omega

/-! ### Register accesses and the pipeline -/

theorem touches_refl (s : CIA) : Touches [] [] s s := ⟨fun _ _ _ => rfl, fun _ _ _ => rfl⟩

theorem Touches.compose {Kd Kf Kd2 Kf2 : List Nat} {s t u : CIA} (h1 : Touches Kd Kf s t)
    (h2 : Touches Kd2 Kf2 t u) : Touches (Kd ++ Kd2) (Kf ++ Kf2) s u where
  delay := fun i hi hn => by
    rw [List.mem_append, not_or] at hn
    exact (h2.delay i hi hn.2).trans (h1.delay i hi hn.1)
  feed := fun i hi hn => by
    rw [List.mem_append, not_or] at hn
    exact (h2.feed i hi hn.2).trans (h1.feed i hi hn.1)

theorem Touches.widen {Kd Kf Kd2 Kf2 : List Nat} {s t : CIA} (h : Touches Kd Kf s t)
    (hd : ∀ i, i ∈ Kd → i ∈ Kd2) (hf : ∀ i, i ∈ Kf → i ∈ Kf2) : Touches Kd2 Kf2 s t :=
  ⟨fun i hi hn => h.delay i hi (fun hm => hn (hd i hm)),
    fun i hi hn => h.feed i hi (fun hm => hn (hf i hm))⟩

theorem Touches.of_eq {s t : CIA} (hd : t.delay = s.delay) (hf : t.feed = s.feed) :
    Touches [] [] s t := ⟨fun _ _ _ => by rw [hd], fun _ _ _ => by rw [hf]⟩

theorem Quiet.touches {Kd Kf : List Nat} {s t : CIA} (h : Quiet Kd Kf s t) : Touches Kd Kf s t :=
  ⟨h.delay, h.feed⟩

theorem wakeUp_touches (s : CIA) : Touches [] [] s (wakeUp s) :=
  Touches.of_eq (wakeUp_fields s).1 (wakeUp_fields s).2.1

theorem pokeControlRegA_start_touches (v : Nat) (s : CIA) :
    Touches [0, 1] [0] s (pokeControlRegA.start v s) := by
  simp only [pokeControlRegA.start]
  split_ifs <;> constructor <;> (
    intro i hi hn
    simp only [List.mem_cons, List.mem_singleton, List.not_mem_nil, not_or, or_false] at hn
    simp [testBit_not64, testBit_bitAt, CountA0, CountA1, hi, Ne.symm, hn])

theorem pokeControlRegA_output_touches (v : Nat) (s : CIA) :
    Touches [] [] s (pokeControlRegA.output v s) := by
  simp only [pokeControlRegA.output]
  split_ifs <;> exact Touches.of_eq rfl rfl

theorem pokeControlRegA_mode_touches (v : Nat) (s : CIA) :
    Touches [0, 1, 8, 33, 34, 35, 36, 37] [0, 20, 33, 35] s (pokeControlRegA.mode v s) := by
  simp only [pokeControlRegA.mode]
  split_ifs <;> constructor <;> (
    intro i hi hn
    simp only [List.mem_cons, List.mem_singleton, List.not_mem_nil, not_or, or_false] at hn
    simp [testBit_not64, testBit_bitAt, CountA0, CountA1, LoadA0, OneShotA0, SerLoad0, SerLoad1,
      SerClk0, SerClk1, SerClk2, hi, Ne.symm, hn])

theorem pokeControlRegA_touches (v : Nat) (s : CIA) :
    Touches [0, 1, 8, 33, 34, 35, 36, 37] [0, 20, 33, 35] s (pokeControlRegA v s) := by
  have h := ((pokeControlRegA_start_touches v s).compose
    (pokeControlRegA_output_touches v _)).compose (pokeControlRegA_mode_touches v _)
  rw [pokeControlRegA_eq]
  exact ⟨fun i hi hn => h.delay i hi (by simp at hn ⊢; tauto),
    fun i hi hn => h.feed i hi (by simp at hn ⊢; tauto)⟩

theorem pokeControlRegB_start_touches (v : Nat) (s : CIA) :
    Touches [4, 5] [4] s (pokeControlRegB.start v s) := by
  simp only [pokeControlRegB.start]
  split_ifs <;> constructor <;> (
    intro i hi hn
    simp only [List.mem_cons, List.mem_singleton, List.not_mem_nil, not_or, or_false] at hn
    simp [testBit_not64, testBit_bitAt, CountB0, CountB1, hi, Ne.symm, hn])

theorem pokeControlRegB_output_touches (v : Nat) (s : CIA) :
    Touches [] [] s (pokeControlRegB.output v s) := by
  simp only [pokeControlRegB.output]
  split_ifs <;> exact Touches.of_eq rfl rfl

theorem pokeControlRegB_mode_touches (v : Nat) (s : CIA) :
    Touches [4, 5, 11] [4, 21] s (pokeControlRegB.mode v s) := by
  simp only [pokeControlRegB.mode]
  split_ifs <;> constructor <;> (
    intro i hi hn
    simp only [List.mem_cons, List.mem_singleton, List.not_mem_nil, not_or, or_false] at hn
    simp [testBit_not64, testBit_bitAt, CountB0, CountB1, LoadB0, OneShotB0, hi, Ne.symm, hn])

theorem pokeControlRegB_touches (v : Nat) (s : CIA) :
    Touches [4, 5, 11] [4, 21] s (pokeControlRegB v s) := by
  have h := ((pokeControlRegB_start_touches v s).compose
    (pokeControlRegB_output_touches v _)).compose (pokeControlRegB_mode_touches v _)
  rw [pokeControlRegB_eq]
  exact ⟨fun i hi hn => h.delay i hi (by simp at hn ⊢; tauto),
    fun i hi hn => h.feed i hi (by simp at hn ⊢; tauto)⟩

theorem checkForTODInterrupt_touches (s : CIA) : Touches [29] [] s (checkForTODInterrupt s) := by
  simp only [checkForTODInterrupt]
  split_ifs <;> constructor <;> (
    intro i hi hn
    simp only [List.mem_cons, List.mem_singleton, List.not_mem_nil, not_or, or_false] at hn
    simp [testBit_bitAt, TODInt0, hi, Ne.symm, hn])

theorem pokeInterruptControl_touches (v : Nat) (s : CIA) :
    Touches [18, 19, 27, 28] [] s (pokeInterruptControl v s) := by
  simp only [pokeInterruptControl]
  split_ifs <;> constructor <;> (
    intro i hi hn
    simp only [List.mem_cons, List.mem_singleton, List.not_mem_nil, not_or, or_false] at hn
    simp [testBit_not64, testBit_bitAt, Interrupt0, Interrupt1, SetIcr0, SetIcr1, hi, Ne.symm,
      hn])

theorem Touches.after {Kd Kf : List Nat} {s t u : CIA} (h : Touches Kd Kf t u)
    (hd : t.delay = s.delay) (hf : t.feed = s.feed) : Touches Kd Kf s u :=
  ⟨fun i hi hn => by rw [← hd]; exact h.delay i hi hn,
    fun i hi hn => by rw [← hf]; exact h.feed i hi hn⟩

/-- A register write other than to the interrupt mask: the bits of `delay` and
`feed` it may touch. -/
theorem poke_touches (addr v : Nat) (s : CIA) (h : addr ≠ 0x0D) :
    Touches [0, 1, 4, 5, 8, 11, 29, 33, 34, 35, 36, 37] [0, 4, 20, 21, 33, 35] (wakeUp s)
      (poke addr v s) := by
  unfold poke
  split
  case h_14 => exact absurd rfl h
  case h_15 =>
    exact (pokeControlRegA_touches v _).widen (by intro i hi; simp at hi ⊢; omega)
      (by intro i hi; simp at hi ⊢; omega)
  case h_16 =>
    exact (pokeControlRegB_touches v _).widen (by intro i hi; simp at hi ⊢; omega)
      (by intro i hi; simp at hi ⊢; omega)
  case h_9 | h_10 | h_11 | h_12 =>
    simp only []
    split_ifs <;>
      exact Touches.widen (Touches.after (checkForTODInterrupt_touches _) rfl rfl)
        (by intro i hi; simp at hi ⊢; omega) (by intro i hi; simp at hi)
  all_goals
    simp only [pokeDataPortA, pokeDataPortB, pokeDataPortDirectionA, pokeDataPortDirectionB]
    (try split_ifs) <;> constructor <;> (
      intro i hi hn
      simp only [List.mem_cons, List.mem_singleton, List.not_mem_nil, not_or, or_false] at hn
      simp [testBit_bitAt, LoadA0, LoadB0, SerLoad0, hi, Ne.symm, hn])

/-- A register read other than of the interrupt register only wakes the chip. -/
theorem peek_state (chip : Chip) (pins : Pins) (addr : Nat) (s : CIA) (h : addr ≠ 0x0D) :
    (peek chip pins addr s).2 = wakeUp s := by
  unfold peek
  split <;> first | rfl | exact absurd rfl h

theorem peek_feed (chip : Chip) (pins : Pins) (addr : Nat) (s : CIA) :
    (peek chip pins addr s).2.feed = s.feed := by
  by_cases h : addr = 0x0D
  · subst h
    rw [peek_icr_eq]
    exact (wakeUp_fields s).2.1
  · rw [peek_state chip pins addr s h]
    exact (wakeUp_fields s).2.1

theorem poke_feed_touches (addr v : Nat) (s : CIA) :
    ∀ i, i < 64 → i ∉ [0, 4, 20, 21, 33, 35] → (poke addr v s).feed.testBit i = s.feed.testBit i := by
  intro i hi hn
  by_cases h : addr = 0x0D
  · subst h
    rw [(poke_imr_fields v s).2.2.2.2.1]
  · rw [(poke_touches addr v s h).feed i hi hn, (wakeUp_fields s).2.1]

theorem Reachable.feedOk {s : CIA} (h : Reachable s) : FeedOk s := by
  induction h with
  | reset => intro i _ _; exact Nat.zero_testBit i
  | peek chip pins addr _ ih => intro i hi hn; rw [peek_feed]; exact ih i hi hn
  | poke addr v _ _ ih => intro i hi hn; rw [poke_feed_touches addr v _ i hi hn]; exact ih i hi hn
  | cycle c _ ih =>
    intro i hi hn
    rw [executeOneCycle_feed c _ i hi (by simp at hn ⊢; omega)]
    exact ih i hi hn
  | skip _ ih => exact ih

theorem peek_setIcrFollows (chip : Chip) (pins : Pins) (addr : Nat) (s : CIA)
    (h : SetIcrFollows s) : SetIcrFollows (peek chip pins addr s).2 := by
  by_cases ha : addr = 0x0D
  · subst ha
    rw [peek_icr_eq]
    constructor <;>
      simp [testBit_not64, testBit_bitAt, Interrupt0, Interrupt1, ClearIcr0, ReadIcr0]
  · rw [peek_state chip pins addr s ha]
    obtain ⟨hd, -⟩ := wakeUp_fields s
    exact ⟨by rw [hd]; exact h.stage0, by rw [hd]; exact h.stage1⟩

theorem poke_setIcrFollows (addr v : Nat) (s : CIA) (h : SetIcrFollows s) :
    SetIcrFollows (poke addr v s) := by
  by_cases ha : addr = 0x0D
  · subst ha
    have hd := (poke_imr_fields v s).2.1
    have h0 := h.stage0
    have h1 := h.stage1
    constructor <;> rw [hd] <;> split_ifs <;> first
      | assumption
      | (simp [testBit_not64, testBit_bitAt, Interrupt0, Interrupt1, SetIcr0, SetIcr1] <;>
          assumption)
  · have q := poke_touches addr v s ha
    obtain ⟨hd, -⟩ := wakeUp_fields s
    constructor
    · rw [q.delay 18 (by decide) (by decide), q.delay 27 (by decide) (by decide), hd]
      exact h.stage0
    · rw [q.delay 19 (by decide) (by decide), q.delay 28 (by decide) (by decide), hd]
      exact h.stage1

theorem executeOneCycle_setIcrFollows (c : Nat) (s : CIA) (hf : FeedOk s)
    (h : SetIcrFollows s) : SetIcrFollows (executeOneCycle c s) := by
  have q := beforeShift_quiet s
  obtain ⟨-, wf, -⟩ := wakeUp_fields s
  have f : ∀ i, i < 64 → i ∉ [0, 4, 20, 21, 33, 35] → (beforeShift s).feed.testBit i = false := by
    intro i hi hn
    rw [q.feed i hi (by simp at hn ⊢; omega), wf]
    exact hf i hi hn
  have m18 : DelayMask.testBit 18 = false := by decide
  have m19 : DelayMask.testBit 19 = true := by decide
  have m28 : DelayMask.testBit 28 = true := by decide
  constructor
  · intro h18
    rw [executeOneCycle_delay_succ c s 17, m18, f 18 (by decide) (by decide)] at h18
    simp at h18
  · intro h19
    rw [executeOneCycle_delay_succ c s 18, m19, f 19 (by decide) (by decide),
      beforeShift_raise s 18 (Or.inl rfl)] at h19
    rw [executeOneCycle_delay_succ c s 27, m28, f 28 (by decide) (by decide),
      beforeShift_raise s 27 (Or.inr rfl)]
    have h0 := h.stage0
    cases hr : raises s <;> simp_all

theorem Reachable.setIcrFollows {s : CIA} (h : Reachable s) : SetIcrFollows s := by
  induction h with
  | reset => exact ⟨fun h => absurd h (by decide), fun h => absurd h (by decide)⟩
  | peek chip pins addr _ ih => exact peek_setIcrFollows chip pins addr _ ih
  | poke addr v _ _ ih => exact poke_setIcrFollows addr v _ ih
  | cycle c hs ih => exact executeOneCycle_setIcrFollows c _ hs.feedOk ih
  | skip _ ih => exact ⟨ih.stage0, ih.stage1⟩

/-- C36. In every state reachable from reset by register reads, register
writes, executed cycles and skipped cycles, `Interrupt0` in `delay` implies
`SetIcr0` in `delay` and `Interrupt1` in `delay` implies `SetIcr1` in `delay`.
The cycle pulls the interrupt line low exactly when `Interrupt1` is in `delay`
at its start, and then bit 7 of ICR is set at the end of that cycle. -/
theorem pending_interrupt_comes_with_set_icr_event (s : CIA) (h : Reachable s) (c : Nat) :
    (flag s.delay Interrupt0 = true → flag s.delay SetIcr0 = true) ∧
    (flag s.delay Interrupt1 = true → flag s.delay SetIcr1 = true) ∧
    (executeOneCycle c s).INT = (s.INT && !flag s.delay Interrupt1) ∧
    (flag s.delay Interrupt1 = true →
      (executeOneCycle c s).INT = false ∧ (executeOneCycle c s).linePulled = true ∧
      (executeOneCycle c s).ICR.testBit 7 = true) := by
  have hI := h.setIcrFollows
  have e0 : flag s.delay Interrupt0 = s.delay.testBit 18 := flag_bitAt _ _
  have e1 : flag s.delay Interrupt1 = s.delay.testBit 19 := flag_bitAt _ _
  have e2 : flag s.delay SetIcr0 = s.delay.testBit 27 := flag_bitAt _ _
  have e3 : flag s.delay SetIcr1 = s.delay.testBit 28 := flag_bitAt _ _
  obtain ⟨i1, i2⟩ := executeOneCycle_INT c s
  rw [e0, e1, e2, e3]
  refine ⟨hI.stage0, hI.stage1, i1, fun h19 => ⟨?_, ?_, ?_⟩⟩
  · rw [i1, h19]; simp
  · rw [i2, h19]; simp
  · rw [executeOneCycle_ICR c s 7 (by decide), if_pos rfl, hI.stage1 h19]; rfl

theorem pending_interrupt_comes_with_set_icr_event_witness :
    Reachable interruptPending ∧ flag interruptPending.delay Interrupt1 = true ∧
    flag interruptPending.delay SetIcr1 = true ∧
    (executeOneCycle 2 interruptPending).INT = false ∧
    (executeOneCycle 2 interruptPending).ICR.testBit 7 = true := by
  have hr : Reachable interruptPending :=
    Reachable.cycle 1 (Reachable.cycle 0 (Reachable.poke 0x0E 0x11 (by decide)
      (Reachable.poke 0x0D 0x81 (by decide) (Reachable.poke 0x05 0 (by decide)
        (Reachable.poke 0x04 2 (by decide) Reachable.reset)))))
  have h := pending_interrupt_comes_with_set_icr_event interruptPending hr 2
  have h19 : flag interruptPending.delay Interrupt1 = true := by decide
  exact ⟨hr, h19, h.2.1 h19, (h.2.2.2 h19).1, (h.2.2.2 h19).2.2⟩

/-! ### The sticky bits of `feed` and the control registers -/

theorem ControlKept.mirrors {s t : CIA} (k : ControlKept s t) (h : MirrorsControl s) :
    MirrorsControl t :=
  ⟨by rw [k.countA, k.CRA]; exact h.countA, by rw [k.countB, k.CRB]; exact h.countB,
    by rw [k.oneShotA, k.CRA]; exact h.oneShotA, by rw [k.oneShotB, k.CRB]; exact h.oneShotB⟩

theorem ControlKept.chain {s t u : CIA} (h1 : ControlKept s t) (h2 : ControlKept t u) :
    ControlKept s u :=
  ⟨h2.CRA.trans h1.CRA, h2.CRB.trans h1.CRB, h2.countA.trans h1.countA,
    h2.countB.trans h1.countB, h2.oneShotA.trans h1.oneShotA, h2.oneShotB.trans h1.oneShotB⟩

theorem controlKept_of_eq {s t : CIA} (h1 : t.CRA = s.CRA) (h2 : t.CRB = s.CRB)
    (h3 : t.feed = s.feed) : ControlKept s t :=
  ⟨h1, h2, by rw [h3], by rw [h3], by rw [h3], by rw [h3]⟩

theorem timerA_mirrors (s : CIA) (h : MirrorsControl s) :
    MirrorsControl (executeOneCycle.timerA s).1 := by
  obtain ⟨h1, h2, h3, h4⟩ := h
  simp only [executeOneCycle.timerA, reloadTimerA]
  split_ifs <;> constructor <;>
    simp [-Nat.testBit_zero, testBit_not64, testBit_not8, testBit_bitAt, testBit_0x01, CountA0,
      h1, h2, h3, h4]

theorem timerB_mirrors (s : CIA) (h : MirrorsControl s) :
    MirrorsControl (executeOneCycle.timerB s).1 := by
  obtain ⟨h1, h2, h3, h4⟩ := h
  simp only [executeOneCycle.timerB, reloadTimerB]
  split_ifs <;> constructor <;>
    simp [-Nat.testBit_zero, testBit_not64, testBit_not8, testBit_bitAt, testBit_0x01, CountB0,
      h1, h2, h3, h4]

theorem serial_controlKept (a : Bool) (s : CIA) :
    ControlKept s (executeOneCycle.serial a s) := by
  simp only [executeOneCycle.serial]
  split_ifs <;> constructor <;> first
    | rfl
    | simp [-Nat.testBit_zero, testBit_not64, testBit_bitAt, SerLoad0, SerClk0]

theorem outputPB6_controlKept (a : Bool) (s : CIA) :
    ControlKept s (executeOneCycle.outputPB6 a s) := by
  simp only [executeOneCycle.outputPB6]
  split_ifs <;> exact ⟨rfl, rfl, rfl, rfl, rfl, rfl⟩

theorem outputPB7_controlKept (b : Bool) (s : CIA) :
    ControlKept s (executeOneCycle.outputPB7 b s) := by
  simp only [executeOneCycle.outputPB7]
  split_ifs <;> exact ⟨rfl, rfl, rfl, rfl, rfl, rfl⟩

theorem writePB_controlKept (s : CIA) : ControlKept s (executeOneCycle.writePB s) := by
  simp only [executeOneCycle.writePB]
  split_ifs <;> exact ⟨rfl, rfl, rfl, rfl, rfl, rfl⟩

theorem timerInterrupt_controlKept (a b : Bool) (s : CIA) :
    ControlKept s (executeOneCycle.timerInterrupt a b s) := by
  simp only [executeOneCycle.timerInterrupt]
  split_ifs <;> exact ⟨rfl, rfl, rfl, rfl, rfl, rfl⟩

theorem todInterrupt_controlKept (s : CIA) : ControlKept s (executeOneCycle.todInterrupt s) := by
  simp only [executeOneCycle.todInterrupt]
  split_ifs <;> exact ⟨rfl, rfl, rfl, rfl, rfl, rfl⟩

theorem serialInterrupt_controlKept (s : CIA) :
    ControlKept s (executeOneCycle.serialInterrupt s) := by
  simp only [executeOneCycle.serialInterrupt]
  split_ifs <;> exact ⟨rfl, rfl, rfl, rfl, rfl, rfl⟩

theorem interruptLine_controlKept (s : CIA) :
    ControlKept s (executeOneCycle.interruptLine s) := by
  simp only [executeOneCycle.interruptLine, pullDownInterruptLine]
  split_ifs <;> exact ⟨rfl, rfl, rfl, rfl, rfl, rfl⟩

theorem idle_controlKept (c d f : Nat) (s : CIA) :
    ControlKept s (executeOneCycle.idle c d f s) := by
  simp only [executeOneCycle.idle, sleep]
  split_ifs <;> exact ⟨rfl, rfl, rfl, rfl, rfl, rfl⟩

theorem wakeUp_controlKept (s : CIA) : ControlKept s (wakeUp s) := by
  obtain ⟨-, hf, -, -, -, -, -, -, ha, hb, -⟩ := wakeUp_fields s
  exact controlKept_of_eq ha hb hf

theorem beforeShift_controlKept (s : CIA) : ControlKept (afterTimerB s) (beforeShift s) :=
  (serial_controlKept (timerAOutput s) _).chain <|
    (outputPB6_controlKept (timerAOutput s) _).chain <|
    (outputPB7_controlKept (timerBOutput s) _).chain <| (writePB_controlKept _).chain <|
    (timerInterrupt_controlKept (timerAOutput s) (timerBOutput s) _).chain <|
    (todInterrupt_controlKept _).chain <| (serialInterrupt_controlKept _).chain <|
    interruptLine_controlKept _

theorem executeOneCycle_mirrors (c : Nat) (s : CIA) (h : MirrorsControl s) :
    MirrorsControl (executeOneCycle c s) := by
  have h1 : MirrorsControl (afterTimerB s) :=
    timerB_mirrors _ (timerA_mirrors _ ((wakeUp_controlKept s).mirrors h))
  have k2 : ControlKept (beforeShift s) (executeOneCycle.shift (beforeShift s)) :=
    controlKept_of_eq rfl rfl rfl
  rw [executeOneCycle_eq]
  exact (idle_controlKept _ _ _ _).mirrors (k2.mirrors ((beforeShift_controlKept s).mirrors h1))

theorem ControlKept.since {s t u : CIA} (h : ControlKept t u) (h1 : t.CRA = s.CRA)
    (h2 : t.CRB = s.CRB) (h3 : t.feed = s.feed) : ControlKept s u :=
  (controlKept_of_eq h1 h2 h3).chain h

theorem peek_controlKept (chip : Chip) (pins : Pins) (addr : Nat) (s : CIA) :
    ControlKept s (peek chip pins addr s).2 := by
  by_cases ha : addr = 0x0D
  · subst ha
    rw [peek_icr_eq]
    exact (wakeUp_controlKept s).chain (controlKept_of_eq rfl rfl rfl)
  · rw [peek_state chip pins addr s ha]
    exact wakeUp_controlKept s

theorem checkForTODInterrupt_controlKept (s : CIA) : ControlKept s (checkForTODInterrupt s) := by
  simp only [checkForTODInterrupt]
  split_ifs <;> exact ⟨rfl, rfl, rfl, rfl, rfl, rfl⟩

theorem pokeInterruptControl_controlKept (v : Nat) (s : CIA) :
    ControlKept s (pokeInterruptControl v s) := by
  simp only [pokeInterruptControl]
  split_ifs <;> exact ⟨rfl, rfl, rfl, rfl, rfl, rfl⟩

/-- A register write other than to a control register keeps the control
registers and the sticky timer bits of `feed`. -/
theorem poke_controlKept (addr v : Nat) (s : CIA) (hA : addr ≠ 0x0E) (hB : addr ≠ 0x0F) :
    ControlKept s (poke addr v s) := by
  refine (wakeUp_controlKept s).chain ?_
  unfold poke
  split
  case h_15 => exact absurd rfl hA
  case h_16 => exact absurd rfl hB
  case h_14 => exact pokeInterruptControl_controlKept v _
  case h_9 | h_10 | h_11 | h_12 =>
    simp only []
    split_ifs <;>
      exact (checkForTODInterrupt_controlKept _).since rfl rfl rfl
  all_goals
    simp only [pokeDataPortA, pokeDataPortB, pokeDataPortDirectionA, pokeDataPortDirectionB]
    (try split_ifs) <;> constructor <;> first
      | rfl
      | simp [-Nat.testBit_zero, testBit_bitAt, SerLoad0]

theorem flag_0x20 (x : Nat) : flag x 0x20 = x.testBit 5 := flag_bitAt x 5

theorem flag_0x60 (x : Nat) : flag x 0x60 = (x.testBit 5 || x.testBit 6) := by
  have h : (0x60 : Nat) = bitAt 5 ||| bitAt 6 := rfl
  rw [h, flag_or, flag_bitAt, flag_bitAt]

theorem pokeControlRegA_start_control (v : Nat) (s : CIA) :
    (pokeControlRegA.start v s).CRA = s.CRA ∧ (pokeControlRegA.start v s).CRB = s.CRB ∧
    (pokeControlRegA.start v s).feed.testBit 0 = v.testBit 0 := by
  simp only [pokeControlRegA.start, flag_0x01]
  split_ifs <;> refine ⟨rfl, rfl, ?_⟩ <;>
    simp_all [-Nat.testBit_zero, testBit_not64, testBit_bitAt, CountA0]

theorem pokeControlRegA_output_control (v : Nat) (s : CIA) :
    (pokeControlRegA.output v s).CRA = s.CRA ∧ (pokeControlRegA.output v s).CRB = s.CRB ∧
    (pokeControlRegA.output v s).feed = s.feed := by
  simp only [pokeControlRegA.output]
  split_ifs <;> exact ⟨rfl, rfl, rfl⟩

theorem pokeControlRegA_mode_control (v : Nat) (s : CIA) :
    (pokeControlRegA.mode v s).CRB = s.CRB ∧
    (pokeControlRegA.mode v s).feed.testBit 0 = (s.feed.testBit 0 && !v.testBit 5) ∧
    (pokeControlRegA.mode v s).feed.testBit 20 = v.testBit 3 := by
  simp only [pokeControlRegA.mode, flag_0x08, flag_0x20]
  split_ifs <;> refine ⟨rfl, ?_, ?_⟩ <;>
    simp_all [-Nat.testBit_zero, testBit_not64, testBit_bitAt, CountA0, OneShotA0, SerLoad0,
      SerClk0]

theorem pokeControlRegA_mirrors (v : Nat) (s : CIA) (h : MirrorsControl s) :
    MirrorsControl (pokeControlRegA v s) := by
  have q := pokeControlRegA_touches v s
  obtain ⟨-, a2, a3⟩ := pokeControlRegA_start_control v s
  obtain ⟨-, b2, b3⟩ := pokeControlRegA_output_control v (pokeControlRegA.start v s)
  obtain ⟨c1, c2, c3⟩ :=
    pokeControlRegA_mode_control v (pokeControlRegA.output v (pokeControlRegA.start v s))
  have hb : (pokeControlRegA v s).CRB = s.CRB := by
    rw [pokeControlRegA_eq]; exact c1.trans (b2.trans a2)
  have ha : (pokeControlRegA v s).CRA = v := by rw [pokeControlRegA_eq]
  have hf : (pokeControlRegA v s).feed =
      (pokeControlRegA.mode v (pokeControlRegA.output v (pokeControlRegA.start v s))).feed := by
    rw [pokeControlRegA_eq]
  refine ⟨?_, ?_, ?_, ?_⟩
  · rw [hf, c2, b3, a3, ha]
  · rw [q.feed 4 (by decide) (by decide), hb]; exact h.countB
  · rw [hf, c3, ha]
  · rw [q.feed 21 (by decide) (by decide), hb]; exact h.oneShotB

theorem pokeControlRegB_start_control (v : Nat) (s : CIA) :
    (pokeControlRegB.start v s).CRA = s.CRA ∧ (pokeControlRegB.start v s).CRB = s.CRB ∧
    (pokeControlRegB.start v s).feed.testBit 4 = v.testBit 0 := by
  simp only [pokeControlRegB.start, flag_0x01]
  split_ifs <;> refine ⟨rfl, rfl, ?_⟩ <;>
    simp_all [-Nat.testBit_zero, testBit_not64, testBit_bitAt, CountB0]

theorem pokeControlRegB_output_control (v : Nat) (s : CIA) :
    (pokeControlRegB.output v s).CRA = s.CRA ∧ (pokeControlRegB.output v s).CRB = s.CRB ∧
    (pokeControlRegB.output v s).feed = s.feed := by
  simp only [pokeControlRegB.output]
  split_ifs <;> exact ⟨rfl, rfl, rfl⟩

theorem pokeControlRegB_mode_control (v : Nat) (s : CIA) :
    (pokeControlRegB.mode v s).CRA = s.CRA ∧
    (pokeControlRegB.mode v s).feed.testBit 4 =
      (s.feed.testBit 4 && !v.testBit 5 && !v.testBit 6) ∧
    (pokeControlRegB.mode v s).feed.testBit 21 = v.testBit 3 := by
  simp only [pokeControlRegB.mode, flag_0x08, flag_0x60]
  split_ifs <;> refine ⟨rfl, ?_, ?_⟩ <;>
    simp_all [-Nat.testBit_zero, testBit_not64, testBit_bitAt, CountB0, OneShotB0] <;>
    (intro _ h5; simp_all)

theorem pokeControlRegB_mirrors (v : Nat) (s : CIA) (h : MirrorsControl s) :
    MirrorsControl (pokeControlRegB v s) := by
  have q := pokeControlRegB_touches v s
  obtain ⟨a1, -, a3⟩ := pokeControlRegB_start_control v s
  obtain ⟨b1, -, b3⟩ := pokeControlRegB_output_control v (pokeControlRegB.start v s)
  obtain ⟨c1, c2, c3⟩ :=
    pokeControlRegB_mode_control v (pokeControlRegB.output v (pokeControlRegB.start v s))
  have ha : (pokeControlRegB v s).CRA = s.CRA := by
    rw [pokeControlRegB_eq]; exact c1.trans (b1.trans a1)
  have hb : (pokeControlRegB v s).CRB = v := by rw [pokeControlRegB_eq]
  have hf : (pokeControlRegB v s).feed =
      (pokeControlRegB.mode v (pokeControlRegB.output v (pokeControlRegB.start v s))).feed := by
    rw [pokeControlRegB_eq]
  refine ⟨?_, ?_, ?_, ?_⟩
  · rw [q.feed 0 (by decide) (by decide), ha]; exact h.countA
  · rw [hf, c2, b3, a3, hb]
  · rw [q.feed 20 (by decide) (by decide), ha]; exact h.oneShotA
  · rw [hf, c3, hb]

theorem poke_mirrors (addr v : Nat) (s : CIA) (h : MirrorsControl s) :
    MirrorsControl (poke addr v s) := by
  by_cases hA : addr = 0x0E
  · subst hA
    exact pokeControlRegA_mirrors v _ ((wakeUp_controlKept s).mirrors h)
  · by_cases hB : addr = 0x0F
    · subst hB
      exact pokeControlRegB_mirrors v _ ((wakeUp_controlKept s).mirrors h)
    · exact (poke_controlKept addr v s hA hB).mirrors h

theorem Reachable.mirrorsControl {s : CIA} (h : Reachable s) : MirrorsControl s := by
  induction h with
  | reset => exact ⟨by decide, by decide, by decide, by decide⟩
  | peek chip pins addr _ ih => exact (peek_controlKept chip pins addr _).mirrors ih
  | poke addr v _ _ ih => exact poke_mirrors addr v _ ih
  | cycle c _ ih => exact executeOneCycle_mirrors c _ ih
  | @skip s _ ih => exact (controlKept_of_eq rfl rfl rfl : ControlKept s (skipCycle s)).mirrors ih

theorem and_0x21_eq_0x01 (x : Nat) :
    x &&& 0x21 = 0x01 ↔ (x.testBit 0 && !x.testBit 5) = true := by
  have h21 : (0x21 : Nat) = bitAt 0 ||| bitAt 5 := rfl
  rw [h21]
  constructor
  · intro h
    have a := congrArg (fun y => y.testBit 0) h
    have b := congrArg (fun y => y.testBit 5) h
    simp [-Nat.testBit_zero, testBit_bitAt, testBit_0x01] at a b
    simp [-Nat.testBit_zero, a, b]
  · intro h
    simp only [Bool.and_eq_true, Bool.not_eq_true'] at h
    apply Nat.eq_of_testBit_eq
    intro i
    simp only [Nat.testBit_and, Nat.testBit_or, testBit_bitAt, testBit_0x01]
    by_cases h0 : i = 0
    · subst h0; simp [-Nat.testBit_zero, h.1]
    · by_cases h5 : i = 5
      · subst h5; simp [h.2]
      · simp [h0, h5, Ne.symm h0, Ne.symm h5]

theorem and_0x61_eq_0x01 (x : Nat) :
    x &&& 0x61 = 0x01 ↔ (x.testBit 0 && !x.testBit 5 && !x.testBit 6) = true := by
  have h61 : (0x61 : Nat) = bitAt 0 ||| bitAt 5 ||| bitAt 6 := rfl
  rw [h61]
  constructor
  · intro h
    have a := congrArg (fun y => y.testBit 0) h
    have b := congrArg (fun y => y.testBit 5) h
    have c := congrArg (fun y => y.testBit 6) h
    simp [-Nat.testBit_zero, testBit_bitAt, testBit_0x01] at a b c
    simp [-Nat.testBit_zero, a, b, c]
  · intro h
    simp only [Bool.and_eq_true, Bool.not_eq_true'] at h
    apply Nat.eq_of_testBit_eq
    intro i
    simp only [Nat.testBit_and, Nat.testBit_or, testBit_bitAt, testBit_0x01]
    by_cases h0 : i = 0
    · subst h0; simp [-Nat.testBit_zero, h.1.1]
    · by_cases h5 : i = 5
      · subst h5; simp [h.1.2]
      · by_cases h6 : i = 6
        · subst h6; simp [h.2]
        · simp [h0, h5, h6, Ne.symm h0, Ne.symm h5, Ne.symm h6]

theorem reachable_run (clock : Nat → Nat) (n : Nat) {s : CIA} (h : Reachable s) :
    Reachable (run clock n s) := by
  induction n with
  | zero => exact h
  | succ n ih => exact Reachable.cycle (clock n) ih

/-- C35. In every state reachable from reset by register reads, writes of
bytes, executed cycles and skipped cycles: `CountA0` is in `feed` iff
`(CRA & 0x21) = 0x01`, `CountB0` is in `feed` iff `(CRB & 0x61) = 0x01`,
`OneShotA0` is in `feed` iff bit 3 of CRA is set, and `OneShotB0` is in `feed`
iff bit 3 of CRB is set. -/
theorem sticky_feed_bits_mirror_control_registers (s : CIA) (h : Reachable s) :
    (flag s.feed CountA0 = true ↔ s.CRA &&& 0x21 = 0x01) ∧
    (flag s.feed CountB0 = true ↔ s.CRB &&& 0x61 = 0x01) ∧
    (flag s.feed OneShotA0 = true ↔ flag s.CRA 0x08 = true) ∧
    (flag s.feed OneShotB0 = true ↔ flag s.CRB 0x08 = true) := by
  obtain ⟨h1, h2, h3, h4⟩ := h.mirrorsControl
  have e0 : flag s.feed CountA0 = s.feed.testBit 0 := flag_bitAt _ _
  have e1 : flag s.feed CountB0 = s.feed.testBit 4 := flag_bitAt _ _
  have e2 : flag s.feed OneShotA0 = s.feed.testBit 20 := flag_bitAt _ _
  have e3 : flag s.feed OneShotB0 = s.feed.testBit 21 := flag_bitAt _ _
  rw [e0, e1, e2, e3, flag_0x08, flag_0x08, and_0x21_eq_0x01, and_0x61_eq_0x01, h1, h2, h3, h4]
  exact ⟨Iff.rfl, Iff.rfl, Iff.rfl, Iff.rfl⟩

theorem sticky_feed_bits_mirror_control_registers_witness :
    Reachable oneShotDone ∧ oneShotDone.CRA = 0x18 ∧ oneShotDone.CRB = 0x01 ∧
    flag oneShotDone.feed CountA0 = false ∧
    (flag oneShotDone.feed CountB0 = true ↔ oneShotDone.CRB &&& 0x61 = 0x01) ∧
    (flag oneShotDone.feed OneShotA0 = true ↔ flag oneShotDone.CRA 0x08 = true) := by
  have hr : Reachable oneShotDone :=
    reachable_run _ 4 (Reachable.poke 0x0F 0x01 (by decide) (Reachable.poke 0x0E 0x19 (by decide)
      (Reachable.poke 0x05 0 (by decide) (Reachable.poke 0x04 2 (by decide) Reachable.reset))))
  have h := sticky_feed_bits_mirror_control_registers oneShotDone hr
  exact ⟨hr, by decide, by decide, by decide, h.2.1, h.2.2.1⟩

/-! ### The assertion of `executeByteReady` -/

theorem head_geometry (L : DriveLogic) (d : VC1541) :
    (VC1541.executeBitReady.head L d).halftrack = d.halftrack ∧
    (VC1541.executeBitReady.head L d).bitoffset = d.rotateDisk.bitoffset ∧
    (VC1541.executeBitReady.head L d).disk.length = d.disk.length := by
  simp only [VC1541.executeBitReady.head, VC1541.rotateDisk, VC1541.readMode,
    VC1541.writeBitToHead]
  split_ifs <;> simp_all

theorem head_counter_syncFalls (L : DriveLogic) (d : VC1541) :
    (VC1541.executeBitReady.head L d).byteReadyCounter =
      (if syncFalls L d then 0 else d.byteReadyCounter) := by
  rw [head_counter, syncFalls]
  cases d.readMode L <;> cases d.sync <;>
    cases (VC1541.executeBitReady.head L d).sync <;> simp

theorem executeBitReady_counter (L : DriveLogic) (d e : VC1541)
    (h : d.executeBitReady L = some e) (hc : d.byteReadyCounter ≤ 7) :
    e.byteReadyCounter =
      (if (VC1541.executeBitReady.head L d).byteReadyCounter = 7 then 0
        else (VC1541.executeBitReady.head L d).byteReadyCounter + 1) := by
  have hh : (VC1541.executeBitReady.head L d).byteReadyCounter ≤ 7 := by
    rw [head_counter]
    split <;> omega
  simp only [VC1541.executeBitReady] at h
  split at h
  · rename_i h7
    simp only [beq_iff_eq] at h7
    cases hx : VC1541.executeByteReady L
      { VC1541.executeBitReady.head L d with
        byteReadyCounter := ((VC1541.executeBitReady.head L d).byteReadyCounter + 1) % 0x100 } with
    | none => simp [hx] at h
    | some x =>
      simp only [hx, Option.map_some', Option.some.injEq] at h
      subst h
      rw [if_pos h7]
  · rename_i h7
    simp only [beq_iff_eq] at h7
    simp only [Option.map_some', Option.some.injEq] at h
    subst h
    rw [if_neg h7]
    show ((VC1541.executeBitReady.head L d).byteReadyCounter + 1) % 0x100 = _
    omega

theorem rotateDisk_mod_8 (d : VC1541) (ht : d.bitoffset < d.disk.length d.halftrack)
    (hl : d.disk.length d.halftrack % 8 = 0) :
    d.rotateDisk.bitoffset % 8 = (d.bitoffset + 1) % 8 ∧
    d.rotateDisk.bitoffset < d.disk.length d.halftrack := by
  simp only [VC1541.rotateDisk]
  split_ifs with h <;> simp only [] at h ⊢ <;> omega

theorem and_0xFFF8_mod_8 (x : Nat) : (x &&& 0xFFF8) % 8 = 0 := by
  have h8 : (8 : Nat) = 2 ^ 3 := rfl
  have hF : (0xFFF8 : Nat) = 2 ^ 3 * (2 ^ 13 - 1) := by norm_num
  rw [h8, ← Nat.and_pow_two_sub_one_eq_mod]
  apply Nat.eq_of_testBit_eq
  intro i
  rw [hF]
  simp only [Nat.testBit_and, Nat.testBit_mul_pow_two, Nat.testBit_two_pow_sub_one,
    Nat.zero_testBit]
  by_cases h3 : i < 3 <;> simp [h3]

/-- C40. On a halftrack whose length is a multiple of 8 bits, for a byte
counter of at most 7: `executeBitReady` fails the assertion of
`executeByteReady` exactly when SYNC does not fall in the call, the counter is
7 and `bitoffset % 8` is not 7; when the call returns, the counter equals
`bitoffset % 8` afterwards iff it did before and SYNC did not fall, or SYNC
fell at a bit offset that is a multiple of 8. A head move that changes the
halftrack leaves the counter equal to `bitoffset % 8`. So the assertion holds
as long as every SYNC mark ends on a byte boundary, and fails in the eighth
call after a SYNC mark that ends elsewhere. -/
theorem byte_ready_assertion_holds_iff_counter_follows_offset (L : DriveLogic) (d : VC1541)
    (hc : d.byteReadyCounter ≤ 7) (ht : d.bitoffset < d.disk.length d.halftrack)
    (hl : d.disk.length d.halftrack % 8 = 0) :
    (d.executeBitReady L = none ↔
      syncFalls L d = false ∧ d.byteReadyCounter = 7 ∧ d.bitoffset % 8 ≠ 7) ∧
    (∀ e, d.executeBitReady L = some e →
      e.byteReadyCounter ≤ 7 ∧ e.bitoffset < e.disk.length e.halftrack ∧
      e.disk.length e.halftrack % 8 = 0 ∧
      (e.byteReadyCounter = e.bitoffset % 8 ↔
        if syncFalls L d then d.bitoffset % 8 = 0 else d.byteReadyCounter = d.bitoffset % 8)) ∧
    (∀ scale, d.halftrack < 84 →
      (d.moveHeadUp scale).byteReadyCounter = (d.moveHeadUp scale).bitoffset % 8) ∧
    (∀ scale, d.halftrack > 1 →
      (d.moveHeadDown scale).byteReadyCounter = (d.moveHeadDown scale).bitoffset % 8) := by
  obtain ⟨g1, g2, g3⟩ := head_geometry L d
  obtain ⟨r1, r2⟩ := rotateDisk_mod_8 d ht hl
  have hk := head_counter_syncFalls L d
  refine ⟨?_, ?_, ?_, ?_⟩
  · have hs := executeBitReady_isSome L d
    rw [g2, hk] at hs
    rw [← Option.not_isSome_iff_eq_none, hs]
    cases hf : syncFalls L d
    · simp only [Bool.false_eq_true, if_false, Bool.not_eq_true', Bool.not_eq_false,
        Bool.and_eq_true, beq_iff_eq, bne_iff_ne, ne_eq, true_and]
      constructor
      · rintro ⟨h7, hm⟩
        exact ⟨h7, by omega⟩
      · rintro ⟨h7, hm⟩
        exact ⟨h7, by omega⟩
    · simp
  · intro e he
    obtain ⟨-, -, e3, e4, e5⟩ := executeBitReady_some L d e he
    have ec := executeBitReady_counter L d e he hc
    have hs := executeBitReady_isSome L d
    rw [he, g2, hk] at hs
    rw [hk] at ec
    have hlen : e.disk.length e.halftrack = d.disk.length d.halftrack := by
      rw [e5, e4, g3, g1]
    have hoff : e.bitoffset = d.rotateDisk.bitoffset := by rw [e3, g2]
    refine ⟨counter_le_seven L d e he hc, by rw [hlen, hoff]; exact r2, by rw [hlen]; exact hl, ?_⟩
    rw [hoff, r1, ec]
    cases hf : syncFalls L d
    · simp only [hf, Bool.false_eq_true, if_false, Option.isSome_some, Bool.not_eq_true',
        Bool.true_eq, Bool.and_eq_false_imp, beq_iff_eq, bne_eq_false_iff_eq] at hs ⊢
      split_ifs with h7
      · have := hs h7
        omega
      · omega
    · simp only [if_true]
      have h07 : ¬ (0 : Nat) = 7 := by decide
      rw [if_neg h07]
      omega
  · intro scale hu
    simp only [VC1541.moveHeadUp, if_pos hu]
    exact (and_0xFFF8_mod_8 _).symm
  · intro scale hu
    simp only [VC1541.moveHeadDown, if_pos hu]
    exact (and_0xFFF8_mod_8 _).symm

/-- C40, at the drive `unalignedSyncDrive`: the SYNC mark ends with bit 10,
seventeen calls of `executeBitReady` return and leave the counter at 7 with
bit offset 17, and the eighteenth call fails the assertion. -/
theorem byte_ready_assertion_holds_iff_counter_follows_offset_witness :
    bitReadyRun readLogic 17 unalignedSyncDrive = some (afterBits readLogic 17 unalignedSyncDrive) ∧
    (afterBits readLogic 17 unalignedSyncDrive).byteReadyCounter = 7 ∧
    (afterBits readLogic 17 unalignedSyncDrive).bitoffset = 17 ∧
    (afterBits readLogic 17 unalignedSyncDrive).executeBitReady readLogic = none ∧
    bitReadyRun readLogic 18 unalignedSyncDrive = none := by
  have h := (byte_ready_assertion_holds_iff_counter_follows_offset readLogic
    (afterBits readLogic 17 unalignedSyncDrive) (by decide) (by decide) (by decide)).1.2
    ⟨by decide, by decide, by decide⟩
  have h17 : bitReadyRun readLogic 17 unalignedSyncDrive
      = some (afterBits readLogic 17 unalignedSyncDrive) := by
    have hs : (bitReadyRun readLogic 17 unalignedSyncDrive).isSome = true := by decide
    obtain ⟨x, hx⟩ := Option.isSome_iff_exists.mp hs
    rw [afterBits, hx]
    rfl
  refine ⟨h17, by decide, by decide, h, ?_⟩
  show (bitReadyRun readLogic 17 unalignedSyncDrive).bind (VC1541.executeBitReady readLogic) = none
  rw [h17]
  exact h

/-! ### Sleeping as a refinement of cycle-by-cycle execution -/

theorem quiescent_succ {s : CIA} (h : Quiescent s) (j : Nat) :
    s.delay.testBit (j + 1) =
      ((s.delay.testBit j && DelayMask.testBit (j + 1)) || s.feed.testBit (j + 1)) := by
  conv_lhs => rw [← h]
  simp

theorem quiescent_zero {s : CIA} (h : Quiescent s) :
    s.delay.testBit 0 = s.feed.testBit 0 := by
  conv_lhs => rw [← h]
  simp only [Nat.testBit_or, Nat.testBit_and, Nat.testBit_shiftLeft]
  simp

/-- The bits of a pipeline at rest that the timers, the TOD interrupt and the
serial register look at. -/
theorem quiescent_bits {s : CIA} (h : Quiescent s) (hf : FeedOk s) :
    (s.delay.testBit 2 = s.feed.testBit 0 ∧ s.delay.testBit 3 = s.feed.testBit 0) ∧
    (s.delay.testBit 6 = s.feed.testBit 4 ∧ s.delay.testBit 7 = s.feed.testBit 4) ∧
    (s.delay.testBit 9 = false ∧ s.delay.testBit 10 = false) ∧
    (s.delay.testBit 12 = false ∧ s.delay.testBit 13 = false) ∧
    s.delay.testBit 29 = false ∧ s.delay.testBit 32 = false ∧
    s.delay.testBit 37 = s.delay.testBit 36 := by
  have z := quiescent_zero h
  have q := quiescent_succ h
  have f : ∀ i, i < 64 → i ∉ [0, 4, 20, 21, 33, 35] → s.feed.testBit i = false := hf
  have d1 : s.delay.testBit 1 = s.feed.testBit 0 := by
    rw [q 0, z, f 1 (by decide) (by decide), (by decide : DelayMask.testBit 1 = true)]; simp
  have d2 : s.delay.testBit 2 = s.feed.testBit 0 := by
    rw [q 1, d1, f 2 (by decide) (by decide), (by decide : DelayMask.testBit 2 = true)]; simp
  have d3 : s.delay.testBit 3 = s.feed.testBit 0 := by
    rw [q 2, d2, f 3 (by decide) (by decide), (by decide : DelayMask.testBit 3 = true)]; simp
  have d4 : s.delay.testBit 4 = s.feed.testBit 4 := by
    rw [q 3, (by decide : DelayMask.testBit 4 = false)]; simp
  have d5 : s.delay.testBit 5 = s.feed.testBit 4 := by
    rw [q 4, d4, f 5 (by decide) (by decide), (by decide : DelayMask.testBit 5 = true)]; simp
  have d6 : s.delay.testBit 6 = s.feed.testBit 4 := by
    rw [q 5, d5, f 6 (by decide) (by decide), (by decide : DelayMask.testBit 6 = true)]; simp
  have d7 : s.delay.testBit 7 = s.feed.testBit 4 := by
    rw [q 6, d6, f 7 (by decide) (by decide), (by decide : DelayMask.testBit 7 = true)]; simp
  have d8 : s.delay.testBit 8 = false := by
    rw [q 7, f 8 (by decide) (by decide), (by decide : DelayMask.testBit 8 = false)]; simp
  have d9 : s.delay.testBit 9 = false := by
    rw [q 8, d8, f 9 (by decide) (by decide)]; simp
  have d10 : s.delay.testBit 10 = false := by
    rw [q 9, d9, f 10 (by decide) (by decide)]; simp
  have d11 : s.delay.testBit 11 = false := by
    rw [q 10, f 11 (by decide) (by decide), (by decide : DelayMask.testBit 11 = false)]; simp
  have d12 : s.delay.testBit 12 = false := by
    rw [q 11, d11, f 12 (by decide) (by decide)]; simp
  have d13 : s.delay.testBit 13 = false := by
    rw [q 12, d12, f 13 (by decide) (by decide)]; simp
  have d29 : s.delay.testBit 29 = false := by
    rw [q 28, f 29 (by decide) (by decide), (by decide : DelayMask.testBit 29 = false)]; simp
  have d30 : s.delay.testBit 30 = false := by
    rw [q 29, f 30 (by decide) (by decide), (by decide : DelayMask.testBit 30 = false)]; simp
  have d31 : s.delay.testBit 31 = false := by
    rw [q 30, d30, f 31 (by decide) (by decide)]; simp
  have d32 : s.delay.testBit 32 = false := by
    rw [q 31, d31, f 32 (by decide) (by decide)]; simp
  have d37 : s.delay.testBit 37 = s.delay.testBit 36 := by
    rw [q 36, f 37 (by decide) (by decide), (by decide : DelayMask.testBit 37 = true)]; simp
  exact ⟨⟨d2, d3⟩, ⟨d6, d7⟩, ⟨d9, d10⟩, ⟨d12, d13⟩, d29, d32, d37⟩

theorem still_refl (s : CIA) : Still s s := ⟨rfl, rfl, rfl, rfl, rfl, rfl⟩

theorem Still.next {s t u : CIA} (h1 : Still s t) (h2 : Still t u) : Still s u :=
  ⟨h2.delay.trans h1.delay, h2.feed.trans h1.feed, h2.counterA.trans h1.counterA,
    h2.counterB.trans h1.counterB, h2.latchA.trans h1.latchA, h2.latchB.trans h1.latchB⟩

/-- Section "Timer A" without underflow and without a load: only the counter
changes. -/
theorem timerA_still (x : CIA)
    (ha : ((if x.delay.testBit 3 then dec16 x.counterA else x.counterA) == 0
      && x.delay.testBit 2) = false)
    (h9 : x.delay.testBit 9 = false) :
    (executeOneCycle.timerA x).2 = false ∧
    Still { x with counterA := if x.delay.testBit 3 then dec16 x.counterA else x.counterA }
      (executeOneCycle.timerA x).1 := by
  simp only [executeOneCycle.timerA, CountA3, CountA2, LoadA1, flag_bitAt]
  cases h3 : x.delay.testBit 3 <;>
    simp only [h3, Bool.false_eq_true, if_false, if_true] at ha ⊢ <;>
    simp only [ha, Bool.false_eq_true, if_false, h9] <;>
    exact ⟨trivial, rfl, rfl, rfl, rfl, rfl, rfl⟩

/-- Section "Timer B" without underflow and without a load. -/
theorem timerB_still (x : CIA)
    (hb : ((if x.delay.testBit 7 then dec16 x.counterB else x.counterB) == 0
      && x.delay.testBit 6) = false)
    (h12 : x.delay.testBit 12 = false) :
    (executeOneCycle.timerB x).2 = false ∧
    Still { x with counterB := if x.delay.testBit 7 then dec16 x.counterB else x.counterB }
      (executeOneCycle.timerB x).1 := by
  simp only [executeOneCycle.timerB, CountB3, CountB2, LoadB1, flag_bitAt]
  cases h7 : x.delay.testBit 7 <;>
    simp only [h7, Bool.false_eq_true, if_false, if_true] at hb ⊢ <;>
    simp only [hb, Bool.false_eq_true, if_false, h12] <;>
    exact ⟨trivial, rfl, rfl, rfl, rfl, rfl, rfl⟩

theorem no_serial_edge (d : Nat) (h : d.testBit 37 = d.testBit 36) :
    ((d &&& (SerClk2 ||| SerClk1)) == SerClk1) = false ∧
    ((d &&& (SerClk2 ||| SerClk1)) == SerClk2) = false := by
  constructor <;> rw [beq_eq_false_iff_ne] <;> intro he
  · have a := congrArg (fun y => y.testBit 36) he
    have b := congrArg (fun y => y.testBit 37) he
    simp [SerClk1, SerClk2, testBit_bitAt] at a b
    rw [a, b] at h
    exact absurd h (by decide)
  · have a := congrArg (fun y => y.testBit 36) he
    have b := congrArg (fun y => y.testBit 37) he
    simp [SerClk1, SerClk2, testBit_bitAt] at a b
    rw [a, b] at h
    exact absurd h (by decide)

/-- Section "Serial register" without a timer A underflow and without a clock
edge in the pipeline. -/
theorem serial_still (x : CIA) (h : x.delay.testBit 37 = x.delay.testBit 36) :
    Still x (executeOneCycle.serial false x) := by
  obtain ⟨e1, e2⟩ := no_serial_edge x.delay h
  simp only [executeOneCycle.serial, Bool.false_and, Bool.false_eq_true, if_false, e1, e2]
  split_ifs <;> exact still_refl x

theorem outputPB6_still (x : CIA) : Still x (executeOneCycle.outputPB6 false x) :=
  still_refl x

theorem outputPB7_still (x : CIA) : Still x (executeOneCycle.outputPB7 false x) :=
  still_refl x

theorem writePB_still (x : CIA) : Still x (executeOneCycle.writePB x) := by
  simp only [executeOneCycle.writePB]
  split_ifs <;> exact ⟨rfl, rfl, rfl, rfl, rfl, rfl⟩

theorem timerInterrupt_still (x : CIA) :
    Still x (executeOneCycle.timerInterrupt false false x) :=
  still_refl x

theorem todInterrupt_still (x : CIA) (h : x.delay.testBit 29 = false) :
    Still x (executeOneCycle.todInterrupt x) := by
  simp only [executeOneCycle.todInterrupt, TODInt0, flag_bitAt, h, Bool.false_eq_true, if_false]
  exact still_refl x

theorem serialInterrupt_still (x : CIA) (h : x.delay.testBit 32 = false) :
    Still x (executeOneCycle.serialInterrupt x) := by
  simp only [executeOneCycle.serialInterrupt, SerInt2, flag_bitAt, h, Bool.false_eq_true,
    if_false]
  exact still_refl x

theorem interruptLine_still (x : CIA) : Still x (executeOneCycle.interruptLine x) := by
  simp only [executeOneCycle.interruptLine, pullDownInterruptLine]
  split_ifs <;> exact ⟨rfl, rfl, rfl, rfl, rfl, rfl⟩

theorem idle_still (c d f : Nat) (x : CIA) : Still x (executeOneCycle.idle c d f x) := by
  simp only [executeOneCycle.idle, sleep]
  split_ifs <;> exact ⟨rfl, rfl, rfl, rfl, rfl, rfl⟩

/-- The cycle after the state before the shift: the shift of `delay`, and
nothing else for the pipeline, the counters and the latches. -/
theorem executeOneCycle_shift (c : Nat) (s : CIA) :
    (executeOneCycle c s).delay =
      (((beforeShift s).delay <<< 1) &&& DelayMask) ||| (beforeShift s).feed ∧
    (executeOneCycle c s).feed = (beforeShift s).feed ∧
    (executeOneCycle c s).counterA = (beforeShift s).counterA ∧
    (executeOneCycle c s).counterB = (beforeShift s).counterB ∧
    (executeOneCycle c s).latchA = (beforeShift s).latchA ∧
    (executeOneCycle c s).latchB = (beforeShift s).latchB := by
  have k := idle_still c (wakeUp s).delay (wakeUp s).feed (executeOneCycle.shift (beforeShift s))
  rw [executeOneCycle_eq]
  exact ⟨k.delay, k.feed, k.counterA, k.counterB, k.latchA, k.latchB⟩

/-- A cycle in which no timer underflows, nothing is loaded, no TOD or serial
interrupt is in its last stage and the serial clock has no edge: up to the
shift only the counters change. -/
theorem beforeShift_still (s : CIA)
    (ha : ((if s.delay.testBit 3 then dec16 (wakeUp s).counterA else (wakeUp s).counterA) == 0
      && s.delay.testBit 2) = false)
    (hb : ((if s.delay.testBit 7 then dec16 (wakeUp s).counterB else (wakeUp s).counterB) == 0
      && s.delay.testBit 6) = false)
    (h9 : s.delay.testBit 9 = false) (h12 : s.delay.testBit 12 = false)
    (h29 : s.delay.testBit 29 = false) (h32 : s.delay.testBit 32 = false)
    (h37 : s.delay.testBit 37 = s.delay.testBit 36) :
    timerAOutput s = false ∧ timerBOutput s = false ∧
    (beforeShift s).delay = s.delay ∧ (beforeShift s).feed = s.feed ∧
    (beforeShift s).counterA =
      (if s.delay.testBit 3 then dec16 (wakeUp s).counterA else (wakeUp s).counterA) ∧
    (beforeShift s).counterB =
      (if s.delay.testBit 7 then dec16 (wakeUp s).counterB else (wakeUp s).counterB) ∧
    (beforeShift s).latchA = s.latchA ∧ (beforeShift s).latchB = s.latchB := by
  obtain ⟨wd, wf, -, -, -, -, wla, wlb, -⟩ := wakeUp_fields s
  rw [← wd] at ha hb h9 h12 h29 h32 h37
  obtain ⟨a1, a2⟩ := timerA_still (wakeUp s) ha h9
  have hA : timerAOutput s = false := a1
  have xd : (afterTimerA s).delay = (wakeUp s).delay := a2.delay
  have xb : (afterTimerA s).counterB = (wakeUp s).counterB := a2.counterB
  obtain ⟨b1, b2⟩ := timerB_still (afterTimerA s) (by rw [xd, xb]; exact hb) (by rw [xd]; exact h12)
  have hB : timerBOutput s = false := b1
  have yd : (afterTimerB s).delay = (wakeUp s).delay := b2.delay.trans xd
  have k1 := serial_still (afterTimerB s) (by rw [yd]; exact h37)
  have k2 := k1.next (outputPB6_still _) |>.next (outputPB7_still _) |>.next (writePB_still _)
  have k3 : Still (afterTimerB s) (beforeInterrupts s) := by
    rw [beforeInterrupts, hA, hB]; exact k2
  have zd : (beforeInterrupts s).delay = (wakeUp s).delay := k3.delay.trans yd
  have k4 := todInterrupt_still
    (executeOneCycle.timerInterrupt false false (beforeInterrupts s)) (by
      show (beforeInterrupts s).delay.testBit 29 = false
      rw [zd]; exact h29)
  have k5 := serialInterrupt_still (executeOneCycle.todInterrupt
    (executeOneCycle.timerInterrupt false false (beforeInterrupts s))) (by
      rw [k4.delay]
      show (beforeInterrupts s).delay.testBit 32 = false
      rw [zd]; exact h32)
  have k6 : Still (beforeInterrupts s) (beforeShift s) := by
    rw [beforeShift, hA, hB]
    exact (timerInterrupt_still _).next k4 |>.next k5 |>.next (interruptLine_still _)
  have k := k3.next k6
  have xf : (afterTimerA s).feed = s.feed := a2.feed.trans wf
  have xa : (afterTimerA s).counterA =
      (if (wakeUp s).delay.testBit 3 then dec16 (wakeUp s).counterA else (wakeUp s).counterA) :=
    a2.counterA
  have xla : (afterTimerA s).latchA = s.latchA := a2.latchA.trans wla
  have xlb : (afterTimerA s).latchB = s.latchB := a2.latchB.trans wlb
  have yf : (afterTimerB s).feed = (afterTimerA s).feed := b2.feed
  have ya : (afterTimerB s).counterA = (afterTimerA s).counterA := b2.counterA
  have yb : (afterTimerB s).counterB =
      (if (afterTimerA s).delay.testBit 7 then dec16 (afterTimerA s).counterB
        else (afterTimerA s).counterB) := b2.counterB
  have yla : (afterTimerB s).latchA = (afterTimerA s).latchA := b2.latchA
  have ylb : (afterTimerB s).latchB = (afterTimerA s).latchB := b2.latchB
  refine ⟨hA, hB, ?_, ?_, ?_, ?_, ?_, ?_⟩
  · rw [k.delay, yd, wd]
  · rw [k.feed, yf, xf]
  · rw [k.counterA, ya, xa, wd]
  · rw [k.counterB, yb, xd, xb, wd]
  · rw [k.latchA, yla, xla]
  · rw [k.latchB, ylb, xlb]

theorem wakeUp_counters (s : CIA) :
    (wakeUp s).counterA =
      (if s.idleCounter ≠ 0 ∧ s.feed.testBit 0 = true then sub16 s.counterA s.idleCounter
        else s.counterA) ∧
    (wakeUp s).counterB =
      (if s.idleCounter ≠ 0 ∧ s.feed.testBit 4 = true then sub16 s.counterB s.idleCounter
        else s.counterB) := by
  have e0 : flag s.feed CountA0 = s.feed.testBit 0 := flag_bitAt _ _
  have e4 : flag s.feed CountB0 = s.feed.testBit 4 := flag_bitAt _ _
  rw [wakeUp_eq_awake]
  simp only [awake, e0, e4]
  by_cases hi : s.idleCounter = 0
  · simp [hi]
  · cases s.feed.testBit 0 <;> cases s.feed.testBit 4 <;> simp [hi]

/-- One cycle of a chip whose pipeline is at rest and whose running timers are
at least 2 after `wakeUp`: no timer underflows, the pipeline stays as it is,
and each running timer counts down by one. -/
theorem quiescent_cycle (c : Nat) (s : CIA) (hq : Quiescent s) (hf : FeedOk s)
    (hA : s.feed.testBit 0 = true → 2 ≤ (wakeUp s).counterA ∧ (wakeUp s).counterA < 0x10000)
    (hB : s.feed.testBit 4 = true → 2 ≤ (wakeUp s).counterB ∧ (wakeUp s).counterB < 0x10000) :
    timerAOutput s = false ∧ timerBOutput s = false ∧
    (executeOneCycle c s).delay = s.delay ∧ (executeOneCycle c s).feed = s.feed ∧
    (executeOneCycle c s).counterA =
      (if s.feed.testBit 0 then (wakeUp s).counterA - 1 else (wakeUp s).counterA) ∧
    (executeOneCycle c s).counterB =
      (if s.feed.testBit 4 then (wakeUp s).counterB - 1 else (wakeUp s).counterB) ∧
    (executeOneCycle c s).latchA = s.latchA ∧ (executeOneCycle c s).latchB = s.latchB := by
  obtain ⟨⟨d2, d3⟩, ⟨d6, d7⟩, ⟨d9, -⟩, ⟨d12, -⟩, d29, d32, d37⟩ := quiescent_bits hq hf
  have ca : (if s.delay.testBit 3 then dec16 (wakeUp s).counterA else (wakeUp s).counterA) =
      (if s.feed.testBit 0 then (wakeUp s).counterA - 1 else (wakeUp s).counterA) := by
    rw [d3]
    cases h0 : s.feed.testBit 0
    · simp
    · obtain ⟨h1, h2⟩ := hA h0
      simp only [if_true]
      exact dec16_of_pos _ (by omega) h2
  have cb : (if s.delay.testBit 7 then dec16 (wakeUp s).counterB else (wakeUp s).counterB) =
      (if s.feed.testBit 4 then (wakeUp s).counterB - 1 else (wakeUp s).counterB) := by
    rw [d7]
    cases h4 : s.feed.testBit 4
    · simp
    · obtain ⟨h1, h2⟩ := hB h4
      simp only [if_true]
      exact dec16_of_pos _ (by omega) h2
  have ha : ((if s.delay.testBit 3 then dec16 (wakeUp s).counterA else (wakeUp s).counterA) == 0
      && s.delay.testBit 2) = false := by
    rw [ca, d2]
    cases h0 : s.feed.testBit 0
    · simp
    · obtain ⟨h1, h2⟩ := hA h0
      simp only [if_true, Bool.and_true, beq_eq_false_iff_ne, ne_eq]
      omega
  have hb : ((if s.delay.testBit 7 then dec16 (wakeUp s).counterB else (wakeUp s).counterB) == 0
      && s.delay.testBit 6) = false := by
    rw [cb, d6]
    cases h4 : s.feed.testBit 4
    · simp
    · obtain ⟨h1, h2⟩ := hB h4
      simp only [if_true, Bool.and_true, beq_eq_false_iff_ne, ne_eq]
      omega
  obtain ⟨r1, r2, r3, r4, r5, r6, r7, r8⟩ := beforeShift_still s ha hb d9 d12 d29 d32 d37
  obtain ⟨e1, e2, e3, e4, e5, e6⟩ := executeOneCycle_shift c s
  refine ⟨r1, r2, ?_, by rw [e2, r4], by rw [e3, r5, ca], by rw [e4, r6, cb], by rw [e5, r7],
    by rw [e6, r8]⟩
  rw [e1, r3, r4]
  exact hq

/-- Cycles executed one by one from a state whose pipeline is at rest, as long
as the running timers stay above 1: no timer underflows, the pipeline stays as
it is and each running timer counts down by one per cycle. -/
theorem quiescent_run (clock : Nat → Nat) (s : CIA) (hq : Quiescent s) (hf : FeedOk s)
    (hi : s.idleCounter = 0) (k : Nat)
    (hA : s.feed.testBit 0 = true → k + 1 ≤ s.counterA ∧ s.counterA < 0x10000)
    (hB : s.feed.testBit 4 = true → k + 1 ≤ s.counterB ∧ s.counterB < 0x10000) (j : Nat)
    (hj : j ≤ k) :
    ((run clock j s).delay = s.delay ∧ (run clock j s).feed = s.feed ∧
      (run clock j s).idleCounter = 0) ∧
    ((run clock j s).counterA = (if s.feed.testBit 0 then s.counterA - j else s.counterA) ∧
      (run clock j s).counterB = (if s.feed.testBit 4 then s.counterB - j else s.counterB)) ∧
    ((run clock j s).latchA = s.latchA ∧ (run clock j s).latchB = s.latchB) ∧
    (∀ i, i < j → timerAOutput (run clock i s) = false ∧ timerBOutput (run clock i s) = false) := by
  induction j with
  | zero =>
    refine ⟨⟨rfl, rfl, hi⟩, ⟨?_, ?_⟩, ⟨rfl, rfl⟩, fun i h => absurd h (Nat.not_lt_zero i)⟩
    · show s.counterA = _
      split <;> rfl
    · show s.counterB = _
      split <;> rfl
  | succ j ih =>
    obtain ⟨⟨t1, t2, t3⟩, ⟨t4, t5⟩, ⟨t6, t7⟩, t8⟩ := ih (by omega)
    have tq : Quiescent (run clock j s) := by
      rw [Quiescent, t1, t2]; exact hq
    have tf : FeedOk (run clock j s) := by
      intro i h1 h2
      rw [t2]; exact hf i h1 h2
    obtain ⟨w1, w2⟩ := wakeUp_counters (run clock j s)
    have n0 : ¬ ((run clock j s).idleCounter ≠ 0 ∧ (run clock j s).feed.testBit 0 = true) :=
      fun h => h.1 t3
    have n4 : ¬ ((run clock j s).idleCounter ≠ 0 ∧ (run clock j s).feed.testBit 4 = true) :=
      fun h => h.1 t3
    rw [if_neg n0, t4] at w1
    rw [if_neg n4, t5] at w2
    obtain ⟨q1, q2, q3, q4, q5, q6, q7, q8⟩ := quiescent_cycle (clock j) (run clock j s) tq tf
      (by
        intro h0
        rw [t2] at h0
        obtain ⟨a1, a2⟩ := hA h0
        rw [w1, if_pos h0]
        omega)
      (by
        intro h4
        rw [t2] at h4
        obtain ⟨a1, a2⟩ := hB h4
        rw [w2, if_pos h4]
        omega)
    have hrun : run clock (j + 1) s = executeOneCycle (clock j) (run clock j s) := rfl
    rw [hrun]
    refine ⟨⟨q3.trans t1, q4.trans t2, (executeOneCycle_keeps _ _).2.2⟩, ⟨?_, ?_⟩,
      ⟨q7.trans t6, q8.trans t7⟩, ?_⟩
    · rw [q5, t2, w1]
      cases h0 : s.feed.testBit 0
      · simp
      · simp only [if_true]
        omega
    · rw [q6, t2, w2]
      cases h4 : s.feed.testBit 4
      · simp
      · simp only [if_true]
        omega
    · intro i h
      by_cases hij : i < j
      · exact t8 i hij
      · have : i = j := by omega
        subst this
        exact ⟨q1, q2⟩


theorem timerB_out (x : CIA) :
    (executeOneCycle.timerB x).2 =
      ((if x.delay.testBit 7 then dec16 x.counterB else x.counterB) == 0
        && x.delay.testBit 6) := by
  simp only [executeOneCycle.timerB, CountB3, CountB2, flag_bitAt]
  split_ifs <;> rfl

theorem timerA_out (x : CIA) :
    (executeOneCycle.timerA x).2 =
      ((if x.delay.testBit 3 then dec16 x.counterA else x.counterA) == 0
        && x.delay.testBit 2) := by
  simp only [executeOneCycle.timerA, CountA3, CountA2, flag_bitAt]
  split_ifs <;> rfl

theorem timerB_load (x : CIA) :
    (executeOneCycle.timerB x).1.delay.testBit 12 =
      (x.delay.testBit 12 || (executeOneCycle.timerB x).2) := by
  simp only [executeOneCycle.timerB, reloadTimerB]
  split_ifs <;>
    simp_all [-Nat.testBit_zero, testBit_not64, testBit_bitAt, CountB0, CountB1, CountB2, LoadB1,
      flag_bitAt]

theorem timerA_load (x : CIA) :
    (executeOneCycle.timerA x).1.delay.testBit 9 =
      (x.delay.testBit 9 || (executeOneCycle.timerA x).2) := by
  simp only [executeOneCycle.timerA, reloadTimerA]
  split_ifs <;>
    simp_all [-Nat.testBit_zero, testBit_not64, testBit_bitAt, CountA0, CountA1, CountA2, CountB1,
      LoadA1, flag_bitAt]

theorem timerB_counter (x : CIA) :
    (executeOneCycle.timerB x).1.counterB =
      (if (executeOneCycle.timerB x).1.delay.testBit 12 then x.latchB
        else if x.delay.testBit 7 then dec16 x.counterB else x.counterB) ∧
    (executeOneCycle.timerB x).1.latchB = x.latchB := by
  simp only [executeOneCycle.timerB, reloadTimerB]
  split_ifs <;>
    simp_all [-Nat.testBit_zero, testBit_not64, testBit_bitAt, CountB0, CountB1, CountB2, CountB3,
      LoadB1, flag_bitAt]

theorem timerA_counter (x : CIA) :
    (executeOneCycle.timerA x).1.counterA =
      (if (executeOneCycle.timerA x).1.delay.testBit 9 then x.latchA
        else if x.delay.testBit 3 then dec16 x.counterA else x.counterA) ∧
    (executeOneCycle.timerA x).1.latchA = x.latchA := by
  obtain ⟨t1, t2, -⟩ := timerA_effect x
    ((if x.delay.testBit 3 then dec16 x.counterA else x.counterA) == 0 && x.delay.testBit 2)
    (((if x.delay.testBit 3 then dec16 x.counterA else x.counterA) == 0 && x.delay.testBit 2) &&
      (x.delay.testBit 20 || x.feed.testBit 20))
    (((if x.delay.testBit 3 then dec16 x.counterA else x.counterA) == 0 && x.delay.testBit 2) ||
      x.delay.testBit 9)
    (if x.delay.testBit 3 then dec16 x.counterA else x.counterA) rfl rfl rfl rfl
  refine ⟨?_, (timerA_quiet x).latchA⟩
  rw [t2, timerA_load, t1, Bool.or_comm]

/-- A load of timer B clears `CountB2`; the section sets none of `CountB0`,
`CountB1` in `delay` and `CountB0` in `feed`. -/
theorem timerB_clears (x : CIA) :
    ((executeOneCycle.timerB x).1.delay.testBit 12 = true →
      (executeOneCycle.timerB x).1.delay.testBit 6 = false) ∧
    ((executeOneCycle.timerB x).1.delay.testBit 4 = true → x.delay.testBit 4 = true) ∧
    ((executeOneCycle.timerB x).1.delay.testBit 5 = true → x.delay.testBit 5 = true) ∧
    ((executeOneCycle.timerB x).1.feed.testBit 4 = true → x.feed.testBit 4 = true) := by
  simp only [executeOneCycle.timerB, reloadTimerB]
  split_ifs <;>
    simp_all [-Nat.testBit_zero, testBit_not64, testBit_bitAt, CountB0, CountB1, CountB2, LoadB1,
      flag_bitAt]

/-- A load of timer A clears `CountA2`; the section sets none of `CountA0`,
`CountA1` in `delay` and `CountA0` in `feed`. -/
theorem timerA_clears (x : CIA) :
    ((executeOneCycle.timerA x).1.delay.testBit 9 = true →
      (executeOneCycle.timerA x).1.delay.testBit 2 = false) ∧
    ((executeOneCycle.timerA x).1.delay.testBit 0 = true → x.delay.testBit 0 = true) ∧
    ((executeOneCycle.timerA x).1.delay.testBit 1 = true → x.delay.testBit 1 = true) ∧
    ((executeOneCycle.timerA x).1.feed.testBit 0 = true → x.feed.testBit 0 = true) := by
  simp only [executeOneCycle.timerA, reloadTimerA]
  split_ifs <;>
    simp_all [-Nat.testBit_zero, testBit_not64, testBit_bitAt, CountA0, CountA1, CountA2, CountB1,
      LoadA1, flag_bitAt]

/-- Without a clock edge in the pipeline the serial register raises no
interrupt. -/
theorem serial_delay_30 (a : Bool) (x : CIA) (h : x.delay.testBit 37 = x.delay.testBit 36) :
    (executeOneCycle.serial a x).delay.testBit 30 = x.delay.testBit 30 := by
  obtain ⟨e1, e2⟩ := no_serial_edge x.delay h
  obtain ⟨e3, e4⟩ := no_serial_edge (x.delay &&& not64 (SerLoad1 ||| SerLoad0)) (by
    simp [testBit_not64, testBit_bitAt, SerLoad1, SerLoad0, h])
  simp only [executeOneCycle.serial]
  split_ifs <;> simp_all [testBit_not64, testBit_bitAt, SerLoad1, SerLoad0]

theorem serial_counterB (a : Bool) (s : CIA) :
    (executeOneCycle.serial a s).counterB = s.counterB ∧
    (executeOneCycle.serial a s).latchB = s.latchB := by
  simp only [executeOneCycle.serial]; split_ifs <;> exact ⟨rfl, rfl⟩

theorem outputPB6_counterB (a : Bool) (s : CIA) :
    (executeOneCycle.outputPB6 a s).counterB = s.counterB ∧
    (executeOneCycle.outputPB6 a s).latchB = s.latchB := by
  simp only [executeOneCycle.outputPB6]; split_ifs <;> exact ⟨rfl, rfl⟩

theorem outputPB7_counterB (b : Bool) (s : CIA) :
    (executeOneCycle.outputPB7 b s).counterB = s.counterB ∧
    (executeOneCycle.outputPB7 b s).latchB = s.latchB := by
  simp only [executeOneCycle.outputPB7]; split_ifs <;> exact ⟨rfl, rfl⟩

theorem writePB_counterB (s : CIA) :
    (executeOneCycle.writePB s).counterB = s.counterB ∧
    (executeOneCycle.writePB s).latchB = s.latchB := by
  simp only [executeOneCycle.writePB]; split_ifs <;> exact ⟨rfl, rfl⟩

theorem timerInterrupt_counterB (a b : Bool) (s : CIA) :
    (executeOneCycle.timerInterrupt a b s).counterB = s.counterB ∧
    (executeOneCycle.timerInterrupt a b s).latchB = s.latchB := by
  simp only [executeOneCycle.timerInterrupt]; split_ifs <;> exact ⟨rfl, rfl⟩

theorem todInterrupt_counterB (s : CIA) :
    (executeOneCycle.todInterrupt s).counterB = s.counterB ∧
    (executeOneCycle.todInterrupt s).latchB = s.latchB := by
  simp only [executeOneCycle.todInterrupt]; split_ifs <;> exact ⟨rfl, rfl⟩

theorem serialInterrupt_counterB (s : CIA) :
    (executeOneCycle.serialInterrupt s).counterB = s.counterB ∧
    (executeOneCycle.serialInterrupt s).latchB = s.latchB := by
  simp only [executeOneCycle.serialInterrupt]; split_ifs <;> exact ⟨rfl, rfl⟩

theorem interruptLine_counterB (s : CIA) :
    (executeOneCycle.interruptLine s).counterB = s.counterB ∧
    (executeOneCycle.interruptLine s).latchB = s.latchB := by
  simp only [executeOneCycle.interruptLine, pullDownInterruptLine]; split_ifs <;> exact ⟨rfl, rfl⟩

/-- After section "Timer B" nothing in the cycle writes `counterB` or
`latchB`. -/
theorem executeOneCycle_counterB (c : Nat) (s : CIA) :
    (executeOneCycle c s).counterB = (afterTimerB s).counterB ∧
    (executeOneCycle c s).latchB = (afterTimerB s).latchB := by
  obtain ⟨-, -, -, e4, -, e6⟩ := executeOneCycle_shift c s
  rw [e4, e6, beforeShift, (interruptLine_counterB _).1, (interruptLine_counterB _).2,
    (serialInterrupt_counterB _).1, (serialInterrupt_counterB _).2,
    (todInterrupt_counterB _).1, (todInterrupt_counterB _).2,
    (timerInterrupt_counterB _ _ _).1, (timerInterrupt_counterB _ _ _).2, beforeInterrupts,
    (writePB_counterB _).1, (writePB_counterB _).2, (outputPB7_counterB _ _).1,
    (outputPB7_counterB _ _).2, (outputPB6_counterB _ _).1, (outputPB6_counterB _ _).2,
    (serial_counterB _ _).1, (serial_counterB _ _).2]
  exact ⟨rfl, rfl⟩

/-- From the end of section "Timer B" to the state before the shift. -/
theorem afterTimerB_quiet (s : CIA) :
    Quiet [30, 33, 34, 14, 15, 16, 17, 18, 27, 18, 27, 18, 27] [33, 35]
      (afterTimerB s) (beforeShift s) :=
  (serial_quiet _ _).trans <|
    (outputPB6_quiet _ _).trans <| (outputPB7_quiet _ _).trans <| (writePB_quiet _).trans <|
    (timerInterrupt_quiet _ _ _).trans <| (todInterrupt_quiet _).trans <|
    (serialInterrupt_quiet _).trans <| interruptLine_quiet _

/-- From the end of section "Serial register" to the state before the shift. -/
theorem afterSerial_quiet (s : CIA) :
    Quiet [14, 15, 16, 17, 18, 27, 18, 27, 18, 27] []
      (executeOneCycle.serial (timerAOutput s) (afterTimerB s)) (beforeShift s) :=
  (outputPB6_quiet _ _).trans <| (outputPB7_quiet _ _).trans <| (writePB_quiet _).trans <|
    (timerInterrupt_quiet _ _ _).trans <| (todInterrupt_quiet _).trans <|
    (serialInterrupt_quiet _).trans <| interruptLine_quiet _

/-- After a cycle, a load event in its last stage comes with a counter that
holds its latch. -/
theorem executeOneCycle_loaded (c : Nat) (s : CIA) (hf : FeedOk s) :
    LoadedFromLatch (executeOneCycle c s) := by
  have q := beforeShift_quiet s
  obtain ⟨-, wf, -⟩ := wakeUp_fields s
  have f : ∀ i, i < 64 → i ∉ [0, 4, 20, 21, 33, 35] → (beforeShift s).feed.testBit i = false := by
    intro i hi hn
    rw [q.feed i hi (by simp at hn ⊢; omega), wf]
    exact hf i hi hn
  constructor
  · intro h10
    rw [executeOneCycle_delay_succ c s 9, f 10 (by decide) (by decide), Bool.or_false,
      Bool.and_eq_true] at h10
    have h9 : (afterTimerA s).delay.testBit 9 = true := by
      rw [← (afterTimerA_quiet s).delay 9 (by decide) (by decide)]; exact h10.1
    obtain ⟨k1, k2⟩ := timerA_counter (wakeUp s)
    have k3 : (executeOneCycle.timerA (wakeUp s)).1.delay.testBit 9 = true := h9
    rw [k3, if_pos rfl] at k1
    rw [(executeOneCycle_counterA_CRA c s).1, (executeOneCycle_keeps c s).2.1]
    exact k1.trans (wakeUp_fields s).2.2.2.2.2.2.1
  · intro h13
    rw [executeOneCycle_delay_succ c s 12, f 13 (by decide) (by decide), Bool.or_false,
      Bool.and_eq_true] at h13
    have h12 : (afterTimerB s).delay.testBit 12 = true := by
      rw [← (afterTimerB_quiet s).delay 12 (by decide) (by decide)]; exact h13.1
    obtain ⟨k1, k2⟩ := timerB_counter (afterTimerA s)
    have k3 : (executeOneCycle.timerB (afterTimerA s)).1.delay.testBit 12 = true := h12
    rw [k3, if_pos rfl] at k1
    obtain ⟨e1, e2⟩ := executeOneCycle_counterB c s
    rw [e1, e2]
    exact k1.trans k2.symm

theorem sleepTime_ne_zero (c x : Nat) (h : sleepTime c x true ≠ 0) : 2 < x := by
  simp only [sleepTime, if_true] at h
  by_contra hx
  rw [if_neg hx] at h
  exact h rfl

theorem sleep_ne_zero (c : Nat) (s : CIA) (h : (sleep c s).wakeUpCycle ≠ 0) :
    (s.feed.testBit 0 = true → 2 < s.counterA) ∧ (s.feed.testBit 4 = true → 2 < s.counterB) := by
  have e0 : flag s.feed CountA0 = s.feed.testBit 0 := flag_bitAt _ _
  have e4 : flag s.feed CountB0 = s.feed.testBit 4 := flag_bitAt _ _
  rw [sleep_wakeUpCycle, e0, e4] at h
  constructor
  · intro h0
    rw [h0] at h
    apply sleepTime_ne_zero c
    intro hz
    rw [hz, Nat.zero_min] at h
    exact h rfl
  · intro h4
    rw [h4] at h
    apply sleepTime_ne_zero c
    intro hz
    rw [hz, Nat.min_zero] at h
    exact h rfl

/-- The wake-up cycle that `sleep` chooses is at most `c + counter - 1` for
each running timer. -/
theorem sleep_le (c : Nat) (s : CIA) (h : (sleep c s).wakeUpCycle ≠ 0) :
    (s.feed.testBit 0 = true → (sleep c s).wakeUpCycle + 1 ≤ c + s.counterA) ∧
    (s.feed.testBit 4 = true → (sleep c s).wakeUpCycle + 1 ≤ c + s.counterB) := by
  obtain ⟨hA, hB⟩ := sleep_ne_zero c s h
  have e0 : flag s.feed CountA0 = s.feed.testBit 0 := flag_bitAt _ _
  have e4 : flag s.feed CountB0 = s.feed.testBit 4 := flag_bitAt _ _
  have hw := sleep_wakeUpCycle c s
  rw [e0, e4] at hw
  constructor
  · intro h0
    have h2 := hA h0
    have hm := Nat.mod_le (c + s.counterA - 1) (2 ^ 64)
    have hs : sleepTime c s.counterA true = (c + s.counterA - 1) % 2 ^ 64 := by
      simp only [sleepTime, if_true, if_pos h2]
    have hl : (sleep c s).wakeUpCycle ≤ sleepTime c s.counterA true := by
      rw [hw, h0]; exact Nat.min_le_left _ _
    rw [hs] at hl
    omega
  · intro h4
    have h2 := hB h4
    have hm := Nat.mod_le (c + s.counterB - 1) (2 ^ 64)
    have hs : sleepTime c s.counterB true = (c + s.counterB - 1) % 2 ^ 64 := by
      simp only [sleepTime, if_true, if_pos h2]
    have hl : (sleep c s).wakeUpCycle ≤ sleepTime c s.counterB true := by
      rw [hw, h4]; exact Nat.min_le_right _ _
    rw [hs] at hl
    omega

/-- The cycle in which the chip decides to sleep, when `sleep` chooses a
wake-up cycle other than 0: no timer underflows in it and the pipeline is at
rest afterwards. -/
theorem sleeping_cycle (c : Nat) (s : CIA) (hf : FeedOk s) (hl : LoadedFromLatch (wakeUp s))
    (hp : pairKept c s = true) (hW : (sleep c (executeOneCycle c s)).wakeUpCycle ≠ 0) :
    Quiescent (executeOneCycle c s) := by
  obtain ⟨hd, hF⟩ := of_decide_eq_true hp
  obtain ⟨hA, hB⟩ := sleep_ne_zero c _ hW
  have q := beforeShift_quiet s
  have qa := afterTimerA_quiet s
  have qb := afterTimerB_quiet s
  obtain ⟨wd, wf, -, -, -, -, wla, wlb, -⟩ := wakeUp_fields s
  obtain ⟨e1, e2, e3, e4, e5, e6⟩ := executeOneCycle_shift c s
  have f : ∀ i, i < 64 → i ∉ [0, 4, 20, 21, 33, 35] → (beforeShift s).feed.testBit i = false := by
    intro i hi hn
    rw [q.feed i hi (by simp at hn ⊢; omega), wf]
    exact hf i hi hn
  have succ : ∀ j, s.delay.testBit (j + 1) =
      (((beforeShift s).delay.testBit j && DelayMask.testBit (j + 1)) ||
        (beforeShift s).feed.testBit (j + 1)) := by
    intro j
    rw [← hd]
    exact executeOneCycle_delay_succ c s j
  have bsD : ∀ i, i < 64 →
      i ∉ [0, 1, 2, 5, 9, 4, 5, 6, 12, 30, 33, 34, 14, 15, 16, 17, 18, 27, 18, 27, 18, 27] →
      (beforeShift s).delay.testBit i = s.delay.testBit i := by
    intro i hi hn
    rw [q.delay i hi hn, wd]
  -- the stages that nothing feeds
  have d8 : s.delay.testBit 8 = false := by
    rw [succ 7, f 8 (by decide) (by decide), (by decide : DelayMask.testBit 8 = false)]; simp
  have d9 : s.delay.testBit 9 = false := by
    rw [succ 8, bsD 8 (by decide) (by decide), d8, f 9 (by decide) (by decide)]; simp
  have d11 : s.delay.testBit 11 = false := by
    rw [succ 10, f 11 (by decide) (by decide), (by decide : DelayMask.testBit 11 = false)]; simp
  have d12 : s.delay.testBit 12 = false := by
    rw [succ 11, bsD 11 (by decide) (by decide), d11, f 12 (by decide) (by decide)]; simp
  have d29 : s.delay.testBit 29 = false := by
    rw [succ 28, f 29 (by decide) (by decide), (by decide : DelayMask.testBit 29 = false)]; simp
  have d30 : s.delay.testBit 30 = false := by
    rw [succ 29, f 30 (by decide) (by decide), (by decide : DelayMask.testBit 30 = false)]; simp
  have d37 : s.delay.testBit 37 = s.delay.testBit 36 := by
    rw [succ 36, bsD 36 (by decide) (by decide), f 37 (by decide) (by decide),
      (by decide : DelayMask.testBit 37 = true)]; simp
  -- the serial register raises no interrupt
  have yd : ∀ i, i < 64 → i ∉ [0, 1, 2, 5, 9, 4, 5, 6, 12] →
      (afterTimerB s).delay.testBit i = s.delay.testBit i := by
    intro i hi hn
    rw [← wd]
    exact ((timerA_quiet (wakeUp s)).trans (timerB_quiet _)).delay i hi hn
  have b30 : (beforeShift s).delay.testBit 30 = false := by
    rw [(afterSerial_quiet s).delay 30 (by decide) (by decide),
      serial_delay_30 _ _ (by
        rw [yd 37 (by decide) (by decide), yd 36 (by decide) (by decide)]; exact d37),
      yd 30 (by decide) (by decide)]
    exact d30
  have d31 : s.delay.testBit 31 = false := by
    rw [succ 30, b30, f 31 (by decide) (by decide)]; simp
  have d32 : s.delay.testBit 32 = false := by
    rw [succ 31, bsD 31 (by decide) (by decide), d31, f 32 (by decide) (by decide)]; simp
  -- timer A does not underflow
  have ao := timerA_out (wakeUp s)
  have ha : timerAOutput s = false := by
    cases hao : timerAOutput s
    · rfl
    · exfalso
      have hao2 : (executeOneCycle.timerA (wakeUp s)).2 = true := hao
      have l9 : (afterTimerA s).delay.testBit 9 = true := by
        show (executeOneCycle.timerA (wakeUp s)).1.delay.testBit 9 = true
        rw [timerA_load, hao2, Bool.or_true]
      obtain ⟨c1, c2, c3, c4⟩ := timerA_clears (wakeUp s)
      have l2 : (afterTimerA s).delay.testBit 2 = false := c1 l9
      have d3 : s.delay.testBit 3 = false := by
        rw [succ 2, qa.delay 2 (by decide) (by decide), l2, f 3 (by decide) (by decide)]; simp
      rw [hao2, wd, d3] at ao
      simp only [Bool.false_eq_true, if_false, Bool.true_eq, Bool.and_eq_true, beq_iff_eq] at ao
      have d10 : (wakeUp s).delay.testBit 10 = true := by
        rw [wd, succ 9, qa.delay 9 (by decide) (by decide), l9,
          (by decide : DelayMask.testBit 10 = true)]; simp
      have hlatch : (wakeUp s).latchA = 0 := by rw [← hl.timerA d10]; exact ao.1
      have hcnt : (executeOneCycle c s).counterA = 0 := by
        rw [(executeOneCycle_counterA_CRA c s).1]
        show (executeOneCycle.timerA (wakeUp s)).1.counterA = 0
        rw [(timerA_counter (wakeUp s)).1]
        have l9b : (executeOneCycle.timerA (wakeUp s)).1.delay.testBit 9 = true := l9
        rw [l9b, if_pos rfl, hlatch]
      have d1 : s.delay.testBit 1 = true := by
        have h2 := ao.2
        rw [succ 1, f 2 (by decide) (by decide), Bool.or_false, Bool.and_eq_true,
          qa.delay 1 (by decide) (by decide)] at h2
        rw [← wd]
        exact c3 h2.1
      have d0 : s.delay.testBit 0 = true := by
        rw [succ 0, f 1 (by decide) (by decide), Bool.or_false, Bool.and_eq_true,
          qa.delay 0 (by decide) (by decide)] at d1
        rw [← wd]
        exact c2 d1.1
      have f0 : (executeOneCycle c s).feed.testBit 0 = true := by
        rw [e2, ← executeOneCycle_delay_zero c s, hd]; exact d0
      have := hA f0
      omega
  have ha2 : ((if s.delay.testBit 3 then dec16 (wakeUp s).counterA else (wakeUp s).counterA) == 0
      && s.delay.testBit 2) = false := by
    rw [← wd, ← ao]; exact ha
  obtain ⟨-, st⟩ := timerA_still (wakeUp s) (by rw [wd]; exact ha2) (by rw [wd]; exact d9)
  have xd : (afterTimerA s).delay = s.delay := st.delay.trans wd
  have xb : (afterTimerA s).counterB = (wakeUp s).counterB := st.counterB
  have xlb : (afterTimerA s).latchB = (wakeUp s).latchB := st.latchB
  -- timer B does not underflow
  have bo := timerB_out (afterTimerA s)
  rw [xd, xb] at bo
  have hb : timerBOutput s = false := by
    cases hbo : timerBOutput s
    · rfl
    · exfalso
      have hbo2 : (executeOneCycle.timerB (afterTimerA s)).2 = true := hbo
      have l12 : (afterTimerB s).delay.testBit 12 = true := by
        show (executeOneCycle.timerB (afterTimerA s)).1.delay.testBit 12 = true
        rw [timerB_load, hbo2, Bool.or_true]
      obtain ⟨c1, c2, c3, c4⟩ := timerB_clears (afterTimerA s)
      have l6 : (afterTimerB s).delay.testBit 6 = false := c1 l12
      have d7 : s.delay.testBit 7 = false := by
        rw [succ 6, qb.delay 6 (by decide) (by decide), l6, f 7 (by decide) (by decide)]; simp
      rw [hbo2, d7] at bo
      simp only [Bool.false_eq_true, if_false, Bool.true_eq, Bool.and_eq_true, beq_iff_eq] at bo
      have d13 : (wakeUp s).delay.testBit 13 = true := by
        rw [wd, succ 12, qb.delay 12 (by decide) (by decide), l12,
          (by decide : DelayMask.testBit 13 = true)]; simp
      have hlatch : (wakeUp s).latchB = 0 := by rw [← hl.timerB d13]; exact bo.1
      have hcnt : (executeOneCycle c s).counterB = 0 := by
        rw [(executeOneCycle_counterB c s).1]
        show (executeOneCycle.timerB (afterTimerA s)).1.counterB = 0
        rw [(timerB_counter (afterTimerA s)).1]
        have l12b : (executeOneCycle.timerB (afterTimerA s)).1.delay.testBit 12 = true := l12
        rw [l12b, if_pos rfl, xlb, hlatch]
      have d5 : s.delay.testBit 5 = true := by
        have h6 := bo.2
        rw [succ 5, f 6 (by decide) (by decide), Bool.or_false, Bool.and_eq_true,
          qb.delay 5 (by decide) (by decide)] at h6
        rw [← xd]
        exact c3 h6.1
      have d4 : s.delay.testBit 4 = true := by
        rw [succ 4, f 5 (by decide) (by decide), Bool.or_false, Bool.and_eq_true,
          qb.delay 4 (by decide) (by decide)] at d5
        rw [← xd]
        exact c2 d5.1
      have f4 : (executeOneCycle c s).feed.testBit 4 = true := by
        rw [succ 3, (by decide : DelayMask.testBit 4 = false), Bool.and_false,
          Bool.false_or] at d4
        rw [e2]; exact d4
      have := hB f4
      omega
  have hb2 : ((if s.delay.testBit 7 then dec16 (wakeUp s).counterB else (wakeUp s).counterB) == 0
      && s.delay.testBit 6) = false := by
    rw [← bo]; exact hb
  -- so the sections leave the pipeline alone
  obtain ⟨-, -, r3, r4, -⟩ := beforeShift_still s ha2 hb2 d9 d12 d29 d32 d37
  rw [Quiescent, hd, hF]
  rw [r3, r4] at e1
  rw [← e1]
  exact hd


theorem timersKept_refl (s : CIA) : TimersKept s s := ⟨rfl, rfl, rfl, rfl, rfl, rfl, rfl, rfl⟩

theorem TimersKept.follow {s t u : CIA} (h1 : TimersKept s t) (h2 : TimersKept t u) :
    TimersKept s u :=
  ⟨h2.counterA.trans h1.counterA, h2.counterB.trans h1.counterB, h2.latchA.trans h1.latchA,
    h2.latchB.trans h1.latchB, h2.wakeUpCycle.trans h1.wakeUpCycle,
    h2.idleCounter.trans h1.idleCounter, h2.loadA2.trans h1.loadA2, h2.loadB2.trans h1.loadB2⟩

theorem TimersKept.words {s t : CIA} (k : TimersKept s t) (h : Words16 s) : Words16 t :=
  ⟨by rw [k.counterA]; exact h.counterA, by rw [k.counterB]; exact h.counterB,
    by rw [k.latchA]; exact h.latchA, by rw [k.latchB]; exact h.latchB⟩

theorem TimersKept.loaded {s t : CIA} (k : TimersKept s t) (h : LoadedFromLatch s) :
    LoadedFromLatch t :=
  ⟨by rw [k.loadA2, k.counterA, k.latchA]; exact h.timerA,
    by rw [k.loadB2, k.counterB, k.latchB]; exact h.timerB⟩

theorem pokeControlRegA_start_timers (v : Nat) (s : CIA) :
    TimersKept s (pokeControlRegA.start v s) := by
  simp only [pokeControlRegA.start]
  split_ifs <;> refine ⟨rfl, rfl, rfl, rfl, rfl, rfl, ?_, ?_⟩ <;>
    simp [testBit_not64, testBit_bitAt, CountA0, CountA1]

theorem pokeControlRegA_output_timers (v : Nat) (s : CIA) :
    TimersKept s (pokeControlRegA.output v s) := by
  simp only [pokeControlRegA.output]
  split_ifs <;> exact ⟨rfl, rfl, rfl, rfl, rfl, rfl, rfl, rfl⟩

theorem pokeControlRegA_mode_timers (v : Nat) (s : CIA) :
    TimersKept s (pokeControlRegA.mode v s) := by
  simp only [pokeControlRegA.mode]
  split_ifs <;> refine ⟨rfl, rfl, rfl, rfl, rfl, rfl, ?_, ?_⟩ <;>
    simp [testBit_not64, testBit_bitAt, CountA0, CountA1, LoadA0, SerLoad0, SerLoad1, SerClk0,
      SerClk1, SerClk2]

theorem pokeControlRegA_timers (v : Nat) (s : CIA) : TimersKept s (pokeControlRegA v s) := by
  have h := ((pokeControlRegA_start_timers v s).follow
    (pokeControlRegA_output_timers v _)).follow (pokeControlRegA_mode_timers v _)
  rw [pokeControlRegA_eq]
  exact ⟨h.counterA, h.counterB, h.latchA, h.latchB, h.wakeUpCycle, h.idleCounter, h.loadA2,
    h.loadB2⟩

theorem pokeControlRegB_start_timers (v : Nat) (s : CIA) :
    TimersKept s (pokeControlRegB.start v s) := by
  simp only [pokeControlRegB.start]
  split_ifs <;> refine ⟨rfl, rfl, rfl, rfl, rfl, rfl, ?_, ?_⟩ <;>
    simp [testBit_not64, testBit_bitAt, CountB0, CountB1]

theorem pokeControlRegB_output_timers (v : Nat) (s : CIA) :
    TimersKept s (pokeControlRegB.output v s) := by
  simp only [pokeControlRegB.output]
  split_ifs <;> exact ⟨rfl, rfl, rfl, rfl, rfl, rfl, rfl, rfl⟩

theorem pokeControlRegB_mode_timers (v : Nat) (s : CIA) :
    TimersKept s (pokeControlRegB.mode v s) := by
  simp only [pokeControlRegB.mode]
  split_ifs <;> refine ⟨rfl, rfl, rfl, rfl, rfl, rfl, ?_, ?_⟩ <;>
    simp [testBit_not64, testBit_bitAt, CountB0, CountB1, LoadB0]

theorem pokeControlRegB_timers (v : Nat) (s : CIA) : TimersKept s (pokeControlRegB v s) := by
  have h := ((pokeControlRegB_start_timers v s).follow
    (pokeControlRegB_output_timers v _)).follow (pokeControlRegB_mode_timers v _)
  rw [pokeControlRegB_eq]
  exact ⟨h.counterA, h.counterB, h.latchA, h.latchB, h.wakeUpCycle, h.idleCounter, h.loadA2,
    h.loadB2⟩

theorem checkForTODInterrupt_timers (s : CIA) : TimersKept s (checkForTODInterrupt s) := by
  simp only [checkForTODInterrupt]
  split_ifs <;> refine ⟨rfl, rfl, rfl, rfl, rfl, rfl, ?_, ?_⟩ <;>
    simp [testBit_bitAt, TODInt0]

theorem pokeInterruptControl_timers (v : Nat) (s : CIA) :
    TimersKept s (pokeInterruptControl v s) := by
  simp only [pokeInterruptControl]
  split_ifs <;> refine ⟨rfl, rfl, rfl, rfl, rfl, rfl, ?_, ?_⟩ <;>
    simp [testBit_not64, testBit_bitAt, Interrupt0, Interrupt1, SetIcr0, SetIcr1]

theorem TimersKept.behind {s t u : CIA} (h : TimersKept t u) (h1 : t.counterA = s.counterA)
    (h2 : t.counterB = s.counterB) (h3 : t.latchA = s.latchA) (h4 : t.latchB = s.latchB)
    (h5 : t.wakeUpCycle = s.wakeUpCycle) (h6 : t.idleCounter = s.idleCounter)
    (h7 : t.delay = s.delay) : TimersKept s u :=
  TimersKept.follow ⟨h1, h2, h3, h4, h5, h6, by rw [h7], by rw [h7]⟩ h

theorem low_byte_word (x v : Nat) (hv : v < 256) : (x &&& 0xFF00) ||| v < 0x10000 := by
  have h1 : x &&& 0xFF00 < 2 ^ 16 := Nat.and_lt_two_pow x (by norm_num)
  have h2 : v < 2 ^ 16 := by omega
  exact Nat.or_lt_two_pow h1 h2

theorem high_byte_word (x v : Nat) (hv : v < 256) : (v <<< 8) ||| (x &&& 0xFF) < 0x10000 := by
  have h1 : x &&& 0xFF < 2 ^ 16 := Nat.and_lt_two_pow x (by norm_num)
  have h2 : v <<< 8 < 2 ^ 16 := by
    rw [Nat.shiftLeft_eq]
    omega
  exact Nat.or_lt_two_pow h2 h1

/-- A register write other than to a timer latch keeps the counters, the
latches and the sleep bookkeeping that `wakeUp` left. -/
theorem poke_timers (addr v : Nat) (s : CIA) (h4 : addr ≠ 4) (h5 : addr ≠ 5) (h6 : addr ≠ 6)
    (h7 : addr ≠ 7) : TimersKept (wakeUp s) (poke addr v s) := by
  unfold poke
  split
  case h_5 => exact absurd rfl h4
  case h_6 => exact absurd rfl h5
  case h_7 => exact absurd rfl h6
  case h_8 => exact absurd rfl h7
  case h_14 => exact pokeInterruptControl_timers v _
  case h_15 => exact pokeControlRegA_timers v _
  case h_16 => exact pokeControlRegB_timers v _
  case h_9 | h_10 | h_11 | h_12 =>
    simp only []
    split_ifs <;> exact (checkForTODInterrupt_timers _).behind rfl rfl rfl rfl rfl rfl rfl
  all_goals
    simp only [pokeDataPortA, pokeDataPortB, pokeDataPortDirectionA, pokeDataPortDirectionB]
    refine ⟨rfl, rfl, rfl, rfl, rfl, rfl, ?_, ?_⟩ <;> simp [testBit_bitAt, SerLoad0]

theorem latch_write_A (w t : CIA) (f : Nat → Nat) (hf : ∀ x, f x < 0x10000) (hw : Words16 w)
    (hl : LoadedFromLatch w) (h1 : t.latchA = f w.latchA)
    (h2 : t.counterA = if w.delay.testBit 10 then f w.counterA else w.counterA)
    (h3 : t.counterB = w.counterB) (h4 : t.latchB = w.latchB)
    (h10 : t.delay.testBit 10 = w.delay.testBit 10)
    (h13 : t.delay.testBit 13 = w.delay.testBit 13) : Words16 t ∧ LoadedFromLatch t := by
  refine ⟨⟨?_, by rw [h3]; exact hw.counterB, by rw [h1]; exact hf _, by rw [h4]; exact hw.latchB⟩,
    ⟨?_, by rw [h13, h3, h4]; exact hl.timerB⟩⟩
  · rw [h2]
    split
    · exact hf _
    · exact hw.counterA
  · intro h
    rw [h10] at h
    rw [h2, if_pos h, h1, hl.timerA h]

theorem latch_write_B (w t : CIA) (f : Nat → Nat) (hf : ∀ x, f x < 0x10000) (hw : Words16 w)
    (hl : LoadedFromLatch w) (h1 : t.latchB = f w.latchB)
    (h2 : t.counterB = if w.delay.testBit 13 then f w.counterB else w.counterB)
    (h3 : t.counterA = w.counterA) (h4 : t.latchA = w.latchA)
    (h10 : t.delay.testBit 10 = w.delay.testBit 10)
    (h13 : t.delay.testBit 13 = w.delay.testBit 13) : Words16 t ∧ LoadedFromLatch t := by
  refine ⟨⟨by rw [h3]; exact hw.counterA, ?_, by rw [h4]; exact hw.latchA, by rw [h1]; exact hf _⟩,
    ⟨by rw [h10, h3, h4]; exact hl.timerA, ?_⟩⟩
  · rw [h2]
    split
    · exact hf _
    · exact hw.counterB
  · intro h
    rw [h13] at h
    rw [h2, if_pos h, h1, hl.timerB h]

theorem poke_latch_bookkeeping (addr v : Nat) (s : CIA)
    (ha : addr = 4 ∨ addr = 5 ∨ addr = 6 ∨ addr = 7) :
    (poke addr v s).wakeUpCycle = (wakeUp s).wakeUpCycle ∧
    (poke addr v s).idleCounter = (wakeUp s).idleCounter := by
  rcases ha with rfl | rfl | rfl | rfl <;> simp only [poke] <;> split_ifs <;> exact ⟨rfl, rfl⟩

/-- A write to a timer latch: the counter follows the latch while the load
event is in its last stage. -/
theorem poke_latch (addr v : Nat) (s : CIA) (hv : v < 256)
    (ha : addr = 4 ∨ addr = 5 ∨ addr = 6 ∨ addr = 7)
    (hw : Words16 (wakeUp s)) (hl : LoadedFromLatch (wakeUp s)) :
    Words16 (poke addr v s) ∧ LoadedFromLatch (poke addr v s) := by
  rcases ha with rfl | rfl | rfl | rfl
  · refine latch_write_A _ _ (fun x => (x &&& 0xFF00) ||| v) (fun x => low_byte_word x v hv) hw hl
      ?_ ?_ ?_ ?_ ?_ ?_ <;>
    simp only [poke, LoadA2, flag_bitAt] <;> split_ifs <;> simp_all
  · refine latch_write_A _ _ (fun x => (v <<< 8) ||| (x &&& 0xFF))
      (fun x => high_byte_word x v hv) hw hl ?_ ?_ ?_ ?_ ?_ ?_ <;>
    simp only [poke, LoadA2, LoadA0, flag_bitAt] <;> split_ifs <;> simp_all [testBit_bitAt]
  · refine latch_write_B _ _ (fun x => (x &&& 0xFF00) ||| v) (fun x => low_byte_word x v hv) hw hl
      ?_ ?_ ?_ ?_ ?_ ?_ <;>
    simp only [poke, LoadB2, flag_bitAt] <;> split_ifs <;> simp_all
  · refine latch_write_B _ _ (fun x => (v <<< 8) ||| (x &&& 0xFF))
      (fun x => high_byte_word x v hv) hw hl ?_ ?_ ?_ ?_ ?_ ?_ <;>
    simp only [poke, LoadB2, LoadB0, flag_bitAt] <;> split_ifs <;> simp_all [testBit_bitAt]

theorem sub16_lt (x k : Nat) : sub16 x k < 0x10000 := by
  simp only [sub16]
  omega

theorem dec16_lt (x : Nat) : dec16 x < 0x10000 := by
  simp only [dec16]
  omega

/-- What `wakeUp` keeps of the invariant: 16 bit counters, and loaded
counters hold their latch. -/
theorem wakeUp_inv {n : Nat} {s : CIA} (h : SleepInv n s) (hf : FeedOk s) :
    Words16 (wakeUp s) ∧ LoadedFromLatch (wakeUp s) := by
  obtain ⟨wd, -, -, -, -, -, wla, wlb, -⟩ := wakeUp_fields s
  obtain ⟨c1, c2⟩ := wakeUp_counters s
  by_cases hi : s.idleCounter = 0
  · have n0 : ¬ (s.idleCounter ≠ 0 ∧ s.feed.testBit 0 = true) := fun x => x.1 hi
    have n4 : ¬ (s.idleCounter ≠ 0 ∧ s.feed.testBit 4 = true) := fun x => x.1 hi
    rw [if_neg n0] at c1
    rw [if_neg n4] at c2
    exact ⟨⟨by rw [c1]; exact h.words.counterA, by rw [c2]; exact h.words.counterB,
      by rw [wla]; exact h.words.latchA, by rw [wlb]; exact h.words.latchB⟩,
      ⟨by rw [wd, c1, wla]; exact h.loaded.timerA, by rw [wd, c2, wlb]; exact h.loaded.timerB⟩⟩
  · obtain ⟨hq, -⟩ := h.asleep (h.skipped hi).1
    obtain ⟨-, -, ⟨-, d10⟩, ⟨-, d13⟩, -⟩ := quiescent_bits hq hf
    refine ⟨⟨?_, ?_, by rw [wla]; exact h.words.latchA, by rw [wlb]; exact h.words.latchB⟩,
      ⟨fun x => ?_, fun x => ?_⟩⟩
    · rw [c1]
      split
      · exact sub16_lt _ _
      · exact h.words.counterA
    · rw [c2]
      split
      · exact sub16_lt _ _
      · exact h.words.counterB
    · rw [wd, d10] at x
      exact absurd x (by decide)
    · rw [wd, d13] at x
      exact absurd x (by decide)

theorem wakeUp_bookkeeping (s : CIA) :
    (wakeUp s).wakeUpCycle = 0 ∧ (wakeUp s).idleCounter = 0 :=
  ⟨(wakeUp_sleep_side s).2, (wakeUp_fields s).2.2.2.2.2.2.2.2.2.2⟩

/-- A state with no wake-up cycle set and no skipped cycle satisfies the
invariant once its counters do. -/
theorem sleepInv_awake (n : Nat) (t : CIA) (hw : Words16 t) (hl : LoadedFromLatch t)
    (h0 : t.wakeUpCycle = 0) (hi : t.idleCounter = 0) : SleepInv n t :=
  ⟨hw, hl, fun x => absurd hi x, fun x => absurd h0 x⟩

theorem peek_sleepInv (chip : Chip) (pins : Pins) (addr : Nat) {n : Nat} {s : CIA}
    (h : SleepInv n s) (hf : FeedOk s) : SleepInv n (peek chip pins addr s).2 := by
  obtain ⟨hw, hl⟩ := wakeUp_inv h hf
  obtain ⟨b1, b2⟩ := wakeUp_bookkeeping s
  by_cases ha : addr = 0x0D
  · subst ha
    rw [peek_icr_eq]
    refine sleepInv_awake n _ ⟨hw.counterA, hw.counterB, hw.latchA, hw.latchB⟩ ⟨?_, ?_⟩ b1 b2
    · intro x
      have x2 : s.delay.testBit 10 = true := by
        simpa [testBit_not64, testBit_bitAt, Interrupt0, Interrupt1, ClearIcr0, ReadIcr0] using x
      exact hl.timerA (by rw [(wakeUp_fields s).1]; exact x2)
    · intro x
      have x2 : s.delay.testBit 13 = true := by
        simpa [testBit_not64, testBit_bitAt, Interrupt0, Interrupt1, ClearIcr0, ReadIcr0] using x
      exact hl.timerB (by rw [(wakeUp_fields s).1]; exact x2)
  · rw [peek_state chip pins addr s ha]
    exact sleepInv_awake n _ hw hl b1 b2

theorem poke_sleepInv (addr v : Nat) (hv : v < 256) {n : Nat} {s : CIA}
    (h : SleepInv n s) (hf : FeedOk s) : SleepInv n (poke addr v s) := by
  obtain ⟨hw, hl⟩ := wakeUp_inv h hf
  obtain ⟨b1, b2⟩ := wakeUp_bookkeeping s
  by_cases ha : addr = 4 ∨ addr = 5 ∨ addr = 6 ∨ addr = 7
  · obtain ⟨p1, p2⟩ := poke_latch addr v s hv ha hw hl
    obtain ⟨p3, p4⟩ := poke_latch_bookkeeping addr v s ha
    exact sleepInv_awake n _ p1 p2 (p3.trans b1) (p4.trans b2)
  · have k := poke_timers addr v s (fun x => ha (Or.inl x)) (fun x => ha (Or.inr (Or.inl x)))
      (fun x => ha (Or.inr (Or.inr (Or.inl x)))) (fun x => ha (Or.inr (Or.inr (Or.inr x))))
    exact sleepInv_awake n _ (k.words hw) (k.loaded hl) (k.wakeUpCycle.trans b1)
      (k.idleCounter.trans b2)

theorem executeOneCycle_words (c : Nat) (s : CIA) (hw : Words16 (wakeUp s)) :
    Words16 (executeOneCycle c s) := by
  obtain ⟨a1, a2⟩ := timerA_counter (wakeUp s)
  obtain ⟨b1, b2⟩ := timerB_counter (afterTimerA s)
  obtain ⟨-, -, -, s4, s5, -⟩ := timerA_side (wakeUp s)
  obtain ⟨e1, e2⟩ := executeOneCycle_counterB c s
  have xa : (afterTimerA s).counterA < 0x10000 := by
    show (executeOneCycle.timerA (wakeUp s)).1.counterA < 0x10000
    rw [a1]
    split
    · exact hw.latchA
    · split
      · exact dec16_lt _
      · exact hw.counterA
  have xb : (afterTimerA s).counterB = (wakeUp s).counterB := s4
  have xlb : (afterTimerA s).latchB = (wakeUp s).latchB := s5
  have yb : (afterTimerB s).counterB < 0x10000 := by
    show (executeOneCycle.timerB (afterTimerA s)).1.counterB < 0x10000
    rw [b1]
    split
    · rw [xlb]; exact hw.latchB
    · split
      · exact dec16_lt _
      · rw [xb]; exact hw.counterB
  have ylb : (afterTimerB s).latchB = (afterTimerA s).latchB := b2
  refine ⟨?_, by rw [e1]; exact yb, ?_, by rw [e2, ylb, xlb]; exact hw.latchB⟩
  · rw [(executeOneCycle_counterA_CRA c s).1]; exact xa
  · rw [(executeOneCycle_keeps c s).2.1, ← (wakeUp_fields s).2.2.2.2.2.2.1]; exact hw.latchA

/-- The invariant after an executed cycle. -/
theorem executeOneCycle_sleepInv {n : Nat} {s : CIA} (h : SleepInv n s) (hf : FeedOk s) :
    SleepInv (n + 1) (executeOneCycle n s) := by
  obtain ⟨hw, hl⟩ := wakeUp_inv h hf
  have hi : (executeOneCycle n s).idleCounter = 0 := (executeOneCycle_keeps n s).2.2
  refine ⟨executeOneCycle_words n s hw, executeOneCycle_loaded n s hf, fun x => absurd hi x,
    fun hW => ?_⟩
  have hidle := (executeOneCycle_idle n s).2
  by_cases hc : pairKept n s = true ∧ 8 < (s.tiredness + 1) % 256
  · rw [if_pos hc] at hidle
    rw [hidle] at hW
    obtain ⟨l1, l2⟩ := sleep_le n _ hW
    refine ⟨sleeping_cycle n s hf hl hc.1 hW, fun h0 => ?_, fun h4 => ?_⟩
    · have := l1 h0
      rw [hi, hidle]
      omega
    · have := l2 h4
      rw [hi, hidle]
      omega
  · rw [if_neg hc] at hidle
    exact absurd hidle hW

/-- The invariant after a skipped cycle. -/
theorem skipCycle_sleepInv {n : Nat} {s : CIA} (h : SleepInv n s) (hlt : n < s.wakeUpCycle) :
    SleepInv (n + 1) (skipCycle s) := by
  have hW : s.wakeUpCycle ≠ 0 := by omega
  obtain ⟨hq, b1, b2⟩ := h.asleep hW
  have hm : (skipCycle s).idleCounter ≤ s.idleCounter + 1 := Nat.mod_le _ _
  refine ⟨⟨h.words.counterA, h.words.counterB, h.words.latchA, h.words.latchB⟩,
    ⟨h.loaded.timerA, h.loaded.timerB⟩, fun _ => ⟨hW, hlt⟩, fun _ => ⟨hq, fun h0 => ?_, fun h4 => ?_⟩⟩
  · have := b1 h0
    show (skipCycle s).idleCounter + s.wakeUpCycle + 2 ≤ n + 1 + s.counterA
    omega
  · have := b2 h4
    show (skipCycle s).idleCounter + s.wakeUpCycle + 2 ≤ n + 1 + s.counterB
    omega

theorem clockCycle_sleepInv {n : Nat} {s : CIA} (h : SleepInv n s) (hf : FeedOk s) :
    SleepInv (n + 1) (clockCycle n s) := by
  simp only [clockCycle]
  split
  · exact executeOneCycle_sleepInv h hf
  · exact skipCycle_sleepInv h (by omega)

theorem Clocked.reachable {n : Nat} {s : CIA} (h : Clocked n s) : Reachable s := by
  induction h with
  | reset n => exact Reachable.reset
  | peek chip pins addr _ ih => exact Reachable.peek chip pins addr ih
  | poke addr v hv _ ih => exact Reachable.poke addr v hv ih
  | @clock n s _ ih =>
    simp only [clockCycle]
    split
    · exact Reachable.cycle n ih
    · exact Reachable.skip ih

theorem Clocked.sleepInv {n : Nat} {s : CIA} (h : Clocked n s) : SleepInv n s := by
  induction h with
  | reset n =>
    exact sleepInv_awake n VirtualC64.reset ⟨by decide, by decide, by decide, by decide⟩
      ⟨fun x => absurd x (by decide), fun x => absurd x (by decide)⟩ rfl rfl
  | peek chip pins addr hs ih => exact peek_sleepInv chip pins addr ih hs.reachable.feedOk
  | poke addr v hv hs ih => exact poke_sleepInv addr v hv ih hs.reachable.feedOk
  | clock hs ih => exact clockCycle_sleepInv ih hs.reachable.feedOk

theorem sub16_of_le (x k : Nat) (h1 : k ≤ x) (h2 : x < 0x10000) : sub16 x k = x - k := by
  simp only [sub16]
  omega

theorem clocked_clockRun (m : Nat) : ∀ (n : Nat) (s : CIA), Clocked n s →
    Clocked (n + m) (clockRun n m s) := by
  induction m with
  | zero => intro n s h; exact h
  | succ m ih =>
    intro n s h
    have e : n + 1 + m = n + (m + 1) := by omega
    rw [← e]
    exact ih (n + 1) (clockCycle n s) (Clocked.clock h)

/-- C31. In every state that the arbiter reaches from reset by register
reads, writes of bytes and clocked cycles (each one executed or skipped), with
`k` the idle counter: for each timer that runs (`CountA0` resp. `CountB0` in
`feed`) the assertion of `wakeUp` holds (`k ≤ counter`) and `wakeUp` decreases
the counter by `k`, a stopped timer keeps its counter, and this is what `k`
calls of `executeOneCycle` make of the counters from the state in which the
chip fell asleep; in none of these `k` calls a timer underflows, and they
leave `delay` and `feed` as they are. -/
theorem wake_up_equals_executing_the_skipped_cycles (n : Nat) (s : CIA) (h : Clocked n s)
    (clock : Nat → Nat) :
    (flag s.feed CountA0 = true → s.idleCounter ≤ s.counterA) ∧
    (flag s.feed CountB0 = true → s.idleCounter ≤ s.counterB) ∧
    (wakeUp s).counterA =
      (if flag s.feed CountA0 then s.counterA - s.idleCounter else s.counterA) ∧
    (wakeUp s).counterB =
      (if flag s.feed CountB0 then s.counterB - s.idleCounter else s.counterB) ∧
    (run clock s.idleCounter { s with idleCounter := 0 }).counterA = (wakeUp s).counterA ∧
    (run clock s.idleCounter { s with idleCounter := 0 }).counterB = (wakeUp s).counterB ∧
    (run clock s.idleCounter { s with idleCounter := 0 }).delay = (wakeUp s).delay ∧
    (run clock s.idleCounter { s with idleCounter := 0 }).feed = (wakeUp s).feed ∧
    (∀ j, j < s.idleCounter →
      timerAOutput (run clock j { s with idleCounter := 0 }) = false ∧
      timerBOutput (run clock j { s with idleCounter := 0 }) = false) := by
  have inv := h.sleepInv
  have hf := h.reachable.feedOk
  have e0 : flag s.feed CountA0 = s.feed.testBit 0 := flag_bitAt _ _
  have e4 : flag s.feed CountB0 = s.feed.testBit 4 := flag_bitAt _ _
  obtain ⟨wd, wf, -⟩ := wakeUp_fields s
  obtain ⟨c1, c2⟩ := wakeUp_counters s
  rw [e0, e4, wd, wf]
  by_cases hi : s.idleCounter = 0
  · have n0 : ¬ (s.idleCounter ≠ 0 ∧ s.feed.testBit 0 = true) := fun x => x.1 hi
    have n4 : ¬ (s.idleCounter ≠ 0 ∧ s.feed.testBit 4 = true) := fun x => x.1 hi
    rw [if_neg n0] at c1
    rw [if_neg n4] at c2
    rw [c1, c2, hi]
    refine ⟨fun _ => Nat.zero_le _, fun _ => Nat.zero_le _, ?_, ?_, rfl, rfl, rfl, rfl,
      fun j hj => absurd hj (Nat.not_lt_zero j)⟩
    · split <;> rfl
    · split <;> rfl
  · obtain ⟨hW, hn⟩ := inv.skipped hi
    obtain ⟨hq, b1, b2⟩ := inv.asleep hW
    have hA : s.feed.testBit 0 = true → s.idleCounter + 1 ≤ s.counterA ∧ s.counterA < 0x10000 :=
      fun h0 => ⟨by have := b1 h0; omega, inv.words.counterA⟩
    have hB : s.feed.testBit 4 = true → s.idleCounter + 1 ≤ s.counterB ∧ s.counterB < 0x10000 :=
      fun h4 => ⟨by have := b2 h4; omega, inv.words.counterB⟩
    obtain ⟨⟨r1, r2, -⟩, ⟨r3, r4⟩, -, r5⟩ :=
      quiescent_run clock { s with idleCounter := 0 } hq hf rfl s.idleCounter hA hB s.idleCounter
        (Nat.le_refl _)
    have kA : (wakeUp s).counterA =
        (if s.feed.testBit 0 then s.counterA - s.idleCounter else s.counterA) := by
      rw [c1]
      cases h0 : s.feed.testBit 0
      · simp
      · have := hA h0
        simp only [ne_eq, hi, not_false_eq_true, and_self, if_true]
        exact sub16_of_le _ _ (by omega) this.2
    have kB : (wakeUp s).counterB =
        (if s.feed.testBit 4 then s.counterB - s.idleCounter else s.counterB) := by
      rw [c2]
      cases h4 : s.feed.testBit 4
      · simp
      · have := hB h4
        simp only [ne_eq, hi, not_false_eq_true, and_self, if_true]
        exact sub16_of_le _ _ (by omega) this.2
    refine ⟨fun h0 => by have := hA h0; omega, fun h4 => by have := hB h4; omega, kA, kB,
      r3.trans kA.symm, r4.trans kB.symm, r1, r2, r5⟩

/-- C31, at the state `asleepWithTimerA`: four cycles were skipped, `wakeUp`
subtracts them from the counter of timer A, and four executed cycles do the
same. -/
theorem wake_up_equals_executing_the_skipped_cycles_witness :
    Clocked 16 asleepWithTimerA ∧ asleepWithTimerA.idleCounter = 4 ∧
    flag asleepWithTimerA.feed CountA0 = true ∧
    asleepWithTimerA.idleCounter ≤ asleepWithTimerA.counterA ∧
    (run (fun k => 12 + k) asleepWithTimerA.idleCounter
      { asleepWithTimerA with idleCounter := 0 }).counterA = (wakeUp asleepWithTimerA).counterA := by
  have hc : Clocked 16 asleepWithTimerA :=
    clocked_clockRun 16 0 _ (Clocked.poke 0x0E 0x11 (by decide) (Clocked.poke 0x05 0x40 (by decide)
      (Clocked.poke 0x04 0x25 (by decide) (Clocked.reset 0))))
  have t := wake_up_equals_executing_the_skipped_cycles 16 asleepWithTimerA hc (fun k => 12 + k)
  have h0 : flag asleepWithTimerA.feed CountA0 = true := by decide
  exact ⟨hc, by decide, h0, t.1 h0, t.2.2.2.2.1⟩

end VirtualC64
